import Mathlib

/-! # Stage-2 MMU of `arch/arm/kvm/mmu.c` (KVM/ARM with VM cloning)

A shallow embedding of the stage-2 page-table engine: the memory-object
reserve, the three-level walker (`stage2_set_pte`, `unmap_range`,
`kvm_set_memslot_readonly`), the copy-on-access handlers, and the fault
dispatcher (`kvm_handle_guest_abort`, `user_mem_abort`).

Memory is a heap of page frames.  A table page is `mem frame idx`, the
8-byte descriptor number `idx` of frame `frame`; `page_count frame` is the
`struct page` reference count.  A pointer to an entry is an `EntryPtr`.
`BUG()`, `BUG_ON` and a NULL dereference are the result `none`.
Cache maintenance (`flush_cache_all`, `kvm_flush_dcache_to_poc`,
`kvm_clean_pte`) has no effect on this state and is left out.
-/

namespace S2Mmu

/-! ## Constants and descriptor macros of the architecture headers -/

/-- Modelled from the spec: `PAGE_SHIFT` of `asm/page.h` (4 KiB pages; the spec's GFN is
IPA >> PAGE_SHIFT and the fault path keeps "the low 12 bits"). -/
@[simp] def PAGE_SHIFT : Nat := 12

/-- Modelled from the spec: `PAGE_SIZE` of `asm/page.h`, `1 << PAGE_SHIFT`. -/
@[simp] def PAGE_SIZE : Nat := 4096

/-- Modelled from the spec: `PMD_SIZE` of `asm/pgtable-3level.h`, the span of one pmd entry
(one L3 table of 512 leaves). -/
@[simp] def PMD_SIZE : Nat := 2097152

/-- Modelled from the spec: `PGDIR_SIZE` (= `PUD_SIZE`, the pud is folded into the pgd) of
`asm/pgtable-3level.h`, the span of one top-level entry (one L2 table of 512 entries). -/
@[simp] def PGDIR_SIZE : Nat := 1073741824

/-- Modelled from the spec: `PTRS_PER_PTE` of `asm/pgtable-3level.h`. -/
@[simp] def PTRS_PER_PTE : Nat := 512

/-- Modelled from the spec: `PTRS_PER_PMD` of `asm/pgtable-3level.h`. -/
@[simp] def PTRS_PER_PMD : Nat := 512

/-- Modelled from the spec: `KVM_PHYS_SIZE` of `asm/kvm_mmu.h`, the fixed input-address space
of the stage-2 tree (40-bit IPA). -/
@[simp] def KVM_PHYS_SIZE : Nat := 1099511627776

/-- Modelled from the spec: `PHYS_MASK` of `asm/pgtable-3level-hwdef.h`, `(1 << 40) - 1`. -/
@[simp] def PHYS_MASK : Nat := 1099511627775

/-- Modelled from the spec: `PMD_TYPE_TABLE` of `asm/pgtable-3level-hwdef.h`, the two
"table-type" bits of a non-leaf descriptor. -/
@[simp] def PMD_TYPE_TABLE : Nat := 3

/-- Modelled from the spec: `PMD_TYPE_MASK` of `asm/pgtable-3level-hwdef.h`. -/
@[simp] def PMD_TYPE_MASK : Nat := 3

/-- Modelled from the spec: `L_PTE_PRESENT` of `asm/pgtable-3level.h`, the "present" bits of a
leaf. -/
@[simp] def L_PTE_PRESENT : Nat := 3

/-- Modelled from the spec: `L_PTE_S2_RDONLY` of `asm/pgtable-3level.h`, HAP[1]. -/
@[simp] def L_PTE_S2_RDONLY : Nat := 64

/-- Modelled from the spec: `L_PTE_S2_RDWR` of `asm/pgtable-3level.h`, HAP[2:1]. -/
@[simp] def L_PTE_S2_RDWR : Nat := 192

/-- Modelled from the spec: `PAGE_S2` of `asm/pgtable.h`, the protection bits of a regular
stage-2 leaf: present, young, write-back memory, S2 read-only. -/
@[simp] def PAGE_S2 : Nat := 1151

/-- Modelled from the spec: `KVM_NR_MEM_OBJS` of `asm/kvm_host.h`, the capacity of the
memory-object reserve. -/
@[simp] def KVM_NR_MEM_OBJS : Int := 40

/-- Modelled from the spec: `FSC_FAULT` of `asm/kvm_arm.h`, the translation-fault status. -/
@[simp] def FSC_FAULT : Nat := 4

/-- Modelled from the spec: `FSC_PERM` of `asm/kvm_arm.h`, the permission-fault status. -/
@[simp] def FSC_PERM : Nat := 12

/-- Modelled from the spec: `KVM_MEM_READONLY` of `linux/kvm.h`, the READONLY memslot flag. -/
@[simp] def KVM_MEM_READONLY : Nat := 2

/-- Modelled from the spec: `KVM_ARM_CLONING_ROLE_SOURCE`; role None is 0 (the code tests
the role for truth), Source is 1, anything else is handled as Target. -/
@[simp] def KVM_ARM_CLONING_ROLE_SOURCE : Nat := 1

@[simp] def EFAULT : Int := 14
@[simp] def ENOMEM : Int := 12
@[simp] def EINVAL : Int := 22

/-- The C expression `x & ~m` on a 64-bit descriptor. -/
def clear_bits (x m : Nat) : Nat := x &&& (18446744073709551615 ^^^ m)

/-- `pud_to_pfn(x)`: `(pud_val(x) & PHYS_MASK) >> PAGE_SHIFT`. -/
def pud_to_pfn (x : Nat) : Nat := (x &&& PHYS_MASK) >>> PAGE_SHIFT

/-- `pmd_to_pfn(x)`: `(pmd_val(x) & PHYS_MASK) >> PAGE_SHIFT`. -/
def pmd_to_pfn (x : Nat) : Nat := (x &&& PHYS_MASK) >>> PAGE_SHIFT

/-- `pte_to_pfn(x)`: `(pte_val(x) & PHYS_MASK) >> PAGE_SHIFT`. -/
def pte_to_pfn (x : Nat) : Nat := (x &&& PHYS_MASK) >>> PAGE_SHIFT

/-- Modelled from the spec: `pte_pfn` of `asm/pgtable.h`, the PFN carried by a leaf. -/
def pte_pfn (x : Nat) : Nat := (x &&& PHYS_MASK) >>> PAGE_SHIFT

/-- Modelled from the spec: `pfn_pte(pfn, prot)` of `asm/pgtable.h`, a leaf carrying `pfn`
and the attribute bits `prot`. -/
def pfn_pte (pfn prot : Nat) : Nat := (pfn <<< PAGE_SHIFT) ||| prot

/-- Modelled from the spec: `pud_none` of `asm/pgtable-3level.h`: the entry is absent. -/
abbrev pud_none (v : Nat) : Prop := v = 0

/-- Modelled from the spec: `pud_present` of `asm/pgtable-3level.h`. -/
abbrev pud_present (v : Nat) : Prop := v ≠ 0

/-- Modelled from the spec: `pmd_none` of `asm/pgtable-3level.h`: the entry is absent. -/
abbrev pmd_none (v : Nat) : Prop := v = 0

/-- Modelled from the spec: `pte_none` of `asm/pgtable.h`. -/
abbrev pte_none (v : Nat) : Prop := v = 0

/-- Modelled from the spec: `pmd_table` of `asm/pgtable-3level.h`: the type bits declare a
valid table; a non-zero entry that fails it is the "invalid-table" sentinel. -/
def pmd_table (v : Nat) : Prop := v &&& PMD_TYPE_MASK = PMD_TYPE_TABLE

instance (v : Nat) : Decidable (pmd_table v) := by
  unfold pmd_table; infer_instance

/-- Modelled from the spec: `pte_present` of `asm/pgtable.h`: `pte_val & L_PTE_PRESENT`. -/
def pte_present (v : Nat) : Prop := v &&& L_PTE_PRESENT ≠ 0

instance (v : Nat) : Decidable (pte_present v) := by
  unfold pte_present; infer_instance

/-- Modelled from the spec: `pgd_index` of `asm/pgtable.h`. -/
def pgd_index (addr : Nat) : Nat := addr / PGDIR_SIZE

/-- Modelled from the spec: `pmd_index` of `asm/pgtable-3level.h`. -/
def pmd_index (addr : Nat) : Nat := addr / PMD_SIZE % PTRS_PER_PMD

/-- Modelled from the spec: `pte_index` of `asm/pgtable.h`. -/
def pte_index (addr : Nat) : Nat := addr / PAGE_SIZE % PTRS_PER_PTE

/-- Modelled from the spec: `pud_addr_end` of the page-table headers, "skipping a whole pud
span": the next top-level boundary after `addr`, capped by `end_`. -/
def pud_addr_end (addr end_ : Nat) : Nat :=
  let boundary := (addr / PGDIR_SIZE + 1) * PGDIR_SIZE
  if boundary - 1 < end_ - 1 then boundary else end_

/-- Modelled from the spec: `pmd_addr_end` of the page-table headers, "skipping a whole pmd
span": the next pmd boundary after `addr`, capped by `end_`. -/
def pmd_addr_end (addr end_ : Nat) : Nat :=
  let boundary := (addr / PMD_SIZE + 1) * PMD_SIZE
  if boundary - 1 < end_ - 1 then boundary else end_

/-! ## State -/

/-- Observable calls into collaborators, newest first in `KvmState.trace`. -/
inductive Event where
  | tlb_flush_vmid_ipa (ipa : Nat)
  | mark_page_dirty (gfn : Nat)
  | inject_pabt (va : Nat)
  | io_mem_abort (ipa : Nat)
  | set_pfn_dirty (pfn : Nat)
  | release_pfn_clean (pfn : Nat)
  | mmu_lock
  | mmu_unlock
  | get_free_page
  | kmalloc
  | copy_from_user (hva : Nat)
  | copy_to_user (hva : Nat)
  | gfn_to_pfn (gfn : Nat)
  | pr_err
  | gfn_to_pfn_prot (gfn : Nat) (write_fault : Bool)
deriving DecidableEq, Repr

/-- `struct kvm_mmu_memory_cache`: `objects[0..nobjs)`, the head of the list is
`objects[nobjs - 1]`; `nobjs` is the length. -/
structure kvm_mmu_memory_cache where
  objects : List Nat
deriving DecidableEq, Repr

/-- `struct kvm_memory_slot`, the fields the MMU reads; `unshare_bitmap` is `none` for a
NULL pointer, otherwise the bitmap as a number (bit `n` is relative GFN `n`). -/
structure kvm_memory_slot where
  base_gfn : Nat
  npages : Nat
  userspace_addr : Nat
  flags : Nat
  unshare_bitmap : Option Nat
deriving DecidableEq, Repr

/-- A pointer to one descriptor: the frame of the table page and the index in it. -/
structure EntryPtr where
  frame : Nat
  idx : Nat
deriving DecidableEq, Repr

/-- The host memory, the two global cloning lists, one `struct kvm` and its collaborators. -/
structure KvmState where
  /-- table pages: frame, index, descriptor -/
  mem : Nat → Nat → Nat
  /-- `page_count` of a frame -/
  page_count : Nat → Nat
  /-- frames given back to the page allocator, newest first -/
  freed : List Nat
  /-- contents of data pages -/
  page_data : Nat → List Nat
  /-- outcomes of the coming page allocations (`none`: the allocation fails) -/
  page_alloc : List (Option Nat)
  /-- `shared_pfn_list`, head first -/
  shared_pfn_list : List Nat
  /-- `page_pool_list`, head first: `(page, pfn)` -/
  page_pool_list : List (Option Nat × Nat)
  /-- `kvm->arch.pgd`: frame of the first root page -/
  pgd : Option Nat
  /-- `kvm->arch.cloning_role` -/
  cloning_role : Nat
  /-- `kvm_memslots(kvm)` -/
  memslots : List kvm_memory_slot
  /-- `kvm_is_visible_gfn` -/
  visible_gfn : Nat → Bool
  /-- host page table of the VM's process: the frame behind a user page -/
  hva_to_pfn : Nat → Option Nat
  /-- `find_vma(current->mm, hva)->vm_flags & VM_WRITE` (`none`: no VMA) -/
  vma_writable : Nat → Option Bool
  /-- `gfn_to_pfn_prot(kvm, gfn, write, &writable)` (`none`: an error PFN) -/
  gfn_to_pfn_prot : Nat → Bool → Option (Nat × Bool)
  /-- `mmu_notifier_retry(kvm, mmu_seq)` -/
  notifier_retry : Bool
  /-- result of `io_mem_abort` for an address -/
  io_mem_abort : Nat → Int
  /-- calls into collaborators, newest first -/
  trace : List Event

/-- The fault information of a VCPU and its reserve. -/
structure kvm_vcpu where
  /-- `kvm_vcpu_get_fault_ipa` -/
  fault_ipa : Nat
  /-- `kvm_vcpu_get_hfar` -/
  hfar : Nat
  /-- `kvm_vcpu_trap_get_fault` -/
  fault_status : Nat
  /-- `kvm_vcpu_trap_is_iabt` -/
  is_iabt : Bool
  /-- `kvm_is_write_fault(kvm_vcpu_get_hsr(vcpu))` -/
  write_fault : Bool
  /-- `vcpu->arch.mmu_page_cache` -/
  mmu_page_cache : kvm_mmu_memory_cache
deriving DecidableEq, Repr

/-- Read the descriptor behind a pointer. -/
def KvmState.rd (s : KvmState) (p : EntryPtr) : Nat := s.mem p.frame p.idx

/-- Store a descriptor (`kvm_set_pte`, `set_pud`, `pmd_clear`, ...). -/
def KvmState.wr (s : KvmState) (p : EntryPtr) (v : Nat) : KvmState :=
  { s with mem := fun f i => if f = p.frame ∧ i = p.idx then v else s.mem f i }

/-- Append an event to the trace. -/
def KvmState.emit (s : KvmState) (e : Event) : KvmState :=
  { s with trace := e :: s.trace }

/-- `get_page(virt_to_page(p))`. -/
def get_page (s : KvmState) (frame : Nat) : KvmState :=
  { s with page_count := fun f => if f = frame then s.page_count frame + 1 else s.page_count f }

/-- `put_page(virt_to_page(p))`: drop a reference; the page goes back to the allocator when
the count reaches zero. -/
def put_page (s : KvmState) (frame : Nat) : KvmState :=
  { s with
    page_count := fun f => if f = frame then s.page_count frame - 1 else s.page_count f
    freed := if s.page_count frame - 1 = 0 then frame :: s.freed else s.freed }

/-- `free_page(addr)` (also `pmd_free`, `pte_free_kernel`): drops the allocation's own
reference, which releases the page. -/
def free_page (s : KvmState) (frame : Nat) : KvmState := put_page s frame

/-- `__get_free_page(PGALLOC_GFP)`: a zeroed page with count one, or NULL. -/
def get_free_page (s : KvmState) : Option Nat × KvmState :=
  match s.page_alloc with
  | [] => (none, s.emit Event.get_free_page)
  | none :: rest => (none, { s with page_alloc := rest, trace := Event.get_free_page :: s.trace })
  | some p :: rest =>
    (some p, { s with
      page_alloc := rest
      mem := fun f i => if f = p then 0 else s.mem f i
      page_count := fun f => if f = p then 1 else s.page_count f
      page_data := fun f => if f = p then List.replicate PAGE_SIZE 0 else s.page_data f
      trace := Event.get_free_page :: s.trace })

/-- `kvm_tlb_flush_vmid_ipa(kvm, ipa)`: nothing for the HYP tables (`kvm` NULL). -/
def kvm_tlb_flush_vmid_ipa (kvm : Bool) (s : KvmState) (ipa : Nat) : KvmState :=
  if kvm then s.emit (Event.tlb_flush_vmid_ipa ipa) else s

/-! ## Memory-object reserve -/

/-- `cache->nobjs`. -/
def kvm_mmu_memory_cache.nobjs (c : kvm_mmu_memory_cache) : Nat := c.objects.length

/-- The `while (cache->nobjs < max)` loop of `mmu_topup_memory_cache`. -/
def mmu_topup_loop : Nat → KvmState → List Nat → Int → KvmState × List Nat × Int
  | 0, s, objs, _ => (s, objs, 0)
  | fuel + 1, s, objs, max =>
    if (objs.length : Int) < max then
      match get_free_page s with
      | (none, s1) => (s1, objs, -ENOMEM)
      | (some page, s1) => mmu_topup_loop fuel s1 (page :: objs) max
    else (s, objs, 0)

/-- `mmu_topup_memory_cache(cache, min, max)`. -/
def mmu_topup_memory_cache (s : KvmState) (cache : kvm_mmu_memory_cache) (min max : Int) :
    Option (KvmState × kvm_mmu_memory_cache × Int) :=
  if max > KVM_NR_MEM_OBJS then none
  else if (cache.nobjs : Int) ≥ min then some (s, cache, 0)
  else
    match mmu_topup_loop (max - cache.nobjs).toNat s cache.objects max with
    | (s1, objs, r) => some (s1, { objects := objs }, r)

/-- `mmu_free_memory_cache(mc)`. -/
def mmu_free_memory_cache (s : KvmState) (mc : kvm_mmu_memory_cache) :
    KvmState × kvm_mmu_memory_cache :=
  (mc.objects.foldl free_page s, { objects := [] })

/-- `mmu_memory_cache_alloc(mc)`: `BUG_ON(!mc || !mc->nobjs)`. -/
def mmu_memory_cache_alloc (mc : Option kvm_mmu_memory_cache) :
    Option (Nat × kvm_mmu_memory_cache) :=
  match mc with
  | none => none
  | some c =>
    match c.objects with
    | [] => none
    | p :: rest => some (p, { objects := rest })

/-- `page_empty(ptr)`: `page_count(virt_to_page(ptr)) == 1`. -/
def page_empty (s : KvmState) (frame : Nat) : Prop := s.page_count frame = 1

instance (s : KvmState) (frame : Nat) : Decidable (page_empty s frame) := by
  unfold page_empty; infer_instance

/-! ## Memslots -/

/-- Modelled from the spec: `gfn_to_memslot(kvm, gfn)` of the memslot registry: the first
memslot whose range `[base_gfn, base_gfn + npages)` holds `gfn`, NULL when there is none. -/
def gfn_to_memslot (s : KvmState) (gfn : Nat) : Option kvm_memory_slot :=
  s.memslots.find? (fun m => decide (m.base_gfn ≤ gfn ∧ gfn < m.base_gfn + m.npages))

/-- Modelled from the spec: `__gfn_to_hva_memslot(slot, gfn)` of the memslot registry. -/
def gfn_to_hva_memslot (slot : kvm_memory_slot) (gfn : Nat) : Nat :=
  slot.userspace_addr + (gfn - slot.base_gfn) * PAGE_SIZE

/-- `gpa_to_hva(kvm, gpa)`; a missing memslot is a NULL dereference. -/
def gpa_to_hva (s : KvmState) (gpa : Nat) : Option Nat :=
  match gfn_to_memslot s (gpa >>> PAGE_SHIFT) with
  | none => none
  | some slot => some (gfn_to_hva_memslot slot (gpa >>> PAGE_SHIFT))

/-- The store `set_bit_le(rel_gfn, memslot->arch.unshare_bitmap)` into the memslot that
`gfn_to_memslot` finds; `none` when the memslot or its bitmap is NULL. -/
def set_unshare_bit : List kvm_memory_slot → Nat → Option (List kvm_memory_slot)
  | [], _ => none
  | m :: rest, gfn =>
    if m.base_gfn ≤ gfn ∧ gfn < m.base_gfn + m.npages then
      match m.unshare_bitmap with
      | none => none
      | some b => some ({ m with unshare_bitmap := some (b ||| (1 <<< (gfn - m.base_gfn))) } :: rest)
    else
      match set_unshare_bit rest gfn with
      | none => none
      | some rest1 => some (m :: rest1)

/-- `mark_gfn_unshared(kvm, gfn)`: `BUG_ON(memslot == NULL || unshare_bitmap == NULL)`. -/
def mark_gfn_unshared (s : KvmState) (gfn : Nat) : Option KvmState :=
  match set_unshare_bit s.memslots gfn with
  | none => none
  | some ms => some { s with memslots := ms }

/-- `is_gfn_unshared(kvm, gfn)`: `BUG_ON(memslot == NULL || unshare_bitmap == NULL)`. -/
def is_gfn_unshared (s : KvmState) (gfn : Nat) : Option Bool :=
  match gfn_to_memslot s gfn with
  | none => none
  | some m =>
    match m.unshare_bitmap with
    | none => none
    | some b => some (b.testBit (gfn - m.base_gfn))

/-! ## Shared-PFN registry and page pool -/

/-- `is_pfn_shared(pfn)`: `find_pfn(pfn)` is not NULL. -/
def is_pfn_shared (s : KvmState) (pfn : Nat) : Prop := pfn ∈ s.shared_pfn_list

instance (s : KvmState) (pfn : Nat) : Decidable (is_pfn_shared s pfn) := by
  unfold is_pfn_shared; infer_instance

/-- `add_shared_pfn(pfn)`: `list_add` at the head, with no check for a duplicate. -/
def add_shared_pfn (s : KvmState) (pfn : Nat) : KvmState :=
  { s with shared_pfn_list := pfn :: s.shared_pfn_list, trace := Event.kmalloc :: s.trace }

/-- `del_shared_pfn(pfn)`: unlink the first entry `find_pfn` meets; a diagnostic when there
is none. -/
def del_shared_pfn (s : KvmState) (pfn : Nat) : KvmState :=
  if is_pfn_shared s pfn then { s with shared_pfn_list := s.shared_pfn_list.erase pfn }
  else s.emit Event.pr_err

/-- `page_pool_add(page, pfn)`. -/
def page_pool_add (s : KvmState) (page : Option Nat) (pfn : Nat) : KvmState :=
  { s with page_pool_list := (page, pfn) :: s.page_pool_list, trace := Event.kmalloc :: s.trace }

/-- `page_pool_search(pfn)`: the first entry keyed `pfn`. -/
def page_pool_search (s : KvmState) (pfn : Nat) : Option (Option Nat × Nat) :=
  s.page_pool_list.find? (fun e => decide (e.2 = pfn))

/-- `page_pool_del(pfn)`: unlink the entry `page_pool_search` finds. -/
def page_pool_del (s : KvmState) (pfn : Nat) : KvmState :=
  match page_pool_search s pfn with
  | none => s.emit Event.pr_err
  | some e => { s with page_pool_list := s.page_pool_list.erase e }

/-! ## Walker primitives -/

/-- The pointer `pgdp + pgd_index(addr)`; `pud_offset(pgd, addr)` is the same pointer (the
pud is folded).  A root page holds 512 descriptors. -/
def pud_offset (pgdp : Nat) (addr : Nat) : EntryPtr :=
  { frame := pgdp + pgd_index addr / 512, idx := pgd_index addr % 512 }

/-- Modelled from the spec: `pmd_offset(pud, addr)` of `asm/pgtable-3level.h`: entry
`pmd_index(addr)` of the table whose PFN the pud carries. -/
def pmd_offset (s : KvmState) (pud : EntryPtr) (addr : Nat) : EntryPtr :=
  { frame := pud_to_pfn (s.rd pud), idx := pmd_index addr }

/-- Modelled from the spec: `pte_offset_kernel(pmd, addr)` of `asm/pgtable.h`: entry
`pte_index(addr)` of the table whose PFN the pmd carries. -/
def pte_offset_kernel (s : KvmState) (pmd : EntryPtr) (addr : Nat) : EntryPtr :=
  { frame := pmd_to_pfn (s.rd pmd), idx := pte_index addr }

/-- Modelled from the spec: `pud_populate(NULL, pud, pmd)` of `asm/pgalloc.h`:
`set_pud(pud, __pud(__pa(pmd) | PMD_TYPE_TABLE))`. -/
def pud_populate (s : KvmState) (pud : EntryPtr) (pmd : Nat) : KvmState :=
  s.wr pud ((pmd <<< PAGE_SHIFT) ||| PMD_TYPE_TABLE)

/-- Modelled from the spec: `pmd_populate_kernel(NULL, pmd, pte)` of `asm/pgalloc.h`: the
pmd becomes a valid table descriptor of the pte page. -/
def pmd_populate_kernel (s : KvmState) (pmd : EntryPtr) (pte : Nat) : KvmState :=
  s.wr pmd ((pte <<< PAGE_SHIFT) ||| PMD_TYPE_TABLE)

/-! ## Copy-on-access handlers -/

/-- One iteration of the loop of `duplicate_pmd_and_set_non_present`. -/
def duplicate_pmd_step (new_pmd old_pmd : Nat) (s : KvmState) (i : Nat) : KvmState :=
  if s.mem old_pmd i ≠ 0 then
    let s1 := s.wr ⟨old_pmd, i⟩ (clear_bits (s.mem old_pmd i) PMD_TYPE_TABLE)
    let s2 := s1.wr ⟨new_pmd, i⟩ (s1.mem old_pmd i)
    let s3 := add_shared_pfn s2 (pmd_to_pfn (s2.mem new_pmd i))
    get_page s3 new_pmd
  else s

/-- `duplicate_pmd_and_set_non_present(new_pmd, old_pmd)`. -/
def duplicate_pmd_and_set_non_present (s : KvmState) (new_pmd old_pmd : Nat) : KvmState :=
  (List.range PTRS_PER_PMD).foldl (duplicate_pmd_step new_pmd old_pmd) s

/-- `handle_coa_pud(kvm, cache, gpa, pud)`. -/
def handle_coa_pud (s : KvmState) (cache : Option kvm_mmu_memory_cache) (_gpa : Nat)
    (pud : EntryPtr) : Option (KvmState × Option kvm_mmu_memory_cache) :=
  let old_pmd := pud_to_pfn (s.rd pud)
  if is_pfn_shared s (pud_to_pfn (s.rd pud)) then
    let s1 := del_shared_pfn s (pud_to_pfn (s.rd pud))
    match mmu_memory_cache_alloc cache with
    | none => none
    | some (new_pmd, c1) =>
      let s2 := duplicate_pmd_and_set_non_present s1 new_pmd old_pmd
      some (pud_populate s2 pud new_pmd, some c1)
  else
    some (s.wr pud (s.rd pud ||| PMD_TYPE_TABLE), cache)

/-- One iteration of the loop of `duplicate_pte_and_set_non_present`. -/
def duplicate_pte_step (new_pte old_pte : Nat) (s : KvmState) (i : Nat) : KvmState :=
  if s.mem old_pte i ≠ 0 then
    let s1 := s.wr ⟨old_pte, i⟩ (clear_bits (s.mem old_pte i) L_PTE_PRESENT)
    let s2 := s1.wr ⟨new_pte, i⟩ (s1.mem old_pte i)
    let s3 := add_shared_pfn s2 (pte_to_pfn (s2.mem new_pte i))
    get_page s3 new_pte
  else s

/-- `duplicate_pte_and_set_non_present(new_pte, old_pte)`. -/
def duplicate_pte_and_set_non_present (s : KvmState) (new_pte old_pte : Nat) : KvmState :=
  (List.range PTRS_PER_PTE).foldl (duplicate_pte_step new_pte old_pte) s

/-- `handle_coa_pmd(kvm, cache, gpa, pmd)`. -/
def handle_coa_pmd (s : KvmState) (cache : Option kvm_mmu_memory_cache) (gpa : Nat)
    (pmd : EntryPtr) : Option (KvmState × Option kvm_mmu_memory_cache) :=
  let old_pte := pmd_to_pfn (s.rd pmd)
  if is_pfn_shared s (pmd_to_pfn (s.rd pmd)) then
    let s1 := del_shared_pfn s (pmd_to_pfn (s.rd pmd))
    match mmu_memory_cache_alloc cache with
    | none => none
    | some (new_pte, c1) =>
      let s2 := duplicate_pte_and_set_non_present s1 new_pte old_pte
      let s3 := pmd_populate_kernel s2 pmd new_pte
      some (kvm_tlb_flush_vmid_ipa true s3 gpa, some c1)
  else
    some (kvm_tlb_flush_vmid_ipa true (s.wr pmd (s.rd pmd ||| PMD_TYPE_TABLE)) gpa, cache)

/-- `copy_from_user(page, hva, PAGE_SIZE)`: on a fault (no user page, or no destination)
nothing is copied and a diagnostic is printed. -/
def copy_from_user (s : KvmState) (page : Option Nat) (hva : Nat) : KvmState :=
  match page, s.hva_to_pfn hva with
  | some p, some f =>
    { s with
      page_data := fun x => if x = p then s.page_data f else s.page_data x
      trace := Event.copy_from_user hva :: s.trace }
  | _, _ => { s with trace := Event.pr_err :: Event.copy_from_user hva :: s.trace }

/-- `target_copy_coa_page(kvm, gpa, from, hva)`: `copy_to_user(hva, from, PAGE_SIZE)`, with a
diagnostic on a fault. -/
def target_copy_coa_page (s : KvmState) (_gpa : Nat) (src : Option Nat) (hva : Nat) :
    KvmState :=
  match src, s.hva_to_pfn hva with
  | some p, some f =>
    { s with
      page_data := fun x => if x = f then s.page_data p else s.page_data x
      trace := Event.copy_to_user hva :: s.trace }
  | _, _ => { s with trace := Event.pr_err :: Event.copy_to_user hva :: s.trace }

/-- `handle_coa_pte_src(kvm, gpa, ptep, old_pte, new_pte)`. -/
def handle_coa_pte_src (s : KvmState) (gpa : Nat) (old_pte new_pte : Nat) : Option KvmState :=
  let old_pfn := pte_pfn old_pte
  let new_pfn := pte_pfn new_pte
  if old_pfn ≠ new_pfn then none
  else if is_pfn_shared s old_pfn then
    match gpa_to_hva s gpa with
    | none => none
    | some hva =>
      match get_free_page s with
      | (page, s1) =>
        let s2 := if page = none then s1.emit Event.pr_err else s1
        let s3 := copy_from_user s2 page hva
        let s4 := page_pool_add s3 page old_pfn
        some (del_shared_pfn s4 old_pfn)
  else some s

/-- `handle_coa_pte_target(kvm, gpa, ptep, old_pte, new_pte)`. -/
def handle_coa_pte_target (s : KvmState) (gpa : Nat) (old_pte new_pte : Nat) :
    Option KvmState :=
  let old_pfn := pte_pfn old_pte
  let new_pfn := pte_pfn new_pte
  if old_pfn = new_pfn then none
  else
    match gpa_to_hva s gpa with
    | none => none
    | some hva =>
      if is_pfn_shared s old_pfn then
        let s1 := target_copy_coa_page s gpa (some old_pfn) hva
        some (del_shared_pfn s1 old_pfn)
      else
        match page_pool_search s old_pfn with
        | none => none
        | some p =>
          let s1 := target_copy_coa_page s gpa p.1 hva
          let s2 := match p.1 with
            | none => s1
            | some f => free_page s1 f
          some (page_pool_del s2 old_pfn)

/-- `handle_coa_pte_ioaddr(kvm, addr, ptep, old_pte, new_pte)`. -/
def handle_coa_pte_ioaddr (s : KvmState) (addr : Nat) (old_pte _new_pte : Nat) : KvmState :=
  let old_pfn := pte_pfn old_pte
  let s1 := if is_pfn_shared s old_pfn then del_shared_pfn s old_pfn else s
  kvm_tlb_flush_vmid_ipa true s1 addr

/-- `handle_coa_pte(kvm, addr, ptep, old_pte, new_pte, iomap)`. -/
def handle_coa_pte (s : KvmState) (addr : Nat) (old_pte new_pte : Nat) (iomap : Bool) :
    Option KvmState :=
  let r :=
    if iomap then some (handle_coa_pte_ioaddr s addr old_pte new_pte)
    else if s.cloning_role = KVM_ARM_CLONING_ROLE_SOURCE then
      handle_coa_pte_src s addr old_pte new_pte
    else handle_coa_pte_target s addr old_pte new_pte
  match r with
  | none => none
  | some s1 => some (kvm_tlb_flush_vmid_ipa true s1 addr)

/-! ## `stage2_set_pte` -/

/-- How one level of `stage2_set_pte` ends: an assertion, a `return`, or the next level. -/
inductive S2Step where
  | bug
  | ret (s : KvmState) (c : Option kvm_mmu_memory_cache) (r : Int)
  | cont (s : KvmState) (c : Option kvm_mmu_memory_cache)

/-- "Create 2nd stage page table mapping - Level 1" of `stage2_set_pte`. -/
def stage2_pud_level (s : KvmState) (cache : Option kvm_mmu_memory_cache) (addr : Nat)
    (pud : EntryPtr) : S2Step :=
  if pud_none (s.rd pud) then
    if cache = none then S2Step.ret s cache 0
    else
      match mmu_memory_cache_alloc cache with
      | none => S2Step.bug
      | some (pmd, c1) => S2Step.cont (get_page (pud_populate s pud pmd) pud.frame) (some c1)
  else if ¬ pmd_table (s.rd pud) then
    if cache = none then S2Step.ret s cache 0
    else if s.cloning_role ≠ 0 then
      match handle_coa_pud s cache addr pud with
      | none => S2Step.bug
      | some (s1, c1) => S2Step.cont s1 c1
    else S2Step.cont s cache
  else S2Step.cont s cache

/-- "Create 2nd stage page table mapping - Level 2" of `stage2_set_pte`. -/
def stage2_pmd_level (s : KvmState) (cache : Option kvm_mmu_memory_cache) (addr : Nat)
    (pmd : EntryPtr) : S2Step :=
  if pmd_none (s.rd pmd) then
    if cache = none then S2Step.ret s cache 0
    else
      match mmu_memory_cache_alloc cache with
      | none => S2Step.bug
      | some (pte, c1) => S2Step.cont (get_page (pmd_populate_kernel s pmd pte) pmd.frame) (some c1)
  else if ¬ pmd_table (s.rd pmd) then
    if cache = none then S2Step.ret s cache 0
    else if s.cloning_role ≠ 0 then
      match handle_coa_pmd s cache addr pmd with
      | none => S2Step.bug
      | some (s1, c1) => S2Step.cont s1 c1
    else S2Step.cont s cache
  else S2Step.cont s cache

/-- "Create 2nd stage page table mapping - Level 3" of `stage2_set_pte`, after the iomap
check: store the leaf and account for the old one. -/
def stage2_pte_level (s : KvmState) (addr : Nat) (pte : EntryPtr) (new_pte : Nat)
    (iomap : Bool) : Option KvmState :=
  let old_pte := s.rd pte
  let s1 := s.wr pte new_pte
  let s2 := s1.emit (Event.mark_page_dirty (addr >>> PAGE_SHIFT))
  let r :=
    if pte_present old_pte then some (kvm_tlb_flush_vmid_ipa true s2 addr)
    else if old_pte ≠ 0 ∧ s2.cloning_role ≠ 0 then handle_coa_pte s2 addr old_pte new_pte iomap
    else some (get_page s2 pte.frame)
  match r with
  | none => none
  | some s3 =>
    if s3.cloning_role ≠ 0 ∧ iomap = false then mark_gfn_unshared s3 (addr >>> PAGE_SHIFT)
    else some s3

/-- `stage2_set_pte(kvm, cache, addr, new_pte, iomap)`: the state, the reserve and the
return value; `none` when an assertion fires or `kvm->arch.pgd` is NULL. -/
def stage2_set_pte (s : KvmState) (cache : Option kvm_mmu_memory_cache) (addr : Nat)
    (new_pte : Nat) (iomap : Bool) :
    Option (KvmState × Option kvm_mmu_memory_cache × Int) :=
  match s.pgd with
  | none => none
  | some pgdp =>
    let pud := pud_offset pgdp addr
    match stage2_pud_level s cache addr pud with
    | S2Step.bug => none
    | S2Step.ret s1 c1 r => some (s1, c1, r)
    | S2Step.cont s1 c1 =>
      let pmd := pmd_offset s1 pud addr
      match stage2_pmd_level s1 c1 addr pmd with
      | S2Step.bug => none
      | S2Step.ret s2 c2 r => some (s2, c2, r)
      | S2Step.cont s2 c2 =>
        let pte := pte_offset_kernel s2 pmd addr
        if iomap = true ∧ pte_present (s2.rd pte) ∧ s2.cloning_role = 0 then
          some (s2, c2, -EFAULT)
        else
          match stage2_pte_level s2 addr pte new_pte iomap with
          | none => none
          | some s3 => some (s3, c2, 0)

/-- The software walk for `ipa` from the root `pgdp` (pud, then pmd, then pte), as
`is_gpa_accessed` and `unmap_range` do it: the pointer to the leaf, when both intermediate
entries are there. -/
def walk_from (s : KvmState) (pgdp ipa : Nat) : Option EntryPtr :=
  let pud := pud_offset pgdp ipa
  if pud_none (s.rd pud) then none
  else
    let pmd := pmd_offset s pud ipa
    if pmd_none (s.rd pmd) then none
    else some (pte_offset_kernel s pmd ipa)

/-- The software walk for `ipa` from `kvm->arch.pgd`. -/
def walk (s : KvmState) (ipa : Nat) : Option EntryPtr :=
  match s.pgd with
  | none => none
  | some pgdp => walk_from s pgdp ipa

/-- The leaf that the walk for `ipa` reaches. -/
def walk_leaf (s : KvmState) (ipa : Nat) : Option Nat :=
  (walk s ipa).map s.rd

/-- The walk from `pgdp` for `ipa` reaches a present leaf. -/
def mapped_from (s : KvmState) (pgdp ipa : Nat) : Prop :=
  ∃ p, walk_from s pgdp ipa = some p ∧ pte_present (s.rd p)

/-- `kvm_set_spte_handler(kvm, gpa, data)`: `stage2_set_pte` with a NULL reserve. -/
def kvm_set_spte_handler (s : KvmState) (gpa : Nat) (pte : Nat) :
    Option (KvmState × Option kvm_mmu_memory_cache × Int) :=
  stage2_set_pte s none gpa pte false

/-! ## `unmap_range` and the root lifecycle -/

/-- `clear_pte_entry(kvm, pte, addr)`. -/
def clear_pte_entry (kvm : Bool) (s : KvmState) (pte : EntryPtr) (addr : Nat) : KvmState :=
  if pte_present (s.rd pte) then
    kvm_tlb_flush_vmid_ipa kvm (put_page (s.wr pte 0) pte.frame) addr
  else s

/-- `clear_pmd_entry(kvm, pmd, addr)`. -/
def clear_pmd_entry (kvm : Bool) (s : KvmState) (pmd : EntryPtr) (addr : Nat) : KvmState :=
  let pte_table := pmd_to_pfn (s.rd pmd)
  let s1 := s.wr pmd 0
  let s2 := kvm_tlb_flush_vmid_ipa kvm s1 addr
  let s3 := free_page s2 pte_table
  put_page s3 pmd.frame

/-- `clear_pud_entry(kvm, pud, addr)`. -/
def clear_pud_entry (kvm : Bool) (s : KvmState) (pud : EntryPtr) (addr : Nat) : KvmState :=
  let pmd_table := pud_to_pfn (s.rd pud)
  let s1 := s.wr pud 0
  let s2 := kvm_tlb_flush_vmid_ipa kvm s1 addr
  let s3 := free_page s2 pmd_table
  put_page s3 pud.frame

/-- One iteration of the `while (addr < end)` loop of `unmap_range`: the state and the next
`addr`. -/
def unmap_range_step (kvm : Bool) (s : KvmState) (pgdp addr end_ : Nat) : KvmState × Nat :=
  let pud := pud_offset pgdp addr
  if pud_none (s.rd pud) then (s, pud_addr_end addr end_)
  else
    let pmd := pmd_offset s pud addr
    if pmd_none (s.rd pmd) then (s, pmd_addr_end addr end_)
    else
      let pte := pte_offset_kernel s pmd addr
      let s1 := clear_pte_entry kvm s pte addr
      if page_empty s1 pte.frame then
        let s2 := clear_pmd_entry kvm s1 pmd addr
        if page_empty s2 pmd.frame ∧ ¬ page_empty s2 pud.frame then
          (clear_pud_entry kvm s2 pud addr, pud_addr_end addr end_)
        else (s2, pmd_addr_end addr end_)
      else (s1, addr + PAGE_SIZE)

/-- The `while (addr < end)` loop of `unmap_range`; every iteration moves `addr` forward, so
`end - start` iterations are enough. -/
def unmap_range_loop : Nat → Bool → KvmState → Nat → Nat → Nat → KvmState
  | 0, _, s, _, _, _ => s
  | fuel + 1, kvm, s, pgdp, addr, end_ =>
    if addr < end_ then
      unmap_range_loop fuel kvm (unmap_range_step kvm s pgdp addr end_).1 pgdp
        (unmap_range_step kvm s pgdp addr end_).2 end_
    else s

/-- `unmap_range(kvm, pgdp, start, size)`. -/
def unmap_range (kvm : Bool) (s : KvmState) (pgdp start size : Nat) : KvmState :=
  unmap_range_loop size kvm s pgdp start (start + size)

/-- `unmap_stage2_range(kvm, start, size)`; a NULL `kvm->arch.pgd` is a NULL dereference. -/
def unmap_stage2_range (s : KvmState) (start size : Nat) : Option KvmState :=
  match s.pgd with
  | none => none
  | some pgdp => some (unmap_range true s pgdp start size)

/-- `kvm_alloc_stage2_pgd(kvm)`: two zeroed root pages (`S2_PGD_ORDER` is 1 for the 1024
top-level entries); the allocation holds one reference on its first page. -/
def kvm_alloc_stage2_pgd (s : KvmState) : KvmState × Int :=
  if s.pgd ≠ none then (s.emit Event.pr_err, -EINVAL)
  else
    match s.page_alloc with
    | [] => (s, -ENOMEM)
    | none :: rest => ({ s with page_alloc := rest }, -ENOMEM)
    | some p :: rest =>
      ({ s with
        page_alloc := rest
        mem := fun f i => if f = p ∨ f = p + 1 then 0 else s.mem f i
        page_count := fun f => if f = p then 1 else s.page_count f
        pgd := some p }, 0)

/-- `kvm_free_stage2_pgd(kvm)`: `free_pages` drops the allocation's reference on the first
root page and, when the count reaches zero, releases both root pages. -/
def kvm_free_stage2_pgd (s : KvmState) : KvmState :=
  match s.pgd with
  | none => s
  | some pgdp =>
    let s1 := unmap_range true s pgdp 0 KVM_PHYS_SIZE
    { s1 with
      page_count := fun f => if f = pgdp then s1.page_count pgdp - 1 else s1.page_count f
      freed := if s1.page_count pgdp - 1 = 0 then (pgdp + 1) :: pgdp :: s1.freed else s1.freed
      pgd := none }

/-! ## Read-only enforcement and arming -/

/-- The leaf update of `kvm_set_memslot_readonly`: `pte_val(*pte) &= ~L_PTE_S2_RDWR` and then
`pte_val(*pte) |= L_PTE_S2_RDONLY`. -/
def stage2_rdonly (v : Nat) : Nat := clear_bits v L_PTE_S2_RDWR ||| L_PTE_S2_RDONLY

/-- One iteration of the loop of `kvm_set_memslot_readonly`: the state and the next `addr`. -/
def set_readonly_step (s : KvmState) (pgdp addr end_ : Nat) : KvmState × Nat :=
  let pud := pud_offset pgdp addr
  if pud_none (s.rd pud) then (s, pud_addr_end addr end_)
  else
    let pmd := pmd_offset s pud addr
    if pmd_none (s.rd pmd) then (s, pmd_addr_end addr end_)
    else
      let pte := pte_offset_kernel s pmd addr
      if s.visible_gfn (addr >>> PAGE_SHIFT) = true ∧ s.rd pte ≠ 0 then
        (kvm_tlb_flush_vmid_ipa true (s.wr pte (stage2_rdonly (s.rd pte))) addr,
          addr + PAGE_SIZE)
      else (s, addr + PAGE_SIZE)

/-- The `while (addr < end)` loop of `kvm_set_memslot_readonly`. -/
def set_readonly_loop : Nat → KvmState → Nat → Nat → Nat → KvmState
  | 0, s, _, _, _ => s
  | fuel + 1, s, pgdp, addr, end_ =>
    if addr < end_ then
      set_readonly_loop fuel (set_readonly_step s pgdp addr end_).1 pgdp
        (set_readonly_step s pgdp addr end_).2 end_
    else s

/-- `kvm_set_memslot_readonly(kvm, memslot)`; a NULL `kvm->arch.pgd` is a NULL dereference.
`size = memslot->npages << PAGE_SHIFT` shifts the 32-bit `unsigned long npages` and wraps
at 2^32 before it is widened to `u64`; `base_gfn` is a 64-bit `gfn_t`. -/
def kvm_set_memslot_readonly (s : KvmState) (memslot : kvm_memory_slot) : Option KvmState :=
  match s.pgd with
  | none => none
  | some pgdp =>
    let size := (memslot.npages <<< PAGE_SHIFT) % 2 ^ 32
    let start := memslot.base_gfn <<< PAGE_SHIFT
    let s1 := s.emit Event.mmu_lock
    let s2 := set_readonly_loop size s1 pgdp start (start + size)
    some (s2.emit Event.mmu_unlock)

/-- One iteration of the loop of `kvm_set_memslot_non_present`. -/
def set_non_present_step (s : KvmState) (pgdp addr end_ : Nat) : KvmState × Nat :=
  let pud := pud_offset pgdp addr
  if pud_present (s.rd pud) then
    let s1 := s.wr pud (clear_bits (s.rd pud) PMD_TYPE_TABLE)
    (add_shared_pfn s1 (pud_to_pfn (s1.rd pud)), pud_addr_end addr end_)
  else (s, pud_addr_end addr end_)

/-- The `while (addr < end)` loop of `kvm_set_memslot_non_present`. -/
def set_non_present_loop : Nat → KvmState → Nat → Nat → Nat → KvmState
  | 0, s, _, _, _ => s
  | fuel + 1, s, pgdp, addr, end_ =>
    if addr < end_ then
      set_non_present_loop fuel (set_non_present_step s pgdp addr end_).1 pgdp
        (set_non_present_step s pgdp addr end_).2 end_
    else s

/-- `kvm_set_memslot_non_present(kvm, memslot)`. As in `kvm_set_memslot_readonly`,
`size = memslot->npages << PAGE_SHIFT` is a shift of the 32-bit `unsigned long npages` and
wraps at 2^32. -/
def kvm_set_memslot_non_present (s : KvmState) (memslot : kvm_memory_slot) :
    Option KvmState :=
  match s.pgd with
  | none => none
  | some pgdp =>
    let size := (memslot.npages <<< PAGE_SHIFT) % 2 ^ 32
    let start := memslot.base_gfn <<< PAGE_SHIFT
    let s1 := s.emit Event.mmu_lock
    let s2 := set_non_present_loop size s1 pgdp start (start + size)
    some (s2.emit Event.mmu_unlock)

/-- The `kvm_for_each_memslot` loop of `mark_s2_non_present`. -/
def mark_s2_non_present_loop : List kvm_memory_slot → KvmState → Option KvmState
  | [], s => some s
  | m :: rest, s =>
    match kvm_set_memslot_non_present s m with
    | none => none
    | some s1 => mark_s2_non_present_loop rest s1

/-- `mark_s2_non_present(kvm)`. -/
def mark_s2_non_present (s : KvmState) : Option KvmState :=
  mark_s2_non_present_loop s.memslots s

/-! ## Fault path -/

/-- `gfn_is_writable(kvm, gfn)`: `BUG_ON` for a zero HVA, a missing VMA or memslot. -/
def gfn_is_writable (s : KvmState) (gfn : Nat) : Option Bool :=
  match gpa_to_hva s (gfn <<< PAGE_SHIFT) with
  | none => none
  | some hva =>
    if hva = 0 then none
    else
      match s.vma_writable hva with
      | none => none
      | some vma_writable =>
        match gfn_to_memslot s gfn with
        | none => none
        | some slot => some (vma_writable && decide (slot.flags &&& KVM_MEM_READONLY = 0))

/-- `user_mem_abort(vcpu, fault_ipa, gfn, memslot, fault_status)`. -/
def user_mem_abort (s : KvmState) (vcpu : kvm_vcpu) (fault_ipa gfn : Nat)
    (_memslot : Option kvm_memory_slot) (fault_status : Nat) :
    Option (KvmState × kvm_vcpu × Int) :=
  let write_fault := vcpu.write_fault
  if fault_status = FSC_PERM ∧ write_fault = false ∧ s.cloning_role = 0 then
    some (s.emit Event.pr_err, vcpu, -EFAULT)
  else
    match mmu_topup_memory_cache s vcpu.mmu_page_cache 2 KVM_NR_MEM_OBJS with
    | none => none
    | some (s1, c1, ret) =>
      if ret ≠ 0 then some (s1, { vcpu with mmu_page_cache := c1 }, ret)
      else
        let is_writable : Option Bool :=
          if s1.cloning_role ≠ 0 then
            (gfn_is_writable s1 gfn).map (fun w => if w then true else write_fault)
          else some write_fault
        match is_writable with
        | none => none
        | some is_writable =>
          let s2 := s1.emit (Event.gfn_to_pfn_prot gfn is_writable)
          match s2.gfn_to_pfn_prot gfn is_writable with
          | none => some (s2, { vcpu with mmu_page_cache := c1 }, -EFAULT)
          | some (pfn, writable) =>
            let new_pte := pfn_pte pfn PAGE_S2
            let s3 := s2.emit Event.mmu_lock
            if s3.notifier_retry = true then
              some ((s3.emit Event.mmu_unlock).emit (Event.release_pfn_clean pfn),
                { vcpu with mmu_page_cache := c1 }, 0)
            else
              let new_pte1 := if writable = true then new_pte ||| L_PTE_S2_RDWR else new_pte
              let s4 := if writable = true then s3.emit (Event.set_pfn_dirty pfn) else s3
              match stage2_set_pte s4 (some c1) fault_ipa new_pte1 false with
              | none => none
              | some (s5, c5, _) =>
                let s6 := if write_fault = true then s5.emit (Event.mark_page_dirty gfn) else s5
                some ((s6.emit Event.mmu_unlock).emit (Event.release_pfn_clean pfn),
                  { vcpu with mmu_page_cache := c5.getD c1 }, 0)

/-- `kvm_handle_guest_abort(vcpu, run)`. -/
def kvm_handle_guest_abort (s : KvmState) (vcpu : kvm_vcpu) :
    Option (KvmState × kvm_vcpu × Int) :=
  let is_iabt := vcpu.is_iabt
  let fault_ipa := vcpu.fault_ipa
  let fault_status := vcpu.fault_status
  if fault_status ≠ FSC_FAULT ∧ fault_status ≠ FSC_PERM then
    some (s.emit Event.pr_err, vcpu, -EFAULT)
  else
    let gfn := fault_ipa >>> PAGE_SHIFT
    if s.visible_gfn gfn = false then
      if is_iabt = true then some (s.emit (Event.inject_pabt vcpu.hfar), vcpu, 1)
      else if fault_status ≠ FSC_FAULT then some (s.emit Event.pr_err, vcpu, -EFAULT)
      else
        let fault_ipa1 := fault_ipa ||| (vcpu.hfar &&& ((1 <<< 12) - 1))
        some (s.emit (Event.io_mem_abort fault_ipa1), vcpu, s.io_mem_abort fault_ipa1)
    else
      let memslot := gfn_to_memslot s gfn
      match user_mem_abort s vcpu fault_ipa gfn memslot fault_status with
      | none => none
      | some (s1, vcpu1, ret) => some (s1, vcpu1, if ret = 0 then 1 else ret)

/-! ## Bulk unsharing -/

/-- `is_gpa_accessed(kvm, gpa)`: the walk reaches a non-empty leaf; a NULL `kvm->arch.pgd`
is a NULL dereference. -/
def is_gpa_accessed (s : KvmState) (gpa : Nat) : Option Bool :=
  match s.pgd with
  | none => none
  | some pgdp =>
    let pud := pud_offset pgdp gpa
    if pud_none (s.rd pud) then some false
    else
      let pmd := pmd_offset s pud gpa
      if pmd_none (s.rd pmd) then some false
      else
        let pte := pte_offset_kernel s pmd gpa
        if pte_none (s.rd pte) then some false else some true

/-- Modelled from the spec: `gfn_to_pfn(kvm, gfn)` of the generic KVM code: the external
translator, asked for a writable mapping; `none` is an error PFN. -/
def gfn_to_pfn (s : KvmState) (gfn : Nat) : Option Nat :=
  (s.gfn_to_pfn_prot gfn true).map Prod.fst

/-- `kvm_arm_unshare_gfn(kvm, gfn, addr)` with the reserve of VCPU 0: the state, the reserve
and the return value. -/
def kvm_arm_unshare_gfn (s : KvmState) (memcache : kvm_mmu_memory_cache) (gfn addr : Nat) :
    Option (KvmState × kvm_mmu_memory_cache × Int) :=
  match is_gpa_accessed s (gfn <<< PAGE_SHIFT) with
  | none => none
  | some false => some (s, memcache, 0)
  | some true =>
    match is_gfn_unshared s gfn with
    | none => none
    | some true => some (s, memcache, 0)
    | some false =>
      match mmu_topup_memory_cache s memcache 2 KVM_NR_MEM_OBJS with
      | none => none
      | some (s1, c1, ret) =>
        if ret ≠ 0 then some (s1, c1, ret)
        else
          let s2 := s1.emit (Event.gfn_to_pfn gfn)
          match gfn_to_pfn s2 gfn with
          | none => some (s2, c1, -EFAULT)
          | some pfn =>
            let new_pte := pfn_pte pfn PAGE_S2
            match stage2_set_pte s2 (some c1) addr new_pte false with
            | none => none
            | some (s3, c3, _) => some (s3, c3.getD c1, 0)

/-- The `for (i = 0; i < npages; i++)` loop of `kvm_arm_unshare_gfns`: `ret` is assigned in
every iteration. -/
def kvm_arm_unshare_gfns_loop : Nat → KvmState → kvm_mmu_memory_cache → Nat → Nat → Int →
    Option (KvmState × kvm_mmu_memory_cache × Int)
  | 0, s, c, _, _, ret => some (s, c, ret)
  | n + 1, s, c, gfn, addr, _ =>
    match kvm_arm_unshare_gfn s c gfn addr with
    | none => none
    | some (s1, c1, ret) => kvm_arm_unshare_gfns_loop n s1 c1 (gfn + 1) (addr + PAGE_SIZE) ret

/-- `kvm_arm_unshare_gfns(kvm, mem)` for the region `guest_phys_addr`, `memory_size` (a
64-bit size; `npages` is an `unsigned long` of 32 bits). -/
def kvm_arm_unshare_gfns (s : KvmState) (memcache : kvm_mmu_memory_cache)
    (guest_phys_addr memory_size : Nat) : Option (KvmState × kvm_mmu_memory_cache × Int) :=
  let gfn := guest_phys_addr >>> PAGE_SHIFT
  let addr := guest_phys_addr
  let npages := ((memory_size + PAGE_SIZE - 1) % 2 ^ 64 / PAGE_SIZE * PAGE_SIZE
    >>> PAGE_SHIFT) % 2 ^ 32
  kvm_arm_unshare_gfns_loop npages s memcache gfn addr 0

/-! ## A source VM and its clone over the global lists -/

/-- The fields of `KvmState` that belong to one `struct kvm` and its process; the page
frames, their counts and contents, the allocator, the shared registry and the page pool are
global. -/
structure VmCtx where
  pgd : Option Nat
  cloning_role : Nat
  memslots : List kvm_memory_slot
  visible_gfn : Nat → Bool
  hva_to_pfn : Nat → Option Nat
  vma_writable : Nat → Option Bool
  gfn_to_pfn_prot : Nat → Bool → Option (Nat × Bool)
  notifier_retry : Bool
  io_mem_abort : Nat → Int

/-- The machine seen from VM `vm`: the global part of `s` with the fields of `vm`. -/
def KvmState.enter (s : KvmState) (vm : VmCtx) : KvmState :=
  { s with
    pgd := vm.pgd
    cloning_role := vm.cloning_role
    memslots := vm.memslots
    visible_gfn := vm.visible_gfn
    hva_to_pfn := vm.hva_to_pfn
    vma_writable := vm.vma_writable
    gfn_to_pfn_prot := vm.gfn_to_pfn_prot
    notifier_retry := vm.notifier_retry
    io_mem_abort := vm.io_mem_abort }

/-- The first touch of `ipa` by VM `a` and then by VM `b`, each driven through
`stage2_set_pte` with its own reserve and its new leaf; `none` when an assertion fires. -/
def touch_in_order (g : KvmState) (a b : VmCtx) (ca cb : kvm_mmu_memory_cache)
    (ipa pte_a pte_b : Nat) : Option KvmState :=
  match stage2_set_pte (g.enter a) (some ca) ipa pte_a false with
  | none => none
  | some (g1, _, _) =>
    match stage2_set_pte (g1.enter b) (some cb) ipa pte_b false with
    | none => none
    | some (g2, _, _) => some g2

/-! ## Example states -/

/-- A machine without page tables: empty lists, no memslot, role None; `alloc` lists the
outcomes of the coming page allocations. -/
def KvmState.boot (alloc : List (Option Nat)) : KvmState :=
  { mem := fun _ _ => 0
    page_count := fun _ => 0
    freed := []
    page_data := fun _ => []
    page_alloc := alloc
    shared_pfn_list := []
    page_pool_list := []
    pgd := none
    cloning_role := 0
    memslots := []
    visible_gfn := fun _ => false
    hva_to_pfn := fun _ => none
    vma_writable := fun _ => none
    gfn_to_pfn_prot := fun _ _ => none
    notifier_retry := false
    io_mem_abort := fun _ => 0
    trace := [] }

/-- A VM with an empty stage-2 root at frames 16 and 17. -/
def ex_empty_root : KvmState :=
  { KvmState.boot [] with
    pgd := some 16
    page_count := fun f => if f = 16 then 1 else 0 }

/-- The VM of `ex_empty_root` next to two allocated, zeroed pages (frames 70 and 71) that a
reserve can hold. -/
def ex_root_reserve : KvmState :=
  { KvmState.boot [] with
    pgd := some 16
    page_count := fun f => if f = 16 ∨ f = 70 ∨ f = 71 then 1 else 0 }

/-- A VM that maps IPA 0x40001000 (GFN 0x40001) to PFN 0x99 with a present leaf: root at
frame 16, pmd table at frame 32, pte table at frame 48. -/
def ex_mapped : KvmState :=
  { KvmState.boot [] with
    pgd := some 16
    mem := fun f i =>
      if f = 16 ∧ i = 1 then 32 * 4096 + 3
      else if f = 32 ∧ i = 0 then 48 * 4096 + 3
      else if f = 48 ∧ i = 1 then 0x99 * 4096 + 1151
      else 0
    page_count := fun f => if f = 16 ∨ f = 32 ∨ f = 48 then 2 else 0 }

/-- The memslot of GFNs 0x40000 to 0x4000f, with an unshare bitmap. -/
def ex_slot : kvm_memory_slot :=
  { base_gfn := 0x40000, npages := 16, userspace_addr := 0x70000000, flags := 0,
    unshare_bitmap := some 0 }

/-- The VM of `ex_mapped` with a writable leaf (HAP = 11) and the memslot `ex_slot`, whose
GFNs are visible when `vis` is true. -/
def ex_mapped_rw (vis : Bool) : KvmState :=
  { KvmState.boot [] with
    pgd := some 16
    mem := fun f i =>
      if f = 16 ∧ i = 1 then 32 * 4096 + 3
      else if f = 32 ∧ i = 0 then 48 * 4096 + 3
      else if f = 48 ∧ i = 1 then 0x99 * 4096 + 1279
      else 0
    page_count := fun f => if f = 16 ∨ f = 32 ∨ f = 48 then 2 else 0
    memslots := [ex_slot]
    visible_gfn := fun _ => vis }

/-- A machine before VM creation: six free frames, the memslot `ex_slot` with visible GFNs,
and the user pages of GFN 0x40000 and 0x40001 backed by the frames 0x98 and 0x99. -/
def ex_clone_boot : KvmState :=
  { KvmState.boot [some 16, some 32, some 48, some 80, some 96, some 112] with
    memslots := [ex_slot]
    visible_gfn := fun _ => true
    hva_to_pfn := fun hva =>
      if hva = 0x70000000 then some 0x98 else if hva = 0x70001000 then some 0x99 else none }

/-- Run `stage2_set_pte` with a reserve topped up to two frames, as `user_mem_abort` does. -/
def topup_and_set_pte (s : KvmState) (ipa pte : Nat) : Option KvmState :=
  match mmu_topup_memory_cache s { objects := [] } 2 2 with
  | none => none
  | some (s1, c1, _) =>
    match stage2_set_pte s1 (some c1) ipa pte false with
    | none => none
    | some (s2, _, _) => some s2

/-- A source VM after its first touch: a fresh root, leaves for IPA 0x40000000 (PFN 0x98) and
0x40001000 (PFN 0x99), then the role is set to Source, `mark_s2_non_present` arms the VM and
the guest touches IPA 0x40000000 again, which splits the pmd and the pte table. -/
def ex_source_touched : Option KvmState :=
  (topup_and_set_pte (kvm_alloc_stage2_pgd ex_clone_boot).1 0x40000000 (0x98 * 4096 + 1151)).bind
    fun s1 => (stage2_set_pte s1 (some { objects := [] }) 0x40001000 (0x99 * 4096 + 1151)
        false).bind
    fun r2 => (mark_s2_non_present { r2.1 with cloning_role := 1 }).bind
    fun s3 => topup_and_set_pte s3 0x40000000 (0x98 * 4096 + 1151)

/-- A source VM after a pte-table split: the leaf of IPA 0x40001000 is the non-present
sentinel that still carries PFN 0x99, which is in the shared registry. -/
def ex_source_sentinel : KvmState :=
  { KvmState.boot [] with
    pgd := some 16
    mem := fun f i =>
      if f = 16 ∧ i = 1 then 32 * 4096 + 3
      else if f = 32 ∧ i = 0 then 48 * 4096 + 3
      else if f = 48 ∧ i = 1 then 0x99 * 4096 + 1148
      else 0
    page_count := fun f => if f = 16 ∨ f = 32 ∨ f = 48 then 2 else 0
    cloning_role := 1
    shared_pfn_list := [0x99]
    memslots := [ex_slot]
    visible_gfn := fun _ => true
    hva_to_pfn := fun hva => if hva = 0x70001000 then some 0x99 else none }

/-- A data abort with an unsupported fault status (an access-flag fault, 8). -/
def vcpu_bad_status : kvm_vcpu :=
  { fault_ipa := 0x40001000, hfar := 0x1234, fault_status := 8, is_iabt := false,
    write_fault := false, mmu_page_cache := { objects := [] } }

/-- A translation fault on an instruction fetch at IPA 0x40001000, VA 0x80001234. -/
def vcpu_iabt : kvm_vcpu :=
  { fault_ipa := 0x40001000, hfar := 0x80001234, fault_status := 4, is_iabt := true,
    write_fault := false, mmu_page_cache := { objects := [] } }

/-- A read translation fault on data at IPA 0x40001000, with a reserve of two frames. -/
def vcpu_read_fault : kvm_vcpu :=
  { fault_ipa := 0x40001000, hfar := 0x80001234, fault_status := 4, is_iabt := false,
    write_fault := false, mmu_page_cache := { objects := [70, 71] } }

/-- A write permission fault on data at IPA 0x40001000, with a reserve of two frames. -/
def vcpu_write_perm_fault : kvm_vcpu :=
  { fault_ipa := 0x40001000, hfar := 0x80001234, fault_status := 12, is_iabt := false,
    write_fault := true, mmu_page_cache := { objects := [70, 71] } }

/-- The VM of `ex_root_reserve` with the memslot `ex_slot`, visible GFNs and a translator that
knows GFN 0x40001 (PFN 0x99, writable flag `w`); `retry` is what `mmu_notifier_retry`
reports. -/
def ex_lazy (w retry : Bool) : KvmState :=
  { ex_root_reserve with
    memslots := [ex_slot]
    visible_gfn := fun _ => true
    gfn_to_pfn_prot := fun gfn _ => if gfn = 0x40001 then some (0x99, w) else none
    notifier_retry := retry }

/-- The source VM of `ex_source_sentinel` with a read-only memslot, a writable VMA, a
translator that grants what it is asked for GFN 0x40001, and one free frame. -/
def ex_armed_ro : KvmState :=
  { ex_source_sentinel with
    memslots := [{ ex_slot with flags := 2 }]
    vma_writable := fun _ => some true
    gfn_to_pfn_prot := fun gfn w => if gfn = 0x40001 then some (0x99, w) else none
    page_alloc := [some 80] }

/-- The VM of `ex_mapped` as a source with two memslots under the same top-level entry:
GFNs 0x40000 to 0x4000f and GFNs 0x40010 to 0x4001f. -/
def ex_two_slots : KvmState :=
  { ex_mapped with
    cloning_role := 1
    memslots := [ex_slot, { ex_slot with base_gfn := 0x40010, userspace_addr := 0x70010000 }] }

/-- The machine of an armed source VM and its clone: both roots (frames 16 and 18) hold the
sentinel of the pmd table of frame 32, which is in the shared registry; its first entry is
the pte table of frame 48 with the present leaves of PFN 0x98 (IPA 0x40000000) and PFN 0x99
(IPA 0x40001000); frame 0x99 holds the bytes 1, 2, 3; frame 80 is free. -/
def ex_pair : KvmState :=
  { KvmState.boot [some 80] with
    mem := fun f i =>
      if (f = 16 ∨ f = 18) ∧ i = 1 then 32 * 4096
      else if f = 32 ∧ i = 0 then 48 * 4096 + 3
      else if f = 48 ∧ i = 0 then 0x98 * 4096 + 1151
      else if f = 48 ∧ i = 1 then 0x99 * 4096 + 1151
      else 0
    page_count := fun f =>
      if f = 16 ∨ f = 18 ∨ f = 32 then 2 else if f = 48 then 3
      else if 70 ≤ f ∧ f ≤ 73 then 1 else 0
    shared_pfn_list := [32]
    page_data := fun f => if f = 0x99 then [1, 2, 3] else [] }

/-- The source VM of `ex_pair`: root 16, user pages at HVA 0x70000000. -/
def ex_pair_source : VmCtx :=
  { pgd := some 16, cloning_role := 1, memslots := [ex_slot], visible_gfn := fun _ => true,
    hva_to_pfn := fun hva =>
      if hva = 0x70000000 then some 0x98 else if hva = 0x70001000 then some 0x99 else none,
    vma_writable := fun _ => some true, gfn_to_pfn_prot := fun _ _ => none,
    notifier_retry := false, io_mem_abort := fun _ => 0 }

/-- The clone of `ex_pair`: role Target, root 18, user pages at HVA 0x60000000, the page of
GFN 0x40001 backed by frame 0x55. -/
def ex_pair_target : VmCtx :=
  { pgd := some 18, cloning_role := 2,
    memslots := [{ ex_slot with userspace_addr := 0x60000000 }], visible_gfn := fun _ => true,
    hva_to_pfn := fun hva =>
      if hva = 0x60000000 then some 0x54 else if hva = 0x60001000 then some 0x55 else none,
    vma_writable := fun _ => some true, gfn_to_pfn_prot := fun _ _ => none,
    notifier_retry := false, io_mem_abort := fun _ => 0 }

/-! ## Specification predicates -/

/-- Every descriptor of `s1` is the one of `s` or zero. -/
def zeroed (s s1 : KvmState) : Prop := ∀ f i, s1.mem f i = s.mem f i ∨ s1.mem f i = 0

/-- Every descriptor of `s1` is the one of `s` or its read-only form; the root and the
visible GFNs are the same. -/
def rdonly_rel (s s1 : KvmState) : Prop :=
  s1.visible_gfn = s.visible_gfn ∧ s1.pgd = s.pgd ∧
  ∀ f i, s1.mem f i = s.mem f i ∨ (s.mem f i ≠ 0 ∧ s1.mem f i = stage2_rdonly (s.mem f i))

/-- The fields of the VM that the table walkers read but do not write are the same in `s`
and `t`. -/
def same_vm (s t : KvmState) : Prop :=
  t.pgd = s.pgd ∧ t.cloning_role = s.cloning_role ∧ t.memslots = s.memslots ∧
  t.page_pool_list = s.page_pool_list ∧ t.page_alloc = s.page_alloc

/-- The frames of the table pages on the path to `ipa`: the root page that holds the pud
entry, the pmd table when the pud entry is there, and the pte table when the pmd entry is
there too. -/
def path_frames (s : KvmState) (root ipa : Nat) : List Nat :=
  if s.rd (pud_offset root ipa) = 0 then [(pud_offset root ipa).frame]
  else if s.rd (pmd_offset s (pud_offset root ipa) ipa) = 0 then
    [(pud_offset root ipa).frame, pud_to_pfn (s.rd (pud_offset root ipa))]
  else
    [(pud_offset root ipa).frame, pud_to_pfn (s.rd (pud_offset root ipa)),
      pmd_to_pfn (s.rd (pmd_offset s (pud_offset root ipa) ipa))]

/-- The root, the role and the memslots are the same in `s` and `t`, and so is every table
page except the one that the next page allocation hands out (and zeroes). -/
def frame_rel (s t : KvmState) : Prop :=
  t.pgd = s.pgd ∧ t.cloning_role = s.cloning_role ∧ t.memslots = s.memslots ∧
  ∀ f, (∀ p, p ∈ (match s.page_alloc with | some p :: _ => [p] | _ => []) → p ≠ f) →
    ∀ i, t.mem f i = s.mem f i

/-- The page that the next successful `__get_free_page` hands out, if the next allocation
succeeds. -/
def next_alloc (s : KvmState) : List Nat :=
  match s.page_alloc with
  | some p :: _ => [p]
  | _ => []

/-- Apart from the page tables, their counts and the shared registry, `t` is `s`: the same
VM, page pool, allocator, page contents and user mappings. -/
def same_env (s t : KvmState) : Prop :=
  same_vm s t ∧ t.page_data = s.page_data ∧ t.hva_to_pfn = s.hva_to_pfn

end S2Mmu
namespace S2Mmu

/-! ## Host-mapping hooks -/

/-- Modelled from the spec: `hva_to_gfn_memslot(hva, slot)` of `linux/kvm_host.h`:
`slot->base_gfn + ((hva - slot->userspace_addr) >> PAGE_SHIFT)`; the difference is an
`unsigned long` of 32 bits, the sum a 64-bit `gfn_t`. -/
def hva_to_gfn_memslot (hva : Nat) (slot : kvm_memory_slot) : Nat :=
  (slot.base_gfn + (((hva + 2 ^ 32 - slot.userspace_addr) % 2 ^ 32) >>> PAGE_SHIFT)) % 2 ^ 64

/-- The loop `for (; gfn < gfn_end; ++gfn) handler(kvm, gfn << PAGE_SHIFT, data)` of
`handle_hva_to_gpa`; `gfn_end - gfn` iterations are enough; `gpa_t` has 64 bits. -/
def hva_gfn_loop {σ : Type} (handler : σ → Nat → σ) : Nat → σ → Nat → Nat → σ
  | 0, s, _, _ => s
  | fuel + 1, s, gfn, gfn_end =>
    if gfn < gfn_end then
      hva_gfn_loop handler fuel (handler s ((gfn <<< PAGE_SHIFT) % 2 ^ 64)) (gfn + 1) gfn_end
    else s

/-- The body of the `kvm_for_each_memslot` loop of `handle_hva_to_gpa`; `start`, `end` and
the host addresses are `unsigned long` values of 32 bits. -/
def handle_hva_to_gpa_slot {σ : Type} (handler : σ → Nat → σ) (start end_ : Nat) (s : σ)
    (memslot : kvm_memory_slot) : σ :=
  let hva_start := max start memslot.userspace_addr
  let hva_end := min end_
    ((memslot.userspace_addr + (memslot.npages <<< PAGE_SHIFT) % 2 ^ 32) % 2 ^ 32)
  if hva_start ≥ hva_end then s
  else
    let gfn := hva_to_gfn_memslot hva_start memslot
    let gfn_end := hva_to_gfn_memslot ((hva_end + PAGE_SIZE - 1) % 2 ^ 32) memslot
    hva_gfn_loop handler (gfn_end - gfn) s gfn gfn_end

/-- `handle_hva_to_gpa(kvm, start, end, handler, data)` over the memslots `slots` of the VM;
`handler` takes the state (with `data`) and the `gpa`. -/
def handle_hva_to_gpa {σ : Type} (slots : List kvm_memory_slot) (start end_ : Nat)
    (handler : σ → Nat → σ) (s : σ) : σ :=
  slots.foldl (handle_hva_to_gpa_slot handler start end_) s

/-- `kvm_unmap_hva_handler(kvm, gpa, data)`: `unmap_stage2_range(kvm, gpa, PAGE_SIZE)`. -/
def kvm_unmap_hva_handler (s : Option KvmState) (gpa : Nat) : Option KvmState :=
  s.bind (fun s1 => unmap_stage2_range s1 gpa PAGE_SIZE)

/-- `kvm_unmap_hva(kvm, hva)`. -/
def kvm_unmap_hva (s : KvmState) (hva : Nat) : Option KvmState × Int :=
  let end_ := (hva + PAGE_SIZE) % 2 ^ 32
  if s.pgd = none then (some s, 0)
  else (handle_hva_to_gpa s.memslots hva end_ kvm_unmap_hva_handler (some s), 0)

/-- `kvm_unmap_hva_range(kvm, start, end)`. -/
def kvm_unmap_hva_range (s : KvmState) (start end_ : Nat) : Option KvmState × Int :=
  if s.pgd = none then (some s, 0)
  else (handle_hva_to_gpa s.memslots start end_ kvm_unmap_hva_handler (some s), 0)

/-- `kvm_set_spte_hva(kvm, hva, pte)`: `handle_hva_to_gpa` with `kvm_set_spte_handler` and
the leaf `pfn_pte(pte_pfn(pte), PAGE_S2)`; the handler drops the result of
`stage2_set_pte`. -/
def kvm_set_spte_hva (s : KvmState) (hva pte : Nat) : Option KvmState :=
  let end_ := (hva + PAGE_SIZE) % 2 ^ 32
  if s.pgd = none then some s
  else
    let stage2_pte := pfn_pte (pte_pfn pte) PAGE_S2
    handle_hva_to_gpa s.memslots hva end_
      (fun o gpa => o.bind (fun s1 => (kvm_set_spte_handler s1 gpa stage2_pte).map Prod.fst))
      (some s)

/-- The armed source VM of `ex_armed_ro` when the page allocator has nothing to give: the
next `__get_free_page` fails. -/
def ex_armed_nomem : KvmState :=
  { ex_armed_ro with page_alloc := [none] }

/-- The pair of `ex_pair` when the page allocator has nothing to give: the next
`__get_free_page` fails. -/
def ex_pair_nomem : KvmState :=
  { ex_pair with page_alloc := [none] }

/-- The pair of `ex_pair` when the source was armed with two memslots under the same
top-level entry: the registry lists the pmd table of frame 32 twice, as `mark_s2_non_present`
leaves it on `ex_two_slots`. -/
def ex_pair_twice : KvmState :=
  { ex_pair with shared_pfn_list := [32, 32] }

/-- A source VM that is not armed yet: valid tables (root 16, pmd table 32, pte table 48),
the present leaves of PFN 0x98 (IPA 0x40000000) and PFN 0x99 (IPA 0x40001000), the memslot
`ex_slot` with its user pages backed by the frames 0x98 and 0x99, one free frame (80), an
empty registry and an empty trace. -/
def ex_source_two_leaves : KvmState :=
  { KvmState.boot [some 80] with
    pgd := some 16
    mem := fun f i =>
      if f = 16 ∧ i = 1 then 32 * 4096 + 3
      else if f = 32 ∧ i = 0 then 48 * 4096 + 3
      else if f = 48 ∧ i = 0 then 0x98 * 4096 + 1151
      else if f = 48 ∧ i = 1 then 0x99 * 4096 + 1151
      else 0
    page_count := fun f =>
      if f = 16 ∨ f = 32 then 2 else if f = 48 then 3 else if f = 70 ∨ f = 71 then 1 else 0
    cloning_role := 1
    memslots := [ex_slot]
    visible_gfn := fun _ => true
    hva_to_pfn := fun hva =>
      if hva = 0x70000000 then some 0x98 else if hva = 0x70001000 then some 0x99 else none }

/-- A fresh stage-2 root (frames 16 and 17) with one leaf at IPA 0x8000000000, the first
address served by the second root page: `kvm_alloc_stage2_pgd`, a reserve top-up and
`stage2_set_pte`. -/
def ex_high_ipa : Option KvmState :=
  topup_and_set_pte (kvm_alloc_stage2_pgd ex_clone_boot).1 0x8000000000 (0x99 * 4096 + 1151)

/-- An armed source VM after a pud-level split: the pmd entry of IPA 0x40000000 to
0x401fffff (frame 32, entry 0) is the sentinel of the pte table of frame 48, which holds the
present leaves of PFN 0x98 and 0x99; `reg` is the shared registry. -/
def ex_pmd_armed (reg : List Nat) : KvmState :=
  { KvmState.boot [] with
    pgd := some 16
    mem := fun f i =>
      if f = 16 ∧ i = 1 then 32 * 4096 + 3
      else if f = 32 ∧ i = 0 then 48 * 4096
      else if f = 48 ∧ i = 0 then 0x98 * 4096 + 1151
      else if f = 48 ∧ i = 1 then 0x99 * 4096 + 1151
      else 0
    page_count := fun f =>
      if f = 16 ∨ f = 32 then 2 else if f = 48 then 3 else if f = 70 ∨ f = 71 then 1 else 0
    cloning_role := 1
    shared_pfn_list := reg
    memslots := [ex_slot]
    visible_gfn := fun _ => true }

/-- The host page of the GFN `slot.base_gfn + k` of `slot` intersects `[start, end_)`. -/
def hva_page_intersects (slot : kvm_memory_slot) (start end_ k : Nat) : Prop :=
  start < slot.userspace_addr + (k + 1) * PAGE_SIZE ∧
  slot.userspace_addr + k * PAGE_SIZE < end_

instance (slot : kvm_memory_slot) (start end_ k : Nat) :
    Decidable (hva_page_intersects slot start end_ k) := by
  unfold hva_page_intersects; infer_instance

/-- The addresses `gfn << PAGE_SHIFT` of the GFNs of `slot` whose host page intersects
`[start, end_)`, each once, in ascending order. -/
def hva_range_gpas (slot : kvm_memory_slot) (start end_ : Nat) : List Nat :=
  ((List.range slot.npages).filter
    (fun k => decide (hva_page_intersects slot start end_ k))).map
    (fun k => (slot.base_gfn + k) <<< PAGE_SHIFT)

/-- The state without its trace of collaborator calls: the part that the MMU code reads. -/
def KvmState.untraced (s : KvmState) : KvmState := { s with trace := [] }

/-- A step result without the trace of its state. -/
def S2Step.untraced : S2Step → S2Step
  | S2Step.bug => S2Step.bug
  | S2Step.ret s c r => S2Step.ret s.untraced c r
  | S2Step.cont s c => S2Step.cont s.untraced c

/-- Between the states `s` and `t` of one run (the trace of `t` extends the trace of `s`)
a TLB invalidation for `ipa` was issued. -/
def flushed (s t : KvmState) (ipa : Nat) : Prop :=
  ∃ evs, t.trace = evs ++ s.trace ∧ Event.tlb_flush_vmid_ipa ipa ∈ evs

end S2Mmu
namespace S2Mmu

/-! ## HYP mapping builder -/

/-- Modelled from the spec: `PTRS_PER_PGD` of `asm/pgtable-3level.h`, the four top-level
descriptors of a 32-bit address space. -/
@[simp] def PTRS_PER_PGD : Nat := 4

/-- Modelled from the spec: `PMD_TYPE_SECT` of `asm/pgtable-3level-hwdef.h`. -/
@[simp] def PMD_TYPE_SECT : Nat := 1

/-- Modelled from the spec: `pmd_sect` of `asm/pgtable-3level.h`: the type bits declare a
section mapping. -/
def pmd_sect (v : Nat) : Prop := v &&& PMD_TYPE_MASK = PMD_TYPE_SECT

instance (v : Nat) : Decidable (pmd_sect v) := by
  unfold pmd_sect; infer_instance

/-- Modelled from the spec: `pud_bad` of `asm/pgtable-3level.h`: the table bit of the
descriptor is clear. -/
def pud_bad (v : Nat) : Prop := v &&& 2 = 0

instance (v : Nat) : Decidable (pud_bad v) := by
  unfold pud_bad; infer_instance

/-- Modelled from the spec: `pud_none_or_clear_bad(pud)` of `asm-generic/pgtable.h`: true for
an absent entry and for a bad one, which is reported and cleared. -/
def pud_none_or_clear_bad (s : KvmState) (pud : EntryPtr) : Bool × KvmState :=
  if pud_none (s.rd pud) then (true, s)
  else if pud_bad (s.rd pud) then (true, (s.emit Event.pr_err).wr pud 0)
  else (false, s)

/-- Modelled from the spec: `pmd_addr_end(addr, end)` of `asm-generic/pgtable.h` on the 32-bit
`unsigned long` of the HYP mapping builder: the next pmd boundary after `addr`, capped by
`end_`; both comparisons are made after subtracting one, modulo 2^32. -/
def pmd_addr_end_ul (addr end_ : Nat) : Nat :=
  let boundary := (addr + PMD_SIZE) % 2 ^ 32 / PMD_SIZE * PMD_SIZE
  if (boundary + 2 ^ 32 - 1) % 2 ^ 32 < (end_ + 2 ^ 32 - 1) % 2 ^ 32 then boundary else end_

/-- Modelled from the spec: `pgd_addr_end(addr, end)` of `asm-generic/pgtable.h` on the 32-bit
`unsigned long` of the HYP mapping builder. -/
def pgd_addr_end (addr end_ : Nat) : Nat :=
  let boundary := (addr + PGDIR_SIZE) % 2 ^ 32 / PGDIR_SIZE * PGDIR_SIZE
  if (boundary + 2 ^ 32 - 1) % 2 ^ 32 < (end_ + 2 ^ 32 - 1) % 2 ^ 32 then boundary else end_

/-- Modelled from the spec: `pte_alloc_one_kernel(NULL, addr)` of `asm/pgalloc.h`: a zeroed
page for a pte table, or NULL. -/
def pte_alloc_one_kernel (s : KvmState) : Option Nat × KvmState := get_free_page s

/-- Modelled from the spec: `pmd_alloc_one(NULL, addr)` of `asm/pgalloc.h`: a zeroed page for
a pmd table, or NULL. -/
def pmd_alloc_one (s : KvmState) : Option Nat × KvmState := get_free_page s

/-- The globals of the HYP mapping builder (mmu.c:35-42); `none` is a NULL pointer, a table
or page pointer is the frame it lives in. -/
structure HypState where
  boot_hyp_pgd : Option Nat
  hyp_pgd : Option Nat
  init_bounce_page : Option Nat
  hyp_idmap_start : Nat
  hyp_idmap_end : Nat
  hyp_idmap_vector : Nat
deriving DecidableEq, Repr

/-- What the linker and the headers give to the HYP mapping builder: the kernel addresses of
`__hyp_idmap_text_start`, `__hyp_idmap_text_end` and `__kvm_hyp_init`, `virt_to_phys`, and
the macros `TRAMPOLINE_VA`, `PAGE_HYP`, `PAGE_OFFSET`, `virt_addr_valid`, `VMALLOC_START`,
`is_vmalloc_addr`, `KERN_TO_HYP`. -/
structure HypEnv where
  hyp_idmap_text_start : Nat
  hyp_idmap_text_end : Nat
  kvm_hyp_init : Nat
  virt_to_phys : Nat → Nat
  TRAMPOLINE_VA : Nat
  PAGE_HYP : Nat
  PAGE_OFFSET : Nat
  virt_addr_valid : Nat → Bool
  VMALLOC_START : Nat
  is_vmalloc_addr : Nat → Bool
  KERN_TO_HYP : Nat → Nat

/-- `kmalloc(PAGE_SIZE, GFP_KERNEL)` of the bounce page: a page of the allocator with its
contents as they are, or NULL. -/
def kmalloc_page (s : KvmState) : Option Nat × KvmState :=
  match s.page_alloc with
  | [] => (none, s.emit Event.kmalloc)
  | none :: rest => (none, { s with page_alloc := rest, trace := Event.kmalloc :: s.trace })
  | some p :: rest => (some p, { s with page_alloc := rest, trace := Event.kmalloc :: s.trace })

/-- `kzalloc(PTRS_PER_PGD * sizeof(pgd_t), GFP_KERNEL)`: a top-level table of four zeroed
descriptors, or NULL. -/
def kzalloc_pgd (s : KvmState) : Option Nat × KvmState :=
  match s.page_alloc with
  | [] => (none, s.emit Event.kmalloc)
  | none :: rest => (none, { s with page_alloc := rest, trace := Event.kmalloc :: s.trace })
  | some p :: rest =>
    (some p, { s with
      page_alloc := rest
      mem := fun f i => if f = p ∧ i < PTRS_PER_PGD then 0 else s.mem f i
      trace := Event.kmalloc :: s.trace })

/-- `kfree(p)`: nothing for NULL, otherwise the object goes back to the allocator. -/
def kfree (s : KvmState) (p : Option Nat) : KvmState :=
  match p with
  | none => s
  | some f => { s with freed := f :: s.freed }

/-- The `do ... while (addr += PAGE_SIZE, addr != end)` loop of `create_hyp_pte_mappings`
on 32-bit addresses.  After 2^20 pages `addr` is back where it started, so a loop that has
not ended by then never ends (`none`). -/
def create_hyp_pte_mappings_loop :
    Nat → KvmState → EntryPtr → Nat → Nat → Nat → Nat → Option KvmState
  | 0, _, _, _, _, _, _ => none
  | fuel + 1, s, pmd, addr, end_, pfn, prot =>
    let pte := pte_offset_kernel s pmd addr
    let s1 := get_page (s.wr pte (pfn_pte pfn prot)) pte.frame
    if (addr + PAGE_SIZE) % 2 ^ 32 ≠ end_ then
      create_hyp_pte_mappings_loop fuel s1 pmd ((addr + PAGE_SIZE) % 2 ^ 32) end_
        ((pfn + 1) % 2 ^ 32) prot
    else some s1

/-- `create_hyp_pte_mappings(pmd, start, end, pfn, prot)`. -/
def create_hyp_pte_mappings (s : KvmState) (pmd : EntryPtr) (start end_ pfn prot : Nat) :
    Option KvmState :=
  create_hyp_pte_mappings_loop 1048576 s pmd start end_ pfn prot

/-- One pass through the body of the loop of `create_hyp_pmd_mappings`, up to the update of
`pfn`: the state and 0, or `-ENOMEM` when no pte table can be allocated; `none` is the
`BUG_ON(pmd_sect(*pmd))`. -/
def create_hyp_pmd_mappings_iter (s : KvmState) (pud : EntryPtr) (addr end_ pfn prot : Nat) :
    Option (KvmState × Int) :=
  let pmd := pmd_offset s pud addr
  if pmd_sect (s.rd pmd) then none
  else if pmd_none (s.rd pmd) then
    match pte_alloc_one_kernel s with
    | (none, s1) => some (s1.emit Event.pr_err, -ENOMEM)
    | (some pte, s1) =>
      (create_hyp_pte_mappings (get_page (pmd_populate_kernel s1 pmd pte) pmd.frame) pmd addr
        (pmd_addr_end_ul addr end_) pfn prot).map fun s3 => (s3, 0)
  else
    (create_hyp_pte_mappings s pmd addr (pmd_addr_end_ul addr end_) pfn prot).map
      fun s3 => (s3, 0)

/-- The `do ... while (addr = next, addr != end)` loop of `create_hyp_pmd_mappings`: the
state and the value returned.  Every iteration but the last moves `addr` to the next of the
2048 pmd boundaries. -/
def create_hyp_pmd_mappings_loop :
    Nat → KvmState → EntryPtr → Nat → Nat → Nat → Nat → Option (KvmState × Int)
  | 0, _, _, _, _, _, _ => none
  | fuel + 1, s, pud, addr, end_, pfn, prot =>
    (create_hyp_pmd_mappings_iter s pud addr end_ pfn prot).bind fun r =>
      if r.2 ≠ 0 then some r
      else if pmd_addr_end_ul addr end_ ≠ end_ then
        create_hyp_pmd_mappings_loop fuel r.1 pud (pmd_addr_end_ul addr end_) end_
          ((pfn + ((pmd_addr_end_ul addr end_ + 2 ^ 32 - addr) % 2 ^ 32 >>> PAGE_SHIFT))
            % 2 ^ 32) prot
      else some (r.1, 0)

/-- `create_hyp_pmd_mappings(pud, start, end, pfn, prot)`. -/
def create_hyp_pmd_mappings (s : KvmState) (pud : EntryPtr) (start end_ pfn prot : Nat) :
    Option (KvmState × Int) :=
  create_hyp_pmd_mappings_loop 2049 s pud start end_ pfn prot

/-- One pass through the body of the loop of `__create_hyp_mappings`, up to the update of
`pfn`: the state and `err`. -/
def create_hyp_mappings_iter (s : KvmState) (pgdp addr end_ pfn prot : Nat) :
    Option (KvmState × Int) :=
  let pud := pud_offset pgdp addr
  if (pud_none_or_clear_bad s pud).1 then
    match pmd_alloc_one (pud_none_or_clear_bad s pud).2 with
    | (none, s1) => some (s1.emit Event.pr_err, -ENOMEM)
    | (some pmd, s1) =>
      create_hyp_pmd_mappings (get_page (pud_populate s1 pud pmd) pud.frame) pud addr
        (pgd_addr_end addr end_) pfn prot
  else
    create_hyp_pmd_mappings (pud_none_or_clear_bad s pud).2 pud addr (pgd_addr_end addr end_)
      pfn prot

/-- The `do ... while (addr = next, addr != end)` loop of `__create_hyp_mappings`.  Every
iteration but the last moves `addr` to the next of the four top-level boundaries. -/
def create_hyp_mappings_loop :
    Nat → KvmState → Nat → Nat → Nat → Nat → Nat → Option (KvmState × Int)
  | 0, _, _, _, _, _, _ => none
  | fuel + 1, s, pgdp, addr, end_, pfn, prot =>
    (create_hyp_mappings_iter s pgdp addr end_ pfn prot).bind fun r =>
      if r.2 ≠ 0 then some r
      else if pgd_addr_end addr end_ ≠ end_ then
        create_hyp_mappings_loop fuel r.1 pgdp (pgd_addr_end addr end_) end_
          ((pfn + ((pgd_addr_end addr end_ + 2 ^ 32 - addr) % 2 ^ 32 >>> PAGE_SHIFT))
            % 2 ^ 32) prot
      else some (r.1, 0)

/-- `__create_hyp_mappings(pgdp, start, end, pfn, prot)`: `addr = start & PAGE_MASK` and
`end = PAGE_ALIGN(end)` on 32 bits. -/
def __create_hyp_mappings (s : KvmState) (pgdp start end_ pfn prot : Nat) :
    Option (KvmState × Int) :=
  create_hyp_mappings_loop 5 s pgdp (start / PAGE_SIZE * PAGE_SIZE)
    ((end_ + PAGE_SIZE - 1) % 2 ^ 32 / PAGE_SIZE * PAGE_SIZE) pfn prot

/-- `free_boot_hyp_pgd()`. -/
def free_boot_hyp_pgd (env : HypEnv) (s : KvmState) (h : HypState) : KvmState × HypState :=
  let r : KvmState × HypState :=
    match h.boot_hyp_pgd with
    | some b =>
      let s1 := unmap_range false s b h.hyp_idmap_start PAGE_SIZE
      let s2 := unmap_range false s1 b env.TRAMPOLINE_VA PAGE_SIZE
      (kfree s2 (some b), { h with boot_hyp_pgd := none })
    | none => (s, h)
  let s3 :=
    match r.2.hyp_pgd with
    | some g => unmap_range false r.1 g env.TRAMPOLINE_VA PAGE_SIZE
    | none => r.1
  (kfree s3 r.2.init_bounce_page, { r.2 with init_bounce_page := none })

/-- A loop `for (addr = start; valid(addr); addr += PGDIR_SIZE) unmap_range(NULL, hyp_pgd,
KERN_TO_HYP(addr), PGDIR_SIZE)` of `free_hyp_pgds` on 32-bit addresses: after four steps
`addr` is back where it started, so a loop that has not ended by then never ends. -/
def free_hyp_pgds_loop (env : HypEnv) (valid : Nat → Bool) :
    Nat → KvmState → Nat → Nat → Option KvmState
  | 0, s, _, addr => if valid addr then none else some s
  | fuel + 1, s, pgdp, addr =>
    if valid addr then
      free_hyp_pgds_loop env valid fuel (unmap_range false s pgdp (env.KERN_TO_HYP addr) PGDIR_SIZE)
        pgdp ((addr + PGDIR_SIZE) % 2 ^ 32)
    else some s

/-- `free_hyp_pgds()`. -/
def free_hyp_pgds (env : HypEnv) (s : KvmState) (h : HypState) : Option (KvmState × HypState) :=
  let r := free_boot_hyp_pgd env s h
  match r.2.hyp_pgd with
  | some g =>
    (free_hyp_pgds_loop env env.virt_addr_valid 4 r.1 g env.PAGE_OFFSET).bind fun s1 =>
    (free_hyp_pgds_loop env env.is_vmalloc_addr 4 s1 g env.VMALLOC_START).map fun s2 =>
      (kfree s2 (some g), { r.2 with hyp_pgd := none })
  | none => some r

/-- The `out:` label of `kvm_mmu_init`: `free_hyp_pgds(); return err`. -/
def kvm_mmu_init_out (env : HypEnv) (s : KvmState) (h : HypState) (err : Int) :
    Option (KvmState × HypState × Int) :=
  (free_hyp_pgds env s h).map fun r => (r.1, r.2, err)

/-- The second half of `kvm_mmu_init` (mmu.c:951-996): the two top-level tables and the three
mappings. -/
def kvm_mmu_init_pgds (env : HypEnv) (s : KvmState) (h : HypState) :
    Option (KvmState × HypState × Int) :=
  let a := kzalloc_pgd s
  let b := kzalloc_pgd a.2
  let h1 := { h with hyp_pgd := a.1, boot_hyp_pgd := b.1 }
  match a.1, b.1 with
  | some run, some boot =>
    match __create_hyp_mappings b.2 boot h1.hyp_idmap_start h1.hyp_idmap_end
        (h1.hyp_idmap_start >>> PAGE_SHIFT) env.PAGE_HYP with
    | none => none
    | some (s1, err1) =>
      if err1 ≠ 0 then kvm_mmu_init_out env (s1.emit Event.pr_err) h1 err1
      else
        match __create_hyp_mappings s1 boot env.TRAMPOLINE_VA
            ((env.TRAMPOLINE_VA + PAGE_SIZE) % 2 ^ 32)
            (h1.hyp_idmap_start >>> PAGE_SHIFT) env.PAGE_HYP with
        | none => none
        | some (s2, err2) =>
          if err2 ≠ 0 then kvm_mmu_init_out env (s2.emit Event.pr_err) h1 err2
          else
            match __create_hyp_mappings s2 run env.TRAMPOLINE_VA
                ((env.TRAMPOLINE_VA + PAGE_SIZE) % 2 ^ 32)
                (h1.hyp_idmap_start >>> PAGE_SHIFT) env.PAGE_HYP with
            | none => none
            | some (s3, err3) =>
              if err3 ≠ 0 then kvm_mmu_init_out env (s3.emit Event.pr_err) h1 err3
              else some (s3, h1, 0)
  | _, _ => kvm_mmu_init_out env (b.2.emit Event.pr_err) h1 (-ENOMEM)

/-- `kvm_mmu_init()`: the state, the globals and the value returned.  `hyp_idmap_start` and
`hyp_idmap_end` are `unsigned long` (32 bits), `hyp_idmap_vector` is a `phys_addr_t`
(64 bits); the bytes that `memcpy` puts into the bounce page are not part of the state. -/
def kvm_mmu_init (env : HypEnv) (s : KvmState) (h : HypState) :
    Option (KvmState × HypState × Int) :=
  let start0 := env.virt_to_phys env.hyp_idmap_text_start % 2 ^ 32
  let end0 := env.virt_to_phys env.hyp_idmap_text_end % 2 ^ 32
  let vec0 := env.virt_to_phys env.kvm_hyp_init % 2 ^ 64
  let h0 := { h with hyp_idmap_start := start0, hyp_idmap_end := end0, hyp_idmap_vector := vec0 }
  if (start0 ^^^ end0) / PAGE_SIZE * PAGE_SIZE ≠ 0 then
    let len := (env.hyp_idmap_text_end + 2 ^ 32 - env.hyp_idmap_text_start) % 2 ^ 32
    match kmalloc_page s with
    | (none, s1) =>
      kvm_mmu_init_out env (s1.emit Event.pr_err) { h0 with init_bounce_page := none } (-ENOMEM)
    | (some page, s1) =>
      let phys_base := page <<< PAGE_SHIFT
      kvm_mmu_init_pgds env s1
        { h0 with
          init_bounce_page := some page
          hyp_idmap_vector := (vec0 + (phys_base + 2 ^ 64 - start0) % 2 ^ 64) % 2 ^ 64
          hyp_idmap_start := phys_base % 2 ^ 32
          hyp_idmap_end := (phys_base + len) % 2 ^ 32 }
  else kvm_mmu_init_pgds env s h0

end S2Mmu
namespace S2Mmu

/-- The environment of a kernel at `PAGE_OFFSET` 0xC0000000 on RAM at 0x80000000: the HYP
init code lies in 0xC0008100..0xC0008300 (physical 0x80008100..0x80008300, one page), the
trampoline page is the vectors page 0xFFFF0000. -/
def ex_hyp_env : HypEnv :=
  { hyp_idmap_text_start := 0xC0008100
    hyp_idmap_text_end := 0xC0008300
    kvm_hyp_init := 0xC0008120
    virt_to_phys := fun v => v - 0xC0000000 + 0x80000000
    TRAMPOLINE_VA := 0xFFFF0000
    PAGE_HYP := 1119
    PAGE_OFFSET := 0xC0000000
    virt_addr_valid := fun a => decide (0xC0000000 ≤ a ∧ a < 0xF0000000)
    VMALLOC_START := 0xF0000000
    is_vmalloc_addr := fun a => decide (0xF0000000 ≤ a ∧ a < 0xFF000000)
    KERN_TO_HYP := fun a => a }

/-- The environment of `ex_hyp_env` with the HYP init code in 0xC0008F00..0xC0009100, which
crosses a page boundary. -/
def ex_hyp_env_cross : HypEnv :=
  { ex_hyp_env with
    hyp_idmap_text_start := 0xC0008F00
    hyp_idmap_text_end := 0xC0009100
    kvm_hyp_init := 0xC0008F20 }

/-- The globals before `kvm_mmu_init`. -/
def ex_hyp_globals : HypState :=
  { boot_hyp_pgd := none, hyp_pgd := none, init_bounce_page := none
    hyp_idmap_start := 0, hyp_idmap_end := 0, hyp_idmap_vector := 0 }

/-- A machine whose allocator hands out the frames 16, 17, 32, 48, 33, 49, 34, 50, 35. -/
def ex_hyp_boot : KvmState :=
  KvmState.boot [some 16, some 17, some 32, some 48, some 33, some 49, some 34, some 50, some 35]

end S2Mmu
namespace S2Mmu

/-- A HYP tree seen as data: the top-level table at frame `root` has the pmd table `pm i`
behind descriptor `i`, that table has the pte table `pt i j` behind descriptor `j`, and
`lf i j k` is leaf `k` of that pte table; absent descriptors are zero. -/
def hyp_rep (s : KvmState) (root : Nat) (pm : Nat → Option Nat) (pt : Nat → Nat → Option Nat)
    (lf : Nat → Nat → Nat → Nat) : Prop :=
  (∀ i, i < 4 → s.mem root i = match pm i with
    | none => 0
    | some p => (p <<< 12) ||| 3) ∧
  (∀ i p, pm i = some p → p < 268435456 ∧ ∀ j, s.mem p j = match pt i j with
    | none => 0
    | some q => (q <<< 12) ||| 3) ∧
  (∀ i j p q, pm i = some p → pt i j = some q → q < 268435456 ∧ ∀ k, s.mem q k = lf i j k)

end S2Mmu

/-! # Theorems -/

namespace S2Mmu

/-! ## Descriptor arithmetic -/

theorem and3_eq_mod (x : Nat) : x &&& 3 = x % 4 := Nat.and_pow_two_sub_one_eq_mod x 2

theorem pfn_eq_div (x : Nat) : (x &&& 1099511627775) >>> 12 = x % 1099511627776 / 4096 := by
  have h := Nat.and_pow_two_sub_one_eq_mod x 40
  norm_num at h
  rw [h, Nat.shiftRight_eq_div_pow]

theorem pud_to_pfn_eq (x : Nat) : pud_to_pfn x = x % 1099511627776 / 4096 := by
  simp only [pud_to_pfn, PHYS_MASK, PAGE_SHIFT, pfn_eq_div]

theorem pmd_to_pfn_eq (x : Nat) : pmd_to_pfn x = x % 1099511627776 / 4096 := by
  simp only [pmd_to_pfn, PHYS_MASK, PAGE_SHIFT, pfn_eq_div]

theorem pte_to_pfn_eq (x : Nat) : pte_to_pfn x = x % 1099511627776 / 4096 := by
  simp only [pte_to_pfn, PHYS_MASK, PAGE_SHIFT, pfn_eq_div]

theorem pte_pfn_eq (x : Nat) : pte_pfn x = x % 1099511627776 / 4096 := by
  simp only [pte_pfn, PHYS_MASK, PAGE_SHIFT, pfn_eq_div]

theorem clear_low2_aux (x : Nat) :
    x &&& ((2^64 - 1) ^^^ (2^2 - 1)) = 2^2 * ((x % 2^64) >>> 2) := by
  apply Nat.eq_of_testBit_eq
  intro i
  rw [Nat.testBit_mul_pow_two, Nat.testBit_shiftRight, Nat.testBit_mod_two_pow,
    Nat.testBit_and, Nat.testBit_xor, Nat.testBit_two_pow_sub_one, Nat.testBit_two_pow_sub_one]
  by_cases h : i < 2
  · have h1 : ¬ (2 ≤ i) := by omega
    have h2 : i < 64 := by omega
    simp [h, h1, h2]
  · have h1 : 2 ≤ i := by omega
    have h2 : 2 + (i - 2) = i := by omega
    simp only [h, h1, h2, ge_iff_le, decide_True, decide_False, Bool.true_and, Bool.bne_false]
    by_cases h6 : i < 64 <;> simp [h6]

theorem clear_bits_3 (x : Nat) : clear_bits x 3 = x % 18446744073709551616 / 4 * 4 := by
  have h := clear_low2_aux x
  rw [Nat.shiftRight_eq_div_pow] at h
  unfold clear_bits
  norm_num at h ⊢
  omega

theorem set_rdonly_aux (x : Nat) : (x &&& ((2^64 - 1) ^^^ (2^6 ||| 2^7))) ||| 2^6
    = 2^8 * ((x % 2^64) >>> 8) + (2^6 * 1 + x % 2^6) := by
  apply Nat.eq_of_testBit_eq
  intro i
  have hb1 : x % 2^6 < 2^6 := Nat.mod_lt _ (by norm_num)
  have hb2 : 2^6 * 1 + x % 2^6 < 2^8 := by omega
  rw [Nat.testBit_mul_pow_two_add _ hb2, Nat.testBit_mul_pow_two_add _ hb1,
    Nat.testBit_or, Nat.testBit_and, Nat.testBit_xor, Nat.testBit_or,
    Nat.testBit_two_pow_sub_one, Nat.testBit_two_pow, Nat.testBit_two_pow,
    Nat.testBit_shiftRight, Nat.testBit_mod_two_pow, Nat.testBit_mod_two_pow]
  by_cases c1 : i < 6
  · have h1 : i < 8 := by omega
    have h2 : i < 64 := by omega
    have h3 : ¬ (6 = i) := by omega
    have h4 : ¬ (7 = i) := by omega
    simp [c1, h1, h2, h3, h4]
  · by_cases c2 : i = 6
    · subst c2; simp
    · by_cases c3 : i = 7
      · subst c3; simp; rfl
      · have h1 : ¬ (i < 8) := by omega
        have h3 : ¬ (6 = i) := by omega
        have h4 : ¬ (7 = i) := by omega
        have h5 : 8 + (i - 8) = i := by omega
        by_cases c4 : i < 64 <;> simp [c1, h1, h3, h4, h5, c4]

theorem set_rdonly_eq (x : Nat) : clear_bits x 192 ||| 64
    = x % 18446744073709551616 / 256 * 256 + 64 + x % 64 := by
  have h := set_rdonly_aux x
  rw [Nat.shiftRight_eq_div_pow] at h
  have e : (2^6 ||| 2^7 : Nat) = 192 := by decide
  rw [e] at h
  unfold clear_bits
  norm_num at h ⊢
  omega

theorem shl12_or3 (f : Nat) : (f <<< 12) ||| 3 = f * 4096 + 3 := by
  have h := Nat.mul_add_lt_is_or (i := 12) (b := 3) (by norm_num) f
  rw [Nat.shiftLeft_eq, Nat.mul_comm, ← h]

theorem or3_eq (x : Nat) : x ||| 3 = x / 4 * 4 + 3 := by
  have hx : x = 2^2 * (x / 4) + x % 4 := by norm_num; omega
  have h1 := Nat.mul_add_lt_is_or (i := 2) (b := x % 4) (Nat.mod_lt _ (by norm_num)) (x / 4)
  have h2 := Nat.mul_add_lt_is_or (i := 2) (b := 3) (by norm_num) (x / 4)
  have h3 : x % 4 ||| 3 = 3 := by
    have : x % 4 < 4 := Nat.mod_lt _ (by norm_num)
    interval_cases (x % 4) <;> rfl
  calc x ||| 3 = (2^2 * (x / 4) + x % 4) ||| 3 := by rw [← hx]
    _ = (2^2 * (x / 4) ||| x % 4) ||| 3 := by rw [h1]
    _ = 2^2 * (x / 4) ||| (x % 4 ||| 3) := by rw [Nat.lor_assoc]
    _ = 2^2 * (x / 4) ||| 3 := by rw [h3]
    _ = 2^2 * (x / 4) + 3 := by rw [← h2]
    _ = x / 4 * 4 + 3 := by norm_num; omega

theorem or_low12 (a b : Nat) (ha : a % 4096 = 0) :
    a ||| (b &&& 4095) = a + b % 4096 := by
  have hb : b &&& 4095 = b % 4096 := by
    have h := Nat.and_pow_two_sub_one_eq_mod b 12
    norm_num at h
    exact h
  have h1 := Nat.mul_add_lt_is_or (i := 12) (b := b % 4096) (Nat.mod_lt _ (by norm_num))
    (a / 4096)
  have h2 : 2^12 * (a / 4096) = a := by norm_num; omega
  rw [hb, ← h2, ← h1]

/-! ## The reserve -/

theorem mmu_topup_loop_spec (max : Int) :
    ∀ (fuel : Nat) (s : KvmState) (objs : List Nat), (max - objs.length).toNat ≤ fuel →
      ((mmu_topup_loop fuel s objs max).2.2 = 0 ↔
        ∀ i, i < (max - objs.length).toNat → ∃ p, s.page_alloc[i]? = some (some p)) ∧
      ((mmu_topup_loop fuel s objs max).2.2 = 0 →
        max ≤ ((mmu_topup_loop fuel s objs max).2.1.length : Int)) ∧
      ((mmu_topup_loop fuel s objs max).2.2 = 0 ∨
        (mmu_topup_loop fuel s objs max).2.2 = -ENOMEM) := by
  intro fuel
  induction fuel with
  | zero =>
    intro s objs h
    have h0 : (max - objs.length).toNat = 0 := by omega
    simp [mmu_topup_loop, h0]
    omega
  | succ n ih =>
    intro s objs h
    unfold mmu_topup_loop
    by_cases hlt : (objs.length : Int) < max
    · simp only [hlt, if_true]
      have hpos : (max - objs.length).toNat = (max - (objs.length + 1 : Nat)).toNat + 1 := by
        omega
      cases hpa : s.page_alloc with
      | nil =>
        simp [get_free_page, hpa]
        exact ⟨0, by omega⟩
      | cons a rest =>
        cases a with
        | none =>
          simp [get_free_page, hpa]
          exact ⟨0, by omega, by simp⟩
        | some p =>
          simp only [get_free_page, hpa]
          have key := ih { s with
              page_alloc := rest
              mem := fun f i => if f = p then 0 else s.mem f i
              page_count := fun f => if f = p then 1 else s.page_count f
              page_data := fun f => if f = p then List.replicate PAGE_SIZE 0 else s.page_data f
              trace := Event.get_free_page :: s.trace } (p :: objs)
            (by simp only [List.length_cons]; omega)
          obtain ⟨k1, k2, k3⟩ := key
          refine ⟨?_, k2, k3⟩
          rw [k1, hpos]
          simp only [List.length_cons]
          constructor
          · intro hall i hi
            cases i with
            | zero => exact ⟨p, by simp⟩
            | succ j =>
              have := hall j (by omega)
              simpa using this
          · intro hall i hi
            have := hall (i + 1) (by omega)
            simpa using this
    · simp only [hlt, if_false]
      have h0 : (max - objs.length).toNat = 0 := by omega
      simp [h0]
      omega

/-- C8 (as amended): for `min ≤ max ≤ KVM_NR_MEM_OBJS`, `mmu_topup_memory_cache` returns 0 or
`-ENOMEM`; it returns 0 exactly when the reserve already held `min` frames on entry or every
allocation of the refill up to `max` succeeded; a return of 0 implies that the reserve
holds at least `min` frames. -/
theorem C8_topup_result (s : KvmState) (cache : kvm_mmu_memory_cache) (min max : Int)
    (h1 : min ≤ max) (h2 : max ≤ KVM_NR_MEM_OBJS) :
    ∃ s1 c1 r, mmu_topup_memory_cache s cache min max = some (s1, c1, r) ∧
      (r = 0 ∨ r = -ENOMEM) ∧
      (r = 0 → min ≤ (c1.nobjs : Int)) ∧
      (r = 0 ↔ (min ≤ (cache.nobjs : Int) ∨
        ∀ i, i < (max - cache.nobjs).toNat → ∃ p, s.page_alloc[i]? = some (some p))) := by
  unfold mmu_topup_memory_cache
  simp only [kvm_mmu_memory_cache.nobjs]
  have h2' : ¬ (max > KVM_NR_MEM_OBJS) := by omega
  simp only [h2', if_false]
  by_cases hge : (cache.objects.length : Int) ≥ min
  · simp only [hge, if_true]
    exact ⟨s, cache, 0, rfl, Or.inl rfl, fun _ => hge, by simp [hge]⟩
  · simp only [hge, if_false]
    obtain ⟨k1, k2, k3⟩ := mmu_topup_loop_spec max (max - cache.objects.length).toNat s
      cache.objects (le_refl _)
    refine ⟨_, _, _, rfl, k3, ?_, ?_⟩
    · intro hr
      have := k2 hr
      show min ≤ ((mmu_topup_loop (max - cache.objects.length).toNat s cache.objects max).2.1.length
        : Int)
      omega
    · rw [k1]
      constructor
      · intro h; exact Or.inr h
      · intro h
        rcases h with h | h
        · exact h.elim
        · exact h

/-- C8 witness: an empty reserve topped up to [1, 2] with two successful allocations. -/
theorem C8_topup_result_witness :
    (1 : Int) ≤ 2 ∧ (2 : Int) ≤ KVM_NR_MEM_OBJS ∧
    ∃ s1 c1 r, mmu_topup_memory_cache (KvmState.boot [some 7, some 8]) { objects := [] } 1 2
        = some (s1, c1, r) ∧
      (r = 0 ∨ r = -ENOMEM) ∧
      (r = 0 → (1 : Int) ≤ (c1.nobjs : Int)) ∧
      (r = 0 ↔ ((1 : Int) ≤ ((kvm_mmu_memory_cache.mk []).nobjs : Int) ∨
        ∀ i, i < ((2 : Int) - (kvm_mmu_memory_cache.mk []).nobjs).toNat →
          ∃ p, (KvmState.boot [some 7, some 8]).page_alloc[i]? = some (some p))) :=
  ⟨by decide, by decide,
    C8_topup_result (KvmState.boot [some 7, some 8]) { objects := [] } 1 2 (by decide)
      (by decide)⟩

/-- C8 counterexample: an empty reserve, `min = 1`, `max = 2`, the first allocation succeeds
and the second fails: the count on return is 1, at least `min`, yet `-ENOMEM` is returned. -/
theorem C8_counterexample :
    ∃ s1 c1, mmu_topup_memory_cache (KvmState.boot [some 7, none]) { objects := [] } 1 2
        = some (s1, c1, -ENOMEM) ∧ (1 : Int) ≤ (c1.nobjs : Int) :=
  ⟨_, _, rfl, by decide⟩

/-! ## The fault dispatcher -/

/-- C9: a fault whose status is neither FSC_FAULT nor FSC_PERM, and a data abort with a
status other than FSC_FAULT on a GFN in no visible memslot, make `kvm_handle_guest_abort`
return `-EFAULT`; the state differs only by the diagnostic in the trace (no abort injected,
no MMIO emulation, tables, registry and pool untouched) and the VCPU with its reserve is
unchanged. -/
theorem C9_unsupported_fault (s : KvmState) (vcpu : kvm_vcpu)
    (h : (vcpu.fault_status ≠ FSC_FAULT ∧ vcpu.fault_status ≠ FSC_PERM) ∨
      (s.visible_gfn (vcpu.fault_ipa >>> PAGE_SHIFT) = false ∧ vcpu.is_iabt = false ∧
        vcpu.fault_status ≠ FSC_FAULT)) :
    kvm_handle_guest_abort s vcpu
      = some ({ s with trace := Event.pr_err :: s.trace }, vcpu, -EFAULT) := by
  unfold kvm_handle_guest_abort
  rcases h with h | ⟨hv, hi, hf⟩
  · rw [if_pos h]; rfl
  · by_cases hs : vcpu.fault_status ≠ FSC_FAULT ∧ vcpu.fault_status ≠ FSC_PERM
    · rw [if_pos hs]; rfl
    · rw [if_neg hs, if_pos hv, if_neg (by simp [hi]), if_pos hf]; rfl

/-- C9 witness: a data abort with fault status 8 on the boot state. -/
theorem C9_unsupported_fault_witness :
    ((vcpu_bad_status.fault_status ≠ FSC_FAULT ∧ vcpu_bad_status.fault_status ≠ FSC_PERM) ∨
      ((KvmState.boot []).visible_gfn (vcpu_bad_status.fault_ipa >>> PAGE_SHIFT) = false ∧
        vcpu_bad_status.is_iabt = false ∧ vcpu_bad_status.fault_status ≠ FSC_FAULT)) ∧
    kvm_handle_guest_abort (KvmState.boot []) vcpu_bad_status
      = some ({ KvmState.boot [] with trace := Event.pr_err :: (KvmState.boot []).trace },
          vcpu_bad_status, -EFAULT) :=
  ⟨Or.inl (by decide), C9_unsupported_fault (KvmState.boot []) vcpu_bad_status
    (Or.inl (by decide))⟩

/-- C10: for a supported fault status on a GFN in no visible memslot, an instruction abort
injects exactly one prefetch abort at the faulting VA and returns 1 without MMIO emulation;
a data abort with status FSC_FAULT calls MMIO emulation once, at
`fault_ipa | (hfar & 0xFFF)`, and returns its result; when `fault_ipa` is page aligned that
address lies in the page of `fault_ipa` and has the low 12 bits of the faulting VA. -/
theorem C10_unmapped_gfn (s : KvmState) (vcpu : kvm_vcpu)
    (hs : vcpu.fault_status = FSC_FAULT ∨ vcpu.fault_status = FSC_PERM)
    (hv : s.visible_gfn (vcpu.fault_ipa >>> PAGE_SHIFT) = false) :
    (vcpu.is_iabt = true →
      kvm_handle_guest_abort s vcpu
        = some ({ s with trace := Event.inject_pabt vcpu.hfar :: s.trace }, vcpu, 1)) ∧
    (vcpu.is_iabt = false → vcpu.fault_status = FSC_FAULT →
      kvm_handle_guest_abort s vcpu
        = some ({ s with trace :=
              Event.io_mem_abort (vcpu.fault_ipa ||| (vcpu.hfar &&& 0xFFF)) :: s.trace },
            vcpu, s.io_mem_abort (vcpu.fault_ipa ||| (vcpu.hfar &&& 0xFFF)))) ∧
    (vcpu.fault_ipa % PAGE_SIZE = 0 →
      (vcpu.fault_ipa ||| (vcpu.hfar &&& 0xFFF)) / PAGE_SIZE = vcpu.fault_ipa / PAGE_SIZE ∧
      (vcpu.fault_ipa ||| (vcpu.hfar &&& 0xFFF)) % PAGE_SIZE = vcpu.hfar % PAGE_SIZE) := by
  have hsup : ¬ (vcpu.fault_status ≠ FSC_FAULT ∧ vcpu.fault_status ≠ FSC_PERM) := by
    rcases hs with h | h <;> simp [h]
  refine ⟨?_, ?_, ?_⟩
  · intro hi
    unfold kvm_handle_guest_abort
    rw [if_neg hsup, if_pos hv, if_pos hi]; rfl
  · intro hi hf
    unfold kvm_handle_guest_abort
    rw [if_neg hsup, if_pos hv, if_neg (by simp [hi]), if_neg (by simp [hf])]; rfl
  · intro ha
    simp only [PAGE_SIZE] at ha ⊢
    rw [or_low12 _ _ ha]
    omega

/-- C10 witness: an instruction fetch at IPA 0x40001000 on the boot state, which has no
visible memslot. -/
theorem C10_unmapped_gfn_witness :
    (vcpu_iabt.fault_status = FSC_FAULT ∨ vcpu_iabt.fault_status = FSC_PERM) ∧
    (KvmState.boot []).visible_gfn (vcpu_iabt.fault_ipa >>> PAGE_SHIFT) = false ∧
    kvm_handle_guest_abort (KvmState.boot []) vcpu_iabt
      = some ({ KvmState.boot [] with
          trace := Event.inject_pabt vcpu_iabt.hfar :: (KvmState.boot []).trace },
        vcpu_iabt, 1) :=
  ⟨Or.inl (by decide), rfl,
    (C10_unmapped_gfn (KvmState.boot []) vcpu_iabt (Or.inl (by decide)) rfl).1 rfl⟩

end S2Mmu
namespace S2Mmu

/-! ## `stage2_set_pte`: the declining and the failing exits -/

/-- C3: with a NULL reserve, when the pud or the pmd entry on the path to `ipa` is absent or
an invalid-table sentinel, `stage2_set_pte` (and so `kvm_set_spte_handler`) returns 0 and
the state is the one before the call: no table entry, reference count, registry, pool,
dirty-log or unshare-bitmap change and no TLB invalidation. -/
theorem C3_null_reserve_declines (s : KvmState) (root ipa pte : Nat) (iomap : Bool)
    (hroot : s.pgd = some root)
    (h : (s.rd (pud_offset root ipa) = 0 ∨ ¬ pmd_table (s.rd (pud_offset root ipa))) ∨
      (s.rd (pmd_offset s (pud_offset root ipa) ipa) = 0 ∨
        ¬ pmd_table (s.rd (pmd_offset s (pud_offset root ipa) ipa)))) :
    stage2_set_pte s none ipa pte iomap = some (s, none, 0) ∧
    kvm_set_spte_handler s ipa pte = some (s, none, 0) := by
  have key : ∀ io, stage2_set_pte s none ipa pte io = some (s, none, 0) := by
    intro io
    unfold stage2_set_pte
    simp only [hroot]
    by_cases h1 : s.rd (pud_offset root ipa) = 0
    · simp [stage2_pud_level, h1]
    · by_cases h2 : pmd_table (s.rd (pud_offset root ipa))
      · have hp : stage2_pud_level s none ipa (pud_offset root ipa) = S2Step.cont s none := by
          simp [stage2_pud_level, h1, h2]
        simp only [hp]
        have h' : s.rd (pmd_offset s (pud_offset root ipa) ipa) = 0 ∨
            ¬ pmd_table (s.rd (pmd_offset s (pud_offset root ipa) ipa)) := by
          rcases h with (h | h) | h
          · exact absurd h h1
          · exact absurd h2 h
          · exact h
        by_cases h3 : s.rd (pmd_offset s (pud_offset root ipa) ipa) = 0
        · simp [stage2_pmd_level, h3]
        · have h4 : ¬ pmd_table (s.rd (pmd_offset s (pud_offset root ipa) ipa)) := by
            rcases h' with h' | h'
            · exact absurd h' h3
            · exact h'
          simp [stage2_pmd_level, h3, h4]
      · simp [stage2_pud_level, h1, h2]
  exact ⟨key iomap, key false⟩

/-- C2: for a VM whose cloning role is None and an `ipa` whose leaf is present,
`stage2_set_pte` with `iomap = true` returns `-EFAULT` and the state and the reserve are the
ones before the call.  The leaf is reached through valid table descriptors, or the reserve
is not NULL (as in `kvm_phys_addr_ioremap`, the caller that passes `iomap = true`). -/
theorem C2_iomap_present_efault (s : KvmState) (cache : Option kvm_mmu_memory_cache)
    (root ipa pte : Nat)
    (hroot : s.pgd = some root) (hrole : s.cloning_role = 0)
    (hleaf : ∃ v, walk_leaf s ipa = some v ∧ pte_present v)
    (hpath : cache ≠ none ∨ (pmd_table (s.rd (pud_offset root ipa)) ∧
      pmd_table (s.rd (pmd_offset s (pud_offset root ipa) ipa)))) :
    stage2_set_pte s cache ipa pte true = some (s, cache, -EFAULT) := by
  obtain ⟨v, hw, hv⟩ := hleaf
  simp only [walk_leaf, walk, walk_from, hroot] at hw
  by_cases h1 : s.rd (pud_offset root ipa) = 0
  · simp [h1] at hw
  · simp only [pud_none, h1, if_false] at hw
    by_cases h3 : s.rd (pmd_offset s (pud_offset root ipa) ipa) = 0
    · simp [h3] at hw
    · simp only [pmd_none, h3, if_false, Option.map_some', Option.some.injEq] at hw
      have hp : stage2_pud_level s cache ipa (pud_offset root ipa) = S2Step.cont s cache := by
        unfold stage2_pud_level
        rw [if_neg h1]
        by_cases h2 : pmd_table (s.rd (pud_offset root ipa))
        · simp [h2]
        · have hc : cache ≠ none := by
            rcases hpath with hc | hc
            · exact hc
            · exact absurd hc.1 h2
          simp [h2, hc, hrole]
      have hm : stage2_pmd_level s cache ipa (pmd_offset s (pud_offset root ipa) ipa)
          = S2Step.cont s cache := by
        unfold stage2_pmd_level
        rw [if_neg h3]
        by_cases h4 : pmd_table (s.rd (pmd_offset s (pud_offset root ipa) ipa))
        · simp [h4]
        · have hc : cache ≠ none := by
            rcases hpath with hc | hc
            · exact hc
            · exact absurd hc.2 h4
          simp [h4, hc, hrole]
      unfold stage2_set_pte
      simp only [hroot, hp, hm]
      rw [hw]
      simp [hv, hrole]

/-- C3 witness: an empty root, so the pud entry for IPA 0x40001000 is absent. -/
theorem C3_null_reserve_declines_witness :
    ex_empty_root.pgd = some 16 ∧
    ex_empty_root.rd (pud_offset 16 0x40001000) = 0 ∧
    stage2_set_pte ex_empty_root none 0x40001000 (0x99 * 4096 + 1151) false
      = some (ex_empty_root, none, 0) ∧
    kvm_set_spte_handler ex_empty_root 0x40001000 (0x99 * 4096 + 1151)
      = some (ex_empty_root, none, 0) :=
  ⟨rfl, rfl,
    C3_null_reserve_declines ex_empty_root 16 0x40001000 (0x99 * 4096 + 1151) false rfl
      (Or.inl (Or.inl rfl))⟩

/-- C2 witness: the VM that maps IPA 0x40001000, an I/O mapping requested on that IPA. -/
theorem C2_iomap_present_efault_witness :
    ex_mapped.pgd = some 16 ∧ ex_mapped.cloning_role = 0 ∧
    walk_leaf ex_mapped 0x40001000 = some (0x99 * 4096 + 1151) ∧
    pte_present (0x99 * 4096 + 1151) ∧
    stage2_set_pte ex_mapped (some { objects := [70, 71] }) 0x40001000 (0x55 * 4096 + 1151) true
      = some (ex_mapped, some { objects := [70, 71] }, -EFAULT) :=
  ⟨rfl, rfl, by decide, by decide,
    C2_iomap_present_efault ex_mapped (some { objects := [70, 71] }) 16 0x40001000
      (0x55 * 4096 + 1151) rfl rfl ⟨0x99 * 4096 + 1151, by decide, by decide⟩
      (Or.inl (by simp))⟩

end S2Mmu

namespace S2Mmu

/-! ## `unmap_range` -/

theorem zeroed_refl (s : KvmState) : zeroed s s := fun _ _ => Or.inl rfl

theorem zeroed_trans {s s1 s2 : KvmState} (h1 : zeroed s s1) (h2 : zeroed s1 s2) :
    zeroed s s2 := by
  intro f i
  rcases h2 f i with h | h
  · rw [h]; exact h1 f i
  · exact Or.inr h

theorem zeroed_of_mem_eq {s s1 s2 : KvmState} (h1 : zeroed s s1) (h2 : s2.mem = s1.mem) :
    zeroed s s2 := by
  intro f i; rw [h2]; exact h1 f i

theorem zeroed_wr_zero (s : KvmState) (p : EntryPtr) : zeroed s (s.wr p 0) := by
  intro f i
  simp only [KvmState.wr]
  by_cases h : f = p.frame ∧ i = p.idx
  · simp [h]
  · simp [h]

@[simp] theorem put_page_mem (s : KvmState) (f : Nat) : (put_page s f).mem = s.mem := rfl
@[simp] theorem free_page_mem (s : KvmState) (f : Nat) : (free_page s f).mem = s.mem := rfl
@[simp] theorem get_page_mem (s : KvmState) (f : Nat) : (get_page s f).mem = s.mem := rfl
@[simp] theorem emit_mem (s : KvmState) (e : Event) : (s.emit e).mem = s.mem := rfl
@[simp] theorem tlb_flush_mem (kvm : Bool) (s : KvmState) (a : Nat) :
    (kvm_tlb_flush_vmid_ipa kvm s a).mem = s.mem := by
  unfold kvm_tlb_flush_vmid_ipa; split <;> rfl

theorem rd_of_mem_eq {s s1 : KvmState} (h : s1.mem = s.mem) (p : EntryPtr) :
    s1.rd p = s.rd p := by
  simp [KvmState.rd, h]

theorem clear_pte_entry_mem (kvm : Bool) (s : KvmState) (pte : EntryPtr) (addr : Nat) :
    (clear_pte_entry kvm s pte addr).mem = s.mem ∨
    (clear_pte_entry kvm s pte addr).mem = (s.wr pte 0).mem := by
  unfold clear_pte_entry
  split
  · right; simp
  · left; rfl

theorem clear_pte_entry_not_present (kvm : Bool) (s : KvmState) (pte : EntryPtr) (addr : Nat) :
    ¬ pte_present ((clear_pte_entry kvm s pte addr).rd pte) := by
  unfold clear_pte_entry
  split
  · simp [KvmState.rd, KvmState.wr, pte_present]
  · assumption

theorem clear_pmd_entry_mem (kvm : Bool) (s : KvmState) (pmd : EntryPtr) (addr : Nat) :
    (clear_pmd_entry kvm s pmd addr).mem = (s.wr pmd 0).mem := by
  simp [clear_pmd_entry]

theorem clear_pud_entry_mem (kvm : Bool) (s : KvmState) (pud : EntryPtr) (addr : Nat) :
    (clear_pud_entry kvm s pud addr).mem = (s.wr pud 0).mem := by
  simp [clear_pud_entry]

theorem wr_rd_self (s : KvmState) (p : EntryPtr) (v : Nat) : (s.wr p v).rd p = v := by
  simp [KvmState.rd, KvmState.wr]

/-- A walk that succeeds after zeroing succeeded before, through the same entries. -/
theorem walk_from_zeroed {s s1 : KvmState} (h : zeroed s s1) (pgdp a : Nat) (p : EntryPtr)
    (hw : walk_from s1 pgdp a = some p) :
    walk_from s pgdp a = some p ∧
    s1.rd (pud_offset pgdp a) ≠ 0 ∧
    s1.rd (pmd_offset s (pud_offset pgdp a) a) ≠ 0 := by
  unfold walk_from at hw
  by_cases h1 : s1.rd (pud_offset pgdp a) = 0
  · simp [h1] at hw
  · have e1 : s1.rd (pud_offset pgdp a) = s.rd (pud_offset pgdp a) := by
      rcases h (pud_offset pgdp a).frame (pud_offset pgdp a).idx with e | e
      · exact e
      · exact absurd e h1
    have ep : pmd_offset s1 (pud_offset pgdp a) a = pmd_offset s (pud_offset pgdp a) a := by
      simp [pmd_offset, e1]
    simp only [pud_none, h1, if_false, ep] at hw
    by_cases h2 : s1.rd (pmd_offset s (pud_offset pgdp a) a) = 0
    · simp [h2] at hw
    · have e2 : s1.rd (pmd_offset s (pud_offset pgdp a) a)
          = s.rd (pmd_offset s (pud_offset pgdp a) a) := by
        rcases h (pmd_offset s (pud_offset pgdp a) a).frame
          (pmd_offset s (pud_offset pgdp a) a).idx with e | e
        · exact e
        · exact absurd e h2
      simp only [pmd_none, h2, if_false, Option.some.injEq] at hw
      refine ⟨?_, h1, h2⟩
      have h1' : ¬ s.rd (pud_offset pgdp a) = 0 := by rw [← e1]; exact h1
      have h2' : ¬ s.rd (pmd_offset s (pud_offset pgdp a) a) = 0 := by rw [← e2]; exact h2
      simp only [walk_from, pud_none, h1', if_false, pmd_none, h2', Option.some.injEq]
      rw [← hw]
      simp [pte_offset_kernel, e2]

/-- Zeroing descriptors maps nothing new. -/
theorem mapped_from_zeroed {s s1 : KvmState} (h : zeroed s s1) (pgdp a : Nat)
    (hm : mapped_from s1 pgdp a) : mapped_from s pgdp a := by
  obtain ⟨p, hw, hp⟩ := hm
  obtain ⟨hw0, _, _⟩ := walk_from_zeroed h pgdp a p hw
  refine ⟨p, hw0, ?_⟩
  rcases h p.frame p.idx with e | e
  · simpa [KvmState.rd, e] using hp
  · exfalso
    apply hp
    simp [KvmState.rd, e]

theorem pud_offset_congr (pgdp a b : Nat) (h : a / 1073741824 = b / 1073741824) :
    pud_offset pgdp a = pud_offset pgdp b := by
  simp [pud_offset, pgd_index, h]

theorem pmd_index_congr (a b : Nat) (h : a / 2097152 = b / 2097152) :
    pmd_index a = pmd_index b := by
  simp [pmd_index, h]

theorem pte_index_congr (a b : Nat) (h : a / 4096 = b / 4096) :
    pte_index a = pte_index b := by
  simp [pte_index, h]

theorem pud_addr_end_bounds (addr end_ : Nat) (h : addr < end_) :
    addr < pud_addr_end addr end_ ∧ pud_addr_end addr end_ ≤ end_ ∧
    (∀ a, addr ≤ a → a < pud_addr_end addr end_ → a / 1073741824 = addr / 1073741824) ∧
    (pud_addr_end addr end_ % 4096 = 0 ∨ pud_addr_end addr end_ = end_) := by
  unfold pud_addr_end
  simp only [PGDIR_SIZE]
  split
  · refine ⟨by omega, by omega, fun a h1 h2 => by omega, Or.inl (by omega)⟩
  · refine ⟨by omega, by omega, fun a h1 h2 => by omega, Or.inr rfl⟩

theorem pmd_addr_end_bounds (addr end_ : Nat) (h : addr < end_) :
    addr < pmd_addr_end addr end_ ∧ pmd_addr_end addr end_ ≤ end_ ∧
    (∀ a, addr ≤ a → a < pmd_addr_end addr end_ → a / 2097152 = addr / 2097152) ∧
    (pmd_addr_end addr end_ % 4096 = 0 ∨ pmd_addr_end addr end_ = end_) := by
  unfold pmd_addr_end
  simp only [PMD_SIZE]
  split
  · refine ⟨by omega, by omega, fun a h1 h2 => by omega, Or.inl (by omega)⟩
  · refine ⟨by omega, by omega, fun a h1 h2 => by omega, Or.inr rfl⟩

end S2Mmu
namespace S2Mmu

theorem walk_from_congr (s : KvmState) (pgdp a b : Nat) (h : a / 4096 = b / 4096) :
    walk_from s pgdp a = walk_from s pgdp b := by
  have h1 : a / 1073741824 = b / 1073741824 := by omega
  have h2 : a / 2097152 = b / 2097152 := by omega
  simp only [walk_from, pud_offset_congr pgdp a b h1, pmd_offset, pmd_index_congr a b h2,
    pte_offset_kernel, pte_index_congr a b h]

theorem unmap_range_step_spec (kvm : Bool) (s : KvmState) (pgdp addr end_ : Nat)
    (h : addr < end_) (hal : addr % 4096 = 0) :
    zeroed s (unmap_range_step kvm s pgdp addr end_).1 ∧
    addr < (unmap_range_step kvm s pgdp addr end_).2 ∧
    ((unmap_range_step kvm s pgdp addr end_).2 % 4096 = 0 ∨
      end_ ≤ (unmap_range_step kvm s pgdp addr end_).2) ∧
    ∀ a, addr ≤ a → a < (unmap_range_step kvm s pgdp addr end_).2 →
      ¬ mapped_from (unmap_range_step kvm s pgdp addr end_).1 pgdp a := by
  obtain ⟨pu1, pu2, pu3, pu4⟩ := pud_addr_end_bounds addr end_ h
  obtain ⟨pm1, pm2, pm3, pm4⟩ := pmd_addr_end_bounds addr end_ h
  have pu4' : pud_addr_end addr end_ % 4096 = 0 ∨ end_ ≤ pud_addr_end addr end_ := by
    rcases pu4 with e | e
    · exact Or.inl e
    · exact Or.inr (by omega)
  have pm4' : pmd_addr_end addr end_ % 4096 = 0 ∨ end_ ≤ pmd_addr_end addr end_ := by
    rcases pm4 with e | e
    · exact Or.inl e
    · exact Or.inr (by omega)
  unfold unmap_range_step
  by_cases h1 : s.rd (pud_offset pgdp addr) = 0
  · simp only [pud_none, h1, if_true]
    refine ⟨zeroed_refl s, pu1, pu4', ?_⟩
    rintro a ha1 ha2 ⟨p, hw, _⟩
    have := pu3 a ha1 ha2
    simp [walk_from, pud_offset_congr pgdp a addr this, h1] at hw
  · simp only [pud_none, h1, if_false]
    by_cases h2 : s.rd (pmd_offset s (pud_offset pgdp addr) addr) = 0
    · simp only [pmd_none, h2, if_true]
      refine ⟨zeroed_refl s, pm1, pm4', ?_⟩
      rintro a ha1 ha2 ⟨p, hw, _⟩
      have e2 := pm3 a ha1 ha2
      have e1 : a / 1073741824 = addr / 1073741824 := by omega
      simp [walk_from, pud_offset_congr pgdp a addr e1, h1, pmd_offset,
        pmd_index_congr a addr e2] at hw
      simp [pmd_offset] at h2
      exact hw.1 h2
    · simp only [pmd_none, h2, if_false]
      -- the leaf is cleared
      have hz1 : zeroed s (clear_pte_entry kvm s
          (pte_offset_kernel s (pmd_offset s (pud_offset pgdp addr) addr) addr) addr) := by
        rcases clear_pte_entry_mem kvm s
          (pte_offset_kernel s (pmd_offset s (pud_offset pgdp addr) addr) addr) addr with e | e
        · exact zeroed_of_mem_eq (zeroed_refl s) e
        · exact zeroed_of_mem_eq (zeroed_wr_zero s _) e
      have hwalk : walk_from s pgdp addr
          = some (pte_offset_kernel s (pmd_offset s (pud_offset pgdp addr) addr) addr) := by
        simp [walk_from, h1, h2]
      split
      · -- the pte table is empty: the pmd entry is cleared
        have hz2 : zeroed s (clear_pmd_entry kvm (clear_pte_entry kvm s
            (pte_offset_kernel s (pmd_offset s (pud_offset pgdp addr) addr) addr) addr)
            (pmd_offset s (pud_offset pgdp addr) addr) addr) :=
          zeroed_trans hz1 (zeroed_of_mem_eq (zeroed_wr_zero _ _) (clear_pmd_entry_mem _ _ _ _))
        have hpmd0 : (clear_pmd_entry kvm (clear_pte_entry kvm s
            (pte_offset_kernel s (pmd_offset s (pud_offset pgdp addr) addr) addr) addr)
            (pmd_offset s (pud_offset pgdp addr) addr) addr).rd
              (pmd_offset s (pud_offset pgdp addr) addr) = 0 := by
          rw [rd_of_mem_eq (clear_pmd_entry_mem _ _ _ _), wr_rd_self]
        split
        · -- the pmd table is empty too: the pud entry is cleared
          refine ⟨zeroed_trans hz2
            (zeroed_of_mem_eq (zeroed_wr_zero _ _) (clear_pud_entry_mem _ _ _ _)), pu1, pu4', ?_⟩
          rintro a ha1 ha2 ⟨p, hw, _⟩
          have e1 := pu3 a ha1 ha2
          have hz3 := zeroed_trans hz2
            (zeroed_of_mem_eq (zeroed_wr_zero _ _) (clear_pud_entry_mem kvm _
              (pud_offset pgdp addr) addr))
          obtain ⟨_, k1, _⟩ := walk_from_zeroed hz3 pgdp a p hw
          apply k1
          rw [pud_offset_congr pgdp a addr e1, rd_of_mem_eq (clear_pud_entry_mem _ _ _ _),
            wr_rd_self]
        · refine ⟨hz2, pm1, pm4', ?_⟩
          rintro a ha1 ha2 ⟨p, hw, _⟩
          have e2 := pm3 a ha1 ha2
          have e1 : a / 1073741824 = addr / 1073741824 := by omega
          obtain ⟨_, _, k2⟩ := walk_from_zeroed hz2 pgdp a p hw
          apply k2
          rw [pud_offset_congr pgdp a addr e1]
          have : pmd_offset s (pud_offset pgdp addr) a
              = pmd_offset s (pud_offset pgdp addr) addr := by
            simp [pmd_offset, pmd_index_congr a addr e2]
          rw [this]
          exact hpmd0
      · refine ⟨hz1, by simp, Or.inl (by simp; omega), ?_⟩
        rintro a ha1 ha2 ⟨p, hw, hp⟩
        simp only [PAGE_SIZE] at ha2
        have e : a / 4096 = addr / 4096 := by omega
        obtain ⟨k0, _, _⟩ := walk_from_zeroed hz1 pgdp a p hw
        rw [walk_from_congr s pgdp a addr e, hwalk] at k0
        simp only [Option.some.injEq] at k0
        rw [← k0] at hp
        exact clear_pte_entry_not_present kvm s _ addr hp

theorem unmap_range_loop_spec (kvm : Bool) (pgdp start end_ : Nat) :
    ∀ (fuel : Nat) (s : KvmState) (addr : Nat),
      end_ - addr ≤ fuel → (addr % 4096 = 0 ∨ end_ ≤ addr) → start ≤ addr →
      (∀ a, start ≤ a → a < addr → ¬ mapped_from s pgdp a) →
      zeroed s (unmap_range_loop fuel kvm s pgdp addr end_) ∧
      ∀ a, start ≤ a → a < end_ →
        ¬ mapped_from (unmap_range_loop fuel kvm s pgdp addr end_) pgdp a := by
  intro fuel
  induction fuel with
  | zero =>
    intro s addr hf hal hs hinv
    simp only [unmap_range_loop]
    exact ⟨zeroed_refl s, fun a h1 h2 => hinv a h1 (by omega)⟩
  | succ n ih =>
    intro s addr hf hal hs hinv
    unfold unmap_range_loop
    by_cases hlt : addr < end_
    · simp only [hlt, if_true]
      have hal' : addr % 4096 = 0 := by
        rcases hal with e | e
        · exact e
        · omega
      obtain ⟨k1, k2, k3, k4⟩ := unmap_range_step_spec kvm s pgdp addr end_ hlt hal'
      have := ih (unmap_range_step kvm s pgdp addr end_).1
        (unmap_range_step kvm s pgdp addr end_).2 (by omega) k3 (by omega)
        (by
          intro a h1 h2
          by_cases hc : a < addr
          · exact fun hm => hinv a h1 hc (mapped_from_zeroed k1 pgdp a hm)
          · exact k4 a (by omega) h2)
      exact ⟨zeroed_trans k1 this.1, this.2⟩
    · simp only [hlt, if_false]
      exact ⟨zeroed_refl s, fun a h1 h2 => hinv a h1 (by omega)⟩

/-- C4: after `unmap_range(kvm, pgdp, start, size)` with a page-aligned `start`, the walk
from `pgdp` reaches no present leaf for any address of `[start, start + size)`. -/
theorem C4_unmap_range_clears (kvm : Bool) (s : KvmState) (pgdp start size : Nat)
    (hal : start % PAGE_SIZE = 0) (a : Nat) (h1 : start ≤ a) (h2 : a < start + size) :
    ¬ mapped_from (unmap_range kvm s pgdp start size) pgdp a := by
  unfold unmap_range
  exact (unmap_range_loop_spec kvm pgdp start (start + size) size s start (by omega)
    (Or.inl hal) (le_refl _) (fun a h1 h2 => by omega)).2 a h1 h2

/-- C4 witness: unmapping the page at IPA 0x40001000 of the VM that maps it. -/
theorem C4_unmap_range_clears_witness :
    0x40001000 % PAGE_SIZE = 0 ∧ 0x40001000 ≤ 0x40001000 ∧ 0x40001000 < 0x40001000 + 4096 ∧
    mapped_from ex_mapped 16 0x40001000 ∧
    ¬ mapped_from (unmap_range true ex_mapped 16 0x40001000 4096) 16 0x40001000 :=
  ⟨by decide, by decide, by decide, ⟨⟨48, 1⟩, by decide, by decide⟩,
    C4_unmap_range_clears true ex_mapped 16 0x40001000 4096 (by decide) 0x40001000
      (by decide) (by decide)⟩

end S2Mmu
namespace S2Mmu

/-! ## `kvm_set_memslot_readonly` -/

theorem stage2_rdonly_eq (v : Nat) :
    stage2_rdonly v = v % 18446744073709551616 / 256 * 256 + 64 + v % 64 := by
  simp only [stage2_rdonly, L_PTE_S2_RDWR, L_PTE_S2_RDONLY, set_rdonly_eq]

theorem stage2_rdonly_ne_zero (v : Nat) : stage2_rdonly v ≠ 0 := by
  rw [stage2_rdonly_eq]; omega

theorem stage2_rdonly_idem (v : Nat) : stage2_rdonly (stage2_rdonly v) = stage2_rdonly v := by
  simp only [stage2_rdonly_eq]; omega

theorem stage2_rdonly_pfn (v : Nat) : pmd_to_pfn (stage2_rdonly v) = pmd_to_pfn v := by
  simp only [pmd_to_pfn_eq, stage2_rdonly_eq]; omega

theorem and_192_aux (x : Nat) : x &&& (2^6 ||| 2^7) = 2^6 * ((x >>> 6) % 2^2) := by
  apply Nat.eq_of_testBit_eq
  intro i
  rw [Nat.testBit_mul_pow_two, Nat.testBit_mod_two_pow, Nat.testBit_shiftRight,
    Nat.testBit_and, Nat.testBit_or, Nat.testBit_two_pow, Nat.testBit_two_pow]
  by_cases c1 : i < 6
  · have h1 : ¬ (6 ≤ i) := by omega
    have h3 : ¬ (6 = i) := by omega
    have h4 : ¬ (7 = i) := by omega
    simp [h1, h3, h4]
  · by_cases c2 : i = 6
    · subst c2; simp
    · by_cases c3 : i = 7
      · subst c3; simp
      · have h1 : 6 ≤ i := by omega
        have h2 : ¬ (i - 6 < 2) := by omega
        have h3 : ¬ (6 = i) := by omega
        have h4 : ¬ (7 = i) := by omega
        simp [h1, h2, h3, h4]

theorem and_192 (x : Nat) : x &&& 192 = x / 64 % 4 * 64 := by
  have h := and_192_aux x
  rw [Nat.shiftRight_eq_div_pow] at h
  have e : (2^6 ||| 2^7 : Nat) = 192 := by decide
  rw [e] at h
  norm_num at h ⊢
  omega

theorem pte_present_iff (v : Nat) : pte_present v ↔ v % 4 ≠ 0 := by
  simp only [pte_present, L_PTE_PRESENT, and3_eq_mod]

theorem pmd_table_iff (v : Nat) : pmd_table v ↔ v % 4 = 3 := by
  simp only [pmd_table, PMD_TYPE_MASK, PMD_TYPE_TABLE, and3_eq_mod]

theorem rdonly_rel_refl (s : KvmState) : rdonly_rel s s := ⟨rfl, rfl, fun _ _ => Or.inl rfl⟩

theorem rdonly_rel_rd {s s1 : KvmState} (h : rdonly_rel s s1) (p : EntryPtr) :
    s1.rd p = s.rd p ∨ (s.rd p ≠ 0 ∧ s1.rd p = stage2_rdonly (s.rd p)) :=
  h.2.2 p.frame p.idx

theorem rdonly_rel_zero_iff {s s1 : KvmState} (h : rdonly_rel s s1) (p : EntryPtr) :
    s1.rd p = 0 ↔ s.rd p = 0 := by
  rcases rdonly_rel_rd h p with e | ⟨e1, e2⟩
  · rw [e]
  · rw [e2]
    constructor
    · intro h0; exact absurd h0 (stage2_rdonly_ne_zero _)
    · intro h0; exact absurd h0 e1

theorem rdonly_rel_pfn {s s1 : KvmState} (h : rdonly_rel s s1) (p : EntryPtr) :
    pmd_to_pfn (s1.rd p) = pmd_to_pfn (s.rd p) := by
  rcases rdonly_rel_rd h p with e | ⟨_, e2⟩
  · rw [e]
  · rw [e2, stage2_rdonly_pfn]

theorem rdonly_rel_rdonly {s s1 : KvmState} (h : rdonly_rel s s1) (p : EntryPtr) :
    stage2_rdonly (s1.rd p) = stage2_rdonly (s.rd p) := by
  rcases rdonly_rel_rd h p with e | ⟨_, e2⟩
  · rw [e]
  · rw [e2, stage2_rdonly_idem]

theorem walk_from_rdonly_rel {s s1 : KvmState} (h : rdonly_rel s s1) (pgdp a : Nat) :
    walk_from s1 pgdp a = walk_from s pgdp a := by
  have e1 := rdonly_rel_zero_iff h (pud_offset pgdp a)
  have ep : pmd_offset s1 (pud_offset pgdp a) a = pmd_offset s (pud_offset pgdp a) a := by
    have := rdonly_rel_pfn h (pud_offset pgdp a)
    simp only [pmd_offset, pud_to_pfn, pmd_to_pfn] at this ⊢
    rw [this]
  have e2 := rdonly_rel_zero_iff h (pmd_offset s (pud_offset pgdp a) a)
  have eq : pte_offset_kernel s1 (pmd_offset s (pud_offset pgdp a) a) a
      = pte_offset_kernel s (pmd_offset s (pud_offset pgdp a) a) a := by
    have := rdonly_rel_pfn h (pmd_offset s (pud_offset pgdp a) a)
    simp only [pte_offset_kernel, this]
  simp only [walk_from, pud_none, pmd_none, ep, eq, e1, e2]

theorem set_readonly_step_spec (s0 s : KvmState) (pgdp addr end_ : Nat)
    (hrel : rdonly_rel s0 s) (h : addr < end_) (hal : addr % 4096 = 0) :
    rdonly_rel s0 (set_readonly_step s pgdp addr end_).1 ∧
    addr < (set_readonly_step s pgdp addr end_).2 ∧
    ((set_readonly_step s pgdp addr end_).2 % 4096 = 0 ∨
      end_ ≤ (set_readonly_step s pgdp addr end_).2) ∧
    (∀ a, addr ≤ a → a < (set_readonly_step s pgdp addr end_).2 →
      s0.visible_gfn (a >>> PAGE_SHIFT) = true →
      ∀ p, walk_from s0 pgdp a = some p → s0.rd p ≠ 0 →
        (set_readonly_step s pgdp addr end_).1.rd p = stage2_rdonly (s0.rd p)) ∧
    (∀ p, s0.rd p ≠ 0 → s.rd p = stage2_rdonly (s0.rd p) →
        (set_readonly_step s pgdp addr end_).1.rd p = stage2_rdonly (s0.rd p)) := by
  obtain ⟨pu1, pu2, pu3, pu4⟩ := pud_addr_end_bounds addr end_ h
  obtain ⟨pm1, pm2, pm3, pm4⟩ := pmd_addr_end_bounds addr end_ h
  have pu4' : pud_addr_end addr end_ % 4096 = 0 ∨ end_ ≤ pud_addr_end addr end_ := by
    rcases pu4 with e | e
    · exact Or.inl e
    · exact Or.inr (by omega)
  have pm4' : pmd_addr_end addr end_ % 4096 = 0 ∨ end_ ≤ pmd_addr_end addr end_ := by
    rcases pm4 with e | e
    · exact Or.inl e
    · exact Or.inr (by omega)
  have hw0 : ∀ a, walk_from s0 pgdp a = walk_from s pgdp a :=
    fun a => (walk_from_rdonly_rel hrel pgdp a).symm
  unfold set_readonly_step
  by_cases h1 : s.rd (pud_offset pgdp addr) = 0
  · simp only [pud_none, h1, if_true]
    refine ⟨hrel, pu1, pu4', ?_, fun p _ hp => hp⟩
    intro a ha1 ha2 _ p hw
    have := pu3 a ha1 ha2
    rw [hw0] at hw
    simp [walk_from, pud_offset_congr pgdp a addr this, h1] at hw
  · simp only [pud_none, h1, if_false]
    by_cases h2 : s.rd (pmd_offset s (pud_offset pgdp addr) addr) = 0
    · simp only [pmd_none, h2, if_true]
      refine ⟨hrel, pm1, pm4', ?_, fun p _ hp => hp⟩
      intro a ha1 ha2 _ p hw
      have e2 := pm3 a ha1 ha2
      have e1 : a / 1073741824 = addr / 1073741824 := by omega
      rw [hw0] at hw
      simp [walk_from, pud_offset_congr pgdp a addr e1, h1, pmd_offset,
        pmd_index_congr a addr e2] at hw
      simp [pmd_offset] at h2
      exact absurd h2 hw.1
    · simp only [pmd_none, h2, if_false]
      have hwalk : walk_from s pgdp addr
          = some (pte_offset_kernel s (pmd_offset s (pud_offset pgdp addr) addr) addr) := by
        simp [walk_from, h1, h2]
      generalize hq : pte_offset_kernel s (pmd_offset s (pud_offset pgdp addr) addr) addr = q
        at hwalk
      have hvis : s.visible_gfn = s0.visible_gfn := hrel.1
      split
      · rename_i hc
        have hmem : ∀ p : EntryPtr,
            (kvm_tlb_flush_vmid_ipa true (s.wr q (stage2_rdonly (s.rd q))) addr).rd p
              = if p = q then stage2_rdonly (s0.rd q) else s.rd p := by
          intro p
          rw [rd_of_mem_eq (tlb_flush_mem _ _ _)]
          by_cases hpq : p = q
          · rw [hpq, wr_rd_self, if_pos rfl, rdonly_rel_rdonly hrel]
          · rw [if_neg hpq]
            simp only [KvmState.rd, KvmState.wr]
            have : ¬ (p.frame = q.frame ∧ p.idx = q.idx) := by
              intro hh; apply hpq
              cases p; cases q; simp_all
            simp [this]
        have hq0 : s0.rd q ≠ 0 := by
          intro h0
          exact hc.2 ((rdonly_rel_zero_iff hrel q).2 h0)
        refine ⟨⟨?_, ?_, ?_⟩, by simp, Or.inl (by simp; omega), ?_, ?_⟩
        · show (kvm_tlb_flush_vmid_ipa true _ addr).visible_gfn = s0.visible_gfn
          simp [kvm_tlb_flush_vmid_ipa, KvmState.emit, KvmState.wr, hvis]
        · show (kvm_tlb_flush_vmid_ipa true _ addr).pgd = s0.pgd
          simp [kvm_tlb_flush_vmid_ipa, KvmState.emit, KvmState.wr, hrel.2.1]
        · intro f i
          show (kvm_tlb_flush_vmid_ipa true (s.wr q (stage2_rdonly (s.rd q))) addr).rd ⟨f, i⟩
              = s0.rd ⟨f, i⟩ ∨ (s0.rd ⟨f, i⟩ ≠ 0 ∧
                (kvm_tlb_flush_vmid_ipa true (s.wr q (stage2_rdonly (s.rd q))) addr).rd ⟨f, i⟩
                  = stage2_rdonly (s0.rd ⟨f, i⟩))
          rw [hmem]
          by_cases hpq : (⟨f, i⟩ : EntryPtr) = q
          · rw [if_pos hpq, hpq]
            exact Or.inr ⟨hq0, rfl⟩
          · rw [if_neg hpq]
            exact hrel.2.2 f i
        · intro a ha1 ha2 _ p hw _
          simp only [PAGE_SIZE] at ha2
          have e : a / 4096 = addr / 4096 := by omega
          rw [hw0, walk_from_congr s pgdp a addr e, hwalk] at hw
          simp only [Option.some.injEq] at hw
          dsimp only
          rw [hmem, ← hw, if_pos rfl]
        · intro p hp0 hp
          dsimp only
          rw [hmem]
          by_cases hpq : p = q
          · rw [if_pos hpq, hpq]
          · rw [if_neg hpq]; exact hp
      · rename_i hc
        refine ⟨hrel, by simp, Or.inl (by simp; omega), ?_, fun p _ hp => hp⟩
        intro a ha1 ha2 hv p hw hp0
        simp only [PAGE_SIZE] at ha2
        have e : a / 4096 = addr / 4096 := by omega
        rw [hw0, walk_from_congr s pgdp a addr e, hwalk] at hw
        simp only [Option.some.injEq] at hw
        exfalso
        apply hc
        constructor
        · rw [hvis]
          simp only [PAGE_SHIFT, Nat.shiftRight_eq_div_pow] at hv ⊢
          norm_num at hv ⊢
          rw [← e]; exact hv
        · rw [hw]
          intro h0
          exact hp0 ((rdonly_rel_zero_iff hrel p).1 h0)

theorem set_readonly_loop_spec (s0 : KvmState) (pgdp start end_ : Nat) :
    ∀ (fuel : Nat) (s : KvmState) (addr : Nat),
      end_ - addr ≤ fuel → (addr % 4096 = 0 ∨ end_ ≤ addr) → start ≤ addr →
      rdonly_rel s0 s →
      (∀ a, start ≤ a → a < addr → s0.visible_gfn (a >>> PAGE_SHIFT) = true →
        ∀ p, walk_from s0 pgdp a = some p → s0.rd p ≠ 0 → s.rd p = stage2_rdonly (s0.rd p)) →
      rdonly_rel s0 (set_readonly_loop fuel s pgdp addr end_) ∧
      ∀ a, start ≤ a → a < end_ → s0.visible_gfn (a >>> PAGE_SHIFT) = true →
        ∀ p, walk_from s0 pgdp a = some p → s0.rd p ≠ 0 →
          (set_readonly_loop fuel s pgdp addr end_).rd p = stage2_rdonly (s0.rd p) := by
  intro fuel
  induction fuel with
  | zero =>
    intro s addr hf hal hs hrel hinv
    simp only [set_readonly_loop]
    exact ⟨hrel, fun a h1 h2 => hinv a h1 (by omega)⟩
  | succ n ih =>
    intro s addr hf hal hs hrel hinv
    unfold set_readonly_loop
    by_cases hlt : addr < end_
    · simp only [hlt, if_true]
      have hal' : addr % 4096 = 0 := by
        rcases hal with e | e
        · exact e
        · omega
      obtain ⟨k1, k2, k3, k4, k5⟩ := set_readonly_step_spec s0 s pgdp addr end_ hrel hlt hal'
      exact ih (set_readonly_step s pgdp addr end_).1
        (set_readonly_step s pgdp addr end_).2 (by omega) k3 (by omega) k1
        (by
          intro a h1 h2 hv p hw hp0
          by_cases hc : a < addr
          · exact k5 p hp0 (hinv a h1 hc hv p hw hp0)
          · exact k4 a (by omega) h2 hv p hw hp0)
    · simp only [hlt, if_false]
      exact ⟨hrel, fun a h1 h2 => hinv a h1 (by omega)⟩

/-- One iteration of the loop of `kvm_set_memslot_readonly` stores to no descriptor but the
non-zero leaf the walk reaches at `addr`, and to that one only when the GFN of `addr` is
visible. -/
theorem set_readonly_step_frame (s0 s : KvmState) (pgdp addr end_ : Nat)
    (hrel : rdonly_rel s0 s) (p : EntryPtr)
    (hp : s0.visible_gfn (addr >>> PAGE_SHIFT) = true → walk_from s0 pgdp addr = some p →
      s0.rd p = 0) :
    (set_readonly_step s pgdp addr end_).1.rd p = s.rd p := by
  have hw0 : walk_from s0 pgdp addr = walk_from s pgdp addr :=
    (walk_from_rdonly_rel hrel pgdp addr).symm
  unfold set_readonly_step
  by_cases h1 : s.rd (pud_offset pgdp addr) = 0
  · simp only [pud_none, h1, if_true]
  · simp only [pud_none, h1, if_false]
    by_cases h2 : s.rd (pmd_offset s (pud_offset pgdp addr) addr) = 0
    · simp only [pmd_none, h2, if_true]
    · simp only [pmd_none, h2, if_false]
      have hwalk : walk_from s pgdp addr
          = some (pte_offset_kernel s (pmd_offset s (pud_offset pgdp addr) addr) addr) := by
        simp [walk_from, h1, h2]
      generalize hq : pte_offset_kernel s (pmd_offset s (pud_offset pgdp addr) addr) addr = q
        at hwalk
      split
      · rename_i hc
        dsimp only
        rw [rd_of_mem_eq (tlb_flush_mem _ _ _)]
        by_cases hpq : p = q
        · exfalso
          apply hc.2
          rw [← hpq]
          apply (rdonly_rel_zero_iff hrel p).2
          apply hp
          · rw [← hrel.1]; exact hc.1
          · rw [hw0, hwalk, hpq]
        · simp only [KvmState.rd, KvmState.wr]
          have : ¬ (p.frame = q.frame ∧ p.idx = q.idx) := by
            intro hh; apply hpq
            cases p; cases q; simp_all
          simp [this]
      · rfl

/-- The loop of `kvm_set_memslot_readonly` leaves every descriptor as it is that is not the
non-zero leaf of a page of the range whose GFN is visible. -/
theorem set_readonly_loop_frame (s0 : KvmState) (pgdp start end_ : Nat) (p : EntryPtr)
    (hp : ∀ a, start ≤ a → a < end_ → a % 4096 = 0 →
      s0.visible_gfn (a >>> PAGE_SHIFT) = true → walk_from s0 pgdp a = some p → s0.rd p = 0) :
    ∀ (fuel : Nat) (s : KvmState) (addr : Nat),
      (addr % 4096 = 0 ∨ end_ ≤ addr) → start ≤ addr → rdonly_rel s0 s →
      s.rd p = s0.rd p →
      (set_readonly_loop fuel s pgdp addr end_).rd p = s0.rd p := by
  intro fuel
  induction fuel with
  | zero =>
    intro s addr _ _ _ h
    simp only [set_readonly_loop]
    exact h
  | succ n ih =>
    intro s addr hal hs hrel h
    unfold set_readonly_loop
    by_cases hlt : addr < end_
    · simp only [hlt, if_true]
      have hal' : addr % 4096 = 0 := by
        rcases hal with e | e
        · exact e
        · omega
      obtain ⟨k1, k2, k3, _, _⟩ := set_readonly_step_spec s0 s pgdp addr end_ hrel hlt hal'
      have kf := set_readonly_step_frame s0 s pgdp addr end_ hrel p (hp addr hs hlt hal')
      exact ih (set_readonly_step s pgdp addr end_).1
        (set_readonly_step s pgdp addr end_).2 k3 (by omega) k1 (by rw [kf, h])
    · simp only [hlt, if_false]
      exact h

/-- C7 (as amended): for a VM with a stage-2 root and a memslot `m` whose size in bytes fits
the 32-bit `unsigned long` of `npages << PAGE_SHIFT`, `kvm_set_memslot_readonly(m)` returns,
and (1) for every GFN of `m` that `kvm_is_visible_gfn` accepts, the walk reaches the same
leaf entry, and a leaf that was not zero (in particular a present one) is its old value with
HAP[2:1] set to read-only: it has S2-RDONLY and not S2-RDWR, and its PFN, its low six bits
and its bits from bit 8 up are unchanged; (2) every descriptor that is not the non-zero leaf
of a visible GFN of `m` holds the value it had; (3) every walk reaches the entry it reached
before; (4) so the leaf of a GFN that is not visible, when no visible GFN of `m` walks to the
same entry, is left as it is. -/
theorem C7_memslot_readonly (s : KvmState) (m : kvm_memory_slot) (root : Nat)
    (hroot : s.pgd = some root) (hn : m.npages * PAGE_SIZE < 2 ^ 32) :
    ∃ s1, kvm_set_memslot_readonly s m = some s1 ∧
      (∀ gfn, m.base_gfn ≤ gfn → gfn < m.base_gfn + m.npages → s.visible_gfn gfn = true →
        walk s1 (gfn <<< PAGE_SHIFT) = walk s (gfn <<< PAGE_SHIFT) ∧
        ∀ v, walk_leaf s (gfn <<< PAGE_SHIFT) = some v → v ≠ 0 →
          walk_leaf s1 (gfn <<< PAGE_SHIFT) = some (stage2_rdonly v) ∧
          stage2_rdonly v &&& L_PTE_S2_RDWR = L_PTE_S2_RDONLY ∧
          pte_pfn (stage2_rdonly v) = pte_pfn v ∧
          stage2_rdonly v % 64 = v % 64 ∧
          stage2_rdonly v / 256 = v % 18446744073709551616 / 256 ∧
          (pte_present (stage2_rdonly v) ↔ pte_present v)) ∧
      (∀ p : EntryPtr,
        (∀ g, m.base_gfn ≤ g → g < m.base_gfn + m.npages → s.visible_gfn g = true →
          walk s (g <<< PAGE_SHIFT) = some p → s.rd p = 0) →
        s1.rd p = s.rd p) ∧
      (∀ a, walk s1 a = walk s a) ∧
      (∀ gfn, s.visible_gfn gfn = false →
        (∀ g, m.base_gfn ≤ g → g < m.base_gfn + m.npages → s.visible_gfn g = true →
          walk s (g <<< PAGE_SHIFT) ≠ walk s (gfn <<< PAGE_SHIFT)) →
        walk_leaf s1 (gfn <<< PAGE_SHIFT) = walk_leaf s (gfn <<< PAGE_SHIFT)) := by
  simp only [PAGE_SIZE] at hn
  have e2 : m.npages * 4096 % 2 ^ 32 = m.npages * 4096 := Nat.mod_eq_of_lt hn
  have e3 : ∀ g : Nat, g <<< PAGE_SHIFT = g * 4096 := by
    intro g; simp [Nat.shiftLeft_eq]
  have hgfn : ∀ g : Nat, (g * 4096) >>> PAGE_SHIFT = g := by
    intro g
    simp only [PAGE_SHIFT, Nat.shiftRight_eq_div_pow]
    omega
  unfold kvm_set_memslot_readonly
  simp only [hroot, e3, e2]
  have hrel0 : rdonly_rel s (s.emit Event.mmu_lock) := ⟨rfl, rfl, fun _ _ => Or.inl rfl⟩
  obtain ⟨k1, k2⟩ := set_readonly_loop_spec s root (m.base_gfn * 4096)
    (m.base_gfn * 4096 + m.npages * 4096) (m.npages * 4096)
    (s.emit Event.mmu_lock) (m.base_gfn * 4096) (by omega)
    (Or.inl (by omega)) (le_refl _) hrel0
    (fun a h1 h2 => by omega)
  have kf := fun (p : EntryPtr) hp => set_readonly_loop_frame s root (m.base_gfn * 4096)
    (m.base_gfn * 4096 + m.npages * 4096) p hp (m.npages * 4096)
    (s.emit Event.mmu_lock) (m.base_gfn * 4096) (Or.inl (by omega)) (le_refl _) hrel0 rfl
  generalize set_readonly_loop (m.npages * 4096) (s.emit Event.mmu_lock) root
    (m.base_gfn * 4096) (m.base_gfn * 4096 + m.npages * 4096) = L at k1 k2 kf
  have hrelL : rdonly_rel s (L.emit Event.mmu_unlock) := ⟨k1.1, k1.2.1, k1.2.2⟩
  have hpL : (L.emit Event.mmu_unlock).pgd = some root := by rw [hrelL.2.1, hroot]
  have hwalk : ∀ a, walk (L.emit Event.mmu_unlock) a = walk s a := by
    intro a
    simp only [walk, hpL, hroot]
    exact walk_from_rdonly_rel hrelL root a
  have hframe : ∀ p : EntryPtr,
      (∀ g, m.base_gfn ≤ g → g < m.base_gfn + m.npages → s.visible_gfn g = true →
        walk s (g * 4096) = some p → s.rd p = 0) →
      (L.emit Event.mmu_unlock).rd p = s.rd p := by
    intro p hp
    show L.rd p = s.rd p
    apply kf p
    intro a ha1 ha2 hal hv hw
    have ea : a / 4096 * 4096 = a := by omega
    have hv' : s.visible_gfn (a / 4096) = true := by
      rw [← hgfn (a / 4096), ea]; exact hv
    apply hp (a / 4096) (by omega) (by omega) hv'
    rw [ea]
    simp only [walk, hroot]
    exact hw
  refine ⟨_, rfl, ?_, hframe, hwalk, ?_⟩
  · intro gfn h1 h2 hv
    have k2' := k2 (gfn * 4096) (by omega) (by omega) (by rw [hgfn]; exact hv)
    have hwfL := walk_from_rdonly_rel hrelL root (gfn * 4096)
    refine ⟨hwalk _, ?_⟩
    intro v hw hv0
    simp only [walk_leaf, walk, hroot] at hw
    cases hwf : walk_from s root (gfn * 4096) with
    | none => simp [hwf] at hw
    | some p =>
      simp only [hwf, Option.map_some', Option.some.injEq] at hw
      have hfin := k2' p hwf (by rw [hw]; exact hv0)
      refine ⟨?_, ?_, ?_, ?_, ?_, ?_⟩
      · simp only [walk_leaf, walk, hpL]
        rw [hwfL, hwf]
        simp only [Option.map_some', Option.some.injEq]
        rw [← hw]
        exact hfin
      · simp only [L_PTE_S2_RDWR, L_PTE_S2_RDONLY, and_192, stage2_rdonly_eq]; omega
      · simp only [pte_pfn_eq, stage2_rdonly_eq]; omega
      · simp only [stage2_rdonly_eq]; omega
      · simp only [stage2_rdonly_eq]; omega
      · simp only [pte_present_iff, stage2_rdonly_eq]; omega
  · intro gfn _ hne
    simp only [walk_leaf, hwalk]
    cases hwf : walk s (gfn * 4096) with
    | none => rfl
    | some p =>
      simp only [Option.map_some', Option.some.injEq]
      apply hframe p
      intro g h1 h2 hv hw
      exact absurd (hw.trans hwf.symm) (hne g h1 h2 hv)

/-- C7 witness: the memslot `ex_slot` of sixteen pages, in the VM whose GFNs are visible
(the writable leaf of GFN 0x40001 becomes read-only). -/
theorem C7_memslot_readonly_witness :
    (ex_mapped_rw true).pgd = some 16 ∧ ex_slot.npages * PAGE_SIZE < 2 ^ 32 ∧
    ∃ s1, kvm_set_memslot_readonly (ex_mapped_rw true) ex_slot = some s1 ∧
      (∀ gfn, ex_slot.base_gfn ≤ gfn → gfn < ex_slot.base_gfn + ex_slot.npages →
        (ex_mapped_rw true).visible_gfn gfn = true →
        walk s1 (gfn <<< PAGE_SHIFT) = walk (ex_mapped_rw true) (gfn <<< PAGE_SHIFT) ∧
        ∀ v, walk_leaf (ex_mapped_rw true) (gfn <<< PAGE_SHIFT) = some v → v ≠ 0 →
          walk_leaf s1 (gfn <<< PAGE_SHIFT) = some (stage2_rdonly v) ∧
          stage2_rdonly v &&& L_PTE_S2_RDWR = L_PTE_S2_RDONLY ∧
          pte_pfn (stage2_rdonly v) = pte_pfn v ∧
          stage2_rdonly v % 64 = v % 64 ∧
          stage2_rdonly v / 256 = v % 18446744073709551616 / 256 ∧
          (pte_present (stage2_rdonly v) ↔ pte_present v)) ∧
      (∀ p : EntryPtr,
        (∀ g, ex_slot.base_gfn ≤ g → g < ex_slot.base_gfn + ex_slot.npages →
          (ex_mapped_rw true).visible_gfn g = true →
          walk (ex_mapped_rw true) (g <<< PAGE_SHIFT) = some p → (ex_mapped_rw true).rd p = 0) →
        s1.rd p = (ex_mapped_rw true).rd p) ∧
      (∀ a, walk s1 a = walk (ex_mapped_rw true) a) ∧
      (∀ gfn, (ex_mapped_rw true).visible_gfn gfn = false →
        (∀ g, ex_slot.base_gfn ≤ g → g < ex_slot.base_gfn + ex_slot.npages →
          (ex_mapped_rw true).visible_gfn g = true →
          walk (ex_mapped_rw true) (g <<< PAGE_SHIFT)
            ≠ walk (ex_mapped_rw true) (gfn <<< PAGE_SHIFT)) →
        walk_leaf s1 (gfn <<< PAGE_SHIFT)
          = walk_leaf (ex_mapped_rw true) (gfn <<< PAGE_SHIFT)) :=
  ⟨rfl, by decide, C7_memslot_readonly (ex_mapped_rw true) ex_slot 16 rfl (by decide)⟩

/-- C7 counterexample: GFN 0x40001 lies in the memslot `ex_slot` and its leaf is present and
S2-RDWR, but `kvm_is_visible_gfn` rejects the GFN: after `kvm_set_memslot_readonly` the leaf
is unchanged, still S2-RDWR. -/
theorem C7_counterexample :
    ex_slot.base_gfn ≤ 0x40001 ∧ 0x40001 < ex_slot.base_gfn + ex_slot.npages ∧
    walk_leaf (ex_mapped_rw false) 0x40001000 = some (0x99 * 4096 + 1279) ∧
    pte_present (0x99 * 4096 + 1279) ∧
    (kvm_set_memslot_readonly (ex_mapped_rw false) ex_slot).bind
        (fun s1 => walk_leaf s1 0x40001000) = some (0x99 * 4096 + 1279) ∧
    (0x99 * 4096 + 1279) &&& L_PTE_S2_RDWR = L_PTE_S2_RDWR := by
  refine ⟨by decide, by decide, by decide, by decide, ?_, by decide⟩
  decide

end S2Mmu
namespace S2Mmu

/-! ## Copy-on-access table duplication -/

theorem same_vm_refl (s : KvmState) : same_vm s s := ⟨rfl, rfl, rfl, rfl, rfl⟩

theorem same_vm_trans {s t u : KvmState} (h1 : same_vm s t) (h2 : same_vm t u) :
    same_vm s u :=
  ⟨h2.1.trans h1.1, h2.2.1.trans h1.2.1, h2.2.2.1.trans h1.2.2.1,
    h2.2.2.2.1.trans h1.2.2.2.1, h2.2.2.2.2.trans h1.2.2.2.2⟩

theorem duplicate_pmd_step_spec (new old : Nat) (hne : new ≠ old) (s : KvmState) (n : Nat) :
    (∀ f i, f ≠ new → f ≠ old → (duplicate_pmd_step new old s n).mem f i = s.mem f i) ∧
    (∀ i, (duplicate_pmd_step new old s n).mem new i
      = if i = n ∧ s.mem old n ≠ 0 then clear_bits (s.mem old n) 3 else s.mem new i) ∧
    (∀ i, (duplicate_pmd_step new old s n).mem old i
      = if i = n ∧ s.mem old n ≠ 0 then clear_bits (s.mem old n) 3 else s.mem old i) ∧
    (s.mem old n ≠ 0 →
      pmd_to_pfn (clear_bits (s.mem old n) 3) ∈ (duplicate_pmd_step new old s n).shared_pfn_list) ∧
    (∀ x, x ∈ s.shared_pfn_list → x ∈ (duplicate_pmd_step new old s n).shared_pfn_list) ∧
    same_vm s (duplicate_pmd_step new old s n) := by
  unfold duplicate_pmd_step
  by_cases h : s.mem old n = 0
  · simp [h, same_vm_refl]
  · simp only [ne_eq, h, not_false_eq_true, if_true, and_true]
    refine ⟨?_, ?_, ?_, ?_, ?_, ?_⟩
    · intro f i h1 h2
      simp [get_page, add_shared_pfn, KvmState.wr, h1, h2]
    · intro i
      by_cases hi : i = n
      · simp [get_page, add_shared_pfn, KvmState.wr, hi, hne]
      · simp [get_page, add_shared_pfn, KvmState.wr, hi, hne]
    · intro i
      have hne' : old ≠ new := fun e => hne e.symm
      by_cases hi : i = n
      · simp [get_page, add_shared_pfn, KvmState.wr, hi, hne']
      · simp [get_page, add_shared_pfn, KvmState.wr, hi, hne']
    · intro _
      simp [get_page, add_shared_pfn, KvmState.wr, hne]
    · intro x hx
      simp [get_page, add_shared_pfn, KvmState.wr, hx]
    · exact ⟨rfl, rfl, rfl, rfl, rfl⟩

theorem duplicate_pmd_fold_spec (new old : Nat) (hne : new ≠ old) (s : KvmState) :
    ∀ n : Nat,
    (∀ f i, f ≠ new → f ≠ old →
      ((List.range n).foldl (duplicate_pmd_step new old) s).mem f i = s.mem f i) ∧
    (∀ i, ((List.range n).foldl (duplicate_pmd_step new old) s).mem new i
      = if i < n ∧ s.mem old i ≠ 0 then clear_bits (s.mem old i) 3 else s.mem new i) ∧
    (∀ i, ((List.range n).foldl (duplicate_pmd_step new old) s).mem old i
      = if i < n ∧ s.mem old i ≠ 0 then clear_bits (s.mem old i) 3 else s.mem old i) ∧
    (∀ i, i < n → s.mem old i ≠ 0 →
      pmd_to_pfn (clear_bits (s.mem old i) 3)
        ∈ ((List.range n).foldl (duplicate_pmd_step new old) s).shared_pfn_list) ∧
    (∀ x, x ∈ s.shared_pfn_list →
      x ∈ ((List.range n).foldl (duplicate_pmd_step new old) s).shared_pfn_list) ∧
    same_vm s ((List.range n).foldl (duplicate_pmd_step new old) s) := by
  intro n
  induction n with
  | zero => simp [same_vm_refl]
  | succ n ih =>
    rw [List.range_succ, List.foldl_append]
    simp only [List.foldl_cons, List.foldl_nil]
    obtain ⟨a1, a2, a3, a4, a5, a6⟩ := ih
    generalize (List.range n).foldl (duplicate_pmd_step new old) s = t at a1 a2 a3 a4 a5 a6
    obtain ⟨b1, b2, b3, b4, b5, b6⟩ := duplicate_pmd_step_spec new old hne t n
    have hold : t.mem old n = s.mem old n := by
      rw [a3]; simp
    refine ⟨?_, ?_, ?_, ?_, ?_, same_vm_trans a6 b6⟩
    · intro f i h1 h2
      rw [b1 f i h1 h2, a1 f i h1 h2]
    · intro i
      rw [b2, a2, hold]
      by_cases hi : i = n
      · subst hi; simp
      · have : (i < n + 1) = (i < n) := by
          apply propext; constructor <;> intro h <;> omega
        simp [hi, this]
    · intro i
      rw [b3, hold, a3]
      by_cases hi : i = n
      · subst hi; simp
      · have : (i < n + 1) = (i < n) := by
          apply propext; constructor <;> intro h <;> omega
        simp [hi, this]
    · intro i hi h0
      by_cases hin : i = n
      · subst hin
        rw [← hold] at h0 ⊢
        exact b4 h0
      · exact b5 _ (a4 i (by omega) h0)
    · intro x hx
      exact b5 _ (a5 x hx)

theorem duplicate_pte_step_eq : duplicate_pte_step = duplicate_pmd_step := rfl

end S2Mmu
namespace S2Mmu

theorem del_shared_pfn_mem (s : KvmState) (pfn : Nat) : (del_shared_pfn s pfn).mem = s.mem := by
  unfold del_shared_pfn; split <;> rfl

theorem del_shared_pfn_same_vm (s : KvmState) (pfn : Nat) : same_vm s (del_shared_pfn s pfn) := by
  unfold del_shared_pfn; split <;> exact ⟨rfl, rfl, rfl, rfl, rfl⟩

theorem pfn_populate (f : Nat) (h : f < 268435456) :
    ((f <<< 12) ||| 3) % 1099511627776 / 4096 = f := by
  rw [shl12_or3]; omega

theorem populate_ne_zero (f : Nat) : (f <<< 12) ||| 3 ≠ 0 := by
  rw [shl12_or3]; omega

theorem pfn_or3 (x : Nat) : (x ||| 3) % 1099511627776 / 4096 = x % 1099511627776 / 4096 := by
  rw [or3_eq]; omega

theorem or3_ne_zero (x : Nat) : x ||| 3 ≠ 0 := by
  rw [or3_eq]; omega

theorem pfn_clear3 (x : Nat) :
    clear_bits x 3 % 1099511627776 / 4096 = x % 1099511627776 / 4096 := by
  rw [clear_bits_3]; omega

theorem clear3_not_table (x : Nat) : ¬ pmd_table (clear_bits x 3) := by
  rw [pmd_table_iff, clear_bits_3]; omega

theorem clear3_not_present (x : Nat) : ¬ pte_present (clear_bits x 3) := by
  rw [pte_present_iff, clear_bits_3]; omega

theorem pmd_index_lt (a : Nat) : pmd_index a < 512 := by
  simp only [pmd_index, PTRS_PER_PMD]; omega

theorem pte_index_lt (a : Nat) : pte_index a < 512 := by
  simp only [pte_index, PTRS_PER_PTE]; omega

theorem duplicate_pmd_spec (new old : Nat) (hne : new ≠ old) (s : KvmState) :
    (∀ f i, f ≠ new → f ≠ old →
      (duplicate_pmd_and_set_non_present s new old).mem f i = s.mem f i) ∧
    (∀ i, (duplicate_pmd_and_set_non_present s new old).mem new i
      = if i < PTRS_PER_PMD ∧ s.mem old i ≠ 0 then clear_bits (s.mem old i) 3
        else s.mem new i) ∧
    (∀ i, (duplicate_pmd_and_set_non_present s new old).mem old i
      = if i < PTRS_PER_PMD ∧ s.mem old i ≠ 0 then clear_bits (s.mem old i) 3
        else s.mem old i) ∧
    (∀ i, i < PTRS_PER_PMD → s.mem old i ≠ 0 →
      pmd_to_pfn (clear_bits (s.mem old i) 3)
        ∈ (duplicate_pmd_and_set_non_present s new old).shared_pfn_list) ∧
    (∀ x, x ∈ s.shared_pfn_list →
      x ∈ (duplicate_pmd_and_set_non_present s new old).shared_pfn_list) ∧
    same_vm s (duplicate_pmd_and_set_non_present s new old) := by
  unfold duplicate_pmd_and_set_non_present
  exact duplicate_pmd_fold_spec new old hne s PTRS_PER_PMD

theorem duplicate_pte_spec (new old : Nat) (hne : new ≠ old) (s : KvmState) :
    (∀ f i, f ≠ new → f ≠ old →
      (duplicate_pte_and_set_non_present s new old).mem f i = s.mem f i) ∧
    (∀ i, (duplicate_pte_and_set_non_present s new old).mem new i
      = if i < PTRS_PER_PTE ∧ s.mem old i ≠ 0 then clear_bits (s.mem old i) 3
        else s.mem new i) ∧
    (∀ i, (duplicate_pte_and_set_non_present s new old).mem old i
      = if i < PTRS_PER_PTE ∧ s.mem old i ≠ 0 then clear_bits (s.mem old i) 3
        else s.mem old i) ∧
    (∀ i, i < PTRS_PER_PTE → s.mem old i ≠ 0 →
      pmd_to_pfn (clear_bits (s.mem old i) 3)
        ∈ (duplicate_pte_and_set_non_present s new old).shared_pfn_list) ∧
    (∀ x, x ∈ s.shared_pfn_list →
      x ∈ (duplicate_pte_and_set_non_present s new old).shared_pfn_list) ∧
    same_vm s (duplicate_pte_and_set_non_present s new old) := by
  unfold duplicate_pte_and_set_non_present
  rw [duplicate_pte_step_eq]
  exact duplicate_pmd_fold_spec new old hne s PTRS_PER_PTE

/-- The shared branch of `handle_coa_pud`: the pud points to the fresh copy `f1` of the old
pmd table `P`, whose entries are the old ones with the table-type bits cleared. -/
theorem handle_coa_pud_shared (s : KvmState) (gpa : Nat) (pud : EntryPtr) (f1 : Nat)
    (rest : List Nat)
    (hsh : is_pfn_shared s (pud_to_pfn (s.rd pud)))
    (h1 : f1 ≠ pud_to_pfn (s.rd pud)) (h2 : f1 ≠ pud.frame) :
    ∃ s1, handle_coa_pud s (some { objects := f1 :: rest }) gpa pud
        = some (s1, some { objects := rest }) ∧
      same_vm s s1 ∧
      s1.rd pud = (f1 <<< 12) ||| 3 ∧
      (∀ i, s1.mem f1 i = if i < 512 ∧ s.mem (pud_to_pfn (s.rd pud)) i ≠ 0
        then clear_bits (s.mem (pud_to_pfn (s.rd pud)) i) 3 else s.mem f1 i) ∧
      (∀ f i, f ≠ f1 → f ≠ pud_to_pfn (s.rd pud) → f ≠ pud.frame → s1.mem f i = s.mem f i) ∧
      (∀ i, i < 512 → s.mem (pud_to_pfn (s.rd pud)) i ≠ 0 →
        pmd_to_pfn (clear_bits (s.mem (pud_to_pfn (s.rd pud)) i) 3) ∈ s1.shared_pfn_list) := by
  generalize hP : pud_to_pfn (s.rd pud) = P at hsh h1
  obtain ⟨a1, a2, _, a4, _, a6⟩ := duplicate_pmd_spec f1 P h1 (del_shared_pfn s P)
  have hres : handle_coa_pud s (some { objects := f1 :: rest }) gpa pud
      = some (pud_populate (duplicate_pmd_and_set_non_present (del_shared_pfn s P) f1 P)
          pud f1, some { objects := rest }) := by
    simp only [handle_coa_pud, hP, hsh, if_true, mmu_memory_cache_alloc]
  rw [hres]
  simp only [del_shared_pfn_mem, PTRS_PER_PMD] at a1 a2 a4
  generalize duplicate_pmd_and_set_non_present (del_shared_pfn s P) f1 P = D at a1 a2 a4 a6
  refine ⟨_, rfl, ?_, ?_, ?_, ?_, ?_⟩
  · exact same_vm_trans (del_shared_pfn_same_vm s P)
      (same_vm_trans a6 ⟨rfl, rfl, rfl, rfl, rfl⟩)
  · simp [pud_populate, wr_rd_self]
  · intro i
    rw [← a2 i]
    simp [pud_populate, KvmState.wr, h2]
  · intro f i g1 g2 g3
    rw [← a1 f i g1 g2]
    simp [pud_populate, KvmState.wr, g3]
  · intro i hi h0
    exact a4 i hi h0

/-- The shared branch of `handle_coa_pmd`: the pmd points to the fresh copy `g` of the old
pte table `Q`, whose leaves are the old ones with the present bits cleared. -/
theorem handle_coa_pmd_shared (s : KvmState) (gpa : Nat) (pmd : EntryPtr) (g : Nat)
    (rest : List Nat)
    (hsh : is_pfn_shared s (pmd_to_pfn (s.rd pmd)))
    (h1 : g ≠ pmd_to_pfn (s.rd pmd)) (h2 : g ≠ pmd.frame) :
    ∃ s1, handle_coa_pmd s (some { objects := g :: rest }) gpa pmd
        = some (s1, some { objects := rest }) ∧
      same_vm s s1 ∧
      s1.rd pmd = (g <<< 12) ||| 3 ∧
      (∀ i, s1.mem g i = if i < 512 ∧ s.mem (pmd_to_pfn (s.rd pmd)) i ≠ 0
        then clear_bits (s.mem (pmd_to_pfn (s.rd pmd)) i) 3 else s.mem g i) ∧
      (∀ f i, f ≠ g → f ≠ pmd_to_pfn (s.rd pmd) → f ≠ pmd.frame → s1.mem f i = s.mem f i) ∧
      (∀ i, i < 512 → s.mem (pmd_to_pfn (s.rd pmd)) i ≠ 0 →
        pmd_to_pfn (clear_bits (s.mem (pmd_to_pfn (s.rd pmd)) i) 3) ∈ s1.shared_pfn_list) := by
  generalize hQ : pmd_to_pfn (s.rd pmd) = Q at hsh h1
  obtain ⟨a1, a2, _, a4, _, a6⟩ := duplicate_pte_spec g Q h1 (del_shared_pfn s Q)
  have hres : handle_coa_pmd s (some { objects := g :: rest }) gpa pmd
      = some (kvm_tlb_flush_vmid_ipa true (pmd_populate_kernel
          (duplicate_pte_and_set_non_present (del_shared_pfn s Q) g Q) pmd g) gpa,
          some { objects := rest }) := by
    simp only [handle_coa_pmd, hQ, hsh, if_true, mmu_memory_cache_alloc]
  rw [hres]
  simp only [del_shared_pfn_mem, PTRS_PER_PTE] at a1 a2 a4
  generalize duplicate_pte_and_set_non_present (del_shared_pfn s Q) g Q = D at a1 a2 a4 a6
  refine ⟨_, rfl, ?_, ?_, ?_, ?_, ?_⟩
  · exact same_vm_trans (del_shared_pfn_same_vm s Q)
      (same_vm_trans a6 ⟨rfl, rfl, rfl, rfl, rfl⟩)
  · rw [rd_of_mem_eq (tlb_flush_mem _ _ _)]
    simp [pmd_populate_kernel, wr_rd_self]
  · intro i
    rw [← a2 i, tlb_flush_mem]
    simp [pmd_populate_kernel, KvmState.wr, h2]
  · intro f i g1 g2 g3
    rw [← a1 f i g1 g2, tlb_flush_mem]
    simp [pmd_populate_kernel, KvmState.wr, g3]
  · intro i hi h0
    have := a4 i hi h0
    simpa [kvm_tlb_flush_vmid_ipa, KvmState.emit, pmd_populate_kernel, KvmState.wr] using this

end S2Mmu
namespace S2Mmu

/-! ## `stage2_set_pte`: the three levels -/

/-- Level 1 with a non-NULL reserve of two fresh frames: the walk goes on, the pud entry is
there afterwards, and either the pmd table is the fresh frame `f1` (the pud was absent, or
a shared sentinel whose table was duplicated) or it is the old one. -/
theorem stage2_pud_level_spec (s : KvmState) (ipa : Nat) (pud : EntryPtr) (f1 f2 : Nat)
    (rest : List Nat)
    (z1 : ∀ i, s.mem f1 i = 0) (z2 : ∀ i, s.mem f2 i = 0)
    (n12 : f1 ≠ f2) (n1R : f1 ≠ pud.frame) (n2R : f2 ≠ pud.frame) (lt1 : f1 < 268435456)
    (sepP : s.rd pud ≠ 0 → pud_to_pfn (s.rd pud) ≠ pud.frame ∧
      pud_to_pfn (s.rd pud) ≠ f1 ∧ pud_to_pfn (s.rd pud) ≠ f2)
    (sepQ : s.rd pud ≠ 0 → s.mem (pud_to_pfn (s.rd pud)) (pmd_index ipa) ≠ 0 →
      pmd_to_pfn (s.mem (pud_to_pfn (s.rd pud)) (pmd_index ipa)) ≠ pud.frame ∧
      pmd_to_pfn (s.mem (pud_to_pfn (s.rd pud)) (pmd_index ipa)) ≠ pud_to_pfn (s.rd pud) ∧
      pmd_to_pfn (s.mem (pud_to_pfn (s.rd pud)) (pmd_index ipa)) ≠ f1) :
    ∃ s1 c1, stage2_pud_level s (some { objects := f1 :: f2 :: rest }) ipa pud
        = S2Step.cont s1 (some c1) ∧
      same_vm s s1 ∧ s1.rd pud ≠ 0 ∧
      ((c1 = { objects := f2 :: rest } ∧ pud_to_pfn (s1.rd pud) = f1 ∧
          (∀ i, s1.mem f2 i = 0) ∧
          (s1.mem f1 (pmd_index ipa) = 0 ∨
            (s.rd pud ≠ 0 ∧ s.mem (pud_to_pfn (s.rd pud)) (pmd_index ipa) ≠ 0 ∧
              s.cloning_role ≠ 0 ∧
              s1.mem f1 (pmd_index ipa)
                = clear_bits (s.mem (pud_to_pfn (s.rd pud)) (pmd_index ipa)) 3 ∧
              pmd_to_pfn (clear_bits (s.mem (pud_to_pfn (s.rd pud)) (pmd_index ipa)) 3)
                ∈ s1.shared_pfn_list ∧
              (∀ i, s1.mem (pmd_to_pfn (s.mem (pud_to_pfn (s.rd pud)) (pmd_index ipa))) i
                = s.mem (pmd_to_pfn (s.mem (pud_to_pfn (s.rd pud)) (pmd_index ipa))) i)))) ∨
       (c1 = { objects := f1 :: f2 :: rest } ∧ s.rd pud ≠ 0 ∧
          pud_to_pfn (s1.rd pud) = pud_to_pfn (s.rd pud) ∧
          (∀ f i, f ≠ pud.frame → s1.mem f i = s.mem f i) ∧
          s1.shared_pfn_list = s.shared_pfn_list)) := by
  by_cases h0 : s.rd pud = 0
  · -- absent: a fresh pmd table
    refine ⟨get_page (pud_populate s pud f1) pud.frame, { objects := f2 :: rest }, ?_,
      ⟨rfl, rfl, rfl, rfl, rfl⟩, ?_, Or.inl ⟨rfl, ?_, ?_, Or.inl ?_⟩⟩
    · simp [stage2_pud_level, h0, mmu_memory_cache_alloc]
    · rw [rd_of_mem_eq (get_page_mem _ _)]
      simp only [pud_populate, wr_rd_self, PAGE_SHIFT, PMD_TYPE_TABLE]
      exact populate_ne_zero f1
    · rw [rd_of_mem_eq (get_page_mem _ _)]
      simp only [pud_populate, wr_rd_self, PAGE_SHIFT, PMD_TYPE_TABLE, pud_to_pfn_eq]
      exact pfn_populate f1 lt1
    · intro i
      simp [pud_populate, KvmState.wr, n2R, z2]
    · simp [pud_populate, KvmState.wr, n1R, z1]
  · obtain ⟨p1, p2, p3⟩ := sepP h0
    have kept_same : ∃ s1 c1, S2Step.cont s (some { objects := f1 :: f2 :: rest })
          = S2Step.cont s1 (some c1) ∧
        same_vm s s1 ∧ s1.rd pud ≠ 0 ∧
        ((c1 = { objects := f2 :: rest } ∧ pud_to_pfn (s1.rd pud) = f1 ∧
            (∀ i, s1.mem f2 i = 0) ∧
            (s1.mem f1 (pmd_index ipa) = 0 ∨
              (s.rd pud ≠ 0 ∧ s.mem (pud_to_pfn (s.rd pud)) (pmd_index ipa) ≠ 0 ∧
                s.cloning_role ≠ 0 ∧
                s1.mem f1 (pmd_index ipa)
                  = clear_bits (s.mem (pud_to_pfn (s.rd pud)) (pmd_index ipa)) 3 ∧
                pmd_to_pfn (clear_bits (s.mem (pud_to_pfn (s.rd pud)) (pmd_index ipa)) 3)
                  ∈ s1.shared_pfn_list ∧
                (∀ i, s1.mem (pmd_to_pfn (s.mem (pud_to_pfn (s.rd pud)) (pmd_index ipa))) i
                  = s.mem (pmd_to_pfn (s.mem (pud_to_pfn (s.rd pud)) (pmd_index ipa))) i)))) ∨
         (c1 = { objects := f1 :: f2 :: rest } ∧ s.rd pud ≠ 0 ∧
            pud_to_pfn (s1.rd pud) = pud_to_pfn (s.rd pud) ∧
            (∀ f i, f ≠ pud.frame → s1.mem f i = s.mem f i) ∧
            s1.shared_pfn_list = s.shared_pfn_list)) :=
      ⟨s, _, rfl, same_vm_refl s, h0, Or.inr ⟨rfl, h0, rfl, fun _ _ _ => rfl, rfl⟩⟩
    by_cases ht : pmd_table (s.rd pud)
    · have : stage2_pud_level s (some { objects := f1 :: f2 :: rest }) ipa pud
          = S2Step.cont s (some { objects := f1 :: f2 :: rest }) := by
        simp [stage2_pud_level, h0, ht]
      rw [this]; exact kept_same
    · by_cases hr : s.cloning_role = 0
      · have : stage2_pud_level s (some { objects := f1 :: f2 :: rest }) ipa pud
            = S2Step.cont s (some { objects := f1 :: f2 :: rest }) := by
          simp [stage2_pud_level, h0, ht, hr]
        rw [this]; exact kept_same
      · by_cases hsh : is_pfn_shared s (pud_to_pfn (s.rd pud))
        · -- shared sentinel: the pmd table is duplicated into f1
          obtain ⟨s1, e1, e2, e3, e4, e5, e6⟩ := handle_coa_pud_shared s ipa pud f1
            (f2 :: rest) hsh (fun e => p2 e.symm) n1R
          refine ⟨s1, { objects := f2 :: rest }, ?_, e2, ?_, Or.inl ⟨rfl, ?_, ?_, ?_⟩⟩
          · simp [stage2_pud_level, h0, ht, hr, e1]
          · rw [e3]; exact populate_ne_zero f1
          · rw [e3, pud_to_pfn_eq]; exact pfn_populate f1 lt1
          · intro i
            rw [e5 f2 i (fun e => n12 e.symm) (fun e => p3 e.symm) n2R]
            exact z2 i
          · by_cases hm : s.mem (pud_to_pfn (s.rd pud)) (pmd_index ipa) = 0
            · left
              rw [e4]
              simp [hm, z1]
            · right
              obtain ⟨q1, q2, q3⟩ := sepQ h0 hm
              refine ⟨h0, hm, hr, ?_, e6 _ (pmd_index_lt ipa) hm, ?_⟩
              · rw [e4]
                simp [hm, pmd_index_lt ipa]
              · intro i
                exact e5 _ i q3 q2 q1
        · -- sentinel that is no longer shared: the type bits are restored
          refine ⟨s.wr pud (s.rd pud ||| PMD_TYPE_TABLE), { objects := f1 :: f2 :: rest }, ?_,
            ⟨rfl, rfl, rfl, rfl, rfl⟩, ?_, Or.inr ⟨rfl, h0, ?_, ?_, rfl⟩⟩
          · simp [stage2_pud_level, h0, ht, hr, handle_coa_pud, hsh]
          · rw [wr_rd_self]; exact or3_ne_zero _
          · rw [wr_rd_self]
            simp only [pud_to_pfn_eq, PMD_TYPE_TABLE]
            exact pfn_or3 _
          · intro f i hf
            simp [KvmState.wr, hf]

end S2Mmu
namespace S2Mmu

/-- Level 2 with a fresh frame `g` on top of the reserve: the walk goes on, the root page `R`
is untouched, the pmd entry is there afterwards and points to `g` or to the old pte table,
and the leaf found there is zero, the old leaf, or the old leaf with the present bits
cleared by a pte-table split. -/
theorem stage2_pmd_level_spec (s1 : KvmState) (ipa : Nat) (pmd : EntryPtr) (R g : Nat)
    (rest : List Nat)
    (zg : ∀ i, s1.mem g i = 0) (ngR : g ≠ R) (ngF : g ≠ pmd.frame) (ltg : g < 268435456)
    (nFR : pmd.frame ≠ R)
    (sepQ : s1.rd pmd ≠ 0 → pmd_to_pfn (s1.rd pmd) ≠ R ∧
      pmd_to_pfn (s1.rd pmd) ≠ pmd.frame ∧ pmd_to_pfn (s1.rd pmd) ≠ g) :
    ∃ s2 c2, stage2_pmd_level s1 (some { objects := g :: rest }) ipa pmd = S2Step.cont s2 c2 ∧
      same_vm s1 s2 ∧ (∀ i, s2.mem R i = s1.mem R i) ∧ s2.rd pmd ≠ 0 ∧
      (pmd_to_pfn (s2.rd pmd) = g ∨
        (s1.rd pmd ≠ 0 ∧ pmd_to_pfn (s2.rd pmd) = pmd_to_pfn (s1.rd pmd))) ∧
      (s2.mem (pmd_to_pfn (s2.rd pmd)) (pte_index ipa) = 0 ∨
        (s1.rd pmd ≠ 0 ∧ s1.mem (pmd_to_pfn (s1.rd pmd)) (pte_index ipa) ≠ 0 ∧
          ((s2.mem (pmd_to_pfn (s2.rd pmd)) (pte_index ipa)
                = s1.mem (pmd_to_pfn (s1.rd pmd)) (pte_index ipa) ∧
              s2.shared_pfn_list = s1.shared_pfn_list ∧
              (pmd_table (s1.rd pmd) ∨ s1.cloning_role = 0 ∨
                ¬ is_pfn_shared s1 (pmd_to_pfn (s1.rd pmd)))) ∨
            (s2.mem (pmd_to_pfn (s2.rd pmd)) (pte_index ipa)
                = clear_bits (s1.mem (pmd_to_pfn (s1.rd pmd)) (pte_index ipa)) 3 ∧
              s1.cloning_role ≠ 0 ∧
              pmd_to_pfn (clear_bits (s1.mem (pmd_to_pfn (s1.rd pmd)) (pte_index ipa)) 3)
                ∈ s2.shared_pfn_list)))) := by
  by_cases h0 : s1.rd pmd = 0
  · -- absent: a fresh pte table
    have hpf : pmd_to_pfn ((get_page (pmd_populate_kernel s1 pmd g) pmd.frame).rd pmd) = g := by
      rw [rd_of_mem_eq (get_page_mem _ _)]
      simp only [pmd_populate_kernel, wr_rd_self, PAGE_SHIFT, PMD_TYPE_TABLE, pmd_to_pfn_eq]
      exact pfn_populate g ltg
    refine ⟨get_page (pmd_populate_kernel s1 pmd g) pmd.frame, some { objects := rest }, ?_,
      ⟨rfl, rfl, rfl, rfl, rfl⟩, ?_, ?_, Or.inl hpf, Or.inl ?_⟩
    · simp [stage2_pmd_level, h0, mmu_memory_cache_alloc]
    · intro i
      simp [pmd_populate_kernel, KvmState.wr, nFR.symm]
    · rw [rd_of_mem_eq (get_page_mem _ _)]
      simp only [pmd_populate_kernel, wr_rd_self, PAGE_SHIFT, PMD_TYPE_TABLE]
      exact populate_ne_zero g
    · rw [hpf]
      simp [pmd_populate_kernel, KvmState.wr, ngF, zg]
  · obtain ⟨q1, q2, q3⟩ := sepQ h0
    have kept : ∀ (why : pmd_table (s1.rd pmd) ∨ s1.cloning_role = 0 ∨
          ¬ is_pfn_shared s1 (pmd_to_pfn (s1.rd pmd))),
        s1.mem (pmd_to_pfn (s1.rd pmd)) (pte_index ipa) = 0 ∨
        (s1.rd pmd ≠ 0 ∧ s1.mem (pmd_to_pfn (s1.rd pmd)) (pte_index ipa) ≠ 0 ∧
          ((s1.mem (pmd_to_pfn (s1.rd pmd)) (pte_index ipa)
                = s1.mem (pmd_to_pfn (s1.rd pmd)) (pte_index ipa) ∧
              s1.shared_pfn_list = s1.shared_pfn_list ∧
              (pmd_table (s1.rd pmd) ∨ s1.cloning_role = 0 ∨
                ¬ is_pfn_shared s1 (pmd_to_pfn (s1.rd pmd)))) ∨
            (s1.mem (pmd_to_pfn (s1.rd pmd)) (pte_index ipa)
                = clear_bits (s1.mem (pmd_to_pfn (s1.rd pmd)) (pte_index ipa)) 3 ∧
              s1.cloning_role ≠ 0 ∧
              pmd_to_pfn (clear_bits (s1.mem (pmd_to_pfn (s1.rd pmd)) (pte_index ipa)) 3)
                ∈ s1.shared_pfn_list))) := by
      intro why
      by_cases hl : s1.mem (pmd_to_pfn (s1.rd pmd)) (pte_index ipa) = 0
      · exact Or.inl hl
      · exact Or.inr ⟨h0, hl, Or.inl ⟨rfl, rfl, why⟩⟩
    by_cases ht : pmd_table (s1.rd pmd)
    · refine ⟨s1, some { objects := g :: rest }, ?_, same_vm_refl s1, fun _ => rfl, h0,
        Or.inr ⟨h0, rfl⟩, kept (Or.inl ht)⟩
      simp [stage2_pmd_level, h0, ht]
    · by_cases hr : s1.cloning_role = 0
      · refine ⟨s1, some { objects := g :: rest }, ?_, same_vm_refl s1, fun _ => rfl, h0,
          Or.inr ⟨h0, rfl⟩, kept (Or.inr (Or.inl hr))⟩
        simp [stage2_pmd_level, h0, ht, hr]
      · by_cases hsh : is_pfn_shared s1 (pmd_to_pfn (s1.rd pmd))
        · -- shared sentinel: the pte table is duplicated into g
          obtain ⟨s2, e1, e2, e3, e4, e5, e6⟩ := handle_coa_pmd_shared s1 ipa pmd g rest hsh
            (fun e => q3 e.symm) ngF
          have hpf : pmd_to_pfn (s2.rd pmd) = g := by
            rw [e3, pmd_to_pfn_eq]; exact pfn_populate g ltg
          refine ⟨s2, some { objects := rest }, ?_, e2, ?_, ?_, Or.inl hpf, ?_⟩
          · simp [stage2_pmd_level, h0, ht, hr, e1]
          · intro i
            exact e5 R i (fun e => ngR e.symm) (fun e => q1 e.symm) (fun e => nFR e.symm)
          · rw [e3]; exact populate_ne_zero g
          · rw [hpf, e4]
            by_cases hl : s1.mem (pmd_to_pfn (s1.rd pmd)) (pte_index ipa) = 0
            · left; simp [hl, zg]
            · right
              refine ⟨h0, hl, Or.inr ⟨?_, hr, e6 _ (pte_index_lt ipa) hl⟩⟩
              simp [hl, pte_index_lt ipa]
        · -- sentinel that is no longer shared: the type bits are restored
          have hpf : pmd_to_pfn ((kvm_tlb_flush_vmid_ipa true
              (s1.wr pmd (s1.rd pmd ||| PMD_TYPE_TABLE)) ipa).rd pmd)
              = pmd_to_pfn (s1.rd pmd) := by
            rw [rd_of_mem_eq (tlb_flush_mem _ _ _), wr_rd_self]
            simp only [pmd_to_pfn_eq, PMD_TYPE_TABLE]
            exact pfn_or3 _
          have hmem : ∀ f i, f ≠ pmd.frame → (kvm_tlb_flush_vmid_ipa true
              (s1.wr pmd (s1.rd pmd ||| PMD_TYPE_TABLE)) ipa).mem f i = s1.mem f i := by
            intro f i hf
            rw [tlb_flush_mem]
            simp [KvmState.wr, hf]
          refine ⟨kvm_tlb_flush_vmid_ipa true (s1.wr pmd (s1.rd pmd ||| PMD_TYPE_TABLE)) ipa,
            some { objects := g :: rest }, ?_, ⟨rfl, rfl, rfl, rfl, rfl⟩, ?_, ?_,
            Or.inr ⟨h0, hpf⟩, ?_⟩
          · simp [stage2_pmd_level, h0, ht, hr, handle_coa_pmd, hsh]
          · intro i
            exact hmem R i (fun e => nFR e.symm)
          · rw [rd_of_mem_eq (tlb_flush_mem _ _ _), wr_rd_self]; exact or3_ne_zero _
          · rw [hpf, hmem _ _ q2]
            have := kept (Or.inr (Or.inr hsh))
            rcases this with h | ⟨a, b, c⟩
            · exact Or.inl h
            · exact Or.inr ⟨a, b, Or.inl ⟨rfl, rfl, Or.inr (Or.inr hsh)⟩⟩

end S2Mmu
namespace S2Mmu

theorem frame_rel_of_eq {s t : KvmState} (h1 : t.pgd = s.pgd)
    (h2 : t.cloning_role = s.cloning_role) (h3 : t.memslots = s.memslots)
    (h4 : t.mem = s.mem) : frame_rel s t :=
  ⟨h1, h2, h3, fun f _ i => by rw [h4]⟩

theorem frame_rel_trans_eq {s t u : KvmState} (h : frame_rel s t) (h1 : u.pgd = t.pgd)
    (h2 : u.cloning_role = t.cloning_role) (h3 : u.memslots = t.memslots)
    (h4 : u.mem = t.mem) : frame_rel s u :=
  ⟨h1.trans h.1, h2.trans h.2.1, h3.trans h.2.2.1, fun f hf i => by rw [h4]; exact h.2.2.2 f hf i⟩

theorem get_free_page_frame_rel (s : KvmState) : frame_rel s (get_free_page s).2 := by
  unfold get_free_page
  cases hpa : s.page_alloc with
  | nil => exact ⟨rfl, rfl, rfl, fun _ _ _ => rfl⟩
  | cons a rest =>
    cases a with
    | none => exact ⟨rfl, rfl, rfl, fun _ _ _ => rfl⟩
    | some p =>
      refine ⟨rfl, rfl, rfl, ?_⟩
      intro f hf i
      have : p ≠ f := hf p (by simp [hpa])
      have hfp : ¬ f = p := fun e => this e.symm
      simp [hfp]

theorem del_shared_pfn_fields (s : KvmState) (pfn : Nat) :
    (del_shared_pfn s pfn).pgd = s.pgd ∧ (del_shared_pfn s pfn).cloning_role = s.cloning_role ∧
    (del_shared_pfn s pfn).memslots = s.memslots ∧ (del_shared_pfn s pfn).mem = s.mem := by
  unfold del_shared_pfn; split <;> exact ⟨rfl, rfl, rfl, rfl⟩

theorem copy_from_user_fields (s : KvmState) (page : Option Nat) (hva : Nat) :
    (copy_from_user s page hva).pgd = s.pgd ∧
    (copy_from_user s page hva).cloning_role = s.cloning_role ∧
    (copy_from_user s page hva).memslots = s.memslots ∧
    (copy_from_user s page hva).mem = s.mem := by
  unfold copy_from_user; split <;> exact ⟨rfl, rfl, rfl, rfl⟩

theorem target_copy_fields (s : KvmState) (gpa : Nat) (src : Option Nat) (hva : Nat) :
    (target_copy_coa_page s gpa src hva).pgd = s.pgd ∧
    (target_copy_coa_page s gpa src hva).cloning_role = s.cloning_role ∧
    (target_copy_coa_page s gpa src hva).memslots = s.memslots ∧
    (target_copy_coa_page s gpa src hva).mem = s.mem := by
  unfold target_copy_coa_page; split <;> exact ⟨rfl, rfl, rfl, rfl⟩

theorem page_pool_del_fields (s : KvmState) (pfn : Nat) :
    (page_pool_del s pfn).pgd = s.pgd ∧ (page_pool_del s pfn).cloning_role = s.cloning_role ∧
    (page_pool_del s pfn).memslots = s.memslots ∧ (page_pool_del s pfn).mem = s.mem := by
  unfold page_pool_del; split <;> exact ⟨rfl, rfl, rfl, rfl⟩

theorem tlb_flush_fields (kvm : Bool) (s : KvmState) (a : Nat) :
    (kvm_tlb_flush_vmid_ipa kvm s a).pgd = s.pgd ∧
    (kvm_tlb_flush_vmid_ipa kvm s a).cloning_role = s.cloning_role ∧
    (kvm_tlb_flush_vmid_ipa kvm s a).memslots = s.memslots ∧
    (kvm_tlb_flush_vmid_ipa kvm s a).mem = s.mem := by
  unfold kvm_tlb_flush_vmid_ipa; split <;> exact ⟨rfl, rfl, rfl, rfl⟩

theorem gpa_to_hva_some (s : KvmState) (gpa : Nat) (m : kvm_memory_slot)
    (h : gfn_to_memslot s (gpa >>> PAGE_SHIFT) = some m) :
    gpa_to_hva s gpa = some (gfn_to_hva_memslot m (gpa >>> PAGE_SHIFT)) := by
  unfold gpa_to_hva; rw [h]

/-- The source branch of `handle_coa_pte` returns when the old and the new PFN are equal and
the GFN has a memslot. -/
theorem handle_coa_pte_src_spec (s : KvmState) (gpa old new : Nat) (m : kvm_memory_slot)
    (hm : gfn_to_memslot s (gpa >>> PAGE_SHIFT) = some m)
    (hpfn : pte_pfn old = pte_pfn new) :
    ∃ t, handle_coa_pte_src s gpa old new = some t ∧ frame_rel s t := by
  unfold handle_coa_pte_src
  simp only [hpfn, ne_eq, not_true_eq_false, if_false]
  by_cases hsh : is_pfn_shared s (pte_pfn new)
  · simp only [hsh, if_true, gpa_to_hva_some s gpa m hm]
    refine ⟨_, rfl, ?_⟩
    have g := get_free_page_frame_rel s
    generalize get_free_page s = r at g
    obtain ⟨page, s1⟩ := r
    simp only at g ⊢
    have f1 : frame_rel s (if page = none then s1.emit Event.pr_err else s1) := by
      split
      · exact frame_rel_trans_eq g rfl rfl rfl rfl
      · exact g
    obtain ⟨c1, c2, c3, c4⟩ := copy_from_user_fields
      (if page = none then s1.emit Event.pr_err else s1) page (gfn_to_hva_memslot m (gpa >>> PAGE_SHIFT))
    have f2 := frame_rel_trans_eq f1 c1 c2 c3 c4
    have f3 : frame_rel s (page_pool_add (copy_from_user
        (if page = none then s1.emit Event.pr_err else s1) page
        (gfn_to_hva_memslot m (gpa >>> PAGE_SHIFT))) page (pte_pfn new)) :=
      frame_rel_trans_eq f2 rfl rfl rfl rfl
    obtain ⟨d1, d2, d3, d4⟩ := del_shared_pfn_fields (page_pool_add (copy_from_user
        (if page = none then s1.emit Event.pr_err else s1) page
        (gfn_to_hva_memslot m (gpa >>> PAGE_SHIFT))) page (pte_pfn new)) (pte_pfn new)
    exact frame_rel_trans_eq f3 d1 d2 d3 d4
  · simp only [hsh, if_false]
    exact ⟨s, rfl, frame_rel_of_eq rfl rfl rfl rfl⟩

/-- The target branch of `handle_coa_pte` returns when the PFNs differ, the GFN has a
memslot and the old PFN is in the registry or in the pool. -/
theorem handle_coa_pte_target_spec (s : KvmState) (gpa old new : Nat) (m : kvm_memory_slot)
    (hm : gfn_to_memslot s (gpa >>> PAGE_SHIFT) = some m)
    (hpfn : pte_pfn old ≠ pte_pfn new)
    (hsrc : pte_pfn old ∈ s.shared_pfn_list ∨ ∃ e ∈ s.page_pool_list, e.2 = pte_pfn old) :
    ∃ t, handle_coa_pte_target s gpa old new = some t ∧ frame_rel s t := by
  unfold handle_coa_pte_target
  simp only [hpfn, if_false, gpa_to_hva_some s gpa m hm]
  by_cases hsh : is_pfn_shared s (pte_pfn old)
  · simp only [hsh, if_true]
    refine ⟨_, rfl, ?_⟩
    obtain ⟨c1, c2, c3, c4⟩ := target_copy_fields s gpa (some (pte_pfn old))
      (gfn_to_hva_memslot m (gpa >>> PAGE_SHIFT))
    obtain ⟨d1, d2, d3, d4⟩ := del_shared_pfn_fields (target_copy_coa_page s gpa
      (some (pte_pfn old)) (gfn_to_hva_memslot m (gpa >>> PAGE_SHIFT))) (pte_pfn old)
    exact frame_rel_of_eq (d1.trans c1) (d2.trans c2) (d3.trans c3) (d4.trans c4)
  · simp only [hsh, if_false]
    have hpool : ∃ e ∈ s.page_pool_list, e.2 = pte_pfn old := by
      rcases hsrc with h | h
      · exact absurd h hsh
      · exact h
    have hfind : ∃ p, page_pool_search s (pte_pfn old) = some p := by
      obtain ⟨e, he1, he2⟩ := hpool
      have : (s.page_pool_list.find? (fun e => decide (e.2 = pte_pfn old))).isSome := by
        rw [List.find?_isSome]
        exact ⟨e, he1, by simp [he2]⟩
      exact Option.isSome_iff_exists.mp this
    obtain ⟨p, hp⟩ := hfind
    simp only [hp]
    refine ⟨_, rfl, ?_⟩
    obtain ⟨c1, c2, c3, c4⟩ := target_copy_fields s gpa p.1
      (gfn_to_hva_memslot m (gpa >>> PAGE_SHIFT))
    have f1 : frame_rel s (match p.1 with
        | none => target_copy_coa_page s gpa p.1 (gfn_to_hva_memslot m (gpa >>> PAGE_SHIFT))
        | some f => free_page (target_copy_coa_page s gpa p.1
            (gfn_to_hva_memslot m (gpa >>> PAGE_SHIFT))) f) := by
      split
      · exact frame_rel_of_eq c1 c2 c3 c4
      · exact frame_rel_of_eq c1 c2 c3 c4
    obtain ⟨d1, d2, d3, d4⟩ := page_pool_del_fields (match p.1 with
        | none => target_copy_coa_page s gpa p.1 (gfn_to_hva_memslot m (gpa >>> PAGE_SHIFT))
        | some f => free_page (target_copy_coa_page s gpa p.1
            (gfn_to_hva_memslot m (gpa >>> PAGE_SHIFT))) f) (pte_pfn old)
    exact frame_rel_trans_eq f1 d1 d2 d3 d4

theorem set_unshare_bit_some (gfn : Nat) :
    ∀ (ms : List kvm_memory_slot) (m : kvm_memory_slot) (b : Nat),
      ms.find? (fun m => decide (m.base_gfn ≤ gfn ∧ gfn < m.base_gfn + m.npages)) = some m →
      m.unshare_bitmap = some b → ∃ ms1, set_unshare_bit ms gfn = some ms1 := by
  intro ms
  induction ms with
  | nil => intro m b h; simp at h
  | cons a rest ih =>
    intro m b h hb
    unfold set_unshare_bit
    by_cases hc : a.base_gfn ≤ gfn ∧ gfn < a.base_gfn + a.npages
    · simp only [List.find?_cons, hc, decide_True, and_self, Option.some.injEq] at h
      subst h
      simp [hc, hb]
    · have hd : decide (a.base_gfn ≤ gfn ∧ gfn < a.base_gfn + a.npages) = false := by
        simp only [decide_eq_false_iff_not]; exact hc
      rw [List.find?_cons, hd] at h
      obtain ⟨ms1, h1⟩ := ih m b h hb
      rw [if_neg hc, h1]
      exact ⟨_, rfl⟩

end S2Mmu
namespace S2Mmu

/-- What the separation of the reserve frames, the next allocated page and the frames on
the path to `ipa` says frame by frame. -/
theorem path_sep_facts (s : KvmState) (root ipa f1 f2 : Nat)
    (hsep : (f1 :: f2 :: (next_alloc s ++ path_frames s root ipa)).Nodup) :
    f1 ≠ f2 ∧ f1 ≠ (pud_offset root ipa).frame ∧ f2 ≠ (pud_offset root ipa).frame ∧
    (∀ p, p ∈ next_alloc s → p ≠ f1 ∧ p ≠ f2 ∧ p ≠ (pud_offset root ipa).frame) ∧
    (s.rd (pud_offset root ipa) ≠ 0 →
      pud_to_pfn (s.rd (pud_offset root ipa)) ≠ (pud_offset root ipa).frame ∧
      pud_to_pfn (s.rd (pud_offset root ipa)) ≠ f1 ∧
      pud_to_pfn (s.rd (pud_offset root ipa)) ≠ f2 ∧
      ∀ p, p ∈ next_alloc s → p ≠ pud_to_pfn (s.rd (pud_offset root ipa))) ∧
    (s.rd (pud_offset root ipa) ≠ 0 →
      s.mem (pud_to_pfn (s.rd (pud_offset root ipa))) (pmd_index ipa) ≠ 0 →
      pmd_to_pfn (s.mem (pud_to_pfn (s.rd (pud_offset root ipa))) (pmd_index ipa))
        ≠ (pud_offset root ipa).frame ∧
      pmd_to_pfn (s.mem (pud_to_pfn (s.rd (pud_offset root ipa))) (pmd_index ipa))
        ≠ pud_to_pfn (s.rd (pud_offset root ipa)) ∧
      pmd_to_pfn (s.mem (pud_to_pfn (s.rd (pud_offset root ipa))) (pmd_index ipa)) ≠ f1 ∧
      pmd_to_pfn (s.mem (pud_to_pfn (s.rd (pud_offset root ipa))) (pmd_index ipa)) ≠ f2 ∧
      ∀ p, p ∈ next_alloc s →
        p ≠ pmd_to_pfn (s.mem (pud_to_pfn (s.rd (pud_offset root ipa))) (pmd_index ipa))) := by
  have hpm : s.rd (pmd_offset s (pud_offset root ipa) ipa)
      = s.mem (pud_to_pfn (s.rd (pud_offset root ipa))) (pmd_index ipa) := rfl
  generalize hR : (pud_offset root ipa).frame = R at hsep ⊢
  generalize hP : pud_to_pfn (s.rd (pud_offset root ipa)) = P at hsep hpm ⊢
  generalize hQ : pmd_to_pfn (s.mem P (pmd_index ipa)) = Q at hsep ⊢
  generalize hA : next_alloc s = A at hsep ⊢
  unfold path_frames at hsep
  rw [hR, hP, hpm] at hsep
  simp only [pmd_to_pfn] at hQ
  simp only [pmd_to_pfn, hpm, hQ] at hsep
  by_cases h1 : s.rd (pud_offset root ipa) = 0
  · simp only [h1, if_true] at hsep
    simp only [List.nodup_cons, List.mem_cons, List.mem_append, List.mem_singleton,
      List.nodup_append, not_or, List.not_mem_nil, not_false_eq_true, and_true,
        List.nodup_nil] at hsep
    refine ⟨hsep.1.1, hsep.1.2.2, hsep.2.1.2, ?_, fun h => absurd h1 h, fun h => absurd h1 h⟩
    intro p hp
    refine ⟨?_, ?_, ?_⟩
    · rintro rfl; exact hsep.1.2.1 hp
    · rintro rfl; exact hsep.2.1.1 hp
    · rintro rfl; exact hsep.2.2.2.2 hp (by simp)
  · simp only [h1, if_false] at hsep
    by_cases h2 : s.mem P (pmd_index ipa) = 0
    · simp only [h2, if_true] at hsep
      simp only [List.nodup_cons, List.mem_cons, List.mem_append, List.mem_singleton,
        List.nodup_append, not_or, List.not_mem_nil, not_false_eq_true, and_true,
        List.nodup_nil] at hsep
      refine ⟨hsep.1.1, hsep.1.2.2.1, hsep.2.1.2.1, ?_, ?_, fun _ h => absurd h2 h⟩
      · intro p hp
        refine ⟨?_, ?_, ?_⟩
        · rintro rfl; exact hsep.1.2.1 hp
        · rintro rfl; exact hsep.2.1.1 hp
        · rintro rfl; exact hsep.2.2.2.2 hp (by simp)
      · intro _
        refine ⟨fun e => ?_, fun e => hsep.1.2.2.2 e.symm, fun e => hsep.2.1.2.2 e.symm, ?_⟩
        · have := hsep.2.2.2.1
          simp only [List.nodup_cons, List.mem_singleton, List.not_mem_nil, not_false_eq_true,
            and_true, List.nodup_nil] at this
          exact this e.symm
        · rintro p hp rfl; exact hsep.2.2.2.2 hp (by simp)
    · simp only [h2, if_false] at hsep
      simp only [List.nodup_cons, List.mem_cons, List.mem_append, List.mem_singleton,
        List.nodup_append, not_or, List.not_mem_nil, not_false_eq_true, and_true,
        List.nodup_nil] at hsep
      have hn := hsep.2.2.2.1
      simp only [List.nodup_cons, List.mem_cons, List.mem_singleton, not_or, List.not_mem_nil,
        not_false_eq_true, and_true, List.nodup_nil] at hn
      refine ⟨hsep.1.1, hsep.1.2.2.1, hsep.2.1.2.1, ?_, ?_, ?_⟩
      · intro p hp
        refine ⟨?_, ?_, ?_⟩
        · rintro rfl; exact hsep.1.2.1 hp
        · rintro rfl; exact hsep.2.1.1 hp
        · rintro rfl; exact hsep.2.2.2.2 hp (by simp)
      · intro _
        refine ⟨fun e => hn.1.1 e.symm, fun e => hsep.1.2.2.2.1 e.symm,
          fun e => hsep.2.1.2.2.1 e.symm, ?_⟩
        rintro p hp rfl; exact hsep.2.2.2.2 hp (by simp)
      · intro _ _
        refine ⟨fun e => hn.1.2 e.symm, fun e => hn.2 e.symm,
          fun e => hsep.1.2.2.2.2 e.symm, fun e => hsep.2.1.2.2.2 e.symm, ?_⟩
        rintro p hp rfl; exact hsep.2.2.2.2 hp (by simp)

end S2Mmu
namespace S2Mmu

/-- Level 3: the leaf is stored and, when no copy-on-access assertion can fire, the call
returns; the root and every table page except the page handed out next are as after the
store. -/
theorem stage2_pte_level_spec (s2 : KvmState) (addr : Nat) (pte : EntryPtr) (new : Nat)
    (iomap : Bool)
    (hok : s2.cloning_role ≠ 0 → iomap = false →
      (∃ m b, gfn_to_memslot s2 (addr >>> PAGE_SHIFT) = some m ∧ m.unshare_bitmap = some b) ∧
      (s2.rd pte ≠ 0 → ¬ pte_present (s2.rd pte) →
        (s2.cloning_role = KVM_ARM_CLONING_ROLE_SOURCE →
          pte_pfn (s2.rd pte) = pte_pfn new) ∧
        (s2.cloning_role ≠ KVM_ARM_CLONING_ROLE_SOURCE →
          pte_pfn (s2.rd pte) ≠ pte_pfn new ∧
          (pte_pfn (s2.rd pte) ∈ s2.shared_pfn_list ∨
            ∃ e ∈ s2.page_pool_list, e.2 = pte_pfn (s2.rd pte))))) :
    ∃ s3, stage2_pte_level s2 addr pte new iomap = some s3 ∧ s3.pgd = s2.pgd ∧
      ∀ f, (∀ p, p ∈ next_alloc s2 → p ≠ f) → ∀ i, s3.mem f i = (s2.wr pte new).mem f i := by
  -- the state after the store and `mark_page_dirty`
  generalize hs' : (s2.wr pte new).emit (Event.mark_page_dirty (addr >>> PAGE_SHIFT)) = s'
  have hs'f : frame_rel (s2.wr pte new) s' := by
    rw [← hs']; exact frame_rel_of_eq rfl rfl rfl rfl
  have hs'role : s'.cloning_role = s2.cloning_role := by rw [← hs']; rfl
  have hs'slots : s'.memslots = s2.memslots := by rw [← hs']; rfl
  have hs'shared : s'.shared_pfn_list = s2.shared_pfn_list := by rw [← hs']; rfl
  have hs'pool : s'.page_pool_list = s2.page_pool_list := by rw [← hs']; rfl
  have hs'alloc : s'.page_alloc = (s2.wr pte new).page_alloc := by rw [← hs']; rfl
  have hslot' : ∀ g, gfn_to_memslot s' g = gfn_to_memslot s2 g := by
    intro g; simp only [gfn_to_memslot, hs'slots]
  -- the middle part: the old leaf is accounted for
  have hmid : ∃ s3, (if pte_present (s2.rd pte) then some (kvm_tlb_flush_vmid_ipa true s' addr)
        else if s2.rd pte ≠ 0 ∧ s'.cloning_role ≠ 0 then
          handle_coa_pte s' addr (s2.rd pte) new iomap
        else some (get_page s' pte.frame)) = some s3 ∧ frame_rel (s2.wr pte new) s3 := by
    by_cases hp : pte_present (s2.rd pte)
    · rw [if_pos hp]
      obtain ⟨c1, c2, c3, c4⟩ := tlb_flush_fields true s' addr
      exact ⟨_, rfl, frame_rel_trans_eq hs'f c1 c2 c3 c4⟩
    · rw [if_neg hp]
      by_cases hc : s2.rd pte ≠ 0 ∧ s'.cloning_role ≠ 0
      · rw [if_pos hc]
        have hrole : s2.cloning_role ≠ 0 := by rw [← hs'role]; exact hc.2
        have hrel' : ∀ t, frame_rel s' t → frame_rel (s2.wr pte new) t := by
          intro t ht
          refine ⟨ht.1.trans hs'f.1, ht.2.1.trans hs'f.2.1, ht.2.2.1.trans hs'f.2.2.1, ?_⟩
          intro f hf i
          rw [ht.2.2.2 f (by rw [hs'alloc]; exact hf) i]
          exact hs'f.2.2.2 f hf i
        unfold handle_coa_pte
        cases hio : iomap with
        | true =>
          simp only [if_true]
          refine ⟨_, rfl, hrel' _ ?_⟩
          obtain ⟨c1, c2, c3, c4⟩ := tlb_flush_fields true
            (handle_coa_pte_ioaddr s' addr (s2.rd pte) new) addr
          have : frame_rel s' (handle_coa_pte_ioaddr s' addr (s2.rd pte) new) := by
            unfold handle_coa_pte_ioaddr
            obtain ⟨d1, d2, d3, d4⟩ := tlb_flush_fields true
              (if is_pfn_shared s' (pte_pfn (s2.rd pte)) then
                del_shared_pfn s' (pte_pfn (s2.rd pte)) else s') addr
            have : frame_rel s' (if is_pfn_shared s' (pte_pfn (s2.rd pte)) then
                del_shared_pfn s' (pte_pfn (s2.rd pte)) else s') := by
              split
              · obtain ⟨e1, e2, e3, e4⟩ := del_shared_pfn_fields s' (pte_pfn (s2.rd pte))
                exact frame_rel_of_eq e1 e2 e3 e4
              · exact frame_rel_of_eq rfl rfl rfl rfl
            exact frame_rel_trans_eq this d1 d2 d3 d4
          exact frame_rel_trans_eq this c1 c2 c3 c4
        | false =>
          obtain ⟨⟨m, b, hm, _⟩, hleaf⟩ := hok hrole hio
          obtain ⟨hsrc, htgt⟩ := hleaf hc.1 hp
          have hm' : gfn_to_memslot s' (addr >>> PAGE_SHIFT) = some m := by
            rw [hslot']; exact hm
          simp only [Bool.false_eq_true, if_false]
          by_cases hsr : s'.cloning_role = KVM_ARM_CLONING_ROLE_SOURCE
          · rw [if_pos hsr]
            obtain ⟨t, ht1, ht2⟩ := handle_coa_pte_src_spec s' addr (s2.rd pte) new m hm'
              (hsrc (by rw [← hs'role]; exact hsr))
            rw [ht1]
            obtain ⟨c1, c2, c3, c4⟩ := tlb_flush_fields true t addr
            exact ⟨_, rfl, hrel' _ (frame_rel_trans_eq ht2 c1 c2 c3 c4)⟩
          · rw [if_neg hsr]
            obtain ⟨g1, g2⟩ := htgt (by rw [← hs'role]; exact hsr)
            obtain ⟨t, ht1, ht2⟩ := handle_coa_pte_target_spec s' addr (s2.rd pte) new m hm' g1
              (by rw [hs'shared, hs'pool]; exact g2)
            rw [ht1]
            obtain ⟨c1, c2, c3, c4⟩ := tlb_flush_fields true t addr
            exact ⟨_, rfl, hrel' _ (frame_rel_trans_eq ht2 c1 c2 c3 c4)⟩
      · rw [if_neg hc]
        exact ⟨_, rfl, frame_rel_trans_eq hs'f rfl rfl rfl rfl⟩
  obtain ⟨s3, hr, hf3⟩ := hmid
  have hunfold : stage2_pte_level s2 addr pte new iomap
      = (if s3.cloning_role ≠ 0 ∧ iomap = false then
          mark_gfn_unshared s3 (addr >>> PAGE_SHIFT) else some s3) := by
    unfold stage2_pte_level
    simp only [hs']
    rw [hr]
  rw [hunfold]
  have halloc : ∀ f, (∀ p, p ∈ next_alloc s2 → p ≠ f) →
      ∀ p, p ∈ (match (s2.wr pte new).page_alloc with | some p :: _ => [p] | _ => []) →
        p ≠ f := by
    intro f hf p hp
    exact hf p hp
  by_cases hfin : s3.cloning_role ≠ 0 ∧ iomap = false
  · rw [if_pos hfin]
    have hrole : s2.cloning_role ≠ 0 := by
      have : s3.cloning_role = s2.cloning_role := hf3.2.1
      rw [← this]; exact hfin.1
    obtain ⟨⟨m, b, hm, hb⟩, _⟩ := hok hrole hfin.2
    have hms : s3.memslots = s2.memslots := hf3.2.2.1
    obtain ⟨ms1, h1⟩ := set_unshare_bit_some (addr >>> PAGE_SHIFT) s3.memslots m b
      (by rw [hms]; exact hm) hb
    refine ⟨{ s3 with memslots := ms1 }, ?_, hf3.1, ?_⟩
    · simp only [mark_gfn_unshared, h1]
    · intro f hf i
      exact hf3.2.2.2 f (halloc f hf) i
  · rw [if_neg hfin]
    exact ⟨s3, rfl, hf3.1, fun f hf i => hf3.2.2.2 f (halloc f hf) i⟩

end S2Mmu
namespace S2Mmu

theorem walk_leaf_of_path (s : KvmState) (root ipa : Nat) (hroot : s.pgd = some root)
    (h1 : s.rd (pud_offset root ipa) ≠ 0)
    (h2 : s.mem (pud_to_pfn (s.rd (pud_offset root ipa))) (pmd_index ipa) ≠ 0) :
    walk_leaf s ipa = some (s.mem
      (pmd_to_pfn (s.mem (pud_to_pfn (s.rd (pud_offset root ipa))) (pmd_index ipa)))
      (pte_index ipa)) := by
  have h2' : s.rd (pmd_offset s (pud_offset root ipa) ipa) ≠ 0 := h2
  simp only [walk_leaf, walk, hroot, walk_from, pud_none, h1, if_false, pmd_none, h2',
    Option.map_some']
  rfl

/-- Levels 1 and 2 of `stage2_set_pte` with a reserve of two fresh frames that are apart
from the path to `ipa`: both levels go on; afterwards the pud and the pmd entry are there,
the three table pages of the path and the next allocated page are pairwise distinct, and
the leaf found is zero, the leaf of the walk before the call, or that leaf with the present
bits cleared by a pte-table split that registered its PFN. -/
theorem stage2_levels_spec (s : KvmState) (root ipa f1 f2 : Nat) (rest : List Nat)
    (hroot : s.pgd = some root)
    (hz1 : ∀ i, s.mem f1 i = 0) (hz2 : ∀ i, s.mem f2 i = 0)
    (hlt1 : f1 < 268435456) (hlt2 : f2 < 268435456)
    (hsep : (f1 :: f2 :: (next_alloc s ++ path_frames s root ipa)).Nodup) :
    ∃ s1 c1 s2 c2,
      stage2_pud_level s (some { objects := f1 :: f2 :: rest }) ipa (pud_offset root ipa)
        = S2Step.cont s1 c1 ∧
      stage2_pmd_level s1 c1 ipa (pmd_offset s1 (pud_offset root ipa) ipa)
        = S2Step.cont s2 c2 ∧
      same_vm s s2 ∧
      s2.rd (pud_offset root ipa) = s1.rd (pud_offset root ipa) ∧
      s2.rd (pud_offset root ipa) ≠ 0 ∧
      s2.rd (pmd_offset s1 (pud_offset root ipa) ipa) ≠ 0 ∧
      pud_to_pfn (s1.rd (pud_offset root ipa)) ≠ (pud_offset root ipa).frame ∧
      (∀ p, p ∈ next_alloc s → p ≠ (pud_offset root ipa).frame ∧
        p ≠ pud_to_pfn (s1.rd (pud_offset root ipa)) ∧
        p ≠ pmd_to_pfn (s2.rd (pmd_offset s1 (pud_offset root ipa) ipa))) ∧
      pmd_to_pfn (s2.rd (pmd_offset s1 (pud_offset root ipa) ipa))
        ≠ (pud_offset root ipa).frame ∧
      pmd_to_pfn (s2.rd (pmd_offset s1 (pud_offset root ipa) ipa))
        ≠ pud_to_pfn (s1.rd (pud_offset root ipa)) ∧
      (s2.mem (pmd_to_pfn (s2.rd (pmd_offset s1 (pud_offset root ipa) ipa))) (pte_index ipa) = 0 ∨
        ∃ v, walk_leaf s ipa = some v ∧ v ≠ 0 ∧
          ((s2.mem (pmd_to_pfn (s2.rd (pmd_offset s1 (pud_offset root ipa) ipa)))
                (pte_index ipa) = v ∧
              s2.shared_pfn_list = s.shared_pfn_list) ∨
            (s2.mem (pmd_to_pfn (s2.rd (pmd_offset s1 (pud_offset root ipa) ipa)))
                (pte_index ipa) = clear_bits v 3 ∧
              s.cloning_role ≠ 0 ∧ pte_pfn v ∈ s2.shared_pfn_list))) := by
  obtain ⟨n12, n1R, n2R, hA, hP, hQ⟩ := path_sep_facts s root ipa f1 f2 hsep
  have hwl := walk_leaf_of_path s root ipa hroot
  generalize hpud : pud_offset root ipa = pud at n1R n2R hA hP hQ hwl ⊢
  obtain ⟨s1, c1, e1, v1, nz1, cs⟩ := stage2_pud_level_spec s ipa pud f1 f2 rest hz1 hz2
    n12 n1R n2R hlt1 (fun h => ⟨(hP h).1, (hP h).2.1, (hP h).2.2.1⟩)
    (fun h h' => ⟨(hQ h h').1, (hQ h h').2.1, (hQ h h').2.2.1⟩)
  have pfn_c : ∀ x, pmd_to_pfn (clear_bits x 3) = pmd_to_pfn x := by
    intro x; simp only [pmd_to_pfn_eq]; exact pfn_clear3 x
  have pfn_pte : ∀ x, pmd_to_pfn (clear_bits x 3) = pte_pfn x := by
    intro x; simp only [pmd_to_pfn_eq, pte_pfn_eq]; exact pfn_clear3 x
  rcases cs with ⟨hc1, hpf, hz2', hfresh⟩ | ⟨hc1, hp0, hpf, hmem, hsh⟩
  · -- the pmd table is the fresh frame f1
    subst hc1
    have hpmd1 : pmd_offset s1 pud ipa = ⟨f1, pmd_index ipa⟩ := by
      simp only [pmd_offset, hpf]
    have hrd1 : s1.rd ⟨f1, pmd_index ipa⟩ = s1.mem f1 (pmd_index ipa) := rfl
    obtain ⟨s2, c2, e2, v2, hR, nz2, hF, hleaf⟩ := stage2_pmd_level_spec s1 ipa
      ⟨f1, pmd_index ipa⟩ pud.frame f2 rest hz2' n2R (fun e => n12 e.symm) hlt2 n1R
      (by
        intro h
        rw [hrd1] at h ⊢
        rcases hfresh with h0 | ⟨a1, a2, _, a4, _, _⟩
        · exact absurd h0 h
        · rw [a4, pfn_c]
          exact ⟨(hQ a1 a2).1, (hQ a1 a2).2.2.1, (hQ a1 a2).2.2.2.1⟩)
    rw [hrd1] at hF hleaf
    have hFcases : pmd_to_pfn (s2.rd ⟨f1, pmd_index ipa⟩) ≠ pud.frame ∧
        pmd_to_pfn (s2.rd ⟨f1, pmd_index ipa⟩) ≠ f1 ∧
        ∀ p, p ∈ next_alloc s → p ≠ pmd_to_pfn (s2.rd ⟨f1, pmd_index ipa⟩) := by
      rcases hF with h | ⟨h, h'⟩
      · rw [h]; exact ⟨n2R, fun e => n12 e.symm, fun p hp => (hA p hp).2.1⟩
      · rcases hfresh with h0 | ⟨a1, a2, _, a4, _, _⟩
        · exact absurd h0 h
        · rw [h', a4, pfn_c]
          exact ⟨(hQ a1 a2).1, (hQ a1 a2).2.2.1, (hQ a1 a2).2.2.2.2⟩
    refine ⟨s1, _, s2, c2, e1, by rw [hpmd1]; exact e2, same_vm_trans v1 v2, ?_, ?_, ?_, ?_, ?_,
      ?_, ?_, ?_⟩
    · exact hR pud.idx
    · have : s2.rd pud = s1.rd pud := hR pud.idx
      rw [this]; exact nz1
    · rw [hpmd1]; exact nz2
    · rw [hpf]; exact n1R
    · intro p hp
      rw [hpf, hpmd1]
      exact ⟨(hA p hp).2.2, (hA p hp).1, hFcases.2.2 p hp⟩
    · rw [hpmd1]; exact hFcases.1
    · rw [hpmd1, hpf]; exact hFcases.2.1
    · rw [hpmd1]
      rcases hleaf with h | ⟨b1, b2, b3⟩
      · exact Or.inl h
      · rcases hfresh with h0 | ⟨a1, a2, a3, a4, a5, a6⟩
        · exact absurd h0 b1
        · rw [a4, pfn_c, a6] at b2 b3
          refine Or.inr ⟨_, hwl a1 a2, b2, ?_⟩
          rcases b3 with ⟨_, _, why⟩ | ⟨c1, _, c3⟩
          · exfalso
            rcases why with w | w | w
            · exact clear3_not_table _ w
            · exact a3 (by rw [← v1.2.1]; exact w)
            · apply w
              unfold is_pfn_shared
              rw [← pfn_c]
              exact a5
          · rw [pfn_pte] at c3
            exact Or.inr ⟨c1, a3, c3⟩
  · -- the pmd table is the old one
    subst hc1
    obtain ⟨p1, p2, p3, p4⟩ := hP hp0
    have hpmd1 : pmd_offset s1 pud ipa = ⟨pud_to_pfn (s.rd pud), pmd_index ipa⟩ := by
      simp only [pmd_offset, hpf]
    have hrd1 : s1.rd ⟨pud_to_pfn (s.rd pud), pmd_index ipa⟩
        = s.mem (pud_to_pfn (s.rd pud)) (pmd_index ipa) := by
      show s1.mem _ _ = _
      exact hmem _ _ p1
    obtain ⟨s2, c2, e2, v2, hR, nz2, hF, hleaf⟩ := stage2_pmd_level_spec s1 ipa
      ⟨pud_to_pfn (s.rd pud), pmd_index ipa⟩ pud.frame f1 (f2 :: rest)
      (fun i => by rw [hmem _ _ n1R]; exact hz1 i) n1R (fun e => p2 e.symm) hlt1 p1
      (by
        intro h
        rw [hrd1] at h ⊢
        exact ⟨(hQ hp0 h).1, (hQ hp0 h).2.1, (hQ hp0 h).2.2.1⟩)
    rw [hrd1] at hF hleaf
    have hFcases : pmd_to_pfn (s2.rd ⟨pud_to_pfn (s.rd pud), pmd_index ipa⟩) ≠ pud.frame ∧
        pmd_to_pfn (s2.rd ⟨pud_to_pfn (s.rd pud), pmd_index ipa⟩) ≠ pud_to_pfn (s.rd pud) ∧
        ∀ p, p ∈ next_alloc s →
          p ≠ pmd_to_pfn (s2.rd ⟨pud_to_pfn (s.rd pud), pmd_index ipa⟩) := by
      rcases hF with h | ⟨h, h'⟩
      · rw [h]; exact ⟨n1R, fun e => p2 e.symm, fun p hp => (hA p hp).1⟩
      · rw [h']
        exact ⟨(hQ hp0 h).1, (hQ hp0 h).2.1, (hQ hp0 h).2.2.2.2⟩
    refine ⟨s1, _, s2, c2, e1, by rw [hpmd1]; exact e2, same_vm_trans v1 v2, ?_, ?_, ?_, ?_, ?_,
      ?_, ?_, ?_⟩
    · exact hR pud.idx
    · have : s2.rd pud = s1.rd pud := hR pud.idx
      rw [this]; exact nz1
    · rw [hpmd1]; exact nz2
    · rw [hpf]; exact p1
    · intro p hp
      rw [hpf, hpmd1]
      exact ⟨(hA p hp).2.2, p4 p hp, hFcases.2.2 p hp⟩
    · rw [hpmd1]; exact hFcases.1
    · rw [hpmd1, hpf]; exact hFcases.2.1
    · rw [hpmd1]
      rcases hleaf with h | ⟨b1, b2, b3⟩
      · exact Or.inl h
      · have hq1 := (hQ hp0 b1).1
        rw [hmem _ _ hq1] at b2 b3
        refine Or.inr ⟨_, hwl hp0 b1, b2, ?_⟩
        rcases b3 with ⟨c1, c2, _⟩ | ⟨c1, c2, c3⟩
        · exact Or.inl ⟨c1, c2.trans hsh⟩
        · rw [pfn_pte] at c3
          exact Or.inr ⟨c1, by rw [← v1.2.1]; exact c2, c3⟩

end S2Mmu
namespace S2Mmu

theorem pte_pfn_clear3 (x : Nat) : pte_pfn (clear_bits x 3) = pte_pfn x := by
  simp only [pte_pfn_eq]; exact pfn_clear3 x

end S2Mmu
namespace S2Mmu

end S2Mmu
namespace S2Mmu

/-! ## `stage2_set_pte` followed by `unmap_range` -/

/-- Level 3 over a zero leaf: the leaf is stored and the pte page gains a reference. -/
theorem stage2_pte_level_zero (s2 : KvmState) (addr : Nat) (q : EntryPtr) (new : Nat)
    (iomap : Bool) (h0 : s2.rd q = 0)
    (hslot : s2.cloning_role ≠ 0 → iomap = false →
      ∃ m b, gfn_to_memslot s2 (addr >>> PAGE_SHIFT) = some m ∧ m.unshare_bitmap = some b) :
    ∃ s3, stage2_pte_level s2 addr q new iomap = some s3 ∧
      s3.mem = (s2.wr q new).mem ∧
      s3.page_count = (get_page s2 q.frame).page_count ∧
      s3.pgd = s2.pgd ∧ s3.freed = s2.freed := by
  have hnp : ¬ pte_present (s2.rd q) := by rw [h0]; decide
  unfold stage2_pte_level
  dsimp only
  rw [if_neg hnp, if_neg (fun h => h.1 h0)]
  dsimp only
  by_cases hfin : s2.cloning_role ≠ 0 ∧ iomap = false
  · obtain ⟨m, b, hm, hb⟩ := hslot hfin.1 hfin.2
    obtain ⟨ms1, h1⟩ := set_unshare_bit_some (addr >>> PAGE_SHIFT) s2.memslots m b hm hb
    refine ⟨{ get_page ((s2.wr q new).emit (Event.mark_page_dirty (addr >>> PAGE_SHIFT)))
      q.frame with memslots := ms1 }, ?_, rfl, rfl, rfl, rfl⟩
    have hc : (get_page ((s2.wr q new).emit (Event.mark_page_dirty (addr >>> PAGE_SHIFT)))
        q.frame).cloning_role ≠ 0 ∧ iomap = false := hfin
    rw [if_pos hc]
    simp only [mark_gfn_unshared]
    have : (get_page ((s2.wr q new).emit (Event.mark_page_dirty (addr >>> PAGE_SHIFT)))
        q.frame).memslots = s2.memslots := rfl
    rw [this, h1]
  · refine ⟨get_page ((s2.wr q new).emit (Event.mark_page_dirty (addr >>> PAGE_SHIFT)))
      q.frame, ?_, rfl, rfl, rfl, rfl⟩
    have hc : ¬ ((get_page ((s2.wr q new).emit (Event.mark_page_dirty (addr >>> PAGE_SHIFT)))
        q.frame).cloning_role ≠ 0 ∧ iomap = false) := hfin
    rw [if_neg hc]

theorem unmap_range_one_page (kvm : Bool) (s : KvmState) (pgdp ipa : Nat)
    (hal : ipa % 4096 = 0) :
    unmap_range kvm s pgdp ipa PAGE_SIZE
      = (unmap_range_step kvm s pgdp ipa (ipa + PAGE_SIZE)).1 := by
  obtain ⟨_, k2, k3, _⟩ := unmap_range_step_spec kvm s pgdp ipa (ipa + PAGE_SIZE)
    (by simp) hal
  have hge : ¬ (unmap_range_step kvm s pgdp ipa (ipa + PAGE_SIZE)).2 < ipa + PAGE_SIZE := by
    simp only [PAGE_SIZE] at k2 k3 ⊢
    omega
  have h1 : ipa < ipa + PAGE_SIZE := by simp
  show unmap_range_loop (4095 + 1) kvm s pgdp ipa (ipa + PAGE_SIZE) = _
  rw [unmap_range_loop, if_pos h1]
  show unmap_range_loop (4094 + 1) kvm _ pgdp _ (ipa + PAGE_SIZE) = _
  rw [unmap_range_loop, if_neg hge]

end S2Mmu
namespace S2Mmu

/-- The fields of the state after `clear_pte_entry` on a present leaf. -/
theorem clear_pte_entry_fields (kvm : Bool) (s : KvmState) (p : EntryPtr) (addr : Nat)
    (h : pte_present (s.rd p)) :
    (clear_pte_entry kvm s p addr).mem
      = (fun f i => if f = p.frame ∧ i = p.idx then 0 else s.mem f i) ∧
    (clear_pte_entry kvm s p addr).page_count
      = (fun f => if f = p.frame then s.page_count p.frame - 1 else s.page_count f) ∧
    (clear_pte_entry kvm s p addr).freed
      = (if s.page_count p.frame - 1 = 0 then p.frame :: s.freed else s.freed) ∧
    (clear_pte_entry kvm s p addr).pgd = s.pgd := by
  unfold clear_pte_entry
  rw [if_pos h]
  cases kvm <;> exact ⟨rfl, rfl, rfl, rfl⟩

/-- The fields of the state after `clear_pmd_entry` on an entry that points to table `T`,
a page other than the one that holds the entry. -/
theorem clear_pmd_entry_fields (kvm : Bool) (s : KvmState) (p : EntryPtr) (addr T : Nat)
    (hT : pmd_to_pfn (s.rd p) = T) (hne : p.frame ≠ T) :
    (clear_pmd_entry kvm s p addr).mem
      = (fun f i => if f = p.frame ∧ i = p.idx then 0 else s.mem f i) ∧
    (clear_pmd_entry kvm s p addr).page_count
      = (fun f => if f = p.frame then s.page_count p.frame - 1
          else if f = T then s.page_count T - 1 else s.page_count f) ∧
    (clear_pmd_entry kvm s p addr).freed
      = (if s.page_count p.frame - 1 = 0 then
          p.frame :: (if s.page_count T - 1 = 0 then T :: s.freed else s.freed)
         else (if s.page_count T - 1 = 0 then T :: s.freed else s.freed)) ∧
    (clear_pmd_entry kvm s p addr).pgd = s.pgd := by
  unfold clear_pmd_entry
  rw [hT]
  cases kvm <;>
    simp [kvm_tlb_flush_vmid_ipa, free_page, put_page, KvmState.wr, KvmState.emit, hne]

/-- The fields of the state after `clear_pud_entry` on an entry that points to table `T`,
a page other than the one that holds the entry. -/
theorem clear_pud_entry_fields (kvm : Bool) (s : KvmState) (p : EntryPtr) (addr T : Nat)
    (hT : pud_to_pfn (s.rd p) = T) (hne : p.frame ≠ T) :
    (clear_pud_entry kvm s p addr).mem
      = (fun f i => if f = p.frame ∧ i = p.idx then 0 else s.mem f i) ∧
    (clear_pud_entry kvm s p addr).page_count
      = (fun f => if f = p.frame then s.page_count p.frame - 1
          else if f = T then s.page_count T - 1 else s.page_count f) ∧
    (clear_pud_entry kvm s p addr).freed
      = (if s.page_count p.frame - 1 = 0 then
          p.frame :: (if s.page_count T - 1 = 0 then T :: s.freed else s.freed)
         else (if s.page_count T - 1 = 0 then T :: s.freed else s.freed)) ∧
    (clear_pud_entry kvm s p addr).pgd = s.pgd := by
  unfold clear_pud_entry
  rw [hT]
  cases kvm <;>
    simp [kvm_tlb_flush_vmid_ipa, free_page, put_page, KvmState.wr, KvmState.emit, hne]

end S2Mmu

namespace S2Mmu

/-- One iteration of `unmap_range` at an address whose pud and pmd entries are there: the
leaf is cleared, then the pmd entry when the pte table is left empty, then the pud entry
when the pmd table is left empty and the root page is not. -/
theorem unmap_range_step_present (kvm : Bool) (s : KvmState) (pgdp addr end_ Fp Fq : Nat)
    (hFp : pud_to_pfn (s.rd (pud_offset pgdp addr)) = Fp)
    (hFq : pmd_to_pfn (s.mem Fp (pmd_index addr)) = Fq)
    (h1 : s.rd (pud_offset pgdp addr) ≠ 0)
    (h2 : s.mem Fp (pmd_index addr) ≠ 0) :
    (unmap_range_step kvm s pgdp addr end_).1 =
      if (clear_pte_entry kvm s ⟨Fq, pte_index addr⟩ addr).page_count Fq = 1 then
        if (clear_pmd_entry kvm (clear_pte_entry kvm s ⟨Fq, pte_index addr⟩ addr)
              ⟨Fp, pmd_index addr⟩ addr).page_count Fp = 1 ∧
            ¬ (clear_pmd_entry kvm (clear_pte_entry kvm s ⟨Fq, pte_index addr⟩ addr)
              ⟨Fp, pmd_index addr⟩ addr).page_count (pud_offset pgdp addr).frame = 1 then
          clear_pud_entry kvm (clear_pmd_entry kvm
            (clear_pte_entry kvm s ⟨Fq, pte_index addr⟩ addr) ⟨Fp, pmd_index addr⟩ addr)
            (pud_offset pgdp addr) addr
        else clear_pmd_entry kvm (clear_pte_entry kvm s ⟨Fq, pte_index addr⟩ addr)
          ⟨Fp, pmd_index addr⟩ addr
      else clear_pte_entry kvm s ⟨Fq, pte_index addr⟩ addr := by
  have hpmd : pmd_offset s (pud_offset pgdp addr) addr = ⟨Fp, pmd_index addr⟩ := by
    simp only [pmd_offset, hFp]
  have h2' : ¬ s.rd (⟨Fp, pmd_index addr⟩ : EntryPtr) = 0 := h2
  have hpte : pte_offset_kernel s ⟨Fp, pmd_index addr⟩ addr = ⟨Fq, pte_index addr⟩ := by
    simp only [pte_offset_kernel, KvmState.rd, hFq]
  unfold unmap_range_step
  simp only [pud_none, h1, if_false, hpmd, pmd_none, h2', hpte, page_empty]
  split_ifs <;> rfl

/-- One iteration of `unmap_range` over a present leaf whose pte table stays in use: only
the leaf is cleared. -/
theorem unmap_step_leaf_only (kvm : Bool) (s : KvmState) (pgdp addr end_ Fp Fq : Nat)
    (hFp : pud_to_pfn (s.rd (pud_offset pgdp addr)) = Fp)
    (hFq : pmd_to_pfn (s.mem Fp (pmd_index addr)) = Fq)
    (h1 : s.rd (pud_offset pgdp addr) ≠ 0)
    (h2 : s.mem Fp (pmd_index addr) ≠ 0)
    (h3 : pte_present (s.mem Fq (pte_index addr)))
    (hcq : 3 ≤ s.page_count Fq) :
    (unmap_range_step kvm s pgdp addr end_).1.mem
      = (fun f i => if f = Fq ∧ i = pte_index addr then 0 else s.mem f i) ∧
    (unmap_range_step kvm s pgdp addr end_).1.page_count
      = (fun f => if f = Fq then s.page_count Fq - 1 else s.page_count f) ∧
    (unmap_range_step kvm s pgdp addr end_).1.freed = s.freed ∧
    (unmap_range_step kvm s pgdp addr end_).1.pgd = s.pgd := by
  obtain ⟨m1, c1, fr1, g1⟩ := clear_pte_entry_fields kvm s ⟨Fq, pte_index addr⟩ addr h3
  rw [unmap_range_step_present kvm s pgdp addr end_ Fp Fq hFp hFq h1 h2]
  have hne : ¬ (clear_pte_entry kvm s ⟨Fq, pte_index addr⟩ addr).page_count Fq = 1 := by
    rw [c1]; simp only [if_true]; omega
  rw [if_neg hne]
  refine ⟨m1, c1, ?_, g1⟩
  rw [fr1]; dsimp only
  rw [if_neg (by omega)]

/-- One iteration of `unmap_range` over a present leaf that is the last reference of its pte
table, while the pmd table stays in use: the leaf and the pmd entry are cleared and the pte
table is released. -/
theorem unmap_step_pte_table (kvm : Bool) (s : KvmState) (pgdp addr end_ Fp Fq : Nat)
    (hFp : pud_to_pfn (s.rd (pud_offset pgdp addr)) = Fp)
    (hFq : pmd_to_pfn (s.mem Fp (pmd_index addr)) = Fq)
    (h1 : s.rd (pud_offset pgdp addr) ≠ 0)
    (h2 : s.mem Fp (pmd_index addr) ≠ 0)
    (h3 : pte_present (s.mem Fq (pte_index addr)))
    (nqp : Fq ≠ Fp)
    (hcq : s.page_count Fq = 2) (hcp : 3 ≤ s.page_count Fp) :
    (unmap_range_step kvm s pgdp addr end_).1.mem
      = (fun f i => if f = Fp ∧ i = pmd_index addr then 0
          else if f = Fq ∧ i = pte_index addr then 0 else s.mem f i) ∧
    (unmap_range_step kvm s pgdp addr end_).1.page_count
      = (fun f => if f = Fp then s.page_count Fp - 1 else if f = Fq then 0
          else s.page_count f) ∧
    (unmap_range_step kvm s pgdp addr end_).1.freed = Fq :: s.freed ∧
    (unmap_range_step kvm s pgdp addr end_).1.pgd = s.pgd := by
  obtain ⟨m1, c1, fr1, g1⟩ := clear_pte_entry_fields kvm s ⟨Fq, pte_index addr⟩ addr h3
  rw [unmap_range_step_present kvm s pgdp addr end_ Fp Fq hFp hFq h1 h2]
  generalize clear_pte_entry kvm s ⟨Fq, pte_index addr⟩ addr = S1 at m1 c1 fr1 g1 ⊢
  dsimp only at m1 c1 fr1
  have npq : Fp ≠ Fq := fun e => nqp e.symm
  have hT : pmd_to_pfn (S1.rd ⟨Fp, pmd_index addr⟩) = Fq := by
    show pmd_to_pfn (S1.mem Fp (pmd_index addr)) = Fq
    rw [m1]; dsimp only
    rw [if_neg (fun h => npq h.1)]; exact hFq
  obtain ⟨m2, c2, fr2, g2⟩ := clear_pmd_entry_fields kvm S1 ⟨Fp, pmd_index addr⟩ addr Fq hT npq
  generalize clear_pmd_entry kvm S1 ⟨Fp, pmd_index addr⟩ addr = S2 at m2 c2 fr2 g2 ⊢
  dsimp only at m2 c2 fr2
  have e1 : S1.page_count Fq = 1 := by rw [c1]; simp only [if_true]; omega
  have e1p : S1.page_count Fp = s.page_count Fp := by rw [c1]; simp only [npq, if_false]
  have e2 : ¬ (S2.page_count Fp = 1 ∧ ¬ S2.page_count (pud_offset pgdp addr).frame = 1) := by
    intro h
    have := h.1
    rw [c2] at this; simp only [if_true] at this
    omega
  rw [if_pos e1, if_neg e2]
  refine ⟨?_, ?_, ?_, ?_⟩
  · rw [m2, m1]
  · rw [c2, e1p, e1]
    funext f
    by_cases hfp : f = Fp
    · simp only [hfp, if_true]
    · simp only [hfp, if_false]
      by_cases hfq : f = Fq
      · simp only [hfq, if_true]
      · simp only [hfq, if_false]; rw [c1]; simp only [hfq, if_false]
  · rw [fr2, e1p, e1, fr1]
    rw [if_neg (by omega), if_pos (by omega), if_neg (by omega)]
  · rw [g2, g1]

end S2Mmu
namespace S2Mmu

/-- One iteration of `unmap_range` over a present leaf that is the last reference of its pte
table, which is the last reference of its pmd table, while the root page stays in use: the
three entries are cleared and both tables are released. -/
theorem unmap_step_both_tables (kvm : Bool) (s : KvmState) (pgdp addr end_ Fp Fq : Nat)
    (hFp : pud_to_pfn (s.rd (pud_offset pgdp addr)) = Fp)
    (hFq : pmd_to_pfn (s.mem Fp (pmd_index addr)) = Fq)
    (h1 : s.rd (pud_offset pgdp addr) ≠ 0)
    (h2 : s.mem Fp (pmd_index addr) ≠ 0)
    (h3 : pte_present (s.mem Fq (pte_index addr)))
    (nqp : Fq ≠ Fp) (nqR : Fq ≠ (pud_offset pgdp addr).frame)
    (npR : Fp ≠ (pud_offset pgdp addr).frame)
    (hcq : s.page_count Fq = 2) (hcp : s.page_count Fp = 2)
    (hcR : 2 ≤ s.page_count (pud_offset pgdp addr).frame) :
    (unmap_range_step kvm s pgdp addr end_).1.mem
      = (fun f i => if f = (pud_offset pgdp addr).frame ∧ i = (pud_offset pgdp addr).idx then 0
          else if f = Fp ∧ i = pmd_index addr then 0
          else if f = Fq ∧ i = pte_index addr then 0 else s.mem f i) ∧
    (unmap_range_step kvm s pgdp addr end_).1.page_count
      = (fun f => if f = (pud_offset pgdp addr).frame then
            s.page_count (pud_offset pgdp addr).frame - 1
          else if f = Fp then 0 else if f = Fq then 0 else s.page_count f) ∧
    (unmap_range_step kvm s pgdp addr end_).1.freed = Fp :: Fq :: s.freed ∧
    (unmap_range_step kvm s pgdp addr end_).1.pgd = s.pgd := by
  obtain ⟨m1, c1, fr1, g1⟩ := clear_pte_entry_fields kvm s ⟨Fq, pte_index addr⟩ addr h3
  rw [unmap_range_step_present kvm s pgdp addr end_ Fp Fq hFp hFq h1 h2]
  have hpud : s.mem (pud_offset pgdp addr).frame (pud_offset pgdp addr).idx
      = s.rd (pud_offset pgdp addr) := rfl
  generalize pud_offset pgdp addr = pud at hFp h1 nqR npR hcR hpud ⊢
  generalize clear_pte_entry kvm s ⟨Fq, pte_index addr⟩ addr = S1 at m1 c1 fr1 g1 ⊢
  dsimp only at m1 c1 fr1
  have npq : Fp ≠ Fq := fun e => nqp e.symm
  have nRq : pud.frame ≠ Fq := fun e => nqR e.symm
  have nRp : pud.frame ≠ Fp := fun e => npR e.symm
  have hT : pmd_to_pfn (S1.rd ⟨Fp, pmd_index addr⟩) = Fq := by
    show pmd_to_pfn (S1.mem Fp (pmd_index addr)) = Fq
    rw [m1]; dsimp only
    rw [if_neg (fun h => npq h.1)]; exact hFq
  obtain ⟨m2, c2, fr2, g2⟩ := clear_pmd_entry_fields kvm S1 ⟨Fp, pmd_index addr⟩ addr Fq hT npq
  generalize clear_pmd_entry kvm S1 ⟨Fp, pmd_index addr⟩ addr = S2 at m2 c2 fr2 g2 ⊢
  dsimp only at m2 c2 fr2
  have e1 : S1.page_count Fq = 1 := by rw [c1]; simp only [if_true]; omega
  have e1p : S1.page_count Fp = 2 := by rw [c1]; simp only [npq, if_false]; exact hcp
  have e1R : S1.page_count pud.frame = s.page_count pud.frame := by
    rw [c1]; simp only [nRq, if_false]
  have e2p : S2.page_count Fp = 1 := by rw [c2]; simp only [if_true]; omega
  have e2q : S2.page_count Fq = 0 := by
    rw [c2]; simp only [nqp, if_false, if_true]; omega
  have e2R : S2.page_count pud.frame = s.page_count pud.frame := by
    rw [c2]; simp only [nRp, nRq, if_false]; exact e1R
  have e2 : S2.page_count Fp = 1 ∧ ¬ S2.page_count pud.frame = 1 := by
    refine ⟨e2p, ?_⟩
    rw [e2R]; omega
  have hT2 : pud_to_pfn (S2.rd pud) = Fp := by
    show pud_to_pfn (S2.mem pud.frame pud.idx) = Fp
    rw [m2, m1]; dsimp only
    rw [if_neg (fun h => nRp h.1), if_neg (fun h => nRq h.1), hpud]; exact hFp
  obtain ⟨m3, c3, fr3, g3⟩ := clear_pud_entry_fields kvm S2 pud addr Fp hT2 nRp
  generalize clear_pud_entry kvm S2 pud addr = S3 at m3 c3 fr3 g3 ⊢
  rw [if_pos e1, if_pos e2]
  refine ⟨?_, ?_, ?_, ?_⟩
  · rw [m3, m2, m1]
  · rw [c3, e2R, e2p]
    funext f
    by_cases hfR : f = pud.frame
    · simp only [hfR, if_true]
    · simp only [hfR, if_false]
      by_cases hfp : f = Fp
      · simp only [hfp, if_true]
      · simp only [hfp, if_false]
        by_cases hfq : f = Fq
        · rw [hfq, e2q]; simp only [if_true]
        · rw [c2]; simp only [hfp, hfq, if_false]; rw [c1]; simp only [hfq, if_false]
  · rw [fr3, e2R, e2p, fr2, e1p, e1, fr1]
    rw [if_neg (by omega), if_pos (by omega), if_neg (by omega), if_pos (by omega),
      if_neg (by omega)]
  · rw [g3, g2, g1]

end S2Mmu
namespace S2Mmu

/-- `stage2_set_pte` at an address whose pud entry is empty: both reserve frames become
tables and the leaf is stored in the second one. -/
theorem stage2_set_pte_fresh_pud (s : KvmState) (root ipa pte : Nat) (iomap : Bool)
    (f1 f2 : Nat) (rest : List Nat)
    (hroot : s.pgd = some root)
    (h0 : s.rd (pud_offset root ipa) = 0)
    (hz1 : ∀ i, s.mem f1 i = 0) (hz2 : ∀ i, s.mem f2 i = 0)
    (hlt1 : f1 < 268435456) (hlt2 : f2 < 268435456)
    (n12 : f1 ≠ f2) (n1R : f1 ≠ (pud_offset root ipa).frame)
    (n2R : f2 ≠ (pud_offset root ipa).frame)
    (hslot : s.cloning_role ≠ 0 → iomap = false →
      ∃ m b, gfn_to_memslot s (ipa >>> PAGE_SHIFT) = some m ∧ m.unshare_bitmap = some b) :
    ∃ s3, stage2_set_pte s (some { objects := f1 :: f2 :: rest }) ipa pte iomap
        = some (s3, some { objects := rest }, 0) ∧
      s3.mem = (((s.wr (pud_offset root ipa) ((f1 <<< PAGE_SHIFT) ||| PMD_TYPE_TABLE)).wr
        ⟨f1, pmd_index ipa⟩ ((f2 <<< PAGE_SHIFT) ||| PMD_TYPE_TABLE)).wr
        ⟨f2, pte_index ipa⟩ pte).mem ∧
      s3.page_count
        = (get_page (get_page (get_page s (pud_offset root ipa).frame) f1) f2).page_count ∧
      s3.pgd = s.pgd ∧ s3.freed = s.freed := by
  generalize hpud : pud_offset root ipa = pud at h0 n1R n2R ⊢
  generalize hA : get_page (pud_populate s pud f1) pud.frame = sA
  have hAmem : sA.mem = (s.wr pud ((f1 <<< PAGE_SHIFT) ||| PMD_TYPE_TABLE)).mem := by
    rw [← hA]; rfl
  have e1 : stage2_pud_level s (some { objects := f1 :: f2 :: rest }) ipa pud
      = S2Step.cont sA (some { objects := f2 :: rest }) := by
    unfold stage2_pud_level
    rw [if_pos (show pud_none (s.rd pud) from h0), if_neg (by simp)]
    simp only [mmu_memory_cache_alloc, hA]
  have hpmd : pmd_offset sA pud ipa = ⟨f1, pmd_index ipa⟩ := by
    have : sA.rd pud = (f1 <<< 12) ||| 3 := by
      show sA.mem pud.frame pud.idx = _
      rw [hAmem]; simp [KvmState.wr]
    simp only [pmd_offset, this, pud_to_pfn, PHYS_MASK, PAGE_SHIFT]
    rw [Nat.and_pow_two_sub_one_eq_mod _ 40, Nat.shiftRight_eq_div_pow]
    norm_num
    exact pfn_populate f1 hlt1
  generalize hB : get_page (pmd_populate_kernel sA ⟨f1, pmd_index ipa⟩ f2) f1 = sB
  have hBmem : sB.mem = ((s.wr pud ((f1 <<< PAGE_SHIFT) ||| PMD_TYPE_TABLE)).wr
      ⟨f1, pmd_index ipa⟩ ((f2 <<< PAGE_SHIFT) ||| PMD_TYPE_TABLE)).mem := by
    rw [← hB]
    show (fun f i => if f = f1 ∧ i = pmd_index ipa then _ else sA.mem f i) = _
    rw [hAmem]; rfl
  have hA0 : sA.rd ⟨f1, pmd_index ipa⟩ = 0 := by
    show sA.mem f1 (pmd_index ipa) = 0
    rw [hAmem]; simp [KvmState.wr, n1R, hz1]
  have e2 : stage2_pmd_level sA (some { objects := f2 :: rest }) ipa ⟨f1, pmd_index ipa⟩
      = S2Step.cont sB (some { objects := rest }) := by
    unfold stage2_pmd_level
    rw [if_pos (show pmd_none (sA.rd ⟨f1, pmd_index ipa⟩) from hA0), if_neg (by simp)]
    simp only [mmu_memory_cache_alloc, hB]
  have hpte : pte_offset_kernel sB ⟨f1, pmd_index ipa⟩ ipa = ⟨f2, pte_index ipa⟩ := by
    have : sB.rd ⟨f1, pmd_index ipa⟩ = (f2 <<< 12) ||| 3 := by
      show sB.mem f1 (pmd_index ipa) = _
      rw [hBmem]; simp [KvmState.wr]
    simp only [pte_offset_kernel, this, pmd_to_pfn, PHYS_MASK, PAGE_SHIFT]
    rw [Nat.and_pow_two_sub_one_eq_mod _ 40, Nat.shiftRight_eq_div_pow]
    norm_num
    exact pfn_populate f2 hlt2
  have hB0 : sB.rd ⟨f2, pte_index ipa⟩ = 0 := by
    show sB.mem f2 (pte_index ipa) = 0
    rw [hBmem]; simp [KvmState.wr, n2R, hz2, Ne.symm n12]
  have hslotB : sB.cloning_role ≠ 0 → iomap = false →
      ∃ m b, gfn_to_memslot sB (ipa >>> PAGE_SHIFT) = some m ∧ m.unshare_bitmap = some b := by
    rw [← hB, ← hA]; exact hslot
  obtain ⟨s3, e3, m3, c3, g3, fr3⟩ :=
    stage2_pte_level_zero sB ipa ⟨f2, pte_index ipa⟩ pte iomap hB0 hslotB
  refine ⟨s3, ?_, ?_, ?_, ?_, ?_⟩
  · unfold stage2_set_pte
    rw [hroot]; dsimp only
    rw [hpud, e1]; dsimp only
    rw [hpmd, e2]; dsimp only
    rw [hpte, if_neg (by rw [hB0]; intro h; exact absurd h.2.1 (by decide)), e3]
  · rw [m3]
    show (fun f i => if f = f2 ∧ i = pte_index ipa then pte else sB.mem f i) = _
    rw [hBmem]; rfl
  · rw [c3, ← hB, ← hA]; rfl
  · rw [g3, ← hB, ← hA]; rfl
  · rw [fr3, ← hB, ← hA]; rfl

end S2Mmu
namespace S2Mmu

/-- `stage2_set_pte` at an address whose pud entry is a table and whose pmd entry is empty:
the first reserve frame becomes the pte table and the leaf is stored in it. -/
theorem stage2_set_pte_fresh_pmd (s : KvmState) (root ipa pte : Nat) (iomap : Bool)
    (f1 f2 P : Nat) (rest : List Nat)
    (hroot : s.pgd = some root)
    (hP : pud_to_pfn (s.rd (pud_offset root ipa)) = P)
    (ht : pmd_table (s.rd (pud_offset root ipa)))
    (h0 : s.mem P (pmd_index ipa) = 0)
    (hz1 : ∀ i, s.mem f1 i = 0) (hlt1 : f1 < 268435456) (n1P : f1 ≠ P)
    (hslot : s.cloning_role ≠ 0 → iomap = false →
      ∃ m b, gfn_to_memslot s (ipa >>> PAGE_SHIFT) = some m ∧ m.unshare_bitmap = some b) :
    ∃ s3, stage2_set_pte s (some { objects := f1 :: f2 :: rest }) ipa pte iomap
        = some (s3, some { objects := f2 :: rest }, 0) ∧
      s3.mem = ((s.wr ⟨P, pmd_index ipa⟩ ((f1 <<< PAGE_SHIFT) ||| PMD_TYPE_TABLE)).wr
        ⟨f1, pte_index ipa⟩ pte).mem ∧
      s3.page_count = (get_page (get_page s P) f1).page_count ∧
      s3.pgd = s.pgd ∧ s3.freed = s.freed := by
  have h1 : ¬ pud_none (s.rd (pud_offset root ipa)) := by
    have := (pmd_table_iff _).1 ht
    show ¬ s.rd (pud_offset root ipa) = 0
    omega
  have e1 : stage2_pud_level s (some { objects := f1 :: f2 :: rest }) ipa (pud_offset root ipa)
      = S2Step.cont s (some { objects := f1 :: f2 :: rest }) := by
    unfold stage2_pud_level
    rw [if_neg h1, if_neg (not_not.2 ht)]
  have hpmd : pmd_offset s (pud_offset root ipa) ipa = ⟨P, pmd_index ipa⟩ := by
    simp only [pmd_offset, hP]
  generalize hB : get_page (pmd_populate_kernel s ⟨P, pmd_index ipa⟩ f1) P = sB
  have hBmem : sB.mem
      = (s.wr ⟨P, pmd_index ipa⟩ ((f1 <<< PAGE_SHIFT) ||| PMD_TYPE_TABLE)).mem := by
    rw [← hB]; rfl
  have e2 : stage2_pmd_level s (some { objects := f1 :: f2 :: rest }) ipa ⟨P, pmd_index ipa⟩
      = S2Step.cont sB (some { objects := f2 :: rest }) := by
    unfold stage2_pmd_level
    rw [if_pos (show pmd_none (s.rd ⟨P, pmd_index ipa⟩) from h0), if_neg (by simp)]
    simp only [mmu_memory_cache_alloc, hB]
  have hpte : pte_offset_kernel sB ⟨P, pmd_index ipa⟩ ipa = ⟨f1, pte_index ipa⟩ := by
    have : sB.rd ⟨P, pmd_index ipa⟩ = (f1 <<< 12) ||| 3 := by
      show sB.mem P (pmd_index ipa) = _
      rw [hBmem]; simp [KvmState.wr]
    simp only [pte_offset_kernel, this, pmd_to_pfn, PHYS_MASK, PAGE_SHIFT]
    rw [Nat.and_pow_two_sub_one_eq_mod _ 40, Nat.shiftRight_eq_div_pow]
    norm_num
    exact pfn_populate f1 hlt1
  have hB0 : sB.rd ⟨f1, pte_index ipa⟩ = 0 := by
    show sB.mem f1 (pte_index ipa) = 0
    rw [hBmem]; simp [KvmState.wr, n1P, hz1]
  have hslotB : sB.cloning_role ≠ 0 → iomap = false →
      ∃ m b, gfn_to_memslot sB (ipa >>> PAGE_SHIFT) = some m ∧ m.unshare_bitmap = some b := by
    rw [← hB]; exact hslot
  obtain ⟨s3, e3, m3, c3, g3, fr3⟩ :=
    stage2_pte_level_zero sB ipa ⟨f1, pte_index ipa⟩ pte iomap hB0 hslotB
  refine ⟨s3, ?_, ?_, ?_, ?_, ?_⟩
  · unfold stage2_set_pte
    rw [hroot]; dsimp only
    rw [e1]; dsimp only
    rw [hpmd, e2]; dsimp only
    rw [hpte, if_neg (by rw [hB0]; intro h; exact absurd h.2.1 (by decide)), e3]
  · rw [m3]
    show (fun f i => if f = f1 ∧ i = pte_index ipa then pte else sB.mem f i) = _
    rw [hBmem]; rfl
  · rw [c3, ← hB]; rfl
  · rw [g3, ← hB]; rfl
  · rw [fr3, ← hB]; rfl

/-- `stage2_set_pte` at an address whose pud and pmd entries are tables and whose leaf is
empty: the leaf is stored and the reserve is left alone. -/
theorem stage2_set_pte_fresh_leaf (s : KvmState) (root ipa pte : Nat) (iomap : Bool)
    (c : Option kvm_mmu_memory_cache) (P Q : Nat)
    (hroot : s.pgd = some root)
    (hP : pud_to_pfn (s.rd (pud_offset root ipa)) = P)
    (ht : pmd_table (s.rd (pud_offset root ipa)))
    (hQ : pmd_to_pfn (s.mem P (pmd_index ipa)) = Q)
    (ht2 : pmd_table (s.mem P (pmd_index ipa)))
    (h0 : s.mem Q (pte_index ipa) = 0)
    (hslot : s.cloning_role ≠ 0 → iomap = false →
      ∃ m b, gfn_to_memslot s (ipa >>> PAGE_SHIFT) = some m ∧ m.unshare_bitmap = some b) :
    ∃ s3, stage2_set_pte s c ipa pte iomap = some (s3, c, 0) ∧
      s3.mem = (s.wr ⟨Q, pte_index ipa⟩ pte).mem ∧
      s3.page_count = (get_page s Q).page_count ∧
      s3.pgd = s.pgd ∧ s3.freed = s.freed := by
  have h1 : ¬ pud_none (s.rd (pud_offset root ipa)) := by
    have := (pmd_table_iff _).1 ht
    show ¬ s.rd (pud_offset root ipa) = 0
    omega
  have e1 : stage2_pud_level s c ipa (pud_offset root ipa) = S2Step.cont s c := by
    unfold stage2_pud_level
    rw [if_neg h1, if_neg (not_not.2 ht)]
  have hpmd : pmd_offset s (pud_offset root ipa) ipa = ⟨P, pmd_index ipa⟩ := by
    simp only [pmd_offset, hP]
  have h2 : ¬ pmd_none (s.rd ⟨P, pmd_index ipa⟩) := by
    have := (pmd_table_iff _).1 ht2
    show ¬ s.mem P (pmd_index ipa) = 0
    omega
  have e2 : stage2_pmd_level s c ipa ⟨P, pmd_index ipa⟩ = S2Step.cont s c := by
    unfold stage2_pmd_level
    rw [if_neg h2, if_neg (not_not.2 (show pmd_table (s.rd ⟨P, pmd_index ipa⟩) from ht2))]
  have hpte : pte_offset_kernel s ⟨P, pmd_index ipa⟩ ipa = ⟨Q, pte_index ipa⟩ := by
    simp only [pte_offset_kernel, KvmState.rd, hQ]
  have hB0 : s.rd ⟨Q, pte_index ipa⟩ = 0 := h0
  obtain ⟨s3, e3, m3, c3, g3, fr3⟩ :=
    stage2_pte_level_zero s ipa ⟨Q, pte_index ipa⟩ pte iomap hB0 hslot
  refine ⟨s3, ?_, m3, c3, g3, fr3⟩
  unfold stage2_set_pte
  rw [hroot]; dsimp only
  rw [e1]; dsimp only
  rw [hpmd, e2]; dsimp only
  rw [hpte, if_neg (by rw [hB0]; intro h; exact absurd h.2.1 (by decide)), e3]

end S2Mmu
namespace S2Mmu

theorem pud_to_pfn_populate (f : Nat) (h : f < 268435456) :
    pud_to_pfn ((f <<< PAGE_SHIFT) ||| PMD_TYPE_TABLE) = f := by
  simp only [pud_to_pfn, PHYS_MASK, PAGE_SHIFT, PMD_TYPE_TABLE]
  rw [Nat.and_pow_two_sub_one_eq_mod _ 40, Nat.shiftRight_eq_div_pow]
  norm_num
  exact pfn_populate f h

theorem pmd_to_pfn_populate (f : Nat) (h : f < 268435456) :
    pmd_to_pfn ((f <<< PAGE_SHIFT) ||| PMD_TYPE_TABLE) = f := by
  simp only [pmd_to_pfn, PHYS_MASK, PAGE_SHIFT, PMD_TYPE_TABLE]
  rw [Nat.and_pow_two_sub_one_eq_mod _ 40, Nat.shiftRight_eq_div_pow]
  norm_num
  exact pfn_populate f h

/-- Set then unmap at an address whose pud entry is empty. -/
theorem set_unmap_fresh_pud (s : KvmState) (root ipa pte : Nat) (iomap : Bool)
    (f1 f2 : Nat) (rest : List Nat)
    (hroot : s.pgd = some root) (hal : ipa % 4096 = 0) (hpte : pte_present pte)
    (h0 : s.rd (pud_offset root ipa) = 0)
    (hcR : 1 ≤ s.page_count (pud_offset root ipa).frame)
    (hz1 : ∀ i, s.mem f1 i = 0) (hz2 : ∀ i, s.mem f2 i = 0)
    (hc1 : s.page_count f1 = 1) (hc2 : s.page_count f2 = 1)
    (hlt1 : f1 < 268435456) (hlt2 : f2 < 268435456)
    (n12 : f1 ≠ f2) (n1R : f1 ≠ (pud_offset root ipa).frame)
    (n2R : f2 ≠ (pud_offset root ipa).frame)
    (hslot : s.cloning_role ≠ 0 → iomap = false →
      ∃ m b, gfn_to_memslot s (ipa >>> PAGE_SHIFT) = some m ∧ m.unshare_bitmap = some b) :
    ∃ s1, stage2_set_pte s (some { objects := f1 :: f2 :: rest }) ipa pte iomap
        = some (s1, some { objects := rest }, 0) ∧
      (unmap_range true s1 root ipa PAGE_SIZE).pgd = s.pgd ∧
      (unmap_range true s1 root ipa PAGE_SIZE).mem = s.mem ∧
      (unmap_range true s1 root ipa PAGE_SIZE).page_count
        = (fun f => if f ∈ [f1, f2] then 0 else s.page_count f) ∧
      (unmap_range true s1 root ipa PAGE_SIZE).freed = [f1, f2] ++ s.freed := by
  obtain ⟨s3, e, m3, c3, g3, fr3⟩ := stage2_set_pte_fresh_pud s root ipa pte iomap f1 f2 rest
    hroot h0 hz1 hz2 hlt1 hlt2 n12 n1R n2R hslot
  refine ⟨s3, e, ?_⟩
  rw [unmap_range_one_page true s3 root ipa hal]
  have hpud0 : s.mem (pud_offset root ipa).frame (pud_offset root ipa).idx = 0 := h0
  have n21 : f2 ≠ f1 := fun e => n12 e.symm
  have nR1 : (pud_offset root ipa).frame ≠ f1 := fun e => n1R e.symm
  have nR2 : (pud_offset root ipa).frame ≠ f2 := fun e => n2R e.symm
  have v1 : s3.rd (pud_offset root ipa) = (f1 <<< PAGE_SHIFT) ||| PMD_TYPE_TABLE := by
    show s3.mem (pud_offset root ipa).frame (pud_offset root ipa).idx = _
    rw [m3]; simp [KvmState.wr, nR1, nR2]
  have v2 : s3.mem f1 (pmd_index ipa) = (f2 <<< PAGE_SHIFT) ||| PMD_TYPE_TABLE := by
    rw [m3]; simp [KvmState.wr, n12]
  have v3 : s3.mem f2 (pte_index ipa) = pte := by
    rw [m3]; simp [KvmState.wr]
  have hFp : pud_to_pfn (s3.rd (pud_offset root ipa)) = f1 := by rw [v1]; exact pud_to_pfn_populate f1 hlt1
  have hFq : pmd_to_pfn (s3.mem f1 (pmd_index ipa)) = f2 := by
    rw [v2]; exact pmd_to_pfn_populate f2 hlt2
  have k1 : s3.rd (pud_offset root ipa) ≠ 0 := by rw [v1]; exact populate_ne_zero f1
  have k2 : s3.mem f1 (pmd_index ipa) ≠ 0 := by rw [v2]; exact populate_ne_zero f2
  have k3 : pte_present (s3.mem f2 (pte_index ipa)) := by rw [v3]; exact hpte
  have q2 : s3.page_count f2 = 2 := by rw [c3]; simp [get_page, n21, n2R, hc2]
  have q1 : s3.page_count f1 = 2 := by rw [c3]; simp [get_page, n12, n1R, hc1]
  have qR : s3.page_count (pud_offset root ipa).frame = s.page_count (pud_offset root ipa).frame + 1 := by
    rw [c3]; simp [get_page, nR1, nR2]
  obtain ⟨um, uc, uf, ug⟩ := unmap_step_both_tables true s3 root ipa (ipa + PAGE_SIZE) f1 f2
    hFp hFq k1 k2 k3 n21 n2R n1R q2 q1 (by omega)
  refine ⟨ug.trans g3, ?_, ?_, ?_⟩
  · rw [um, m3]
    funext f i
    simp only [KvmState.wr]
    by_cases a1 : f = (pud_offset root ipa).frame ∧ i = (pud_offset root ipa).idx
    · rw [if_pos a1, a1.1, a1.2, hpud0]
    · rw [if_neg a1]
      by_cases a2 : f = f1 ∧ i = pmd_index ipa
      · rw [if_pos a2, a2.1, hz1]
      · rw [if_neg a2]
        by_cases a3 : f = f2 ∧ i = pte_index ipa
        · rw [if_pos a3, a3.1, hz2]
        · rw [if_neg a3, if_neg a3, if_neg a2, if_neg a1]
  · rw [uc, qR]
    funext f
    by_cases a1 : f = (pud_offset root ipa).frame
    · simp [a1, nR1, nR2]
    · by_cases a2 : f = f1
      · simp [a2, n1R]
      · by_cases a3 : f = f2
        · simp [a3, n2R, n21]
        · rw [c3]; simp [a1, a2, a3, get_page]
  · rw [uf, fr3]; rfl

end S2Mmu
namespace S2Mmu

/-- Set then unmap at an address whose pud entry is a table and whose pmd entry is empty. -/
theorem set_unmap_fresh_pmd (s : KvmState) (root ipa pte : Nat) (iomap : Bool)
    (f1 f2 P : Nat) (rest : List Nat)
    (hroot : s.pgd = some root) (hal : ipa % 4096 = 0) (hpte : pte_present pte)
    (hP : pud_to_pfn (s.rd (pud_offset root ipa)) = P)
    (ht : pmd_table (s.rd (pud_offset root ipa)))
    (h0 : s.mem P (pmd_index ipa) = 0)
    (hcP : 2 ≤ s.page_count P)
    (hz1 : ∀ i, s.mem f1 i = 0) (hc1 : s.page_count f1 = 1) (hlt1 : f1 < 268435456)
    (n1P : f1 ≠ P) (n1R : f1 ≠ (pud_offset root ipa).frame)
    (nPR : P ≠ (pud_offset root ipa).frame)
    (hslot : s.cloning_role ≠ 0 → iomap = false →
      ∃ m b, gfn_to_memslot s (ipa >>> PAGE_SHIFT) = some m ∧ m.unshare_bitmap = some b) :
    ∃ s1, stage2_set_pte s (some { objects := f1 :: f2 :: rest }) ipa pte iomap
        = some (s1, some { objects := f2 :: rest }, 0) ∧
      (unmap_range true s1 root ipa PAGE_SIZE).pgd = s.pgd ∧
      (unmap_range true s1 root ipa PAGE_SIZE).mem = s.mem ∧
      (unmap_range true s1 root ipa PAGE_SIZE).page_count
        = (fun f => if f ∈ [f1] then 0 else s.page_count f) ∧
      (unmap_range true s1 root ipa PAGE_SIZE).freed = [f1] ++ s.freed := by
  obtain ⟨s3, e, m3, c3, g3, fr3⟩ := stage2_set_pte_fresh_pmd s root ipa pte iomap f1 f2 P rest
    hroot hP ht h0 hz1 hlt1 n1P hslot
  refine ⟨s3, e, ?_⟩
  rw [unmap_range_one_page true s3 root ipa hal]
  have nP1 : P ≠ f1 := fun e => n1P e.symm
  have nR1 : (pud_offset root ipa).frame ≠ f1 := fun e => n1R e.symm
  have nRP : (pud_offset root ipa).frame ≠ P := fun e => nPR e.symm
  have v1 : s3.rd (pud_offset root ipa) = s.rd (pud_offset root ipa) := by
    show s3.mem (pud_offset root ipa).frame (pud_offset root ipa).idx = _
    rw [m3]; simp [KvmState.wr, nR1, nRP, KvmState.rd]
  have v2 : s3.mem P (pmd_index ipa) = (f1 <<< PAGE_SHIFT) ||| PMD_TYPE_TABLE := by
    rw [m3]; simp [KvmState.wr, nP1]
  have v3 : s3.mem f1 (pte_index ipa) = pte := by
    rw [m3]; simp [KvmState.wr]
  have hFp : pud_to_pfn (s3.rd (pud_offset root ipa)) = P := by rw [v1]; exact hP
  have hFq : pmd_to_pfn (s3.mem P (pmd_index ipa)) = f1 := by
    rw [v2]; exact pmd_to_pfn_populate f1 hlt1
  have k1 : s3.rd (pud_offset root ipa) ≠ 0 := by
    rw [v1]
    have := (pmd_table_iff _).1 ht
    omega
  have k2 : s3.mem P (pmd_index ipa) ≠ 0 := by rw [v2]; exact populate_ne_zero f1
  have k3 : pte_present (s3.mem f1 (pte_index ipa)) := by rw [v3]; exact hpte
  have q1 : s3.page_count f1 = 2 := by rw [c3]; simp [get_page, n1P, hc1]
  have qP : s3.page_count P = s.page_count P + 1 := by
    rw [c3]; simp [get_page, nP1]
  obtain ⟨um, uc, uf, ug⟩ := unmap_step_pte_table true s3 root ipa (ipa + PAGE_SIZE) P f1
    hFp hFq k1 k2 k3 n1P q1 (by omega)
  refine ⟨ug.trans g3, ?_, ?_, ?_⟩
  · rw [um, m3]
    funext f i
    simp only [KvmState.wr]
    by_cases a2 : f = P ∧ i = pmd_index ipa
    · rw [if_pos a2, a2.1, a2.2, h0]
    · rw [if_neg a2]
      by_cases a3 : f = f1 ∧ i = pte_index ipa
      · rw [if_pos a3, a3.1, hz1]
      · rw [if_neg a3, if_neg a3, if_neg a2]
  · rw [uc, qP]
    funext f
    by_cases a1 : f = P
    · simp [a1, nP1]
    · by_cases a2 : f = f1
      · simp [a2, n1P]
      · rw [c3]; simp [a1, a2, get_page]
  · rw [uf, fr3]; rfl

/-- Set then unmap at an address whose pud and pmd entries are tables and whose leaf is
empty. -/
theorem set_unmap_fresh_leaf (s : KvmState) (root ipa pte : Nat) (iomap : Bool)
    (c : Option kvm_mmu_memory_cache) (P Q : Nat)
    (hroot : s.pgd = some root) (hal : ipa % 4096 = 0) (hpte : pte_present pte)
    (hP : pud_to_pfn (s.rd (pud_offset root ipa)) = P)
    (ht : pmd_table (s.rd (pud_offset root ipa)))
    (hQ : pmd_to_pfn (s.mem P (pmd_index ipa)) = Q)
    (ht2 : pmd_table (s.mem P (pmd_index ipa)))
    (h0 : s.mem Q (pte_index ipa) = 0)
    (hcQ : 2 ≤ s.page_count Q)
    (nQP : Q ≠ P) (nQR : Q ≠ (pud_offset root ipa).frame)
    (hslot : s.cloning_role ≠ 0 → iomap = false →
      ∃ m b, gfn_to_memslot s (ipa >>> PAGE_SHIFT) = some m ∧ m.unshare_bitmap = some b) :
    ∃ s1, stage2_set_pte s c ipa pte iomap = some (s1, c, 0) ∧
      (unmap_range true s1 root ipa PAGE_SIZE).pgd = s.pgd ∧
      (unmap_range true s1 root ipa PAGE_SIZE).mem = s.mem ∧
      (unmap_range true s1 root ipa PAGE_SIZE).page_count = s.page_count ∧
      (unmap_range true s1 root ipa PAGE_SIZE).freed = s.freed := by
  obtain ⟨s3, e, m3, c3, g3, fr3⟩ := stage2_set_pte_fresh_leaf s root ipa pte iomap c P Q
    hroot hP ht hQ ht2 h0 hslot
  refine ⟨s3, e, ?_⟩
  rw [unmap_range_one_page true s3 root ipa hal]
  have nPQ : P ≠ Q := fun e => nQP e.symm
  have nRQ : (pud_offset root ipa).frame ≠ Q := fun e => nQR e.symm
  have v1 : s3.rd (pud_offset root ipa) = s.rd (pud_offset root ipa) := by
    show s3.mem (pud_offset root ipa).frame (pud_offset root ipa).idx = _
    rw [m3]; simp [KvmState.wr, nRQ, KvmState.rd]
  have v2 : s3.mem P (pmd_index ipa) = s.mem P (pmd_index ipa) := by
    rw [m3]; simp [KvmState.wr, nPQ]
  have v3 : s3.mem Q (pte_index ipa) = pte := by
    rw [m3]; simp [KvmState.wr]
  have hFp : pud_to_pfn (s3.rd (pud_offset root ipa)) = P := by rw [v1]; exact hP
  have hFq : pmd_to_pfn (s3.mem P (pmd_index ipa)) = Q := by rw [v2]; exact hQ
  have k1 : s3.rd (pud_offset root ipa) ≠ 0 := by
    rw [v1]
    have := (pmd_table_iff _).1 ht
    omega
  have k2 : s3.mem P (pmd_index ipa) ≠ 0 := by
    rw [v2]
    have := (pmd_table_iff _).1 ht2
    omega
  have k3 : pte_present (s3.mem Q (pte_index ipa)) := by rw [v3]; exact hpte
  have qQ : s3.page_count Q = s.page_count Q + 1 := by rw [c3]; simp [get_page]
  obtain ⟨um, uc, uf, ug⟩ := unmap_step_leaf_only true s3 root ipa (ipa + PAGE_SIZE) P Q
    hFp hFq k1 k2 k3 (by omega)
  refine ⟨ug.trans g3, ?_, ?_, uf.trans fr3⟩
  · rw [um, m3]
    funext f i
    simp only [KvmState.wr]
    by_cases a3 : f = Q ∧ i = pte_index ipa
    · rw [if_pos a3, a3.1, a3.2, h0]
    · rw [if_neg a3, if_neg a3]
  · rw [uc, qQ]
    funext f
    by_cases a1 : f = Q
    · simp [a1]
    · rw [c3]; simp [a1, get_page]

end S2Mmu
namespace S2Mmu

/-- C5 (amended): for a VM with root `root`, a page-aligned `ipa` that has no leaf yet (the
pud entry is empty and the root page is counted; or the pud entry is a valid table that holds
another entry and the pmd entry is empty; or both are valid tables, the pte table holds
another entry and the leaf is zero), a present leaf value `pte` and a reserve whose first two
frames are zeroed pages of count one apart from the tables on the path:
`stage2_set_pte(ipa, pte)` returns 0 and the following `unmap_range(ipa, PAGE_SIZE)` gives
back the tree of before the set: the same root and the same descriptor in every entry of
every page, the same count on every page, except that the `k` reserve frames which the set
turned into tables have count zero and are released. -/
theorem C5_set_then_unmap_restores (s : KvmState) (root ipa pte : Nat) (iomap : Bool)
    (f1 f2 : Nat) (rest : List Nat)
    (hroot : s.pgd = some root) (hal : ipa % PAGE_SIZE = 0) (hpte : pte_present pte)
    (hz1 : ∀ i, s.mem f1 i = 0) (hz2 : ∀ i, s.mem f2 i = 0)
    (hc1 : s.page_count f1 = 1) (hc2 : s.page_count f2 = 1)
    (hlt1 : f1 < 268435456) (hlt2 : f2 < 268435456)
    (hsep : (f1 :: f2 :: path_frames s root ipa).Nodup)
    (hslot : s.cloning_role ≠ 0 → iomap = false →
      ∃ m b, gfn_to_memslot s (ipa >>> PAGE_SHIFT) = some m ∧ m.unshare_bitmap = some b)
    (hpath :
      (s.rd (pud_offset root ipa) = 0 ∧ 1 ≤ s.page_count (pud_offset root ipa).frame) ∨
      (pmd_table (s.rd (pud_offset root ipa)) ∧
        ((s.rd (pmd_offset s (pud_offset root ipa) ipa) = 0 ∧
            2 ≤ s.page_count (pmd_offset s (pud_offset root ipa) ipa).frame) ∨
          (pmd_table (s.rd (pmd_offset s (pud_offset root ipa) ipa)) ∧
            s.rd (pte_offset_kernel s (pmd_offset s (pud_offset root ipa) ipa) ipa) = 0 ∧
            2 ≤ s.page_count
              (pte_offset_kernel s (pmd_offset s (pud_offset root ipa) ipa) ipa).frame)))) :
    ∃ s1 k, k ≤ 2 ∧
      stage2_set_pte s (some { objects := f1 :: f2 :: rest }) ipa pte iomap
        = some (s1, some { objects := (f1 :: f2 :: rest).drop k }, 0) ∧
      (unmap_range true s1 root ipa PAGE_SIZE).pgd = s.pgd ∧
      (unmap_range true s1 root ipa PAGE_SIZE).mem = s.mem ∧
      (unmap_range true s1 root ipa PAGE_SIZE).page_count
        = (fun f => if f ∈ [f1, f2].take k then 0 else s.page_count f) ∧
      (unmap_range true s1 root ipa PAGE_SIZE).freed = [f1, f2].take k ++ s.freed := by
  have hal' : ipa % 4096 = 0 := hal
  rcases hpath with ⟨h0, hcR⟩ | ⟨ht, ⟨h0, hcP⟩ | ⟨ht2, h0, hcQ⟩⟩
  · have hpf : path_frames s root ipa = [(pud_offset root ipa).frame] := by
      unfold path_frames; rw [if_pos h0]
    rw [hpf] at hsep
    simp only [List.nodup_cons, List.mem_cons, List.mem_singleton, not_or, List.not_mem_nil,
      not_false_eq_true, and_true, List.nodup_nil] at hsep
    obtain ⟨s1, e, a, b, c, d⟩ := set_unmap_fresh_pud s root ipa pte iomap f1 f2 rest hroot
      hal' hpte h0 hcR hz1 hz2 hc1 hc2 hlt1 hlt2 hsep.1.1 hsep.1.2 hsep.2 hslot
    exact ⟨s1, 2, le_refl 2, e, a, b, c, d⟩
  · have h1 : ¬ s.rd (pud_offset root ipa) = 0 := by
      have := (pmd_table_iff _).1 ht
      omega
    have hpf : path_frames s root ipa
        = [(pud_offset root ipa).frame, pud_to_pfn (s.rd (pud_offset root ipa))] := by
      unfold path_frames; rw [if_neg h1, if_pos h0]
    rw [hpf] at hsep
    simp only [List.nodup_cons, List.mem_cons, List.mem_singleton, not_or, List.not_mem_nil,
      not_false_eq_true, and_true, List.nodup_nil] at hsep
    obtain ⟨s1, e, a, b, c, d⟩ := set_unmap_fresh_pmd s root ipa pte iomap f1 f2
      (pud_to_pfn (s.rd (pud_offset root ipa))) rest hroot hal' hpte rfl ht h0 hcP hz1 hc1 hlt1
      hsep.1.2.2 hsep.1.2.1 (fun e => hsep.2.2 e.symm) hslot
    exact ⟨s1, 1, by omega, e, a, b, c, d⟩
  · have h1 : ¬ s.rd (pud_offset root ipa) = 0 := by
      have := (pmd_table_iff _).1 ht
      omega
    have h2 : ¬ s.rd (pmd_offset s (pud_offset root ipa) ipa) = 0 := by
      have := (pmd_table_iff _).1 ht2
      omega
    have hpf : path_frames s root ipa
        = [(pud_offset root ipa).frame, pud_to_pfn (s.rd (pud_offset root ipa)),
            pmd_to_pfn (s.rd (pmd_offset s (pud_offset root ipa) ipa))] := by
      unfold path_frames; rw [if_neg h1, if_neg h2]
    rw [hpf] at hsep
    simp only [List.nodup_cons, List.mem_cons, List.mem_singleton, not_or, List.not_mem_nil,
      not_false_eq_true, and_true, List.nodup_nil] at hsep
    obtain ⟨s1, e, a, b, c, d⟩ := set_unmap_fresh_leaf s root ipa pte iomap
      (some { objects := f1 :: f2 :: rest }) (pud_to_pfn (s.rd (pud_offset root ipa)))
      (pmd_to_pfn (s.rd (pmd_offset s (pud_offset root ipa) ipa))) hroot hal' hpte rfl ht rfl
      ht2 h0 hcQ (fun e => hsep.2.2.2 e.symm) (fun e => hsep.2.2.1.2 e.symm) hslot
    refine ⟨s1, 0, by omega, e, a, b, ?_, d⟩
    rw [c]; funext f; simp

/-- C5 (witness): a first mapping at IPA 0x40001000 under the empty root of
`ex_root_reserve`, with the reserve frames 70 and 71. -/
theorem C5_set_then_unmap_restores_witness :
    ∃ s1 k, k ≤ 2 ∧
      stage2_set_pte ex_root_reserve (some { objects := 70 :: 71 :: [] }) 0x40001000
          (0x99 * 4096 + 1151) false
        = some (s1, some { objects := (70 :: 71 :: []).drop k }, 0) ∧
      (unmap_range true s1 16 0x40001000 PAGE_SIZE).pgd = ex_root_reserve.pgd ∧
      (unmap_range true s1 16 0x40001000 PAGE_SIZE).mem = ex_root_reserve.mem ∧
      (unmap_range true s1 16 0x40001000 PAGE_SIZE).page_count
        = (fun f => if f ∈ [70, 71].take k then 0 else ex_root_reserve.page_count f) ∧
      (unmap_range true s1 16 0x40001000 PAGE_SIZE).freed
        = [70, 71].take k ++ ex_root_reserve.freed :=
  C5_set_then_unmap_restores ex_root_reserve 16 0x40001000 (0x99 * 4096 + 1151) false 70 71 []
    rfl (by decide) (by decide) (fun _ => rfl) (fun _ => rfl) (by decide) (by decide)
    (by decide) (by decide) (by decide) (fun h => absurd rfl h)
    (Or.inl ⟨by decide, by decide⟩)

/-- C5 (counterexample to the claim as stated): in `ex_mapped` IPA 0x40001000 has the present
leaf of PFN 0x99.  `stage2_set_pte` of a leaf of PFN 0x55 at that IPA returns 0, and after
`unmap_range(0x40001000, PAGE_SIZE)` the walk finds no leaf and the entry is zero: the leaf
of before the set is not back. -/
theorem C5_counterexample :
    walk_leaf ex_mapped 0x40001000 = some (0x99 * 4096 + 1151) ∧
    (stage2_set_pte ex_mapped (some { objects := [70, 71] }) 0x40001000
        (0x55 * 4096 + 1151) false).map
      (fun r => (r.2.2, walk_leaf (unmap_range true r.1 16 0x40001000 PAGE_SIZE) 0x40001000,
        (unmap_range true r.1 16 0x40001000 PAGE_SIZE).mem 48 1))
      = some (0, none, 0) := by
  refine ⟨?_, ?_⟩
  · decide
  · decide!

end S2Mmu
namespace S2Mmu

/-! ## `kvm_free_stage2_pgd` after a copy-on-access split -/

/-- C6 (the code at a failing input): the source VM of `ex_source_touched` has the split pmd
table (frame 96) and pte table (frame 80) linked into its tree, the pte table holding the
present leaf of IPA 0x40000000 and the non-present sentinel of IPA 0x40001000.  After
`kvm_free_stage2_pgd` the root is NULL, but both table pages still have a reference count
of 2 and no page has been released. -/
theorem C6_free_pgd_leaks_after_split :
    ex_source_touched.map (fun s => (s.pgd, s.mem 16 1, s.mem 96 0, s.page_count 96))
      = some (some 16, 96 * 4096 + 3, 80 * 4096 + 3, 2) ∧
    ex_source_touched.map (fun s => (s.mem 80 0, s.mem 80 1, s.page_count 80))
      = some (0x98 * 4096 + 1151, 0x99 * 4096 + 1148, 3) ∧
    ex_source_touched.map (fun s =>
        ((kvm_free_stage2_pgd s).pgd, (kvm_free_stage2_pgd s).page_count 96,
         (kvm_free_stage2_pgd s).page_count 80, (kvm_free_stage2_pgd s).freed))
      = some (none, 2, 2, []) := by
  refine ⟨?_, ?_, ?_⟩
  · decide!
  · decide!
  · decide!

end S2Mmu
namespace S2Mmu

/-! ## The fault path: rejected faults and the notifier retry -/

/-- The `is_writable` flag of `user_mem_abort` in the state after the top-up. -/
theorem is_writable_eq (s1 : KvmState) (gfn : Nat) (wf iw : Bool)
    (hnone : s1.cloning_role = 0 → iw = wf)
    (harmed : s1.cloning_role ≠ 0 →
      ∃ w, gfn_is_writable s1 gfn = some w ∧ iw = (w || wf)) :
    (if s1.cloning_role ≠ 0 then
        (gfn_is_writable s1 gfn).map (fun w => if w then true else wf)
      else some wf) = some iw := by
  by_cases h : s1.cloning_role = 0
  · rw [if_neg (not_not.2 h), hnone h]
  · obtain ⟨w, hw, e⟩ := harmed h
    rw [if_pos h, hw, e]
    cases w <;> rfl

/-- C14: a fault that reaches the lock (not rejected, reserve topped up to state `s1`, the
translator answers the request `iw` with PFN `pfn`) while `mmu_notifier_retry` reports a
notifier since the snapshot.  `user_mem_abort` returns 0 and the dispatcher 1; the only
effects after the top-up are the translator call, lock, unlock and the release of the PFN:
the page tables, the page counts, the shared registry, the page pool, the page contents and
the memslots with their unshare bitmaps are those of `s1`, and no page is marked dirty. -/
theorem C14_notifier_retry (s s1 : KvmState) (vcpu : kvm_vcpu) (c1 : kvm_mmu_memory_cache)
    (iw writable : Bool) (pfn : Nat)
    (hstatus : vcpu.fault_status = FSC_FAULT ∨ vcpu.fault_status = FSC_PERM)
    (hvis : s.visible_gfn (vcpu.fault_ipa >>> PAGE_SHIFT) = true)
    (hrej : ¬ (vcpu.fault_status = FSC_PERM ∧ vcpu.write_fault = false ∧ s.cloning_role = 0))
    (htop : mmu_topup_memory_cache s vcpu.mmu_page_cache 2 KVM_NR_MEM_OBJS = some (s1, c1, 0))
    (hnone : s1.cloning_role = 0 → iw = vcpu.write_fault)
    (harmed : s1.cloning_role ≠ 0 →
      ∃ w, gfn_is_writable s1 (vcpu.fault_ipa >>> PAGE_SHIFT) = some w ∧
        iw = (w || vcpu.write_fault))
    (htr : s1.gfn_to_pfn_prot (vcpu.fault_ipa >>> PAGE_SHIFT) iw = some (pfn, writable))
    (hretry : s1.notifier_retry = true) :
    ∃ s2, user_mem_abort s vcpu vcpu.fault_ipa (vcpu.fault_ipa >>> PAGE_SHIFT)
          (gfn_to_memslot s (vcpu.fault_ipa >>> PAGE_SHIFT)) vcpu.fault_status
        = some (s2, { vcpu with mmu_page_cache := c1 }, 0) ∧
      kvm_handle_guest_abort s vcpu = some (s2, { vcpu with mmu_page_cache := c1 }, 1) ∧
      s2.trace = Event.release_pfn_clean pfn :: Event.mmu_unlock :: Event.mmu_lock ::
        Event.gfn_to_pfn_prot (vcpu.fault_ipa >>> PAGE_SHIFT) iw :: s1.trace ∧
      s2.mem = s1.mem ∧ s2.page_count = s1.page_count ∧ s2.pgd = s1.pgd ∧
      s2.shared_pfn_list = s1.shared_pfn_list ∧ s2.page_pool_list = s1.page_pool_list ∧
      s2.page_data = s1.page_data ∧ s2.memslots = s1.memslots ∧ s2.freed = s1.freed := by
  have hiw := is_writable_eq s1 (vcpu.fault_ipa >>> PAGE_SHIFT) vcpu.write_fault iw hnone harmed
  have hu : user_mem_abort s vcpu vcpu.fault_ipa (vcpu.fault_ipa >>> PAGE_SHIFT)
      (gfn_to_memslot s (vcpu.fault_ipa >>> PAGE_SHIFT)) vcpu.fault_status
      = some (((((s1.emit (Event.gfn_to_pfn_prot (vcpu.fault_ipa >>> PAGE_SHIFT) iw)).emit
          Event.mmu_lock).emit Event.mmu_unlock).emit (Event.release_pfn_clean pfn)),
        { vcpu with mmu_page_cache := c1 }, 0) := by
    unfold user_mem_abort
    rw [if_neg hrej]
    simp only [htop]
    rw [if_neg (by simp)]
    simp only [hiw]
    have htr' : (s1.emit (Event.gfn_to_pfn_prot (vcpu.fault_ipa >>> PAGE_SHIFT) iw)).gfn_to_pfn_prot
        (vcpu.fault_ipa >>> PAGE_SHIFT) iw = some (pfn, writable) := htr
    simp only [htr']
    have hr' : ((s1.emit (Event.gfn_to_pfn_prot (vcpu.fault_ipa >>> PAGE_SHIFT) iw)).emit
        Event.mmu_lock).notifier_retry = true := hretry
    rw [if_pos hr']
  refine ⟨((((s1.emit (Event.gfn_to_pfn_prot (vcpu.fault_ipa >>> PAGE_SHIFT) iw)).emit
    Event.mmu_lock).emit Event.mmu_unlock).emit (Event.release_pfn_clean pfn)), hu, ?_, ?_,
    by rfl, by rfl, by rfl, by rfl, by rfl, by rfl, by rfl, by rfl⟩
  swap
  · rfl
  unfold kvm_handle_guest_abort
  have hs : ¬ (vcpu.fault_status ≠ FSC_FAULT ∧ vcpu.fault_status ≠ FSC_PERM) := by
    rintro ⟨a, b⟩
    rcases hstatus with h | h
    · exact a h
    · exact b h
  rw [if_neg hs]
  dsimp only
  rw [if_neg (by rw [hvis]; decide), hu]
  rfl

end S2Mmu
namespace S2Mmu

/-! ## The trace only grows -/

theorem trace_suffix_of_eq {s t : KvmState} (h : t.trace = s.trace) : s.trace <:+ t.trace := by
  rw [h]

theorem trace_suffix_cons {s t : KvmState} (e : Event) (h : t.trace = e :: s.trace) :
    s.trace <:+ t.trace := by
  rw [h]; exact List.suffix_cons e s.trace

theorem trace_suffix_cons2 {s t : KvmState} (e1 e2 : Event)
    (h : t.trace = e1 :: e2 :: s.trace) : s.trace <:+ t.trace := by
  rw [h]; exact (List.suffix_cons e2 s.trace).trans (List.suffix_cons e1 _)

theorem tlb_flush_trace (kvm : Bool) (s : KvmState) (a : Nat) :
    s.trace <:+ (kvm_tlb_flush_vmid_ipa kvm s a).trace := by
  unfold kvm_tlb_flush_vmid_ipa
  split
  · exact trace_suffix_cons _ rfl
  · exact List.suffix_refl _

theorem del_shared_pfn_trace (s : KvmState) (p : Nat) :
    s.trace <:+ (del_shared_pfn s p).trace := by
  unfold del_shared_pfn
  split
  · exact trace_suffix_of_eq rfl
  · exact trace_suffix_cons _ rfl

theorem page_pool_del_trace (s : KvmState) (p : Nat) :
    s.trace <:+ (page_pool_del s p).trace := by
  unfold page_pool_del
  split
  · exact trace_suffix_cons _ rfl
  · exact trace_suffix_of_eq rfl

theorem get_free_page_trace (s : KvmState) : s.trace <:+ (get_free_page s).2.trace := by
  unfold get_free_page
  split
  · exact trace_suffix_cons _ rfl
  · exact trace_suffix_cons _ rfl
  · exact trace_suffix_cons _ rfl

theorem copy_from_user_trace (s : KvmState) (page : Option Nat) (hva : Nat) :
    s.trace <:+ (copy_from_user s page hva).trace := by
  unfold copy_from_user
  split
  · exact trace_suffix_cons _ rfl
  · exact trace_suffix_cons2 _ _ rfl

theorem target_copy_trace (s : KvmState) (gpa : Nat) (src : Option Nat) (hva : Nat) :
    s.trace <:+ (target_copy_coa_page s gpa src hva).trace := by
  unfold target_copy_coa_page
  split
  · exact trace_suffix_cons _ rfl
  · exact trace_suffix_cons2 _ _ rfl

theorem duplicate_pmd_step_trace (new old : Nat) (s : KvmState) (i : Nat) :
    s.trace <:+ (duplicate_pmd_step new old s i).trace := by
  unfold duplicate_pmd_step
  split
  · exact trace_suffix_cons _ rfl
  · exact List.suffix_refl _

theorem duplicate_pte_step_trace (new old : Nat) (s : KvmState) (i : Nat) :
    s.trace <:+ (duplicate_pte_step new old s i).trace := by
  unfold duplicate_pte_step
  split
  · exact trace_suffix_cons _ rfl
  · exact List.suffix_refl _

theorem foldl_trace (f : KvmState → Nat → KvmState)
    (hf : ∀ s i, s.trace <:+ (f s i).trace) :
    ∀ (l : List Nat) (s : KvmState), s.trace <:+ (l.foldl f s).trace := by
  intro l
  induction l with
  | nil => intro s; exact List.suffix_refl _
  | cons a l ih => intro s; exact (hf s a).trans (ih (f s a))

theorem duplicate_pmd_trace (s : KvmState) (new old : Nat) :
    s.trace <:+ (duplicate_pmd_and_set_non_present s new old).trace :=
  foldl_trace _ (duplicate_pmd_step_trace new old) _ s

theorem duplicate_pte_trace (s : KvmState) (new old : Nat) :
    s.trace <:+ (duplicate_pte_and_set_non_present s new old).trace :=
  foldl_trace _ (duplicate_pte_step_trace new old) _ s

theorem pud_populate_trace (s : KvmState) (p : EntryPtr) (f : Nat) :
    (pud_populate s p f).trace = s.trace := rfl

theorem pmd_populate_kernel_trace (s : KvmState) (p : EntryPtr) (f : Nat) :
    (pmd_populate_kernel s p f).trace = s.trace := rfl

theorem wr_trace (s : KvmState) (p : EntryPtr) (v : Nat) : (s.wr p v).trace = s.trace := rfl

theorem get_page_trace (s : KvmState) (f : Nat) : (get_page s f).trace = s.trace := rfl

theorem handle_coa_pud_trace (s : KvmState) (c : Option kvm_mmu_memory_cache) (gpa : Nat)
    (pud : EntryPtr) (r : KvmState × Option kvm_mmu_memory_cache)
    (h : handle_coa_pud s c gpa pud = some r) : s.trace <:+ r.1.trace := by
  unfold handle_coa_pud at h
  dsimp only at h
  by_cases hs : is_pfn_shared s (pud_to_pfn (s.rd pud))
  · rw [if_pos hs] at h
    cases hc : mmu_memory_cache_alloc c with
    | none => rw [hc] at h; exact absurd h (by simp)
    | some a =>
      rw [hc] at h
      simp only [Option.some.injEq] at h
      have a1 := del_shared_pfn_trace s (pud_to_pfn (s.rd pud))
      have a2 := duplicate_pmd_trace (del_shared_pfn s (pud_to_pfn (s.rd pud))) a.1
        (pud_to_pfn (s.rd pud))
      rw [← h]
      show s.trace <:+ (pud_populate _ pud a.1).trace
      rw [pud_populate_trace]
      exact a1.trans a2
  · rw [if_neg hs] at h
    simp only [Option.some.injEq] at h
    rw [← h]
    exact trace_suffix_of_eq rfl

theorem handle_coa_pmd_trace (s : KvmState) (c : Option kvm_mmu_memory_cache) (gpa : Nat)
    (pmd : EntryPtr) (r : KvmState × Option kvm_mmu_memory_cache)
    (h : handle_coa_pmd s c gpa pmd = some r) : s.trace <:+ r.1.trace := by
  unfold handle_coa_pmd at h
  dsimp only at h
  by_cases hs : is_pfn_shared s (pmd_to_pfn (s.rd pmd))
  · rw [if_pos hs] at h
    cases hc : mmu_memory_cache_alloc c with
    | none => rw [hc] at h; exact absurd h (by simp)
    | some a =>
      rw [hc] at h
      simp only [Option.some.injEq] at h
      have a1 := del_shared_pfn_trace s (pmd_to_pfn (s.rd pmd))
      have a2 := duplicate_pte_trace (del_shared_pfn s (pmd_to_pfn (s.rd pmd))) a.1
        (pmd_to_pfn (s.rd pmd))
      rw [← h]
      refine List.IsSuffix.trans ?_ (tlb_flush_trace true _ gpa)
      rw [pmd_populate_kernel_trace]
      exact a1.trans a2
  · rw [if_neg hs] at h
    simp only [Option.some.injEq] at h
    rw [← h]
    refine List.IsSuffix.trans ?_ (tlb_flush_trace true _ gpa)
    rw [wr_trace]

end S2Mmu
namespace S2Mmu

theorem stage2_pud_level_trace (s : KvmState) (c : Option kvm_mmu_memory_cache) (addr : Nat)
    (pud : EntryPtr) :
    (∀ s1 c1, stage2_pud_level s c addr pud = S2Step.cont s1 c1 → s.trace <:+ s1.trace) ∧
    (∀ s1 c1 r, stage2_pud_level s c addr pud = S2Step.ret s1 c1 r → s.trace <:+ s1.trace) := by
  unfold stage2_pud_level
  refine ⟨fun s1 c1 h => ?_, fun s1 c1 r h => ?_⟩
  · split at h
    · split at h
      · exact absurd h (by simp)
      · cases hc : mmu_memory_cache_alloc c with
        | none => rw [hc] at h; exact absurd h (by simp)
        | some a =>
          rw [hc] at h
          simp only [S2Step.cont.injEq] at h
          rw [← h.1]; exact trace_suffix_of_eq rfl
    · split at h
      · split at h
        · exact absurd h (by simp)
        · split at h
          · cases hc : handle_coa_pud s c addr pud with
            | none => rw [hc] at h; exact absurd h (by simp)
            | some a =>
              rw [hc] at h
              simp only [S2Step.cont.injEq] at h
              rw [← h.1]; exact handle_coa_pud_trace s c addr pud a hc
          · simp only [S2Step.cont.injEq] at h
            rw [← h.1]
      · simp only [S2Step.cont.injEq] at h
        rw [← h.1]
  · split at h
    · split at h
      · simp only [S2Step.ret.injEq] at h
        rw [← h.1]
      · cases hc : mmu_memory_cache_alloc c with
        | none => rw [hc] at h; exact absurd h (by simp)
        | some a => rw [hc] at h; exact absurd h (by simp)
    · split at h
      · split at h
        · simp only [S2Step.ret.injEq] at h
          rw [← h.1]
        · split at h
          · cases hc : handle_coa_pud s c addr pud with
            | none => rw [hc] at h; exact absurd h (by simp)
            | some a => rw [hc] at h; exact absurd h (by simp)
          · exact absurd h (by simp)
      · exact absurd h (by simp)

theorem stage2_pmd_level_trace (s : KvmState) (c : Option kvm_mmu_memory_cache) (addr : Nat)
    (pmd : EntryPtr) :
    (∀ s1 c1, stage2_pmd_level s c addr pmd = S2Step.cont s1 c1 → s.trace <:+ s1.trace) ∧
    (∀ s1 c1 r, stage2_pmd_level s c addr pmd = S2Step.ret s1 c1 r → s.trace <:+ s1.trace) := by
  unfold stage2_pmd_level
  refine ⟨fun s1 c1 h => ?_, fun s1 c1 r h => ?_⟩
  · split at h
    · split at h
      · exact absurd h (by simp)
      · cases hc : mmu_memory_cache_alloc c with
        | none => rw [hc] at h; exact absurd h (by simp)
        | some a =>
          rw [hc] at h
          simp only [S2Step.cont.injEq] at h
          rw [← h.1]; exact trace_suffix_of_eq rfl
    · split at h
      · split at h
        · exact absurd h (by simp)
        · split at h
          · cases hc : handle_coa_pmd s c addr pmd with
            | none => rw [hc] at h; exact absurd h (by simp)
            | some a =>
              rw [hc] at h
              simp only [S2Step.cont.injEq] at h
              rw [← h.1]; exact handle_coa_pmd_trace s c addr pmd a hc
          · simp only [S2Step.cont.injEq] at h
            rw [← h.1]
      · simp only [S2Step.cont.injEq] at h
        rw [← h.1]
  · split at h
    · split at h
      · simp only [S2Step.ret.injEq] at h
        rw [← h.1]
      · cases hc : mmu_memory_cache_alloc c with
        | none => rw [hc] at h; exact absurd h (by simp)
        | some a => rw [hc] at h; exact absurd h (by simp)
    · split at h
      · split at h
        · simp only [S2Step.ret.injEq] at h
          rw [← h.1]
        · split at h
          · cases hc : handle_coa_pmd s c addr pmd with
            | none => rw [hc] at h; exact absurd h (by simp)
            | some a => rw [hc] at h; exact absurd h (by simp)
          · exact absurd h (by simp)
      · exact absurd h (by simp)

end S2Mmu
namespace S2Mmu

theorem handle_coa_pte_src_trace (s : KvmState) (gpa old new : Nat) (r : KvmState)
    (h : handle_coa_pte_src s gpa old new = some r) : s.trace <:+ r.trace := by
  unfold handle_coa_pte_src at h
  dsimp only at h
  split at h
  · exact absurd h (by simp)
  · split at h
    · cases hg : gpa_to_hva s gpa with
      | none => rw [hg] at h; exact absurd h (by simp)
      | some hva =>
        rw [hg] at h
        simp only [Option.some.injEq] at h
        rw [← h]
        refine List.IsSuffix.trans ?_ (del_shared_pfn_trace _ _)
        refine List.IsSuffix.trans ?_ (trace_suffix_cons Event.kmalloc rfl)
        refine List.IsSuffix.trans ?_ (copy_from_user_trace _ _ _)
        refine List.IsSuffix.trans (get_free_page_trace s) ?_
        split
        · exact trace_suffix_cons _ rfl
        · exact List.suffix_refl _
    · simp only [Option.some.injEq] at h
      rw [← h]

theorem handle_coa_pte_target_trace (s : KvmState) (gpa old new : Nat) (r : KvmState)
    (h : handle_coa_pte_target s gpa old new = some r) : s.trace <:+ r.trace := by
  unfold handle_coa_pte_target at h
  dsimp only at h
  split at h
  · exact absurd h (by simp)
  · cases hg : gpa_to_hva s gpa with
    | none => rw [hg] at h; exact absurd h (by simp)
    | some hva =>
      rw [hg] at h
      dsimp only at h
      split at h
      · simp only [Option.some.injEq] at h
        rw [← h]
        exact (target_copy_trace s gpa _ hva).trans (del_shared_pfn_trace _ _)
      · cases hp : page_pool_search s (pte_pfn old) with
        | none => rw [hp] at h; exact absurd h (by simp)
        | some p =>
          rw [hp] at h
          simp only [Option.some.injEq] at h
          rw [← h]
          refine List.IsSuffix.trans ?_ (page_pool_del_trace _ _)
          refine List.IsSuffix.trans (target_copy_trace s gpa p.1 hva) ?_
          split
          · exact List.suffix_refl _
          · exact trace_suffix_of_eq rfl

theorem handle_coa_pte_trace (s : KvmState) (addr old new : Nat) (iomap : Bool)
    (r : KvmState) (h : handle_coa_pte s addr old new iomap = some r) :
    s.trace <:+ r.trace := by
  unfold handle_coa_pte at h
  dsimp only at h
  by_cases hio : iomap = true
  · rw [if_pos hio] at h
    simp only [Option.some.injEq] at h
    rw [← h]
    refine List.IsSuffix.trans ?_ (tlb_flush_trace true _ addr)
    unfold handle_coa_pte_ioaddr
    refine List.IsSuffix.trans ?_ (tlb_flush_trace true _ addr)
    dsimp only
    split
    · exact del_shared_pfn_trace _ _
    · exact List.suffix_refl _
  · rw [if_neg hio] at h
    by_cases hr : s.cloning_role = KVM_ARM_CLONING_ROLE_SOURCE
    · rw [if_pos hr] at h
      cases hc : handle_coa_pte_src s addr old new with
      | none => rw [hc] at h; exact absurd h (by simp)
      | some s1 =>
        rw [hc] at h
        simp only [Option.some.injEq] at h
        rw [← h]
        exact (handle_coa_pte_src_trace s addr old new s1 hc).trans
          (tlb_flush_trace true _ addr)
    · rw [if_neg hr] at h
      cases hc : handle_coa_pte_target s addr old new with
      | none => rw [hc] at h; exact absurd h (by simp)
      | some s1 =>
        rw [hc] at h
        simp only [Option.some.injEq] at h
        rw [← h]
        exact (handle_coa_pte_target_trace s addr old new s1 hc).trans
          (tlb_flush_trace true _ addr)

theorem mark_gfn_unshared_trace (s : KvmState) (gfn : Nat) (r : KvmState)
    (h : mark_gfn_unshared s gfn = some r) : r.trace = s.trace := by
  unfold mark_gfn_unshared at h
  cases hc : set_unshare_bit s.memslots gfn with
  | none => rw [hc] at h; exact absurd h (by simp)
  | some ms =>
    rw [hc] at h
    simp only [Option.some.injEq] at h
    rw [← h]

theorem stage2_pte_level_trace (s : KvmState) (addr : Nat) (pte : EntryPtr) (new : Nat)
    (iomap : Bool) (r : KvmState) (h : stage2_pte_level s addr pte new iomap = some r) :
    s.trace <:+ r.trace := by
  unfold stage2_pte_level at h
  dsimp only at h
  have key : ∀ s3, (if pte_present (s.rd pte) then
        some (kvm_tlb_flush_vmid_ipa true
          ((s.wr pte new).emit (Event.mark_page_dirty (addr >>> PAGE_SHIFT))) addr)
      else if s.rd pte ≠ 0 ∧
          ((s.wr pte new).emit (Event.mark_page_dirty (addr >>> PAGE_SHIFT))).cloning_role ≠ 0
        then handle_coa_pte ((s.wr pte new).emit (Event.mark_page_dirty (addr >>> PAGE_SHIFT)))
          addr (s.rd pte) new iomap
      else some (get_page ((s.wr pte new).emit (Event.mark_page_dirty (addr >>> PAGE_SHIFT)))
        pte.frame)) = some s3 → s.trace <:+ s3.trace := by
    intro s3 h3
    have base : s.trace <:+
        ((s.wr pte new).emit (Event.mark_page_dirty (addr >>> PAGE_SHIFT))).trace :=
      trace_suffix_cons _ rfl
    split at h3
    · simp only [Option.some.injEq] at h3
      rw [← h3]
      exact base.trans (tlb_flush_trace true _ addr)
    · split at h3
      · exact base.trans (handle_coa_pte_trace _ addr _ new iomap s3 h3)
      · simp only [Option.some.injEq] at h3
        rw [← h3]
        exact base
  split at h
  · exact absurd h (by simp)
  · rename_i s3 hs3
    have k3 := key s3 hs3
    split at h
    · rw [← mark_gfn_unshared_trace s3 _ r h] at k3
      exact k3
    · simp only [Option.some.injEq] at h
      rw [← h]; exact k3

theorem stage2_set_pte_trace (s : KvmState) (c : Option kvm_mmu_memory_cache) (addr new : Nat)
    (iomap : Bool) (r : KvmState × Option kvm_mmu_memory_cache × Int)
    (h : stage2_set_pte s c addr new iomap = some r) : s.trace <:+ r.1.trace := by
  unfold stage2_set_pte at h
  cases hp : s.pgd with
  | none => rw [hp] at h; exact absurd h (by simp)
  | some pgdp =>
    rw [hp] at h
    dsimp only at h
    obtain ⟨a1, a2⟩ := stage2_pud_level_trace s c addr (pud_offset pgdp addr)
    cases h1 : stage2_pud_level s c addr (pud_offset pgdp addr) with
    | bug => rw [h1] at h; exact absurd h (by simp)
    | ret s1 c1 r1 =>
      rw [h1] at h
      simp only [Option.some.injEq] at h
      rw [← h]; exact a2 s1 c1 r1 h1
    | cont s1 c1 =>
      rw [h1] at h
      dsimp only at h
      obtain ⟨b1, b2⟩ := stage2_pmd_level_trace s1 c1 addr
        (pmd_offset s1 (pud_offset pgdp addr) addr)
      cases h2 : stage2_pmd_level s1 c1 addr (pmd_offset s1 (pud_offset pgdp addr) addr) with
      | bug => rw [h2] at h; exact absurd h (by simp)
      | ret s2 c2 r2 =>
        rw [h2] at h
        simp only [Option.some.injEq] at h
        rw [← h]; exact (a1 s1 c1 h1).trans (b2 s2 c2 r2 h2)
      | cont s2 c2 =>
        rw [h2] at h
        dsimp only at h
        have k2 := (a1 s1 c1 h1).trans (b1 s2 c2 h2)
        split at h
        · simp only [Option.some.injEq] at h
          rw [← h]; exact k2
        · cases h3 : stage2_pte_level s2 addr
              (pte_offset_kernel s2 (pmd_offset s1 (pud_offset pgdp addr) addr) addr) new
              iomap with
          | none => rw [h3] at h; exact absurd h (by simp)
          | some s3 =>
            rw [h3] at h
            simp only [Option.some.injEq] at h
            rw [← h]
            exact k2.trans (stage2_pte_level_trace s2 addr _ new iomap s3 h3)

end S2Mmu
namespace S2Mmu

/-! ## What the top-up leaves alone -/

/-- The part of the state that page allocation does not touch. -/
theorem get_free_page_vm (s : KvmState) :
    (get_free_page s).2.cloning_role = s.cloning_role ∧
    (get_free_page s).2.memslots = s.memslots ∧
    (get_free_page s).2.pgd = s.pgd ∧
    (get_free_page s).2.vma_writable = s.vma_writable ∧
    (get_free_page s).2.gfn_to_pfn_prot = s.gfn_to_pfn_prot ∧
    (get_free_page s).2.notifier_retry = s.notifier_retry ∧
    (get_free_page s).2.visible_gfn = s.visible_gfn ∧
    (get_free_page s).2.hva_to_pfn = s.hva_to_pfn ∧
    (get_free_page s).2.shared_pfn_list = s.shared_pfn_list ∧
    (get_free_page s).2.page_pool_list = s.page_pool_list := by
  unfold get_free_page
  split <;> exact ⟨rfl, rfl, rfl, rfl, rfl, rfl, rfl, rfl, rfl, rfl⟩

theorem mmu_topup_loop_vm (max : Int) :
    ∀ (fuel : Nat) (s : KvmState) (objs : List Nat),
      (mmu_topup_loop fuel s objs max).1.cloning_role = s.cloning_role ∧
      (mmu_topup_loop fuel s objs max).1.memslots = s.memslots ∧
      (mmu_topup_loop fuel s objs max).1.pgd = s.pgd ∧
      (mmu_topup_loop fuel s objs max).1.vma_writable = s.vma_writable ∧
      (mmu_topup_loop fuel s objs max).1.gfn_to_pfn_prot = s.gfn_to_pfn_prot ∧
      (mmu_topup_loop fuel s objs max).1.notifier_retry = s.notifier_retry ∧
      (mmu_topup_loop fuel s objs max).1.visible_gfn = s.visible_gfn ∧
      (mmu_topup_loop fuel s objs max).1.hva_to_pfn = s.hva_to_pfn ∧
      (mmu_topup_loop fuel s objs max).1.shared_pfn_list = s.shared_pfn_list ∧
      (mmu_topup_loop fuel s objs max).1.page_pool_list = s.page_pool_list := by
  intro fuel
  induction fuel with
  | zero => intro s objs; exact ⟨rfl, rfl, rfl, rfl, rfl, rfl, rfl, rfl, rfl, rfl⟩
  | succ n ih =>
    intro s objs
    unfold mmu_topup_loop
    have g := get_free_page_vm s
    split
    · cases hg : get_free_page s with
      | mk a s1 =>
        rw [hg] at g
        cases a with
        | none => exact g
        | some page =>
          dsimp only
          obtain ⟨i1, i2, i3, i4, i5, i6, i7, i8, i9, i10⟩ := ih s1 (page :: objs)
          obtain ⟨g1, g2, g3, g4, g5, g6, g7, g8, g9, g10⟩ := g
          dsimp only at g1 g2 g3 g4 g5 g6 g7 g8 g9 g10
          exact ⟨i1.trans g1, i2.trans g2, i3.trans g3, i4.trans g4, i5.trans g5,
            i6.trans g6, i7.trans g7, i8.trans g8, i9.trans g9, i10.trans g10⟩
    · exact ⟨rfl, rfl, rfl, rfl, rfl, rfl, rfl, rfl, rfl, rfl⟩

/-- `mmu_topup_memory_cache` leaves the role, the memslots, the root, the collaborators,
the shared registry and the page pool as they are. -/
theorem mmu_topup_vm (s s1 : KvmState) (c c1 : kvm_mmu_memory_cache) (min max r : Int)
    (h : mmu_topup_memory_cache s c min max = some (s1, c1, r)) :
    s1.cloning_role = s.cloning_role ∧ s1.memslots = s.memslots ∧ s1.pgd = s.pgd ∧
    s1.vma_writable = s.vma_writable ∧ s1.gfn_to_pfn_prot = s.gfn_to_pfn_prot ∧
    s1.notifier_retry = s.notifier_retry ∧ s1.visible_gfn = s.visible_gfn ∧
    s1.hva_to_pfn = s.hva_to_pfn ∧ s1.shared_pfn_list = s.shared_pfn_list ∧
    s1.page_pool_list = s.page_pool_list := by
  unfold mmu_topup_memory_cache at h
  split at h
  · exact absurd h (by simp)
  · split at h
    · simp only [Option.some.injEq, Prod.mk.injEq] at h
      rw [← h.1]
      exact ⟨rfl, rfl, rfl, rfl, rfl, rfl, rfl, rfl, rfl, rfl⟩
    · have k := mmu_topup_loop_vm max (max - c.nobjs).toNat s c.objects
      generalize mmu_topup_loop (max - c.nobjs).toNat s c.objects max = L at h k
      obtain ⟨a, b, d⟩ := L
      simp only [Option.some.injEq, Prod.mk.injEq] at h
      rw [← h.1]
      exact k

theorem shl_shr_12 (gfn : Nat) : (gfn <<< PAGE_SHIFT) >>> PAGE_SHIFT = gfn := by
  simp only [PAGE_SHIFT, Nat.shiftLeft_eq, Nat.shiftRight_eq_div_pow]
  omega

/-- `gfn_is_writable` for a GFN with a memslot, a non-zero HVA and a VMA. -/
theorem gfn_is_writable_eq (s : KvmState) (gfn : Nat) (slot : kvm_memory_slot) (vw : Bool)
    (hslot : gfn_to_memslot s gfn = some slot)
    (hhva : gfn_to_hva_memslot slot gfn ≠ 0)
    (hvma : s.vma_writable (gfn_to_hva_memslot slot gfn) = some vw) :
    gfn_is_writable s gfn = some (vw && decide (slot.flags &&& KVM_MEM_READONLY = 0)) := by
  unfold gfn_is_writable gpa_to_hva
  rw [shl_shr_12, hslot]
  dsimp only
  rw [if_neg hhva, hvma]

end S2Mmu
namespace S2Mmu

/-! ## The request to the translator -/

/-- C12 (amended): a fault that `user_mem_abort` does not reject and whose top-up of the
reserve succeeds (state `s1`).  Whenever the handler returns, the first event after the
top-up is the request to the translator for `gfn`; with role None it asks for a writable
mapping iff the fault is a write fault, with an armed role iff the fault is a write fault or
the host VMA of the GFN is writable and its memslot is not read-only. -/
theorem C12_requested_writable (s s1 : KvmState) (vcpu : kvm_vcpu)
    (c1 : kvm_mmu_memory_cache) (fault_ipa gfn : Nat) (memslot : Option kvm_memory_slot)
    (fault_status : Nat) (slot : kvm_memory_slot) (vw : Bool)
    (hrej : ¬ (fault_status = FSC_PERM ∧ vcpu.write_fault = false ∧ s.cloning_role = 0))
    (htop : mmu_topup_memory_cache s vcpu.mmu_page_cache 2 KVM_NR_MEM_OBJS = some (s1, c1, 0))
    (harmed : s.cloning_role ≠ 0 →
      gfn_to_memslot s gfn = some slot ∧ gfn_to_hva_memslot slot gfn ≠ 0 ∧
      s.vma_writable (gfn_to_hva_memslot slot gfn) = some vw) :
    ∀ r, user_mem_abort s vcpu fault_ipa gfn memslot fault_status = some r →
      (Event.gfn_to_pfn_prot gfn
        (if s.cloning_role ≠ 0 then
          (vw && decide (slot.flags &&& KVM_MEM_READONLY = 0)) || vcpu.write_fault
         else vcpu.write_fault) :: s1.trace) <:+ r.1.trace := by
  intro r hr
  obtain ⟨v1, v2, _, v4, _⟩ := mmu_topup_vm s s1 _ c1 2 KVM_NR_MEM_OBJS 0 htop
  generalize hflag : (if s.cloning_role ≠ 0 then
      (vw && decide (slot.flags &&& KVM_MEM_READONLY = 0)) || vcpu.write_fault
    else vcpu.write_fault) = flag
  have hiw : (if s1.cloning_role ≠ 0 then
        (gfn_is_writable s1 gfn).map (fun w => if w then true else vcpu.write_fault)
      else some vcpu.write_fault) = some flag := by
    apply is_writable_eq
    · intro h0
      rw [v1] at h0
      rw [← hflag, if_neg (not_not.2 h0)]
    · intro h1
      rw [v1] at h1
      obtain ⟨a, b, c⟩ := harmed h1
      refine ⟨_, gfn_is_writable_eq s1 gfn slot vw ?_ b (by rw [v4]; exact c), ?_⟩
      · unfold gfn_to_memslot
        rw [v2]; exact a
      · rw [← hflag, if_pos h1]
  unfold user_mem_abort at hr
  rw [if_neg hrej] at hr
  simp only [htop] at hr
  rw [if_neg (by simp)] at hr
  simp only [hiw] at hr
  generalize hs2 : s1.emit (Event.gfn_to_pfn_prot gfn flag) = s2 at hr
  have base : (Event.gfn_to_pfn_prot gfn flag :: s1.trace) = s2.trace := by
    rw [← hs2]; rfl
  rw [base]
  cases htr : s2.gfn_to_pfn_prot gfn flag with
  | none =>
    rw [htr] at hr
    simp only [Option.some.injEq] at hr
    rw [← hr]
  | some a =>
    obtain ⟨pfn, writable⟩ := a
    rw [htr] at hr
    dsimp only at hr
    split at hr
    · simp only [Option.some.injEq] at hr
      rw [← hr]
      exact (trace_suffix_cons _ rfl).trans ((trace_suffix_cons _ rfl).trans
        (trace_suffix_cons (t := ((s2.emit Event.mmu_lock).emit Event.mmu_unlock).emit
          (Event.release_pfn_clean pfn)) _ rfl))
    · generalize hs4 : (if writable = true then
          (s2.emit Event.mmu_lock).emit (Event.set_pfn_dirty pfn)
        else s2.emit Event.mmu_lock) = s4 at hr
      have b4 : s2.trace <:+ s4.trace := by
        rw [← hs4]
        split
        · exact trace_suffix_cons2 _ _ rfl
        · exact trace_suffix_cons _ rfl
      cases hset : stage2_set_pte s4 (some c1) fault_ipa
          (if writable = true then pfn_pte pfn PAGE_S2 ||| L_PTE_S2_RDWR
            else pfn_pte pfn PAGE_S2) false with
      | none => rw [hset] at hr; exact absurd hr (by simp)
      | some q =>
        rw [hset] at hr
        simp only [Option.some.injEq] at hr
        rw [← hr]
        have b5 := stage2_set_pte_trace s4 (some c1) fault_ipa _ false q hset
        refine b4.trans (b5.trans ?_)
        refine List.IsSuffix.trans ?_ (trace_suffix_cons2 (Event.release_pfn_clean pfn)
          Event.mmu_unlock rfl)
        split
        · exact trace_suffix_cons _ rfl
        · exact List.suffix_refl _

end S2Mmu
namespace S2Mmu

/-- C12 (witness): the write permission fault of `vcpu_write_perm_fault` on the armed source
VM `ex_armed_ro`, whose memslot is read-only and whose VMA is writable. -/
theorem C12_requested_writable_witness :
    ¬ (FSC_PERM = FSC_PERM ∧ vcpu_write_perm_fault.write_fault = false ∧
      ex_armed_ro.cloning_role = 0) ∧
    mmu_topup_memory_cache ex_armed_ro vcpu_write_perm_fault.mmu_page_cache 2 KVM_NR_MEM_OBJS
      = some (ex_armed_ro, { objects := [70, 71] }, 0) ∧
    ∀ r, user_mem_abort ex_armed_ro vcpu_write_perm_fault 0x40001000 0x40001
        (some { ex_slot with flags := 2 }) FSC_PERM = some r →
      (Event.gfn_to_pfn_prot 0x40001
        (if ex_armed_ro.cloning_role ≠ 0 then
          (true && decide (({ ex_slot with flags := 2 } : kvm_memory_slot).flags
            &&& KVM_MEM_READONLY = 0)) || vcpu_write_perm_fault.write_fault
         else vcpu_write_perm_fault.write_fault) :: ex_armed_ro.trace) <:+ r.1.trace :=
  ⟨by decide, rfl,
    C12_requested_writable ex_armed_ro ex_armed_ro vcpu_write_perm_fault
      { objects := [70, 71] } 0x40001000 0x40001 (some { ex_slot with flags := 2 }) FSC_PERM
      { ex_slot with flags := 2 } true (by decide) rfl
      (fun _ => ⟨by decide, by decide, rfl⟩)⟩

/-- C12 (counterexample to the claim as stated): `ex_armed_ro` is armed and its memslot is
read-only, so `gfn_is_writable` is false for GFN 0x40001; on a write fault `user_mem_abort`
still asks the translator for a writable mapping (the first event of the trace), and
returns 0. -/
theorem C12_counterexample :
    ex_armed_ro.cloning_role = 1 ∧ ex_armed_ro.trace = [] ∧
    gfn_is_writable ex_armed_ro 0x40001 = some false ∧
    (user_mem_abort ex_armed_ro vcpu_write_perm_fault 0x40001000 0x40001
        (gfn_to_memslot ex_armed_ro 0x40001) FSC_PERM).map
      (fun r => (r.2.2, r.1.trace.getLast?))
      = some (0, some (Event.gfn_to_pfn_prot 0x40001 true)) := by
  refine ⟨by decide, by decide, by decide, ?_⟩
  decide!

end S2Mmu
namespace S2Mmu

/-- C14 (witness): the read fault of `vcpu_read_fault` on the VM `ex_lazy` while
`mmu_notifier_retry` reports a notifier. -/
theorem C14_notifier_retry_witness :
    ∃ s2, user_mem_abort (ex_lazy false true) vcpu_read_fault vcpu_read_fault.fault_ipa
          (vcpu_read_fault.fault_ipa >>> PAGE_SHIFT)
          (gfn_to_memslot (ex_lazy false true) (vcpu_read_fault.fault_ipa >>> PAGE_SHIFT))
          vcpu_read_fault.fault_status
        = some (s2, { vcpu_read_fault with mmu_page_cache := { objects := [70, 71] } }, 0) ∧
      kvm_handle_guest_abort (ex_lazy false true) vcpu_read_fault
        = some (s2, { vcpu_read_fault with mmu_page_cache := { objects := [70, 71] } }, 1) ∧
      s2.trace = Event.release_pfn_clean 0x99 :: Event.mmu_unlock :: Event.mmu_lock ::
        Event.gfn_to_pfn_prot (vcpu_read_fault.fault_ipa >>> PAGE_SHIFT) false ::
        (ex_lazy false true).trace ∧
      s2.mem = (ex_lazy false true).mem ∧ s2.page_count = (ex_lazy false true).page_count ∧
      s2.pgd = (ex_lazy false true).pgd ∧
      s2.shared_pfn_list = (ex_lazy false true).shared_pfn_list ∧
      s2.page_pool_list = (ex_lazy false true).page_pool_list ∧
      s2.page_data = (ex_lazy false true).page_data ∧
      s2.memslots = (ex_lazy false true).memslots ∧ s2.freed = (ex_lazy false true).freed :=
  C14_notifier_retry (ex_lazy false true) (ex_lazy false true) vcpu_read_fault
    { objects := [70, 71] } false false 0x99 (Or.inl rfl) rfl (by decide) rfl (fun _ => rfl)
    (fun h => absurd rfl h) rfl rfl

/-- C13: a permission fault that is not a write fault.  With role None `user_mem_abort`
returns `-EFAULT` at once: the state is the input state plus the diagnostic, the VCPU and its
reserve are untouched.  With an armed role the check does not reject the fault: it is handled
exactly as a translation fault, starting with the top-up of the reserve, whose failure is what
the handler then returns; and when the top-up succeeds (state `s1`, reserve `c1`), the VMA
check answers `w`, the translator answers the request `w` with `(pfn, writable)` and no
notifier ran, the handler asks the translator, takes the lock and populates: it runs
`stage2_set_pte` at the faulting IPA with the leaf `pfn_pte(pfn, PAGE_S2)` (made S2-RDWR when
`writable`), from the reserve `c1`, and returns 0 after the unlock and the release of the
PFN, with the reserve `stage2_set_pte` left. -/
theorem C13_read_perm_fault (s : KvmState) (vcpu : kvm_vcpu) (fault_ipa gfn : Nat)
    (memslot : Option kvm_memory_slot) (hw : vcpu.write_fault = false) :
    (s.cloning_role = 0 →
      user_mem_abort s vcpu fault_ipa gfn memslot FSC_PERM
        = some (s.emit Event.pr_err, vcpu, -EFAULT)) ∧
    (s.cloning_role ≠ 0 →
      user_mem_abort s vcpu fault_ipa gfn memslot FSC_PERM
        = user_mem_abort s vcpu fault_ipa gfn memslot FSC_FAULT ∧
      (∀ s1 c1 r, mmu_topup_memory_cache s vcpu.mmu_page_cache 2 KVM_NR_MEM_OBJS
          = some (s1, c1, r) → r ≠ 0 →
        user_mem_abort s vcpu fault_ipa gfn memslot FSC_PERM
          = some (s1, { vcpu with mmu_page_cache := c1 }, r)) ∧
      (∀ s1 c1 w pfn writable,
        mmu_topup_memory_cache s vcpu.mmu_page_cache 2 KVM_NR_MEM_OBJS = some (s1, c1, 0) →
        gfn_is_writable s1 gfn = some w →
        s1.gfn_to_pfn_prot gfn w = some (pfn, writable) →
        s1.notifier_retry = false →
        user_mem_abort s vcpu fault_ipa gfn memslot FSC_PERM
          = (stage2_set_pte
              (if writable = true then
                ((s1.emit (Event.gfn_to_pfn_prot gfn w)).emit Event.mmu_lock).emit
                  (Event.set_pfn_dirty pfn)
              else (s1.emit (Event.gfn_to_pfn_prot gfn w)).emit Event.mmu_lock)
              (some c1) fault_ipa
              (if writable = true then pfn_pte pfn PAGE_S2 ||| L_PTE_S2_RDWR
              else pfn_pte pfn PAGE_S2) false).map
            (fun r => ((r.1.emit Event.mmu_unlock).emit (Event.release_pfn_clean pfn),
              { vcpu with mmu_page_cache := r.2.1.getD c1 }, 0)))) := by
  refine ⟨fun h0 => ?_, fun h1 => ?_⟩
  · unfold user_mem_abort
    rw [if_pos ⟨rfl, hw, h0⟩]
  · have e1 : ¬ (FSC_PERM = FSC_PERM ∧ vcpu.write_fault = false ∧ s.cloning_role = 0) :=
      fun h => h1 h.2.2
    have e2 : ¬ (FSC_FAULT = FSC_PERM ∧ vcpu.write_fault = false ∧ s.cloning_role = 0) :=
      fun h => h1 h.2.2
    refine ⟨?_, ?_, ?_⟩
    · unfold user_mem_abort
      rw [if_neg e1, if_neg e2]
    · intro s1 c1 r ht hr
      unfold user_mem_abort
      rw [if_neg e1]
      simp only [ht, hr, ne_eq, not_false_eq_true, if_true]
    · intro s1 c1 w pfn writable ht hgw htr hretry
      have hrole : s1.cloning_role ≠ 0 := by
        rw [(mmu_topup_vm s s1 _ c1 2 KVM_NR_MEM_OBJS 0 ht).1]; exact h1
      have hiw : (if s1.cloning_role ≠ 0 then
            (gfn_is_writable s1 gfn).map (fun w => if w then true else vcpu.write_fault)
          else some vcpu.write_fault) = some w := by
        rw [if_pos hrole, hgw, hw]
        cases w <;> rfl
      have htr' : (s1.emit (Event.gfn_to_pfn_prot gfn w)).gfn_to_pfn_prot gfn w
          = some (pfn, writable) := htr
      have hr' : ((s1.emit (Event.gfn_to_pfn_prot gfn w)).emit Event.mmu_lock).notifier_retry
          = false := hretry
      unfold user_mem_abort
      rw [if_neg e1]
      simp only [ht]
      rw [if_neg (by simp)]
      simp only [hiw]
      simp only [htr']
      simp only [hr']
      rw [if_neg (by simp)]
      simp only [hw]
      cases hst : stage2_set_pte
          (if writable = true then
            ((s1.emit (Event.gfn_to_pfn_prot gfn w)).emit Event.mmu_lock).emit
              (Event.set_pfn_dirty pfn)
          else (s1.emit (Event.gfn_to_pfn_prot gfn w)).emit Event.mmu_lock)
          (some c1) fault_ipa
          (if writable = true then pfn_pte pfn PAGE_S2 ||| L_PTE_S2_RDWR
          else pfn_pte pfn PAGE_S2) false with
      | none => simp
      | some r =>
        obtain ⟨s5, c5, x⟩ := r
        simp

/-- C13 (witness): a read fault taken as a permission fault on the armed source VM
`ex_armed_ro`, whose leaf at IPA 0x40001000 is the sentinel of PFN 0x99; the reserve of the
VCPU holds two frames, the VMA check answers false (read-only memslot) and the translator
answers PFN 0x99, not writable.  The handler returns 0 and the leaf of the IPA is afterwards
present with PFN 0x99. -/
theorem C13_read_perm_fault_witness :
    vcpu_read_fault.write_fault = false ∧ ex_armed_ro.cloning_role ≠ 0 ∧
    mmu_topup_memory_cache ex_armed_ro vcpu_read_fault.mmu_page_cache 2 KVM_NR_MEM_OBJS
      = some (ex_armed_ro, { objects := [70, 71] }, 0) ∧
    gfn_is_writable ex_armed_ro 0x40001 = some false ∧
    ex_armed_ro.gfn_to_pfn_prot 0x40001 false = some (0x99, false) ∧
    ex_armed_ro.notifier_retry = false ∧
    user_mem_abort ex_armed_ro vcpu_read_fault 0x40001000 0x40001 (some ex_slot) FSC_PERM
      = (stage2_set_pte
          (if false = true then
            ((ex_armed_ro.emit (Event.gfn_to_pfn_prot 0x40001 false)).emit Event.mmu_lock).emit
              (Event.set_pfn_dirty 0x99)
          else (ex_armed_ro.emit (Event.gfn_to_pfn_prot 0x40001 false)).emit Event.mmu_lock)
          (some { objects := [70, 71] }) 0x40001000
          (if false = true then pfn_pte 0x99 PAGE_S2 ||| L_PTE_S2_RDWR
          else pfn_pte 0x99 PAGE_S2) false).map
        (fun r => ((r.1.emit Event.mmu_unlock).emit (Event.release_pfn_clean 0x99),
          { vcpu_read_fault with mmu_page_cache := r.2.1.getD { objects := [70, 71] } }, 0)) ∧
    walk_leaf ex_armed_ro 0x40001000 = some (0x99 * 4096 + 1148) ∧
    (user_mem_abort ex_armed_ro vcpu_read_fault 0x40001000 0x40001 (some ex_slot) FSC_PERM).map
        (fun r => (walk_leaf r.1 0x40001000, r.2.2, r.1.trace.take 3))
      = some (some (0x99 * 4096 + 1151), 0,
          [Event.release_pfn_clean 0x99, Event.mmu_unlock,
            Event.tlb_flush_vmid_ipa 0x40001000]) :=
  ⟨rfl, by decide, rfl, by decide!, rfl, rfl,
    ((C13_read_perm_fault ex_armed_ro vcpu_read_fault 0x40001000 0x40001 (some ex_slot)
      rfl).2 (by decide)).2.2 ex_armed_ro { objects := [70, 71] } false 0x99 false
      rfl (by decide!) rfl rfl,
    by decide!, by decide!⟩

end S2Mmu
namespace S2Mmu

/-! ## Lazy population (role None) -/

/-- For a VM that is not armed, `stage2_set_pte` with a well-formed reserve and
`iomap = false` returns 0 and the walk then reaches the new leaf. -/
theorem stage2_set_pte_none_installs (s : KvmState) (root ipa pte : Nat)
    (f1 f2 : Nat) (rest : List Nat)
    (hroot : s.pgd = some root) (hrole : s.cloning_role = 0)
    (hz1 : ∀ i, s.mem f1 i = 0) (hz2 : ∀ i, s.mem f2 i = 0)
    (hlt1 : f1 < 268435456) (hlt2 : f2 < 268435456)
    (hsep : (f1 :: f2 :: (next_alloc s ++ path_frames s root ipa)).Nodup) :
    ∃ s1 c1, stage2_set_pte s (some { objects := f1 :: f2 :: rest }) ipa pte false
        = some (s1, c1, 0) ∧
      walk_leaf s1 ipa = some pte := by
  obtain ⟨s1, c1, s2, c2, e1, e2, v, hpudeq, nzpud, nzpmd, hFpmdR, hA, hFpteR, hFptePmd,
    _⟩ := stage2_levels_spec s root ipa f1 f2 rest hroot hz1 hz2 hlt1 hlt2 hsep
  obtain ⟨vpgd, vrole, vslots, vpool, valloc⟩ := v
  generalize hpud : pud_offset root ipa = pud at e1 e2 hpudeq nzpud nzpmd hFpmdR hA hFpteR hFptePmd
  generalize hpmd : pmd_offset s1 pud ipa = pmd at e2 nzpmd hA hFpteR hFptePmd
  have hpmdF : pmd.frame = pud_to_pfn (s1.rd pud) := by rw [← hpmd]; rfl
  generalize hpte : pte_offset_kernel s2 pmd ipa = q
  have hqF : q.frame = pmd_to_pfn (s2.rd pmd) := by rw [← hpte]; rfl
  have hne : ¬ ((false : Bool) = true ∧ pte_present (s2.rd q) ∧ s2.cloning_role = 0) :=
    fun h => absurd h.1 (by decide)
  have hok : s2.cloning_role ≠ 0 → (false : Bool) = false →
      (∃ m b, gfn_to_memslot s2 (ipa >>> PAGE_SHIFT) = some m ∧ m.unshare_bitmap = some b) ∧
      (s2.rd q ≠ 0 → ¬ pte_present (s2.rd q) →
        (s2.cloning_role = KVM_ARM_CLONING_ROLE_SOURCE →
          pte_pfn (s2.rd q) = pte_pfn pte) ∧
        (s2.cloning_role ≠ KVM_ARM_CLONING_ROLE_SOURCE →
          pte_pfn (s2.rd q) ≠ pte_pfn pte ∧
          (pte_pfn (s2.rd q) ∈ s2.shared_pfn_list ∨
            ∃ e ∈ s2.page_pool_list, e.2 = pte_pfn (s2.rd q)))) := by
    intro h
    rw [vrole] at h
    exact absurd hrole h
  obtain ⟨s3, e3, hpgd3, hmem3⟩ := stage2_pte_level_spec s2 ipa q pte false hok
  have hna : next_alloc s2 = next_alloc s := by simp only [next_alloc, valloc]
  rw [hna] at hmem3
  refine ⟨s3, c2, ?_, ?_⟩
  · unfold stage2_set_pte
    simp only [hroot, hpud, e1, hpmd, e2, hpte, hne, if_false, e3, EFAULT]
  · have hRq : ¬ (pud.frame = q.frame ∧ pud.idx = q.idx) := by
      rintro ⟨h, _⟩; exact hFpteR (by rw [← hqF, ← h])
    have h3pud : s3.rd pud = s2.rd pud := by
      show s3.mem pud.frame pud.idx = _
      rw [hmem3 pud.frame (fun p hp => (hA p hp).1)]
      simp only [KvmState.wr, hRq, if_false]
      rfl
    have hPq : ¬ (pmd.frame = q.frame ∧ pmd.idx = q.idx) := by
      rintro ⟨h, _⟩; exact hFptePmd (by rw [← hqF, ← h, hpmdF])
    have h3pmd : s3.rd pmd = s2.rd pmd := by
      show s3.mem pmd.frame pmd.idx = _
      rw [hmem3 pmd.frame (fun p hp => by rw [hpmdF]; exact (hA p hp).2.1)]
      simp only [KvmState.wr, hPq, if_false]
      rfl
    have h3q : s3.rd q = pte := by
      show s3.mem q.frame q.idx = _
      rw [hmem3 q.frame (fun p hp => by rw [hqF]; exact (hA p hp).2.2)]
      simp [KvmState.wr]
    have hpmd3 : pmd_offset s3 pud ipa = pmd := by
      rw [← hpmd]
      simp only [pmd_offset, h3pud, hpudeq]
    have hpte3 : pte_offset_kernel s3 pmd ipa = q := by
      rw [← hpte]
      simp only [pte_offset_kernel, h3pmd]
    have n1 : ¬ s3.rd pud = 0 := by rw [h3pud]; exact nzpud
    have n2 : ¬ s3.rd pmd = 0 := by rw [h3pmd]; exact nzpmd
    simp only [walk_leaf, walk, hpgd3, vpgd, hroot, walk_from, hpud, pud_none, n1, if_false,
      hpmd3, pmd_none, n2, hpte3, Option.map_some', h3q]

/-- The leaf that `user_mem_abort` builds for PFN `pfn`: present, carrying `pfn`, and with
the S2 write permission exactly when the translator reports the page writable. -/
theorem new_pte_facts (pfn : Nat) (w : Bool) (h : pfn < 268435456) :
    pte_present (if w = true then pfn_pte pfn PAGE_S2 ||| L_PTE_S2_RDWR
      else pfn_pte pfn PAGE_S2) ∧
    pte_pfn (if w = true then pfn_pte pfn PAGE_S2 ||| L_PTE_S2_RDWR
      else pfn_pte pfn PAGE_S2) = pfn ∧
    ((if w = true then pfn_pte pfn PAGE_S2 ||| L_PTE_S2_RDWR else pfn_pte pfn PAGE_S2)
        &&& L_PTE_S2_RDWR = L_PTE_S2_RDWR ↔ w = true) := by
  have ha : pfn_pte pfn 1151 = pfn * 4096 + 1151 := by
    have h1 := Nat.mul_add_lt_is_or (i := 12) (b := 1151) (by norm_num) pfn
    simp only [pfn_pte, PAGE_SHIFT]
    rw [Nat.shiftLeft_eq, Nat.mul_comm, ← h1]
  have hb : pfn_pte pfn 1151 ||| 192 = pfn * 4096 + 1279 := by
    have h2 := Nat.mul_add_lt_is_or (i := 12) (b := 1279) (by norm_num) pfn
    simp only [pfn_pte, PAGE_SHIFT]
    rw [Nat.shiftLeft_eq, Nat.mul_comm, Nat.lor_assoc]
    have e : (1151 ||| 192 : Nat) = 1279 := by decide
    rw [e, ← h2]
  simp only [PAGE_S2, L_PTE_S2_RDWR]
  cases w
  · simp only [Bool.false_eq_true, if_false, ha, pte_present_iff, pte_pfn_eq, and_192]
    refine ⟨by omega, by omega, ?_⟩
    constructor
    · intro h; omega
    · intro h; exact absurd h (by decide)
  · simp only [if_true, hb, pte_present_iff, pte_pfn_eq, and_192]
    refine ⟨by omega, by omega, ?_⟩
    constructor
    · intro _; trivial
    · intro _; omega

end S2Mmu
namespace S2Mmu

theorem walk_leaf_of_mem_eq (s t : KvmState) (ipa : Nat) (hm : t.mem = s.mem)
    (hp : t.pgd = s.pgd) : walk_leaf t ipa = walk_leaf s ipa := by
  unfold walk_leaf walk
  rw [hp]
  cases s.pgd with
  | none => rfl
  | some root =>
    have hrd : t.rd = s.rd := by funext p; simp only [KvmState.rd, hm]
    simp only [walk_from, KvmState.rd, pmd_offset, pte_offset_kernel, hm]
    rw [hrd]

/-- C11: a fault on a visible GFN of a VM with role None that `user_mem_abort` does not
reject (a translation fault, or a write permission fault), with a successful top-up that
leaves a well-formed reserve (state `s1`: the two top frames are zeroed pages apart from the
tables on the path and from the page handed out next), a translator that answers with PFN
`P` (a PFN of the 40-bit physical space) and writable flag `w`, and no notifier retry.
`kvm_handle_guest_abort` returns 1 and the walk for the fault IPA then reaches a present leaf
that carries `P` and has the S2 write permission iff `w` is true. -/
theorem C11_lazy_population (s s1 : KvmState) (vcpu : kvm_vcpu) (root f1 f2 P : Nat)
    (rest : List Nat) (w : Bool)
    (hnone : s.cloning_role = 0)
    (hstatus : vcpu.fault_status = FSC_FAULT ∨
      (vcpu.fault_status = FSC_PERM ∧ vcpu.write_fault = true))
    (hvis : s.visible_gfn (vcpu.fault_ipa >>> PAGE_SHIFT) = true)
    (hroot : s.pgd = some root)
    (htop : mmu_topup_memory_cache s vcpu.mmu_page_cache 2 KVM_NR_MEM_OBJS
      = some (s1, { objects := f1 :: f2 :: rest }, 0))
    (hz1 : ∀ i, s1.mem f1 i = 0) (hz2 : ∀ i, s1.mem f2 i = 0)
    (hlt1 : f1 < 268435456) (hlt2 : f2 < 268435456)
    (hsep : (f1 :: f2 :: (next_alloc s1 ++ path_frames s1 root vcpu.fault_ipa)).Nodup)
    (htr : s.gfn_to_pfn_prot (vcpu.fault_ipa >>> PAGE_SHIFT) vcpu.write_fault = some (P, w))
    (hP : P < 268435456)
    (hretry : s.notifier_retry = false) :
    ∃ s2 vcpu2, kvm_handle_guest_abort s vcpu = some (s2, vcpu2, 1) ∧
      ∃ v, walk_leaf s2 vcpu.fault_ipa = some v ∧ pte_present v ∧ pte_pfn v = P ∧
        (v &&& L_PTE_S2_RDWR = L_PTE_S2_RDWR ↔ w = true) := by
  obtain ⟨v1, _, v3, _, v5, v6, _⟩ := mmu_topup_vm s s1 _ _ 2 KVM_NR_MEM_OBJS 0 htop
  have hrej : ¬ (vcpu.fault_status = FSC_PERM ∧ vcpu.write_fault = false ∧
      s.cloning_role = 0) := by
    rintro ⟨a, b, _⟩
    rcases hstatus with h | h
    · rw [h] at a; exact absurd a (by decide)
    · rw [h.2] at b; exact absurd b (by decide)
  have hs : ¬ (vcpu.fault_status ≠ FSC_FAULT ∧ vcpu.fault_status ≠ FSC_PERM) := by
    rintro ⟨a, b⟩
    rcases hstatus with h | h
    · exact a h
    · exact b h.1
  generalize hnew : (if w = true then pfn_pte P PAGE_S2 ||| L_PTE_S2_RDWR
    else pfn_pte P PAGE_S2) = new
  generalize hs4 : (if w = true then
      ((s1.emit (Event.gfn_to_pfn_prot (vcpu.fault_ipa >>> PAGE_SHIFT) vcpu.write_fault)).emit
        Event.mmu_lock).emit (Event.set_pfn_dirty P)
    else (s1.emit (Event.gfn_to_pfn_prot (vcpu.fault_ipa >>> PAGE_SHIFT)
        vcpu.write_fault)).emit Event.mmu_lock) = s4
  have h4 : s4.mem = s1.mem ∧ s4.pgd = s1.pgd ∧ s4.cloning_role = s1.cloning_role ∧
      s4.page_alloc = s1.page_alloc := by
    rw [← hs4]
    split <;> exact ⟨rfl, rfl, rfl, rfl⟩
  obtain ⟨m4, p4, r4, a4⟩ := h4
  have hsep4 : (f1 :: f2 :: (next_alloc s4 ++ path_frames s4 root vcpu.fault_ipa)).Nodup := by
    have e1 : next_alloc s4 = next_alloc s1 := by simp only [next_alloc, a4]
    have e2 : path_frames s4 root vcpu.fault_ipa = path_frames s1 root vcpu.fault_ipa := by
      simp only [path_frames, KvmState.rd, pmd_offset, m4]
    rw [e1, e2]; exact hsep
  obtain ⟨s5, c5, e5, hwalk⟩ := stage2_set_pte_none_installs s4 root vcpu.fault_ipa new f1 f2
    rest (by rw [p4, v3]; exact hroot) (by rw [r4, v1]; exact hnone)
    (fun i => by rw [m4]; exact hz1 i) (fun i => by rw [m4]; exact hz2 i) hlt1 hlt2 hsep4
  obtain ⟨n1, n2, n3⟩ := new_pte_facts P w hP
  rw [hnew] at n1 n2 n3
  have hu : ∃ s6, user_mem_abort s vcpu vcpu.fault_ipa (vcpu.fault_ipa >>> PAGE_SHIFT)
      (gfn_to_memslot s (vcpu.fault_ipa >>> PAGE_SHIFT)) vcpu.fault_status
      = some (s6, { vcpu with mmu_page_cache := c5.getD { objects := f1 :: f2 :: rest } }, 0) ∧
      s6.mem = s5.mem ∧ s6.pgd = s5.pgd := by
    unfold user_mem_abort
    rw [if_neg hrej]
    simp only [htop]
    rw [if_neg (by simp), if_neg (not_not.2 (v1.trans hnone))]
    dsimp only
    have htr' : (s1.emit (Event.gfn_to_pfn_prot (vcpu.fault_ipa >>> PAGE_SHIFT)
        vcpu.write_fault)).gfn_to_pfn_prot (vcpu.fault_ipa >>> PAGE_SHIFT) vcpu.write_fault
        = some (P, w) := by
      show s1.gfn_to_pfn_prot _ _ = _
      rw [v5]; exact htr
    rw [htr']
    dsimp only
    have hr' : ¬ ((s1.emit (Event.gfn_to_pfn_prot (vcpu.fault_ipa >>> PAGE_SHIFT)
        vcpu.write_fault)).emit Event.mmu_lock).notifier_retry = true := by
      show ¬ s1.notifier_retry = true
      rw [v6, hretry]; decide
    rw [if_neg hr', hnew, hs4, e5]
    dsimp only
    refine ⟨_, rfl, ?_, ?_⟩
    · split <;> rfl
    · split <;> rfl
  obtain ⟨s6, e6, m6, p6⟩ := hu
  refine ⟨s6, { vcpu with mmu_page_cache := c5.getD { objects := f1 :: f2 :: rest } }, ?_,
    new, ?_, n1, n2, n3⟩
  · unfold kvm_handle_guest_abort
    rw [if_neg hs]
    dsimp only
    rw [if_neg (by rw [hvis]; decide), e6]
    rfl
  · rw [walk_leaf_of_mem_eq s5 s6 _ m6 p6]; exact hwalk

end S2Mmu
namespace S2Mmu

/-- C11 (witness): the read fault of `vcpu_read_fault` at IPA 0x40001000 on the VM `ex_lazy`
with an empty root; the translator reports PFN 0x99, not writable. -/
theorem C11_lazy_population_witness :
    ∃ s2 vcpu2, kvm_handle_guest_abort (ex_lazy false false) vcpu_read_fault
        = some (s2, vcpu2, 1) ∧
      ∃ v, walk_leaf s2 vcpu_read_fault.fault_ipa = some v ∧ pte_present v ∧
        pte_pfn v = 0x99 ∧ (v &&& L_PTE_S2_RDWR = L_PTE_S2_RDWR ↔ false = true) :=
  C11_lazy_population (ex_lazy false false) (ex_lazy false false) vcpu_read_fault 16 70 71
    0x99 [] false rfl (Or.inl rfl) rfl rfl rfl (fun _ => rfl) (fun _ => rfl) (by decide)
    (by decide) (by decide) rfl (by decide) rfl

end S2Mmu
namespace S2Mmu

/-! ## Arming: `mark_s2_non_present` -/

end S2Mmu
namespace S2Mmu

end S2Mmu
namespace S2Mmu

end S2Mmu
namespace S2Mmu

/-! ## The shared registry is a list -/

/-- C19 (the code at a failing input): `ex_two_slots` is a source VM with two memslots under
the same top-level entry, which points to the pmd table of frame 32.  `mark_s2_non_present`
visits that entry once per memslot and `add_shared_pfn` links PFN 32 twice; after
`del_shared_pfn(32)` one entry is left and `is_pfn_shared(32)` is still true. -/
theorem C19_registry_lists_pfn_twice :
    ex_two_slots.shared_pfn_list = [] ∧
    (mark_s2_non_present ex_two_slots).map (fun t => t.shared_pfn_list) = some [32, 32] ∧
    (mark_s2_non_present ex_two_slots).map
        (fun t => ((del_shared_pfn t 32).shared_pfn_list,
          decide (is_pfn_shared (del_shared_pfn t 32) 32)))
      = some ([32], true) := by
  refine ⟨by decide, ?_, ?_⟩
  · decide!
  · decide!

/-! ## Bulk unsharing returns the result of the last GFN -/

/-- C20 (the code at a failing input): on the source VM `ex_source_sentinel` with an empty
reserve and no free page, unsharing GFN 0x40001 (accessed, not yet unshared) fails with
`-ENOMEM` in the top-up; GFN 0x40002 has no leaf and its step returns 0.
`kvm_arm_unshare_gfns` over the region of these two pages returns 0. -/
theorem C20_unshare_gfns_drops_error :
    (kvm_arm_unshare_gfn ex_source_sentinel { objects := [] } 0x40001 0x40001000).map
        (fun r => r.2.2) = some (-ENOMEM) ∧
    (kvm_arm_unshare_gfn ex_source_sentinel { objects := [] } 0x40002 0x40002000).map
        (fun r => r.2.2) = some 0 ∧
    (kvm_arm_unshare_gfns ex_source_sentinel { objects := [] } 0x40001000 0x2000).map
        (fun r => r.2.2) = some 0 := by
  refine ⟨?_, ?_, ?_⟩
  · decide!
  · decide!
  · decide!

end S2Mmu
namespace S2Mmu

/-! ## Copy-on-access of a data page -/

theorem not_mem_erase_of_count_one (l : List Nat) (p : Nat) (h : l.count p = 1) :
    p ∉ l.erase p := by
  have hc : (l.erase p).count p = 0 := by
    rw [List.count_erase_self, h]
  exact List.count_eq_zero.1 hc

theorem del_shared_pfn_list (s : KvmState) (p : Nat) (h : p ∈ s.shared_pfn_list) :
    (del_shared_pfn s p).shared_pfn_list = s.shared_pfn_list.erase p ∧
    (del_shared_pfn s p).page_pool_list = s.page_pool_list ∧
    (del_shared_pfn s p).page_data = s.page_data := by
  unfold del_shared_pfn
  rw [if_pos (show is_pfn_shared s p from h)]
  exact ⟨rfl, rfl, rfl⟩

/-- The source branch when the snapshot page is there: `handle_coa_pte` on a source VM,
`iomap` false, for an old leaf and a new leaf that both carry PFN `P`, at an address whose
GFN has a memslot.  If `P` is listed once in
the shared registry, the page allocation succeeds with a page `G` other than the guest page,
and the source HVA is backed by frame `f`, then afterwards the head of the page pool is the
entry `(G, P)`, page `G` holds the bytes of the guest page `f`, and `P` is no longer in the
registry.  If `P` is not in the registry, the registry and the pool are unchanged. -/
theorem source_snapshot_with_page (s : KvmState) (addr old new P : Nat) (slot : kvm_memory_slot)
    (hrole : s.cloning_role = KVM_ARM_CLONING_ROLE_SOURCE)
    (hold : pte_pfn old = P) (hnew : pte_pfn new = P)
    (hslot : gfn_to_memslot s (addr >>> PAGE_SHIFT) = some slot) :
    (∀ G f rest, s.shared_pfn_list.count P = 1 → s.page_alloc = some G :: rest →
      s.hva_to_pfn (gfn_to_hva_memslot slot (addr >>> PAGE_SHIFT)) = some f → G ≠ f →
      ∃ t, handle_coa_pte s addr old new false = some t ∧
        t.page_pool_list = (some G, P) :: s.page_pool_list ∧
        t.page_data G = s.page_data f ∧
        t.shared_pfn_list = s.shared_pfn_list.erase P ∧
        P ∉ t.shared_pfn_list) ∧
    (P ∉ s.shared_pfn_list →
      ∃ t, handle_coa_pte s addr old new false = some t ∧
        t.shared_pfn_list = s.shared_pfn_list ∧ t.page_pool_list = s.page_pool_list ∧
        t.page_data = s.page_data) := by
  have hrole' : s.cloning_role = KVM_ARM_CLONING_ROLE_SOURCE := hrole
  have heq : ¬ pte_pfn old ≠ pte_pfn new := by rw [hold, hnew]; exact fun h => h rfl
  have hhva : gpa_to_hva s addr = some (gfn_to_hva_memslot slot (addr >>> PAGE_SHIFT)) := by
    unfold gpa_to_hva; rw [hslot]
  refine ⟨fun G f rest hcount halloc hback hGf => ?_, fun hnot => ?_⟩
  · have hmem : P ∈ s.shared_pfn_list := by
      apply List.count_pos_iff.1
      omega
    have hshared : is_pfn_shared s (pte_pfn old) := by rw [hold]; exact hmem
    have hg : get_free_page s = (some G,
        { s with
          page_alloc := rest
          mem := fun x i => if x = G then 0 else s.mem x i
          page_count := fun x => if x = G then 1 else s.page_count x
          page_data := fun x => if x = G then List.replicate PAGE_SIZE 0 else s.page_data x
          trace := Event.get_free_page :: s.trace }) := by
      unfold get_free_page
      rw [halloc]
    generalize hs1 : ({ s with
          page_alloc := rest
          mem := fun x i => if x = G then 0 else s.mem x i
          page_count := fun x => if x = G then 1 else s.page_count x
          page_data := fun x => if x = G then List.replicate PAGE_SIZE 0 else s.page_data x
          trace := Event.get_free_page :: s.trace } : KvmState) = s1 at hg
    have h1 : s1.hva_to_pfn = s.hva_to_pfn ∧ s1.shared_pfn_list = s.shared_pfn_list ∧
        s1.page_pool_list = s.page_pool_list ∧ s1.page_data f = s.page_data f := by
      rw [← hs1]
      refine ⟨rfl, rfl, rfl, ?_⟩
      show (if f = G then _ else _) = _
      rw [if_neg (fun e => hGf e.symm)]
    obtain ⟨k1, k2, k3, k4⟩ := h1
    have hcopy : copy_from_user s1 (some G) (gfn_to_hva_memslot slot (addr >>> PAGE_SHIFT))
        = { s1 with
            page_data := fun x => if x = G then s1.page_data f else s1.page_data x
            trace := Event.copy_from_user (gfn_to_hva_memslot slot (addr >>> PAGE_SHIFT))
              :: s1.trace } := by
      unfold copy_from_user
      rw [k1, hback]
    generalize hs4 : page_pool_add (copy_from_user s1 (some G)
      (gfn_to_hva_memslot slot (addr >>> PAGE_SHIFT))) (some G) (pte_pfn old) = s4
    have h4 : s4.shared_pfn_list = s.shared_pfn_list ∧
        s4.page_pool_list = (some G, P) :: s.page_pool_list ∧
        s4.page_data G = s.page_data f := by
      rw [← hs4, hcopy]
      refine ⟨k2, ?_, ?_⟩
      · show (some G, pte_pfn old) :: s1.page_pool_list = _
        rw [hold, k3]
      · show (if G = G then s1.page_data f else _) = _
        rw [if_pos rfl, k4]
    obtain ⟨q1, q2, q3⟩ := h4
    have hmem4 : pte_pfn old ∈ s4.shared_pfn_list := by rw [q1, hold]; exact hmem
    obtain ⟨d1, d2, d3⟩ := del_shared_pfn_list s4 (pte_pfn old) hmem4
    have hsrc : handle_coa_pte_src s addr old new = some (del_shared_pfn s4 (pte_pfn old)) := by
      unfold handle_coa_pte_src
      dsimp only
      rw [if_neg heq, if_pos hshared, hhva]
      dsimp only
      rw [hg]
      dsimp only
      rw [if_neg (by simp), hs4]
    refine ⟨kvm_tlb_flush_vmid_ipa true (del_shared_pfn s4 (pte_pfn old)) addr, ?_, ?_, ?_, ?_,
      ?_⟩
    · unfold handle_coa_pte
      dsimp only
      rw [if_neg (by decide), if_pos hrole', hsrc]
    · show (del_shared_pfn s4 (pte_pfn old)).page_pool_list = _
      rw [d2, q2]
    · show (del_shared_pfn s4 (pte_pfn old)).page_data G = _
      rw [d3, q3]
    · show (del_shared_pfn s4 (pte_pfn old)).shared_pfn_list = _
      rw [d1, q1, hold]
    · show P ∉ (del_shared_pfn s4 (pte_pfn old)).shared_pfn_list
      rw [d1, q1, hold]
      exact not_mem_erase_of_count_one _ _ hcount
  · have hshared : ¬ is_pfn_shared s (pte_pfn old) := by rw [hold]; exact hnot
    have hsrc : handle_coa_pte_src s addr old new = some s := by
      unfold handle_coa_pte_src
      dsimp only
      rw [if_neg heq, if_neg hshared]
    refine ⟨kvm_tlb_flush_vmid_ipa true s addr, ?_, rfl, rfl, rfl⟩
    unfold handle_coa_pte
    dsimp only
    rw [if_neg (by decide), if_pos hrole', hsrc]

end S2Mmu

namespace S2Mmu

/-- The snapshot of the source VM `ex_armed_ro` at IPA 0x40001000, whose sentinel leaf and
new leaf carry PFN 0x99. -/
theorem source_snapshot_with_page_example :
    (∀ G f rest, ex_armed_ro.shared_pfn_list.count 0x99 = 1 →
      ex_armed_ro.page_alloc = some G :: rest →
      ex_armed_ro.hva_to_pfn
        (gfn_to_hva_memslot { ex_slot with flags := 2 } (0x40001000 >>> PAGE_SHIFT)) = some f →
      G ≠ f →
      ∃ t, handle_coa_pte ex_armed_ro 0x40001000 (0x99 * 4096 + 1148) (0x99 * 4096 + 1151)
          false = some t ∧
        t.page_pool_list = (some G, 0x99) :: ex_armed_ro.page_pool_list ∧
        t.page_data G = ex_armed_ro.page_data f ∧
        t.shared_pfn_list = ex_armed_ro.shared_pfn_list.erase 0x99 ∧
        0x99 ∉ t.shared_pfn_list) ∧
    (0x99 ∉ ex_armed_ro.shared_pfn_list →
      ∃ t, handle_coa_pte ex_armed_ro 0x40001000 (0x99 * 4096 + 1148) (0x99 * 4096 + 1151)
          false = some t ∧
        t.shared_pfn_list = ex_armed_ro.shared_pfn_list ∧
        t.page_pool_list = ex_armed_ro.page_pool_list ∧
        t.page_data = ex_armed_ro.page_data) :=
  source_snapshot_with_page ex_armed_ro 0x40001000 (0x99 * 4096 + 1148) (0x99 * 4096 + 1151) 0x99
    { ex_slot with flags := 2 } rfl (by decide) (by decide) (by decide)

/-- C16 (the code at a failing input): on the source VM `ex_source_sentinel` the leaf of IPA
0x40001000 is the non-present sentinel of PFN 0x99, PFN 0x99 is in the shared registry and
`__get_free_page` fails.  `handle_coa_pte` (source branch, old and new leaf of PFN 0x99)
prints the diagnostic and goes on with the NULL page: it ends with the pool entry keyed 0x99
that has no page, so no copy of the guest page is kept, and with 0x99 out of the
registry. -/
theorem C16_snapshot_without_page :
    ex_source_sentinel.cloning_role = KVM_ARM_CLONING_ROLE_SOURCE ∧
    walk_leaf ex_source_sentinel 0x40001000 = some (0x99 * 4096 + 1148) ∧
    ¬ pte_present (0x99 * 4096 + 1148) ∧ pte_pfn (0x99 * 4096 + 1148) = 0x99 ∧
    pte_pfn (0x99 * 4096 + 1151) = 0x99 ∧
    ex_source_sentinel.shared_pfn_list = [0x99] ∧ ex_source_sentinel.page_alloc = [] ∧
    (handle_coa_pte ex_source_sentinel 0x40001000 (0x99 * 4096 + 1148) (0x99 * 4096 + 1151)
        false).map (fun t => (t.page_pool_list, t.shared_pfn_list))
      = some ([(none, 0x99)], []) := by
  refine ⟨by decide, by decide, by decide, by decide, by decide, by decide, by decide, ?_⟩
  decide!

end S2Mmu
namespace S2Mmu

end S2Mmu
namespace S2Mmu

end S2Mmu
namespace S2Mmu

/-! ## First touches of a source VM and its clone -/

theorem same_env_refl (s : KvmState) : same_env s s := ⟨same_vm_refl s, rfl, rfl⟩

theorem same_env_trans {s t u : KvmState} (h1 : same_env s t) (h2 : same_env t u) :
    same_env s u :=
  ⟨same_vm_trans h1.1 h2.1, h2.2.1.trans h1.2.1, h2.2.2.trans h1.2.2⟩

theorem pmd_pfn_clear3 (x : Nat) : pmd_to_pfn (clear_bits x 3) = pmd_to_pfn x := by
  simp only [pmd_to_pfn_eq]; exact pfn_clear3 x

theorem clear3_zero : clear_bits 0 3 = 0 := by
  rw [clear_bits_3]

/-- One iteration of a duplicate loop: what it adds to the registry, and what it leaves
alone. -/
theorem duplicate_step_registry (new old : Nat) (s : KvmState) (n : Nat) :
    (duplicate_pmd_step new old s n).shared_pfn_list
      = (if s.mem old n ≠ 0 then pmd_to_pfn (s.mem old n) :: s.shared_pfn_list
         else s.shared_pfn_list) ∧
    same_env s (duplicate_pmd_step new old s n) := by
  unfold duplicate_pmd_step
  by_cases h : s.mem old n = 0
  · rw [if_neg (not_not.2 h), if_neg (not_not.2 h)]
    exact ⟨rfl, same_env_refl s⟩
  · rw [if_pos h, if_pos h]
    refine ⟨?_, ⟨rfl, rfl, rfl, rfl, rfl⟩, rfl, rfl⟩
    by_cases hno : new = old
    · simp [get_page, add_shared_pfn, KvmState.wr, hno, pmd_pfn_clear3]
    · simp [get_page, add_shared_pfn, KvmState.wr, hno, pmd_pfn_clear3]

/-- The duplicate loop over the first `n` entries: how often `x` is in the registry
afterwards, when at most the entry `j` of the old table carries `x`. -/
theorem duplicate_fold_count (new old x j : Nat) (hne : new ≠ old) (s : KvmState)
    (hj : s.mem old j ≠ 0 ∧ pmd_to_pfn (s.mem old j) = x) :
    ∀ n : Nat, (∀ i, i < n → i ≠ j → s.mem old i ≠ 0 → pmd_to_pfn (s.mem old i) ≠ x) →
      ((List.range n).foldl (duplicate_pmd_step new old) s).shared_pfn_list.count x
        = s.shared_pfn_list.count x + (if j < n then 1 else 0) ∧
      same_env s ((List.range n).foldl (duplicate_pmd_step new old) s) := by
  intro n
  induction n with
  | zero => intro _; exact ⟨by simp, same_env_refl s⟩
  | succ n ih =>
    intro hx
    obtain ⟨c, e⟩ := ih (fun i hi => hx i (by omega))
    obtain ⟨_, _, a3, _, _, _⟩ := duplicate_pmd_fold_spec new old hne s n
    rw [List.range_succ, List.foldl_append]
    simp only [List.foldl_cons, List.foldl_nil]
    generalize (List.range n).foldl (duplicate_pmd_step new old) s = t at c e a3
    have hold : t.mem old n = s.mem old n := by rw [a3]; simp
    obtain ⟨r, e2⟩ := duplicate_step_registry new old t n
    refine ⟨?_, same_env_trans e e2⟩
    rw [r, hold]
    by_cases hn : n = j
    · subst hn
      rw [if_pos hj.1, List.count_cons, c, hj.2]
      simp
    · have hlt : (if j < n + 1 then 1 else 0) = (if j < n then 1 else 0) := by
        by_cases hjn : j < n
        · rw [if_pos hjn, if_pos (by omega)]
        · rw [if_neg hjn, if_neg (by omega)]
      rw [hlt]
      by_cases h0 : s.mem old n = 0
      · rw [if_neg (not_not.2 h0)]; exact c
      · rw [if_pos h0, List.count_cons, c]
        have := hx n (by omega) hn h0
        simp [this]

/-- The duplicate loop when no entry of the old table carries `x`. -/
theorem duplicate_fold_count_none (new old x : Nat) (hne : new ≠ old) (s : KvmState) :
    ∀ n : Nat, (∀ i, i < n → s.mem old i ≠ 0 → pmd_to_pfn (s.mem old i) ≠ x) →
      ((List.range n).foldl (duplicate_pmd_step new old) s).shared_pfn_list.count x
        = s.shared_pfn_list.count x := by
  intro n
  induction n with
  | zero => intro _; simp
  | succ n ih =>
    intro hx
    have c := ih (fun i hi => hx i (by omega))
    obtain ⟨_, _, a3, _, _, _⟩ := duplicate_pmd_fold_spec new old hne s n
    rw [List.range_succ, List.foldl_append]
    simp only [List.foldl_cons, List.foldl_nil]
    generalize (List.range n).foldl (duplicate_pmd_step new old) s = t at c a3
    have hold : t.mem old n = s.mem old n := by rw [a3]; simp
    obtain ⟨r, _⟩ := duplicate_step_registry new old t n
    rw [r, hold]
    by_cases h0 : s.mem old n = 0
    · rw [if_neg (not_not.2 h0)]; exact c
    · rw [if_pos h0, List.count_cons, c]
      have := hx n (by omega) h0
      simp [this]

end S2Mmu
namespace S2Mmu

theorem del_shared_pfn_env (s : KvmState) (p : Nat) : same_env s (del_shared_pfn s p) := by
  unfold del_shared_pfn
  split
  · exact ⟨⟨rfl, rfl, rfl, rfl, rfl⟩, rfl, rfl⟩
  · exact ⟨⟨rfl, rfl, rfl, rfl, rfl⟩, rfl, rfl⟩

theorem duplicate_fold_env (new old : Nat) (s : KvmState) :
    ∀ n, same_env s ((List.range n).foldl (duplicate_pmd_step new old) s) := by
  intro n
  induction n with
  | zero => exact same_env_refl _
  | succ n ih =>
    rw [List.range_succ, List.foldl_append]
    simp only [List.foldl_cons, List.foldl_nil]
    exact same_env_trans ih (duplicate_step_registry new old _ n).2

/-- The duplicate loop after `del_shared_pfn(M)`: the copy in the zeroed frame `f1`, the old
table `M`, the other frames, and how often a PFN is in the registry afterwards. -/
theorem duplicate_after_del (s D : KvmState) (f1 M : Nat)
    (hD : (List.range 512).foldl (duplicate_pmd_step f1 M) (del_shared_pfn s M) = D)
    (hM : M ∈ s.shared_pfn_list) (h1 : f1 ≠ M) (hz : ∀ i, s.mem f1 i = 0) :
    (∀ f i, f ≠ f1 → f ≠ M → D.mem f i = s.mem f i) ∧
    (∀ i, i < 512 → D.mem f1 i = clear_bits (s.mem M i) 3) ∧
    (∀ i, i < 512 → D.mem M i = clear_bits (s.mem M i) 3) ∧
    (∀ x j, j < 512 → s.mem M j ≠ 0 → pmd_to_pfn (s.mem M j) = x →
      (∀ i, i < 512 → i ≠ j → s.mem M i ≠ 0 → pmd_to_pfn (s.mem M i) ≠ x) →
      D.shared_pfn_list.count x = (s.shared_pfn_list.erase M).count x + 1) ∧
    (∀ x, (∀ i, i < 512 → s.mem M i ≠ 0 → pmd_to_pfn (s.mem M i) ≠ x) →
      D.shared_pfn_list.count x = (s.shared_pfn_list.erase M).count x) ∧
    same_env s D := by
  obtain ⟨dl, _, _⟩ := del_shared_pfn_list s M hM
  have dm : (del_shared_pfn s M).mem = s.mem := del_shared_pfn_mem s M
  obtain ⟨a1, a2, a3, _, _, _⟩ := duplicate_pmd_fold_spec f1 M h1 (del_shared_pfn s M) 512
  rw [hD, dm] at a1 a2 a3
  refine ⟨a1, fun i hi => ?_, fun i hi => ?_, fun x j hj h0 hx hno => ?_, fun x hno => ?_, ?_⟩
  · rw [a2]
    by_cases h : s.mem M i = 0
    · rw [if_neg (fun c => c.2 h), hz, h, clear3_zero]
    · rw [if_pos ⟨hi, h⟩]
  · rw [a3]
    by_cases h : s.mem M i = 0
    · rw [if_neg (fun c => c.2 h), h, clear3_zero]
    · rw [if_pos ⟨hi, h⟩]
  · obtain ⟨c, _⟩ := duplicate_fold_count f1 M x j h1 (del_shared_pfn s M)
      (by rw [dm]; exact ⟨h0, hx⟩) 512 (by rw [dm]; exact hno)
    rw [hD, dl, if_pos hj] at c
    exact c
  · have c := duplicate_fold_count_none f1 M x h1 (del_shared_pfn s M) 512
      (by rw [dm]; exact hno)
    rw [hD, dl] at c
    exact c
  · have e := duplicate_fold_env f1 M (del_shared_pfn s M) 512
    rw [hD] at e
    exact same_env_trans (del_shared_pfn_env s M) e

end S2Mmu
namespace S2Mmu

/-- Level 1 of `stage2_set_pte` at a sentinel whose pmd table `M` is in the shared registry:
the table is duplicated into the zeroed reserve frame `f1`. -/
theorem stage2_pud_level_split (s : KvmState) (ipa : Nat) (pud : EntryPtr) (f1 f2 M : Nat)
    (rest : List Nat)
    (h0 : s.rd pud ≠ 0) (hnt : ¬ pmd_table (s.rd pud)) (hrole : s.cloning_role ≠ 0)
    (hM : pud_to_pfn (s.rd pud) = M) (hsh : M ∈ s.shared_pfn_list)
    (h1 : f1 ≠ M) (h2 : f1 ≠ pud.frame) (h3 : M ≠ pud.frame) (hz : ∀ i, s.mem f1 i = 0) :
    ∃ s1, stage2_pud_level s (some { objects := f1 :: f2 :: rest }) ipa pud
        = S2Step.cont s1 (some { objects := f2 :: rest }) ∧
      s1.rd pud = (f1 <<< PAGE_SHIFT) ||| PMD_TYPE_TABLE ∧
      (∀ i, i < 512 → s1.mem f1 i = clear_bits (s.mem M i) 3) ∧
      (∀ i, i < 512 → s1.mem M i = clear_bits (s.mem M i) 3) ∧
      (∀ f i, f ≠ f1 → f ≠ M → ¬ (f = pud.frame ∧ i = pud.idx) → s1.mem f i = s.mem f i) ∧
      (∀ x j, j < 512 → s.mem M j ≠ 0 → pmd_to_pfn (s.mem M j) = x →
        (∀ i, i < 512 → i ≠ j → s.mem M i ≠ 0 → pmd_to_pfn (s.mem M i) ≠ x) →
        s1.shared_pfn_list.count x = (s.shared_pfn_list.erase M).count x + 1) ∧
      (∀ x, (∀ i, i < 512 → s.mem M i ≠ 0 → pmd_to_pfn (s.mem M i) ≠ x) →
        s1.shared_pfn_list.count x = (s.shared_pfn_list.erase M).count x) ∧
      same_env s s1 := by
  generalize hD : (List.range 512).foldl (duplicate_pmd_step f1 M) (del_shared_pfn s M) = D
  obtain ⟨a1, a2, a3, a4, a5, a6⟩ := duplicate_after_del s D f1 M hD hsh h1 hz
  have hres : stage2_pud_level s (some { objects := f1 :: f2 :: rest }) ipa pud
      = S2Step.cont (pud_populate D pud f1) (some { objects := f2 :: rest }) := by
    unfold stage2_pud_level
    rw [if_neg (show ¬ pud_none (s.rd pud) from h0), if_pos hnt, if_neg (by simp),
      if_pos hrole]
    have hc : handle_coa_pud s (some { objects := f1 :: f2 :: rest }) ipa pud
        = some (pud_populate D pud f1, some { objects := f2 :: rest }) := by
      unfold handle_coa_pud
      dsimp only
      rw [hM, if_pos (show is_pfn_shared s M from hsh)]
      simp only [mmu_memory_cache_alloc]
      unfold duplicate_pmd_and_set_non_present
      simp only [PTRS_PER_PMD]
      rw [hD]
    rw [hc]
  refine ⟨pud_populate D pud f1, hres, ?_, fun i hi => ?_, fun i hi => ?_,
    fun f i g1 g2 g3 => ?_, a4, a5, same_env_trans a6 ⟨⟨rfl, rfl, rfl, rfl, rfl⟩, rfl, rfl⟩⟩
  · simp [pud_populate, KvmState.rd, KvmState.wr]
  · rw [← a2 i hi]
    simp [pud_populate, KvmState.wr, h2]
  · rw [← a3 i hi]
    simp [pud_populate, KvmState.wr, h3]
  · rw [← a1 f i g1 g2]
    show (if f = pud.frame ∧ i = pud.idx then _ else _) = _
    rw [if_neg g3]

/-- Level 2 of `stage2_set_pte` at a sentinel whose pte table `Q` is in the shared registry:
the table is duplicated into the zeroed reserve frame `f2`. -/
theorem stage2_pmd_level_split (s : KvmState) (ipa : Nat) (pmd : EntryPtr) (f2 Q : Nat)
    (rest : List Nat)
    (h0 : s.rd pmd ≠ 0) (hnt : ¬ pmd_table (s.rd pmd)) (hrole : s.cloning_role ≠ 0)
    (hQ : pmd_to_pfn (s.rd pmd) = Q) (hsh : Q ∈ s.shared_pfn_list)
    (h1 : f2 ≠ Q) (h2 : f2 ≠ pmd.frame) (h3 : Q ≠ pmd.frame) (hz : ∀ i, s.mem f2 i = 0) :
    ∃ s1, stage2_pmd_level s (some { objects := f2 :: rest }) ipa pmd
        = S2Step.cont s1 (some { objects := rest }) ∧
      s1.rd pmd = (f2 <<< PAGE_SHIFT) ||| PMD_TYPE_TABLE ∧
      (∀ i, i < 512 → s1.mem f2 i = clear_bits (s.mem Q i) 3) ∧
      (∀ i, i < 512 → s1.mem Q i = clear_bits (s.mem Q i) 3) ∧
      (∀ f i, f ≠ f2 → f ≠ Q → ¬ (f = pmd.frame ∧ i = pmd.idx) → s1.mem f i = s.mem f i) ∧
      (∀ x j, j < 512 → s.mem Q j ≠ 0 → pmd_to_pfn (s.mem Q j) = x →
        (∀ i, i < 512 → i ≠ j → s.mem Q i ≠ 0 → pmd_to_pfn (s.mem Q i) ≠ x) →
        s1.shared_pfn_list.count x = (s.shared_pfn_list.erase Q).count x + 1) ∧
      (∀ x, (∀ i, i < 512 → s.mem Q i ≠ 0 → pmd_to_pfn (s.mem Q i) ≠ x) →
        s1.shared_pfn_list.count x = (s.shared_pfn_list.erase Q).count x) ∧
      same_env s s1 := by
  generalize hD : (List.range 512).foldl (duplicate_pmd_step f2 Q) (del_shared_pfn s Q) = D
  obtain ⟨a1, a2, a3, a4, a5, a6⟩ := duplicate_after_del s D f2 Q hD hsh h1 hz
  have hres : stage2_pmd_level s (some { objects := f2 :: rest }) ipa pmd
      = S2Step.cont (kvm_tlb_flush_vmid_ipa true (pmd_populate_kernel D pmd f2) ipa)
          (some { objects := rest }) := by
    unfold stage2_pmd_level
    rw [if_neg (show ¬ pmd_none (s.rd pmd) from h0), if_pos hnt, if_neg (by simp),
      if_pos hrole]
    have hc : handle_coa_pmd s (some { objects := f2 :: rest }) ipa pmd
        = some (kvm_tlb_flush_vmid_ipa true (pmd_populate_kernel D pmd f2) ipa,
            some { objects := rest }) := by
      unfold handle_coa_pmd
      dsimp only
      rw [hQ, if_pos (show is_pfn_shared s Q from hsh)]
      simp only [mmu_memory_cache_alloc]
      unfold duplicate_pte_and_set_non_present
      rw [duplicate_pte_step_eq]
      simp only [PTRS_PER_PTE]
      rw [hD]
    rw [hc]
  refine ⟨kvm_tlb_flush_vmid_ipa true (pmd_populate_kernel D pmd f2) ipa, hres, ?_,
    fun i hi => ?_, fun i hi => ?_, fun f i g1 g2 g3 => ?_, a4, a5,
    same_env_trans a6 ⟨⟨rfl, rfl, rfl, rfl, rfl⟩, rfl, rfl⟩⟩
  · simp [pmd_populate_kernel, KvmState.rd, KvmState.wr, kvm_tlb_flush_vmid_ipa,
      KvmState.emit]
  · rw [← a2 i hi]
    simp [pmd_populate_kernel, KvmState.wr, kvm_tlb_flush_vmid_ipa, KvmState.emit, h2]
  · rw [← a3 i hi]
    simp [pmd_populate_kernel, KvmState.wr, kvm_tlb_flush_vmid_ipa, KvmState.emit, h3]
  · rw [← a1 f i g1 g2]
    show (if f = pmd.frame ∧ i = pmd.idx then _ else _) = _
    rw [if_neg g3]

/-- Level 1 of `stage2_set_pte` at a sentinel whose pmd table is not in the shared registry:
the table-type bits are set again. -/
theorem stage2_pud_level_fix (s : KvmState) (c : kvm_mmu_memory_cache) (ipa : Nat)
    (pud : EntryPtr)
    (h0 : s.rd pud ≠ 0) (hnt : ¬ pmd_table (s.rd pud)) (hrole : s.cloning_role ≠ 0)
    (hsh : pud_to_pfn (s.rd pud) ∉ s.shared_pfn_list) :
    stage2_pud_level s (some c) ipa pud
      = S2Step.cont (s.wr pud (s.rd pud ||| PMD_TYPE_TABLE)) (some c) := by
  unfold stage2_pud_level
  rw [if_neg (show ¬ pud_none (s.rd pud) from h0), if_pos hnt, if_neg (by simp), if_pos hrole]
  have hc : handle_coa_pud s (some c) ipa pud
      = some (s.wr pud (s.rd pud ||| PMD_TYPE_TABLE), some c) := by
    unfold handle_coa_pud
    dsimp only
    rw [if_neg (show ¬ is_pfn_shared s (pud_to_pfn (s.rd pud)) from hsh)]
  rw [hc]

/-- Level 2 of `stage2_set_pte` at a sentinel whose pte table is not in the shared
registry. -/
theorem stage2_pmd_level_fix (s : KvmState) (c : kvm_mmu_memory_cache) (ipa : Nat)
    (pmd : EntryPtr)
    (h0 : s.rd pmd ≠ 0) (hnt : ¬ pmd_table (s.rd pmd)) (hrole : s.cloning_role ≠ 0)
    (hsh : pmd_to_pfn (s.rd pmd) ∉ s.shared_pfn_list) :
    stage2_pmd_level s (some c) ipa pmd
      = S2Step.cont (kvm_tlb_flush_vmid_ipa true (s.wr pmd (s.rd pmd ||| PMD_TYPE_TABLE)) ipa)
          (some c) := by
  unfold stage2_pmd_level
  rw [if_neg (show ¬ pmd_none (s.rd pmd) from h0), if_pos hnt, if_neg (by simp), if_pos hrole]
  have hc : handle_coa_pmd s (some c) ipa pmd
      = some (kvm_tlb_flush_vmid_ipa true (s.wr pmd (s.rd pmd ||| PMD_TYPE_TABLE)) ipa,
          some c) := by
    unfold handle_coa_pmd
    dsimp only
    rw [if_neg (show ¬ is_pfn_shared s (pmd_to_pfn (s.rd pmd)) from hsh)]
  rw [hc]

end S2Mmu
namespace S2Mmu

/-- Level 3 of `stage2_set_pte` over a non-present sentinel of an armed VM: the leaf is
stored, `handle_coa_pte` runs on the old value, and the GFN is marked unshared. -/
theorem stage2_pte_level_coa (s t : KvmState) (addr : Nat) (q : EntryPtr) (new : Nat)
    (m : kvm_memory_slot) (b : Nat)
    (h0 : s.rd q ≠ 0) (hnp : ¬ pte_present (s.rd q)) (hrole : s.cloning_role ≠ 0)
    (hslot : gfn_to_memslot s (addr >>> PAGE_SHIFT) = some m) (hb : m.unshare_bitmap = some b)
    (hcoa : handle_coa_pte ((s.wr q new).emit (Event.mark_page_dirty (addr >>> PAGE_SHIFT)))
      addr (s.rd q) new false = some t)
    (hms : t.memslots = s.memslots) (hr : t.cloning_role = s.cloning_role) :
    ∃ s3, stage2_pte_level s addr q new false = some s3 ∧
      s3.mem = t.mem ∧ s3.page_data = t.page_data ∧
      s3.shared_pfn_list = t.shared_pfn_list ∧ s3.page_pool_list = t.page_pool_list ∧
      s3.page_alloc = t.page_alloc ∧ s3.pgd = t.pgd := by
  obtain ⟨ms1, h1⟩ := set_unshare_bit_some (addr >>> PAGE_SHIFT) s.memslots m b hslot hb
  refine ⟨{ t with memslots := ms1 }, ?_, rfl, rfl, rfl, rfl, rfl, rfl⟩
  unfold stage2_pte_level
  dsimp only
  rw [if_neg hnp, if_pos ⟨h0, hrole⟩, hcoa]
  dsimp only
  rw [if_pos ⟨by rw [hr]; exact hrole, rfl⟩]
  unfold mark_gfn_unshared
  rw [hms, h1]

end S2Mmu
namespace S2Mmu

/-- The source branch of `handle_coa_pte` for a PFN listed once in the registry, with a
successful page allocation: all effects. -/
theorem handle_coa_pte_src_shared (t : KvmState) (addr old new P G fsrc : Nat)
    (slot : kvm_memory_slot) (rest : List (Option Nat))
    (hrole : t.cloning_role = KVM_ARM_CLONING_ROLE_SOURCE)
    (hold : pte_pfn old = P) (hnew : pte_pfn new = P)
    (hcount : t.shared_pfn_list.count P = 1)
    (hslot : gfn_to_memslot t (addr >>> PAGE_SHIFT) = some slot)
    (hback : t.hva_to_pfn (gfn_to_hva_memslot slot (addr >>> PAGE_SHIFT)) = some fsrc)
    (halloc : t.page_alloc = some G :: rest) (hGf : G ≠ fsrc) :
    ∃ r, handle_coa_pte t addr old new false = some r ∧
      (∀ f i, f ≠ G → r.mem f i = t.mem f i) ∧
      r.page_data G = t.page_data fsrc ∧ (∀ f, f ≠ G → r.page_data f = t.page_data f) ∧
      r.page_pool_list = (some G, P) :: t.page_pool_list ∧
      P ∉ r.shared_pfn_list ∧
      (∀ x, x ≠ P → r.shared_pfn_list.count x = t.shared_pfn_list.count x) ∧
      r.pgd = t.pgd ∧ r.memslots = t.memslots ∧ r.cloning_role = t.cloning_role := by
  have heq : ¬ pte_pfn old ≠ pte_pfn new := by rw [hold, hnew]; exact fun h => h rfl
  have hhva : gpa_to_hva t addr = some (gfn_to_hva_memslot slot (addr >>> PAGE_SHIFT)) := by
    unfold gpa_to_hva; rw [hslot]
  have hmem : P ∈ t.shared_pfn_list := by
    apply List.count_pos_iff.1
    omega
  have hshared : is_pfn_shared t (pte_pfn old) := by rw [hold]; exact hmem
  generalize hH : gfn_to_hva_memslot slot (addr >>> PAGE_SHIFT) = hva at hback hhva
  have hg : get_free_page t = (some G,
      { t with
        page_alloc := rest
        mem := fun x i => if x = G then 0 else t.mem x i
        page_count := fun x => if x = G then 1 else t.page_count x
        page_data := fun x => if x = G then List.replicate PAGE_SIZE 0 else t.page_data x
        trace := Event.get_free_page :: t.trace }) := by
    unfold get_free_page
    rw [halloc]
  generalize hs1 : ({ t with
        page_alloc := rest
        mem := fun x i => if x = G then 0 else t.mem x i
        page_count := fun x => if x = G then 1 else t.page_count x
        page_data := fun x => if x = G then List.replicate PAGE_SIZE 0 else t.page_data x
        trace := Event.get_free_page :: t.trace } : KvmState) = s1 at hg
  have h1 : s1.hva_to_pfn = t.hva_to_pfn ∧ s1.shared_pfn_list = t.shared_pfn_list ∧
      s1.page_pool_list = t.page_pool_list ∧
      (∀ f, f ≠ G → s1.page_data f = t.page_data f) ∧
      (∀ f i, f ≠ G → s1.mem f i = t.mem f i) ∧
      s1.pgd = t.pgd ∧ s1.memslots = t.memslots ∧ s1.cloning_role = t.cloning_role := by
    rw [← hs1]
    refine ⟨rfl, rfl, rfl, fun f hf => ?_, fun f i hf => ?_, rfl, rfl, rfl⟩
    · show (if f = G then _ else _) = _
      rw [if_neg hf]
    · show (if f = G then _ else _) = _
      rw [if_neg hf]
  obtain ⟨k1, k2, k3, k4, k5, k6, k7, k8⟩ := h1
  have hcopy : copy_from_user s1 (some G) hva
      = { s1 with
          page_data := fun x => if x = G then s1.page_data fsrc else s1.page_data x
          trace := Event.copy_from_user hva :: s1.trace } := by
    unfold copy_from_user
    rw [k1, hback]
  generalize hs4 : page_pool_add (copy_from_user s1 (some G) hva) (some G) (pte_pfn old) = s4
  have h4 : s4.shared_pfn_list = t.shared_pfn_list ∧
      s4.page_pool_list = (some G, P) :: t.page_pool_list ∧
      s4.page_data G = t.page_data fsrc ∧
      (∀ f, f ≠ G → s4.page_data f = t.page_data f) ∧
      (∀ f i, f ≠ G → s4.mem f i = t.mem f i) ∧
      s4.pgd = t.pgd ∧ s4.memslots = t.memslots ∧ s4.cloning_role = t.cloning_role := by
    rw [← hs4, hcopy]
    refine ⟨k2, ?_, ?_, fun f hf => ?_, k5, k6, k7, k8⟩
    · show (some G, pte_pfn old) :: s1.page_pool_list = _
      rw [hold, k3]
    · show (if G = G then s1.page_data fsrc else _) = _
      rw [if_pos rfl, k4 fsrc (fun e => hGf e.symm)]
    · show (if f = G then _ else s1.page_data f) = _
      rw [if_neg hf, k4 f hf]
  obtain ⟨q1, q2, q3, q4, q5, q6, q7, q8⟩ := h4
  have hmem4 : pte_pfn old ∈ s4.shared_pfn_list := by rw [q1, hold]; exact hmem
  have hd : del_shared_pfn s4 (pte_pfn old)
      = { s4 with shared_pfn_list := s4.shared_pfn_list.erase (pte_pfn old) } := by
    unfold del_shared_pfn
    rw [if_pos (show is_pfn_shared s4 (pte_pfn old) from hmem4)]
  have hsrc : handle_coa_pte_src t addr old new = some (del_shared_pfn s4 (pte_pfn old)) := by
    unfold handle_coa_pte_src
    dsimp only
    rw [if_neg heq, if_pos hshared, hhva]
    dsimp only
    rw [hg]
    dsimp only
    rw [if_neg (by simp), hs4]
  refine ⟨kvm_tlb_flush_vmid_ipa true (del_shared_pfn s4 (pte_pfn old)) addr, ?_, ?_, ?_, ?_,
    ?_, ?_, ?_, ?_, ?_, ?_⟩
  · unfold handle_coa_pte
    dsimp only
    rw [if_neg (by decide), if_pos hrole, hsrc]
  · intro f i hf
    rw [hd]; exact q5 f i hf
  · rw [hd]; exact q3
  · intro f hf
    rw [hd]; exact q4 f hf
  · rw [hd]; exact q2
  · rw [hd]
    show P ∉ s4.shared_pfn_list.erase (pte_pfn old)
    rw [q1, hold]
    exact not_mem_erase_of_count_one _ _ hcount
  · intro x hx
    rw [hd]
    show (s4.shared_pfn_list.erase (pte_pfn old)).count x = _
    rw [q1, hold, List.count_erase_of_ne hx]
  · rw [hd]; exact q6
  · rw [hd]; exact q7
  · rw [hd]; exact q8

/-- The source branch of `handle_coa_pte` for a PFN that is not in the registry: only the
TLB invalidation. -/
theorem handle_coa_pte_src_unshared (t : KvmState) (addr old new P : Nat)
    (hrole : t.cloning_role = KVM_ARM_CLONING_ROLE_SOURCE)
    (hold : pte_pfn old = P) (hnew : pte_pfn new = P) (hnot : P ∉ t.shared_pfn_list) :
    handle_coa_pte t addr old new false = some (kvm_tlb_flush_vmid_ipa true t addr) := by
  have heq : ¬ pte_pfn old ≠ pte_pfn new := by rw [hold, hnew]; exact fun h => h rfl
  have hshared : ¬ is_pfn_shared t (pte_pfn old) := by rw [hold]; exact hnot
  have hsrc : handle_coa_pte_src t addr old new = some t := by
    unfold handle_coa_pte_src
    dsimp only
    rw [if_neg heq, if_neg hshared]
  unfold handle_coa_pte
  dsimp only
  rw [if_neg (by decide), if_pos hrole, hsrc]

end S2Mmu
namespace S2Mmu

/-- The target branch of `handle_coa_pte` for a PFN listed once in the registry: the bytes of
frame `P` go to the target page, `P` leaves the registry. -/
theorem handle_coa_pte_tgt_shared (t : KvmState) (addr old new P ft : Nat)
    (slot : kvm_memory_slot)
    (hrole : t.cloning_role ≠ KVM_ARM_CLONING_ROLE_SOURCE)
    (hold : pte_pfn old = P) (hne : pte_pfn new ≠ P)
    (hcount : t.shared_pfn_list.count P = 1)
    (hslot : gfn_to_memslot t (addr >>> PAGE_SHIFT) = some slot)
    (hback : t.hva_to_pfn (gfn_to_hva_memslot slot (addr >>> PAGE_SHIFT)) = some ft) :
    ∃ r, handle_coa_pte t addr old new false = some r ∧
      r.mem = t.mem ∧
      r.page_data ft = t.page_data P ∧ (∀ f, f ≠ ft → r.page_data f = t.page_data f) ∧
      r.page_pool_list = t.page_pool_list ∧
      P ∉ r.shared_pfn_list ∧
      (∀ x, x ≠ P → r.shared_pfn_list.count x = t.shared_pfn_list.count x) ∧
      r.page_alloc = t.page_alloc ∧
      r.pgd = t.pgd ∧ r.memslots = t.memslots ∧ r.cloning_role = t.cloning_role := by
  have hneq : ¬ pte_pfn old = pte_pfn new := by rw [hold]; exact fun h => hne h.symm
  have hhva : gpa_to_hva t addr = some (gfn_to_hva_memslot slot (addr >>> PAGE_SHIFT)) := by
    unfold gpa_to_hva; rw [hslot]
  generalize hH : gfn_to_hva_memslot slot (addr >>> PAGE_SHIFT) = hva at hback hhva
  have hmem : P ∈ t.shared_pfn_list := by
    apply List.count_pos_iff.1
    omega
  have hshared : is_pfn_shared t (pte_pfn old) := by rw [hold]; exact hmem
  have hcopy : target_copy_coa_page t addr (some (pte_pfn old)) hva
      = { t with
          page_data := fun x => if x = ft then t.page_data (pte_pfn old) else t.page_data x
          trace := Event.copy_to_user hva :: t.trace } := by
    unfold target_copy_coa_page
    rw [hback]
  generalize hs1 : target_copy_coa_page t addr (some (pte_pfn old)) hva = s1 at hcopy
  have hmem1 : pte_pfn old ∈ s1.shared_pfn_list := by rw [hcopy, hold]; exact hmem
  have hd : del_shared_pfn s1 (pte_pfn old)
      = { s1 with shared_pfn_list := s1.shared_pfn_list.erase (pte_pfn old) } := by
    unfold del_shared_pfn
    rw [if_pos (show is_pfn_shared s1 (pte_pfn old) from hmem1)]
  have htgt : handle_coa_pte_target t addr old new
      = some (del_shared_pfn s1 (pte_pfn old)) := by
    unfold handle_coa_pte_target
    dsimp only
    rw [if_neg hneq, hhva]
    dsimp only
    rw [if_pos hshared, hs1]
  refine ⟨kvm_tlb_flush_vmid_ipa true (del_shared_pfn s1 (pte_pfn old)) addr, ?_, ?_, ?_, ?_,
    ?_, ?_, ?_, ?_, ?_, ?_, ?_⟩
  · unfold handle_coa_pte
    dsimp only
    rw [if_neg (by decide), if_neg hrole, htgt]
  · rw [hd, hcopy]; rfl
  · rw [hd, hcopy]
    show (if ft = ft then t.page_data (pte_pfn old) else _) = _
    rw [if_pos rfl, hold]
  · intro f hf
    rw [hd, hcopy]
    show (if f = ft then _ else t.page_data f) = _
    rw [if_neg hf]
  · rw [hd, hcopy]; rfl
  · rw [hd, hcopy]
    show P ∉ t.shared_pfn_list.erase (pte_pfn old)
    rw [hold]
    exact not_mem_erase_of_count_one _ _ hcount
  · intro x hx
    rw [hd, hcopy]
    show (t.shared_pfn_list.erase (pte_pfn old)).count x = _
    rw [hold, List.count_erase_of_ne hx]
  · rw [hd, hcopy]; rfl
  · rw [hd, hcopy]; rfl
  · rw [hd, hcopy]; rfl
  · rw [hd, hcopy]; rfl

/-- The target branch of `handle_coa_pte` for a PFN that is not in the registry and whose
pool entry has page `G`: the bytes of `G` go to the target page. -/
theorem handle_coa_pte_tgt_pool (t : KvmState) (addr old new P ft G : Nat)
    (slot : kvm_memory_slot)
    (hrole : t.cloning_role ≠ KVM_ARM_CLONING_ROLE_SOURCE)
    (hold : pte_pfn old = P) (hne : pte_pfn new ≠ P)
    (hnot : P ∉ t.shared_pfn_list)
    (hsearch : page_pool_search t P = some (some G, P))
    (hslot : gfn_to_memslot t (addr >>> PAGE_SHIFT) = some slot)
    (hback : t.hva_to_pfn (gfn_to_hva_memslot slot (addr >>> PAGE_SHIFT)) = some ft) :
    ∃ r, handle_coa_pte t addr old new false = some r ∧
      r.mem = t.mem ∧
      r.page_data ft = t.page_data G ∧ (∀ f, f ≠ ft → r.page_data f = t.page_data f) ∧
      r.shared_pfn_list = t.shared_pfn_list ∧
      r.page_alloc = t.page_alloc ∧
      r.pgd = t.pgd ∧ r.memslots = t.memslots ∧ r.cloning_role = t.cloning_role := by
  have hneq : ¬ pte_pfn old = pte_pfn new := by rw [hold]; exact fun h => hne h.symm
  have hhva : gpa_to_hva t addr = some (gfn_to_hva_memslot slot (addr >>> PAGE_SHIFT)) := by
    unfold gpa_to_hva; rw [hslot]
  generalize hH : gfn_to_hva_memslot slot (addr >>> PAGE_SHIFT) = hva at hback hhva
  have hshared : ¬ is_pfn_shared t (pte_pfn old) := by rw [hold]; exact hnot
  have hcopy : target_copy_coa_page t addr (some G) hva
      = { t with
          page_data := fun x => if x = ft then t.page_data G else t.page_data x
          trace := Event.copy_to_user hva :: t.trace } := by
    unfold target_copy_coa_page
    rw [hback]
  generalize hs2 : free_page (target_copy_coa_page t addr (some G) hva) G = s2
  have h2 : s2.mem = t.mem ∧ s2.page_data ft = t.page_data G ∧
      (∀ f, f ≠ ft → s2.page_data f = t.page_data f) ∧
      s2.shared_pfn_list = t.shared_pfn_list ∧ s2.page_pool_list = t.page_pool_list ∧
      s2.page_alloc = t.page_alloc ∧ s2.pgd = t.pgd ∧ s2.memslots = t.memslots ∧
      s2.cloning_role = t.cloning_role := by
    rw [← hs2, hcopy]
    refine ⟨rfl, ?_, fun f hf => ?_, rfl, rfl, rfl, rfl, rfl, rfl⟩
    · show (if ft = ft then _ else _) = _
      rw [if_pos rfl]
    · show (if f = ft then _ else t.page_data f) = _
      rw [if_neg hf]
  obtain ⟨k0, k1, k2, k3, k4, k5, k6, k7, k8⟩ := h2
  have hsearch2 : page_pool_search s2 (pte_pfn old) = some (some G, P) := by
    unfold page_pool_search at hsearch ⊢
    rw [k4, hold]; exact hsearch
  have hdel : page_pool_del s2 (pte_pfn old)
      = { s2 with page_pool_list := s2.page_pool_list.erase (some G, P) } := by
    unfold page_pool_del
    rw [hsearch2]
  have htgt : handle_coa_pte_target t addr old new
      = some (page_pool_del s2 (pte_pfn old)) := by
    unfold handle_coa_pte_target
    dsimp only
    rw [if_neg hneq, hhva]
    dsimp only
    rw [if_neg hshared, hold, hsearch]
    dsimp only
    rw [hs2, ← hold]
  refine ⟨kvm_tlb_flush_vmid_ipa true (page_pool_del s2 (pte_pfn old)) addr, ?_, ?_, ?_, ?_,
    ?_, ?_, ?_, ?_, ?_⟩
  · unfold handle_coa_pte
    dsimp only
    rw [if_neg (by decide), if_neg hrole, htgt]
  · rw [hdel]; exact k0
  · rw [hdel]; exact k1
  · intro f hf
    rw [hdel]; exact k2 f hf
  · rw [hdel]; exact k3
  · rw [hdel]; exact k5
  · rw [hdel]; exact k6
  · rw [hdel]; exact k7
  · rw [hdel]; exact k8

end S2Mmu
namespace S2Mmu

theorem walk_leaf_eq (s : KvmState) (root ipa A B : Nat) (hroot : s.pgd = some root)
    (h1 : s.rd (pud_offset root ipa) ≠ 0)
    (hA : pud_to_pfn (s.rd (pud_offset root ipa)) = A)
    (h2 : s.mem A (pmd_index ipa) ≠ 0)
    (hB : pmd_to_pfn (s.mem A (pmd_index ipa)) = B) :
    walk_leaf s ipa = some (s.mem B (pte_index ipa)) := by
  have h2' : ¬ s.rd (⟨A, pmd_index ipa⟩ : EntryPtr) = 0 := h2
  have hB' : pmd_to_pfn (s.rd (⟨A, pmd_index ipa⟩ : EntryPtr)) = B := hB
  simp only [walk_leaf, walk, hroot, walk_from, pud_none, h1, if_false, pmd_offset, hA,
    pmd_none, h2', pte_offset_kernel, hB', Option.map_some']
  rfl

theorem count_erase_self_of_one (l : List Nat) (x : Nat) (h : l.count x = 1) :
    (l.erase x).count x = 0 := by
  rw [List.count_erase_self, h]

/-- Levels 1 and 2 of `stage2_set_pte` on the shared path of an armed VM: the pud entry is the
sentinel of the registered pmd table `M`, whose entry for `ipa` is the valid descriptor `m` of
the pte table `T`.  Both tables are duplicated into the reserve frames `f1` and `f2`; the
old tables keep their entries with the low bits cleared; `M` and `T` leave the registry and
the PFN `P` of the leaf for `ipa` is listed once. -/
theorem levels_split (s : KvmState) (root ipa f1 f2 M T P e m : Nat) (rest : List Nat)
    (he : s.rd (pud_offset root ipa) = e) (he0 : e ≠ 0) (hent : ¬ pmd_table e)
    (hM : pud_to_pfn e = M)
    (hm : s.mem M (pmd_index ipa) = m) (hm0 : clear_bits m 3 ≠ 0) (hT : pmd_to_pfn m = T)
    (hP : pmd_to_pfn (s.mem T (pte_index ipa)) = P)
    (hv0 : s.mem T (pte_index ipa) ≠ 0)
    (hrole : s.cloning_role ≠ 0)
    (hsep : [(pud_offset root ipa).frame, M, T, f1, f2].Nodup)
    (hz1 : ∀ i, s.mem f1 i = 0) (hz2 : ∀ i, s.mem f2 i = 0)
    (hlt1 : f1 < 268435456) (hlt2 : f2 < 268435456)
    (hcM : s.shared_pfn_list.count M = 1) (hcT : s.shared_pfn_list.count T = 0)
    (hcP : s.shared_pfn_list.count P = 0) (hMP : M ≠ P) (hTP : T ≠ P)
    (hMM : ∀ i, i < 512 → s.mem M i ≠ 0 → pmd_to_pfn (s.mem M i) ≠ M ∧
      pmd_to_pfn (s.mem M i) ≠ P ∧ (i ≠ pmd_index ipa → pmd_to_pfn (s.mem M i) ≠ T))
    (hTT : ∀ i, i < 512 → s.mem T i ≠ 0 → pmd_to_pfn (s.mem T i) ≠ M ∧
      pmd_to_pfn (s.mem T i) ≠ T ∧ (i ≠ pte_index ipa → pmd_to_pfn (s.mem T i) ≠ P)) :
    ∃ s1 s2, stage2_pud_level s (some { objects := f1 :: f2 :: rest }) ipa (pud_offset root ipa)
        = S2Step.cont s1 (some { objects := f2 :: rest }) ∧
      stage2_pmd_level s1 (some { objects := f2 :: rest }) ipa
          (pmd_offset s1 (pud_offset root ipa) ipa) = S2Step.cont s2 (some { objects := rest }) ∧
      pte_offset_kernel s2 (pmd_offset s1 (pud_offset root ipa) ipa) ipa
        = ⟨f2, pte_index ipa⟩ ∧
      s2.rd (pud_offset root ipa) = (f1 <<< PAGE_SHIFT) ||| PMD_TYPE_TABLE ∧
      s2.mem f1 (pmd_index ipa) = (f2 <<< PAGE_SHIFT) ||| PMD_TYPE_TABLE ∧
      s2.mem f2 (pte_index ipa) = clear_bits (s.mem T (pte_index ipa)) 3 ∧
      s2.mem M (pmd_index ipa) = clear_bits m 3 ∧
      s2.mem T (pte_index ipa) = clear_bits (s.mem T (pte_index ipa)) 3 ∧
      (∀ f i, f ≠ f1 → f ≠ f2 → f ≠ M → f ≠ T →
        ¬ (f = (pud_offset root ipa).frame ∧ i = (pud_offset root ipa).idx) →
        s2.mem f i = s.mem f i) ∧
      M ∉ s2.shared_pfn_list ∧ T ∉ s2.shared_pfn_list ∧ s2.shared_pfn_list.count P = 1 ∧
      same_env s s2 := by
  generalize hpud : pud_offset root ipa = pud at he hsep
  simp only [List.nodup_cons, List.mem_cons, List.mem_singleton, not_or, List.not_mem_nil,
    not_false_eq_true, and_true, List.nodup_nil] at hsep
  obtain ⟨⟨nRM, nRT, nR1, nR2⟩, ⟨nMT, nM1, nM2⟩, ⟨nT1, nT2⟩, n12⟩ := hsep
  have hj := pmd_index_lt ipa
  have hk := pte_index_lt ipa
  have hmne : m ≠ 0 := by
    intro h; rw [h] at hm0; exact hm0 clear3_zero
  -- level 1
  obtain ⟨s1, e1, a1, a2, a3, a4, a5, a6, a7⟩ := stage2_pud_level_split s ipa pud f1 f2 M rest
    (by rw [he]; exact he0) (by rw [he]; exact hent) hrole (by rw [he]; exact hM)
    (List.count_pos_iff.1 (by omega)) (fun h => nM1 h.symm) (fun h => nR1 h.symm)
    (fun h => nRM h.symm) hz1
  have r1M : s1.shared_pfn_list.count M = 0 := by
    rw [a6 M (fun i hi h0 => (hMM i hi h0).1), count_erase_self_of_one _ _ hcM]
  have r1T : s1.shared_pfn_list.count T = 1 := by
    rw [a5 T (pmd_index ipa) hj (by rw [hm]; exact hmne) (by rw [hm]; exact hT)
      (fun i hi hij h0 => (hMM i hi h0).2.2 hij), List.count_erase_of_ne (fun h => nMT h.symm),
      hcT]
  have r1P : s1.shared_pfn_list.count P = 0 := by
    rw [a6 P (fun i hi h0 => (hMM i hi h0).2.1), List.count_erase_of_ne (fun h => hMP h.symm),
      hcP]
  have hpmd : pmd_offset s1 pud ipa = ⟨f1, pmd_index ipa⟩ := by
    simp only [pmd_offset, a1]
    rw [pud_to_pfn_populate f1 hlt1]
  have m1T : ∀ i, s1.mem T i = s.mem T i := fun i =>
    a4 T i (fun h => nT1 h) (fun h => nMT h.symm) (fun h => nRT h.1.symm)
  have m1f2 : ∀ i, s1.mem f2 i = 0 := fun i => by
    rw [a4 f2 i (fun h => n12 h.symm) (fun h => nM2 h.symm) (fun h => nR2 h.1.symm)]
    exact hz2 i
  have v1 : s1.rd ⟨f1, pmd_index ipa⟩ = clear_bits m 3 := by
    show s1.mem f1 (pmd_index ipa) = _
    rw [a2 _ hj, hm]
  have role1 : s1.cloning_role ≠ 0 := by rw [a7.1.2.1]; exact hrole
  -- level 2
  obtain ⟨s2, e2, b1, b2, b3, b4, b5, b6, b7⟩ := stage2_pmd_level_split s1 ipa
    ⟨f1, pmd_index ipa⟩ f2 T rest (by rw [v1]; exact hm0)
    (by rw [v1]; exact clear3_not_table m) role1
    (by rw [v1, pmd_pfn_clear3]; exact hT) (List.count_pos_iff.1 (by omega))
    (fun h => nT2 h.symm) (fun h => n12 h.symm) nT1 m1f2
  have r2M : s2.shared_pfn_list.count M = 0 := by
    rw [b6 M (fun i hi h0 => by rw [m1T] at h0 ⊢; exact (hTT i hi h0).1),
      List.count_erase_of_ne nMT, r1M]
  have r2T : s2.shared_pfn_list.count T = 0 := by
    rw [b6 T (fun i hi h0 => by rw [m1T] at h0 ⊢; exact (hTT i hi h0).2.1),
      count_erase_self_of_one _ _ r1T]
  have r2P : s2.shared_pfn_list.count P = 1 := by
    rw [b5 P (pte_index ipa) hk (by rw [m1T]; exact hv0) (by rw [m1T]; exact hP)
      (fun i hi hik h0 => by rw [m1T] at h0 ⊢; exact (hTT i hi h0).2.2 hik),
      List.count_erase_of_ne (fun h => hTP h.symm), r1P]
  refine ⟨s1, s2, e1, by rw [hpmd]; exact e2, ?_, ?_, ?_, ?_, ?_, ?_, ?_,
    List.count_eq_zero.1 r2M, List.count_eq_zero.1 r2T, r2P, same_env_trans a7 b7⟩
  · rw [hpmd]
    simp only [pte_offset_kernel, b1]
    rw [pmd_to_pfn_populate f2 hlt2]
  · show s2.mem pud.frame pud.idx = _
    rw [b4 pud.frame pud.idx nR2 nRT (fun h => nR1 h.1)]
    exact a1
  · exact b1
  · rw [b2 _ hk, m1T]
  · rw [b4 M (pmd_index ipa) nM2 nMT (fun h => nM1 h.1), a3 _ hj, hm]
  · rw [b3 _ hk, m1T]
  · intro f i g1 g2 g3 g4 g5
    rw [b4 f i g2 g4 (fun h => g1 h.1), a4 f i g1 g3 g5]

end S2Mmu
namespace S2Mmu

theorem pud_pfn_or3 (x : Nat) : pud_to_pfn (x ||| PMD_TYPE_TABLE) = pud_to_pfn x := by
  simp only [pud_to_pfn_eq, PMD_TYPE_TABLE]; exact pfn_or3 x

theorem pmd_pfn_or3 (x : Nat) : pmd_to_pfn (x ||| PMD_TYPE_TABLE) = pmd_to_pfn x := by
  simp only [pmd_to_pfn_eq, PMD_TYPE_TABLE]; exact pfn_or3 x

/-- Levels 1 and 2 of `stage2_set_pte` for an armed VM whose pud and pmd entries are
sentinels of tables that are no longer in the shared registry: both get their table-type
bits back, nothing else changes. -/
theorem levels_fix (s : KvmState) (c : kvm_mmu_memory_cache) (root ipa M T e mm : Nat)
    (he : s.rd (pud_offset root ipa) = e) (he0 : e ≠ 0) (hent : ¬ pmd_table e)
    (hM : pud_to_pfn e = M) (hMs : M ∉ s.shared_pfn_list)
    (hmm : s.mem M (pmd_index ipa) = mm) (hmm0 : mm ≠ 0) (hmnt : ¬ pmd_table mm)
    (hT : pmd_to_pfn mm = T) (hTs : T ∉ s.shared_pfn_list)
    (hrole : s.cloning_role ≠ 0) (hMR : M ≠ (pud_offset root ipa).frame) :
    ∃ s1 s2, stage2_pud_level s (some c) ipa (pud_offset root ipa) = S2Step.cont s1 (some c) ∧
      stage2_pmd_level s1 (some c) ipa (pmd_offset s1 (pud_offset root ipa) ipa)
        = S2Step.cont s2 (some c) ∧
      pte_offset_kernel s2 (pmd_offset s1 (pud_offset root ipa) ipa) ipa
        = ⟨T, pte_index ipa⟩ ∧
      s2.rd (pud_offset root ipa) = e ||| PMD_TYPE_TABLE ∧
      s2.mem M (pmd_index ipa) = mm ||| PMD_TYPE_TABLE ∧
      (∀ f i, ¬ (f = M ∧ i = pmd_index ipa) →
        ¬ (f = (pud_offset root ipa).frame ∧ i = (pud_offset root ipa).idx) →
        s2.mem f i = s.mem f i) ∧
      s2.shared_pfn_list = s.shared_pfn_list ∧ same_env s s2 := by
  generalize hpud : pud_offset root ipa = pud at he hMR
  have e1 := stage2_pud_level_fix s c ipa pud (by rw [he]; exact he0) (by rw [he]; exact hent)
    hrole (by rw [he, hM]; exact hMs)
  rw [he] at e1
  generalize hs1 : s.wr pud (e ||| PMD_TYPE_TABLE) = s1 at e1
  have f1 : s1.rd pud = e ||| PMD_TYPE_TABLE ∧
      (∀ f i, ¬ (f = pud.frame ∧ i = pud.idx) → s1.mem f i = s.mem f i) ∧
      s1.shared_pfn_list = s.shared_pfn_list ∧ same_env s s1 ∧
      s1.cloning_role = s.cloning_role := by
    rw [← hs1]
    refine ⟨by simp [KvmState.rd, KvmState.wr], fun f i h => ?_, rfl,
      ⟨⟨rfl, rfl, rfl, rfl, rfl⟩, rfl, rfl⟩, rfl⟩
    show (if f = pud.frame ∧ i = pud.idx then _ else _) = _
    rw [if_neg h]
  obtain ⟨k1, k2, k3, k4, k5⟩ := f1
  have hpmd : pmd_offset s1 pud ipa = ⟨M, pmd_index ipa⟩ := by
    simp only [pmd_offset, k1]
    rw [pud_pfn_or3, hM]
  have v1 : s1.rd ⟨M, pmd_index ipa⟩ = mm := by
    show s1.mem M (pmd_index ipa) = _
    rw [k2 M _ (fun h => hMR h.1), hmm]
  have e2 := stage2_pmd_level_fix s1 c ipa ⟨M, pmd_index ipa⟩ (by rw [v1]; exact hmm0)
    (by rw [v1]; exact hmnt) (by rw [k5]; exact hrole) (by rw [v1, hT, k3]; exact hTs)
  rw [v1] at e2
  generalize hs2 : kvm_tlb_flush_vmid_ipa true
    (s1.wr ⟨M, pmd_index ipa⟩ (mm ||| PMD_TYPE_TABLE)) ipa = s2 at e2
  have f2 : s2.mem M (pmd_index ipa) = mm ||| PMD_TYPE_TABLE ∧
      (∀ f i, ¬ (f = M ∧ i = pmd_index ipa) → s2.mem f i = s1.mem f i) ∧
      s2.shared_pfn_list = s1.shared_pfn_list ∧ same_env s1 s2 := by
    rw [← hs2]
    refine ⟨by simp [KvmState.wr, kvm_tlb_flush_vmid_ipa, KvmState.emit], fun f i h => ?_, rfl,
      ⟨⟨rfl, rfl, rfl, rfl, rfl⟩, rfl, rfl⟩⟩
    show (if f = M ∧ i = pmd_index ipa then _ else _) = _
    rw [if_neg h]
  obtain ⟨q1, q2, q3, q4⟩ := f2
  refine ⟨s1, s2, e1, by rw [hpmd]; exact e2, ?_, ?_, q1, fun f i g1 g2 => ?_, q3.trans k3,
    same_env_trans k4 q4⟩
  · rw [hpmd]
    simp only [pte_offset_kernel]
    have : s2.rd ⟨M, pmd_index ipa⟩ = mm ||| PMD_TYPE_TABLE := q1
    rw [this, pmd_pfn_or3, hT]
  · show s2.mem pud.frame pud.idx = _
    rw [q2 _ _ (fun h => hMR h.1.symm)]
    exact k1
  · rw [q2 f i g1, k2 f i g2]

end S2Mmu
namespace S2Mmu

/-- `stage2_set_pte` from the results of its three levels. -/
theorem stage2_set_pte_of_levels (s s1 s2 s3 : KvmState)
    (c c1 c2 : Option kvm_mmu_memory_cache) (root ipa new : Nat) (q : EntryPtr)
    (hroot : s.pgd = some root)
    (e1 : stage2_pud_level s c ipa (pud_offset root ipa) = S2Step.cont s1 c1)
    (e2 : stage2_pmd_level s1 c1 ipa (pmd_offset s1 (pud_offset root ipa) ipa)
      = S2Step.cont s2 c2)
    (hq : pte_offset_kernel s2 (pmd_offset s1 (pud_offset root ipa) ipa) ipa = q)
    (e3 : stage2_pte_level s2 ipa q new false = some s3) :
    stage2_set_pte s c ipa new false = some (s3, c2, 0) := by
  unfold stage2_set_pte
  rw [hroot]
  dsimp only
  rw [e1]
  dsimp only
  rw [e2]
  dsimp only
  rw [hq, if_neg (fun h => absurd h.1 (by decide)), e3]

theorem gfn_to_memslot_congr (s t : KvmState) (gfn : Nat) (h : t.memslots = s.memslots) :
    gfn_to_memslot t gfn = gfn_to_memslot s gfn := by
  unfold gfn_to_memslot
  rw [h]

/-- The first touch on the shared path by the source: both tables are split, the leaf is
installed in the new pte table, a snapshot of the guest page goes to the pool under key `P`,
and `M`, `T` and `P` are out of the registry. -/
theorem first_touch_source (s : KvmState) (root ipa f1 f2 M T P e m new G fsrc b : Nat)
    (rest : List Nat) (slot : kvm_memory_slot) (resta : List (Option Nat))
    (hroot : s.pgd = some root)
    (he : s.rd (pud_offset root ipa) = e) (he0 : e ≠ 0) (hent : ¬ pmd_table e)
    (hM : pud_to_pfn e = M)
    (hm : s.mem M (pmd_index ipa) = m) (hm0 : clear_bits m 3 ≠ 0) (hT : pmd_to_pfn m = T)
    (hP : pmd_to_pfn (s.mem T (pte_index ipa)) = P)
    (hv0 : clear_bits (s.mem T (pte_index ipa)) 3 ≠ 0)
    (hrole : s.cloning_role = KVM_ARM_CLONING_ROLE_SOURCE)
    (hsep : [(pud_offset root ipa).frame, M, T, f1, f2, G].Nodup)
    (hz1 : ∀ i, s.mem f1 i = 0) (hz2 : ∀ i, s.mem f2 i = 0)
    (hlt1 : f1 < 268435456) (hlt2 : f2 < 268435456)
    (hcM : s.shared_pfn_list.count M = 1) (hcT : s.shared_pfn_list.count T = 0)
    (hcP : s.shared_pfn_list.count P = 0) (hMP : M ≠ P) (hTP : T ≠ P)
    (hMM : ∀ i, i < 512 → s.mem M i ≠ 0 → pmd_to_pfn (s.mem M i) ≠ M ∧
      pmd_to_pfn (s.mem M i) ≠ P ∧ (i ≠ pmd_index ipa → pmd_to_pfn (s.mem M i) ≠ T))
    (hTT : ∀ i, i < 512 → s.mem T i ≠ 0 → pmd_to_pfn (s.mem T i) ≠ M ∧
      pmd_to_pfn (s.mem T i) ≠ T ∧ (i ≠ pte_index ipa → pmd_to_pfn (s.mem T i) ≠ P))
    (hnew : pte_pfn new = P)
    (hslot : gfn_to_memslot s (ipa >>> PAGE_SHIFT) = some slot)
    (hbm : slot.unshare_bitmap = some b)
    (hback : s.hva_to_pfn (gfn_to_hva_memslot slot (ipa >>> PAGE_SHIFT)) = some fsrc)
    (halloc : s.page_alloc = some G :: resta) (hGf : G ≠ fsrc) :
    ∃ a, stage2_set_pte s (some { objects := f1 :: f2 :: rest }) ipa new false
        = some (a, some { objects := rest }, 0) ∧
      a.rd (pud_offset root ipa) = (f1 <<< PAGE_SHIFT) ||| PMD_TYPE_TABLE ∧
      a.mem f1 (pmd_index ipa) = (f2 <<< PAGE_SHIFT) ||| PMD_TYPE_TABLE ∧
      a.mem f2 (pte_index ipa) = new ∧
      a.mem M (pmd_index ipa) = clear_bits m 3 ∧
      a.mem T (pte_index ipa) = clear_bits (s.mem T (pte_index ipa)) 3 ∧
      (∀ f i, f ≠ f1 → f ≠ f2 → f ≠ M → f ≠ T → f ≠ G →
        ¬ (f = (pud_offset root ipa).frame ∧ i = (pud_offset root ipa).idx) →
        a.mem f i = s.mem f i) ∧
      M ∉ a.shared_pfn_list ∧ T ∉ a.shared_pfn_list ∧ P ∉ a.shared_pfn_list ∧
      a.page_pool_list = (some G, P) :: s.page_pool_list ∧
      a.page_data G = s.page_data fsrc ∧ (∀ f, f ≠ G → a.page_data f = s.page_data f) ∧
      a.pgd = s.pgd := by
  have hv0' : s.mem T (pte_index ipa) ≠ 0 := by
    intro h; rw [h] at hv0; exact hv0 clear3_zero
  have hsep5 : [(pud_offset root ipa).frame, M, T, f1, f2].Nodup := by
    simp only [List.nodup_cons, List.mem_cons, List.mem_singleton, not_or, List.not_mem_nil,
      not_false_eq_true, and_true, List.nodup_nil] at hsep ⊢
    exact ⟨⟨hsep.1.1, hsep.1.2.1, hsep.1.2.2.1, hsep.1.2.2.2.1⟩,
      ⟨hsep.2.1.1, hsep.2.1.2.1, hsep.2.1.2.2.1⟩, ⟨hsep.2.2.1.1, hsep.2.2.1.2.1⟩,
      hsep.2.2.2.1.1⟩
  simp only [List.nodup_cons, List.mem_cons, List.mem_singleton, not_or, List.not_mem_nil,
    not_false_eq_true, and_true, List.nodup_nil] at hsep
  obtain ⟨⟨_, _, _, _, nRG⟩, ⟨_, _, _, nMG⟩, ⟨_, _, nTG⟩, ⟨_, n1G⟩, n2G⟩ := hsep
  obtain ⟨s1, s2, e1, e2, hq, a1, a2, a3, a4, a5, a6, rM, rT, rP, env⟩ :=
    levels_split s root ipa f1 f2 M T P e m rest he he0 hent hM hm hm0 hT hP hv0'
      (by rw [hrole]; decide) hsep5 hz1 hz2 hlt1 hlt2 hcM hcT hcP hMP hTP hMM hTT
  obtain ⟨⟨vpgd, vrole, vslots, vpool, valloc⟩, vdata, vhva⟩ := env
  -- level 3
  generalize ht0 : (s2.wr ⟨f2, pte_index ipa⟩ new).emit
    (Event.mark_page_dirty (ipa >>> PAGE_SHIFT)) = t0
  have t0f : t0.mem = (s2.wr ⟨f2, pte_index ipa⟩ new).mem ∧
      t0.shared_pfn_list = s2.shared_pfn_list ∧ t0.page_pool_list = s2.page_pool_list ∧
      t0.page_data = s2.page_data ∧ t0.page_alloc = s2.page_alloc ∧ t0.pgd = s2.pgd ∧
      t0.memslots = s2.memslots ∧ t0.cloning_role = s2.cloning_role ∧
      t0.hva_to_pfn = s2.hva_to_pfn := by
    rw [← ht0]; exact ⟨rfl, rfl, rfl, rfl, rfl, rfl, rfl, rfl, rfl⟩
  obtain ⟨tm, tsh, tpool, tdata, talloc, tpgd, tslots, trole, thva⟩ := t0f
  have hold : s2.rd ⟨f2, pte_index ipa⟩ = clear_bits (s.mem T (pte_index ipa)) 3 := a3
  obtain ⟨r, hr, r1, r2, r3, r4, r5, r6, r7, r8, r9⟩ := handle_coa_pte_src_shared t0 ipa
    (clear_bits (s.mem T (pte_index ipa)) 3) new P G fsrc slot resta
    (by rw [trole, vrole]; exact hrole)
    (by
      have := pmd_pfn_clear3 (s.mem T (pte_index ipa))
      rw [hP] at this
      exact this)
    hnew (by rw [tsh]; exact rP)
    (by rw [gfn_to_memslot_congr s t0 _ (tslots.trans vslots)]; exact hslot)
    (by rw [thva, vhva]; exact hback) (by rw [talloc, valloc]; exact halloc) hGf
  obtain ⟨s3, e3, m3, d3, sh3, pool3, _, pgd3⟩ := stage2_pte_level_coa s2 r ipa
    ⟨f2, pte_index ipa⟩ new slot b (by rw [hold]; exact hv0)
    (by rw [hold]; exact clear3_not_present _) (by rw [vrole, hrole]; decide)
    (by rw [gfn_to_memslot_congr s s2 _ vslots]; exact hslot) hbm
    (by rw [ht0, hold]; exact hr) (r8.trans tslots) (r9.trans trole)
  have hmem3 : ∀ f i, f ≠ G → s3.mem f i = (s2.wr ⟨f2, pte_index ipa⟩ new).mem f i := by
    intro f i hf
    rw [m3, r1 f i hf, tm]
  refine ⟨s3, stage2_set_pte_of_levels s s1 s2 s3 _ _ _ root ipa new _ hroot e1 e2 hq e3, ?_, ?_,
    ?_, ?_, ?_, ?_, ?_, ?_, ?_, ?_, ?_, ?_, ?_⟩
  · show s3.mem _ _ = _
    rw [hmem3 _ _ (fun h => nRG h)]
    show (if _ then _ else _) = _
    rw [if_neg (fun h => by
      have := hsep5
      simp only [List.nodup_cons, List.mem_cons, List.mem_singleton, not_or, List.not_mem_nil,
        not_false_eq_true, and_true, List.nodup_nil] at this
      exact this.1.2.2.2 h.1)]
    exact a1
  · rw [hmem3 _ _ n1G]
    show (if _ then _ else _) = _
    rw [if_neg (fun h => by
      have := hsep5
      simp only [List.nodup_cons, List.mem_cons, List.mem_singleton, not_or, List.not_mem_nil,
        not_false_eq_true, and_true, List.nodup_nil] at this
      exact this.2.2.2 h.1)]
    exact a2
  · rw [hmem3 _ _ n2G]
    show (if _ then _ else _) = _
    rw [if_pos ⟨rfl, rfl⟩]
  · rw [hmem3 _ _ nMG]
    show (if _ then _ else _) = _
    rw [if_neg (fun h => by
      have := hsep5
      simp only [List.nodup_cons, List.mem_cons, List.mem_singleton, not_or, List.not_mem_nil,
        not_false_eq_true, and_true, List.nodup_nil] at this
      exact this.2.1.2.2 h.1)]
    exact a4
  · rw [hmem3 _ _ nTG]
    show (if _ then _ else _) = _
    rw [if_neg (fun h => by
      have := hsep5
      simp only [List.nodup_cons, List.mem_cons, List.mem_singleton, not_or, List.not_mem_nil,
        not_false_eq_true, and_true, List.nodup_nil] at this
      exact this.2.2.1.2 h.1)]
    exact a5
  · intro f i g1 g2 g3 g4 g5 g6
    rw [hmem3 f i g5]
    show (if _ then _ else _) = _
    rw [if_neg (fun h => g2 h.1)]
    exact a6 f i g1 g2 g3 g4 g6
  · rw [sh3]
    have c := r6 M hMP
    rw [tsh] at c
    exact List.count_eq_zero.1 (by rw [c]; exact List.count_eq_zero.2 rM)
  · rw [sh3]
    have c := r6 T hTP
    rw [tsh] at c
    exact List.count_eq_zero.1 (by rw [c]; exact List.count_eq_zero.2 rT)
  · rw [sh3]; exact r5
  · rw [pool3, r4, tpool, vpool]
  · rw [d3, r2, tdata, vdata]
  · intro f hf
    rw [d3, r3 f hf, tdata, vdata]
  · rw [pgd3, r7, tpgd, vpgd]

end S2Mmu
namespace S2Mmu

/-- The first touch on the shared path by the clone: both tables are split, the leaf is
installed in the new pte table, the content of the shared frame `P` is copied to the
clone's own page, and `M`, `T` and `P` are out of the registry. -/
theorem first_touch_target (s : KvmState) (root ipa f1 f2 M T P e m new ft b : Nat)
    (rest : List Nat) (slot : kvm_memory_slot)
    (hroot : s.pgd = some root)
    (he : s.rd (pud_offset root ipa) = e) (he0 : e ≠ 0) (hent : ¬ pmd_table e)
    (hM : pud_to_pfn e = M)
    (hm : s.mem M (pmd_index ipa) = m) (hm0 : clear_bits m 3 ≠ 0) (hT : pmd_to_pfn m = T)
    (hP : pmd_to_pfn (s.mem T (pte_index ipa)) = P)
    (hv0 : clear_bits (s.mem T (pte_index ipa)) 3 ≠ 0)
    (hrole0 : s.cloning_role ≠ 0)
    (hrole : s.cloning_role ≠ KVM_ARM_CLONING_ROLE_SOURCE)
    (hsep : [(pud_offset root ipa).frame, M, T, f1, f2].Nodup)
    (hz1 : ∀ i, s.mem f1 i = 0) (hz2 : ∀ i, s.mem f2 i = 0)
    (hlt1 : f1 < 268435456) (hlt2 : f2 < 268435456)
    (hcM : s.shared_pfn_list.count M = 1) (hcT : s.shared_pfn_list.count T = 0)
    (hcP : s.shared_pfn_list.count P = 0) (hMP : M ≠ P) (hTP : T ≠ P)
    (hMM : ∀ i, i < 512 → s.mem M i ≠ 0 → pmd_to_pfn (s.mem M i) ≠ M ∧
      pmd_to_pfn (s.mem M i) ≠ P ∧ (i ≠ pmd_index ipa → pmd_to_pfn (s.mem M i) ≠ T))
    (hTT : ∀ i, i < 512 → s.mem T i ≠ 0 → pmd_to_pfn (s.mem T i) ≠ M ∧
      pmd_to_pfn (s.mem T i) ≠ T ∧ (i ≠ pte_index ipa → pmd_to_pfn (s.mem T i) ≠ P))
    (hnew : pte_pfn new ≠ P)
    (hslot : gfn_to_memslot s (ipa >>> PAGE_SHIFT) = some slot)
    (hbm : slot.unshare_bitmap = some b)
    (hback : s.hva_to_pfn (gfn_to_hva_memslot slot (ipa >>> PAGE_SHIFT)) = some ft) :
    ∃ a, stage2_set_pte s (some { objects := f1 :: f2 :: rest }) ipa new false
        = some (a, some { objects := rest }, 0) ∧
      a.rd (pud_offset root ipa) = (f1 <<< PAGE_SHIFT) ||| PMD_TYPE_TABLE ∧
      a.mem f1 (pmd_index ipa) = (f2 <<< PAGE_SHIFT) ||| PMD_TYPE_TABLE ∧
      a.mem f2 (pte_index ipa) = new ∧
      a.mem M (pmd_index ipa) = clear_bits m 3 ∧
      a.mem T (pte_index ipa) = clear_bits (s.mem T (pte_index ipa)) 3 ∧
      (∀ f i, f ≠ f1 → f ≠ f2 → f ≠ M → f ≠ T →
        ¬ (f = (pud_offset root ipa).frame ∧ i = (pud_offset root ipa).idx) →
        a.mem f i = s.mem f i) ∧
      M ∉ a.shared_pfn_list ∧ T ∉ a.shared_pfn_list ∧ P ∉ a.shared_pfn_list ∧
      a.page_pool_list = s.page_pool_list ∧
      a.page_data ft = s.page_data P ∧ (∀ f, f ≠ ft → a.page_data f = s.page_data f) ∧
      a.page_alloc = s.page_alloc ∧ a.pgd = s.pgd := by
  have hv0' : s.mem T (pte_index ipa) ≠ 0 := by
    intro h; rw [h] at hv0; exact hv0 clear3_zero
  have hsep5 := hsep
  simp only [List.nodup_cons, List.mem_cons, List.mem_singleton, not_or, List.not_mem_nil,
    not_false_eq_true, and_true, List.nodup_nil] at hsep
  obtain ⟨⟨_, _, nR1, nR2⟩, ⟨_, nM1, nM2⟩, ⟨nT1, nT2⟩, n12⟩ := hsep
  obtain ⟨s1, s2, e1, e2, hq, a1, a2, a3, a4, a5, a6, rM, rT, rP, env⟩ :=
    levels_split s root ipa f1 f2 M T P e m rest he he0 hent hM hm hm0 hT hP hv0'
      hrole0 hsep5 hz1 hz2 hlt1 hlt2 hcM hcT hcP hMP hTP hMM hTT
  obtain ⟨⟨vpgd, vrole, vslots, vpool, valloc⟩, vdata, vhva⟩ := env
  generalize ht0 : (s2.wr ⟨f2, pte_index ipa⟩ new).emit
    (Event.mark_page_dirty (ipa >>> PAGE_SHIFT)) = t0
  have t0f : t0.mem = (s2.wr ⟨f2, pte_index ipa⟩ new).mem ∧
      t0.shared_pfn_list = s2.shared_pfn_list ∧ t0.page_pool_list = s2.page_pool_list ∧
      t0.page_data = s2.page_data ∧ t0.page_alloc = s2.page_alloc ∧ t0.pgd = s2.pgd ∧
      t0.memslots = s2.memslots ∧ t0.cloning_role = s2.cloning_role ∧
      t0.hva_to_pfn = s2.hva_to_pfn := by
    rw [← ht0]; exact ⟨rfl, rfl, rfl, rfl, rfl, rfl, rfl, rfl, rfl⟩
  obtain ⟨tm, tsh, tpool, tdata, talloc, tpgd, tslots, trole, thva⟩ := t0f
  have hold : s2.rd ⟨f2, pte_index ipa⟩ = clear_bits (s.mem T (pte_index ipa)) 3 := a3
  obtain ⟨r, hr, r1, r2, r3, r4, r5, r6, ralloc, r7, r8, r9⟩ :=
    handle_coa_pte_tgt_shared t0 ipa
    (clear_bits (s.mem T (pte_index ipa)) 3) new P ft slot
    (by rw [trole, vrole]; exact hrole)
    (by
      have := pmd_pfn_clear3 (s.mem T (pte_index ipa))
      rw [hP] at this
      exact this)
    hnew (by rw [tsh]; exact rP)
    (by rw [gfn_to_memslot_congr s t0 _ (tslots.trans vslots)]; exact hslot)
    (by rw [thva, vhva]; exact hback)
  obtain ⟨s3, e3, m3, d3, sh3, pool3, alloc3, pgd3⟩ := stage2_pte_level_coa s2 r ipa
    ⟨f2, pte_index ipa⟩ new slot b (by rw [hold]; exact hv0)
    (by rw [hold]; exact clear3_not_present _) (by rw [vrole]; exact hrole0)
    (by rw [gfn_to_memslot_congr s s2 _ vslots]; exact hslot) hbm
    (by rw [ht0, hold]; exact hr) (r8.trans tslots) (r9.trans trole)
  have hmem3 : ∀ f i, s3.mem f i = (s2.wr ⟨f2, pte_index ipa⟩ new).mem f i := by
    intro f i
    rw [m3, r1, tm]
  refine ⟨s3, stage2_set_pte_of_levels s s1 s2 s3 _ _ _ root ipa new _ hroot e1 e2 hq e3, ?_, ?_,
    ?_, ?_, ?_, ?_, ?_, ?_, ?_, ?_, ?_, ?_, ?_, ?_⟩
  · show s3.mem _ _ = _
    rw [hmem3]
    show (if _ then _ else _) = _
    rw [if_neg (fun h => nR2 h.1)]
    exact a1
  · rw [hmem3]
    show (if _ then _ else _) = _
    rw [if_neg (fun h => n12 h.1)]
    exact a2
  · rw [hmem3]
    show (if _ then _ else _) = _
    rw [if_pos ⟨rfl, rfl⟩]
  · rw [hmem3]
    show (if _ then _ else _) = _
    rw [if_neg (fun h => nM2 h.1)]
    exact a4
  · rw [hmem3]
    show (if _ then _ else _) = _
    rw [if_neg (fun h => nT2 h.1)]
    exact a5
  · intro f i g1 g2 g3 g4 g6
    rw [hmem3 f i]
    show (if _ then _ else _) = _
    rw [if_neg (fun h => g2 h.1)]
    exact a6 f i g1 g2 g3 g4 g6
  · rw [sh3]
    have c := r6 M hMP
    rw [tsh] at c
    exact List.count_eq_zero.1 (by rw [c]; exact List.count_eq_zero.2 rM)
  · rw [sh3]
    have c := r6 T hTP
    rw [tsh] at c
    exact List.count_eq_zero.1 (by rw [c]; exact List.count_eq_zero.2 rT)
  · rw [sh3]; exact r5
  · rw [pool3, r4, tpool, vpool]
  · rw [d3, r2, tdata, vdata]
  · intro f hf
    rw [d3, r3 f hf, tdata, vdata]
  · rw [alloc3, ralloc, talloc, valloc]
  · rw [pgd3, r7, tpgd, vpgd]

end S2Mmu
namespace S2Mmu

/-- The second touch, by the clone, after the source took its snapshot: the write bits of the
two table entries are restored in place, the leaf is installed in `T`, and the pool page `G`
is copied to the clone's own page. -/
theorem second_touch_target (s : KvmState) (c : kvm_mmu_memory_cache)
    (root ipa M T P e mm old new ft G b : Nat) (slot : kvm_memory_slot)
    (hroot : s.pgd = some root)
    (he : s.rd (pud_offset root ipa) = e) (he0 : e ≠ 0) (hent : ¬ pmd_table e)
    (hM : pud_to_pfn e = M) (hMs : M ∉ s.shared_pfn_list)
    (hmm : s.mem M (pmd_index ipa) = mm) (hmm0 : mm ≠ 0) (hmnt : ¬ pmd_table mm)
    (hT : pmd_to_pfn mm = T) (hTs : T ∉ s.shared_pfn_list)
    (hrole0 : s.cloning_role ≠ 0) (hrole : s.cloning_role ≠ KVM_ARM_CLONING_ROLE_SOURCE)
    (hMR : M ≠ (pud_offset root ipa).frame) (hTR : T ≠ (pud_offset root ipa).frame)
    (hTM : T ≠ M)
    (hold : s.mem T (pte_index ipa) = old) (hold0 : old ≠ 0) (hnp : ¬ pte_present old)
    (hP : pte_pfn old = P) (hnew : pte_pfn new ≠ P) (hPs : P ∉ s.shared_pfn_list)
    (hsearch : page_pool_search s P = some (some G, P))
    (hslot : gfn_to_memslot s (ipa >>> PAGE_SHIFT) = some slot)
    (hbm : slot.unshare_bitmap = some b)
    (hback : s.hva_to_pfn (gfn_to_hva_memslot slot (ipa >>> PAGE_SHIFT)) = some ft) :
    ∃ r, stage2_set_pte s (some c) ipa new false = some (r, some c, 0) ∧
      r.rd (pud_offset root ipa) = e ||| PMD_TYPE_TABLE ∧
      r.mem M (pmd_index ipa) = mm ||| PMD_TYPE_TABLE ∧
      r.mem T (pte_index ipa) = new ∧
      (∀ f i, f ≠ M → f ≠ T →
        ¬ (f = (pud_offset root ipa).frame ∧ i = (pud_offset root ipa).idx) →
        r.mem f i = s.mem f i) ∧
      r.page_data ft = s.page_data G ∧ (∀ f, f ≠ ft → r.page_data f = s.page_data f) ∧
      r.pgd = s.pgd := by
  obtain ⟨s1, s2, e1, e2, hq, a1, a2, a6, vsh, env⟩ :=
    levels_fix s c root ipa M T e mm he he0 hent hM hMs hmm hmm0 hmnt hT hTs hrole0 hMR
  obtain ⟨⟨vpgd, vrole, vslots, vpool, valloc⟩, vdata, vhva⟩ := env
  generalize ht0 : (s2.wr ⟨T, pte_index ipa⟩ new).emit
    (Event.mark_page_dirty (ipa >>> PAGE_SHIFT)) = t0
  have t0f : t0.mem = (s2.wr ⟨T, pte_index ipa⟩ new).mem ∧
      t0.shared_pfn_list = s2.shared_pfn_list ∧ t0.page_pool_list = s2.page_pool_list ∧
      t0.page_data = s2.page_data ∧ t0.page_alloc = s2.page_alloc ∧ t0.pgd = s2.pgd ∧
      t0.memslots = s2.memslots ∧ t0.cloning_role = s2.cloning_role ∧
      t0.hva_to_pfn = s2.hva_to_pfn := by
    rw [← ht0]; exact ⟨rfl, rfl, rfl, rfl, rfl, rfl, rfl, rfl, rfl⟩
  obtain ⟨tm, tsh, tpool, tdata, talloc, tpgd, tslots, trole, thva⟩ := t0f
  have hrd : s2.rd ⟨T, pte_index ipa⟩ = old := by
    show s2.mem T (pte_index ipa) = old
    rw [a6 T (pte_index ipa) (fun h => hTM h.1) (fun h => hTR h.1)]
    exact hold
  have hsr : page_pool_search t0 P = some (some G, P) := by
    unfold page_pool_search at hsearch ⊢
    rw [tpool, vpool]
    exact hsearch
  obtain ⟨r, hr, r1, r2, r3, r4, r5, r7, r8, r9⟩ :=
    handle_coa_pte_tgt_pool t0 ipa old new P ft G slot
    (by rw [trole, vrole]; exact hrole) hP hnew (by rw [tsh, vsh]; exact hPs) hsr
    (by rw [gfn_to_memslot_congr s t0 _ (tslots.trans vslots)]; exact hslot)
    (by rw [thva, vhva]; exact hback)
  obtain ⟨s3, e3, m3, d3, sh3, pool3, alloc3, pgd3⟩ := stage2_pte_level_coa s2 r ipa
    ⟨T, pte_index ipa⟩ new slot b (by rw [hrd]; exact hold0)
    (by rw [hrd]; exact hnp) (by rw [vrole]; exact hrole0)
    (by rw [gfn_to_memslot_congr s s2 _ vslots]; exact hslot) hbm
    (by rw [ht0, hrd]; exact hr) (r8.trans tslots) (r9.trans trole)
  have hmem3 : ∀ f i, s3.mem f i = (s2.wr ⟨T, pte_index ipa⟩ new).mem f i := by
    intro f i
    rw [m3, r1, tm]
  refine ⟨s3, stage2_set_pte_of_levels s s1 s2 s3 _ _ _ root ipa new _ hroot e1 e2 hq e3, ?_, ?_,
    ?_, ?_, ?_, ?_, ?_⟩
  · show s3.mem _ _ = _
    rw [hmem3]
    show (if _ then _ else _) = _
    rw [if_neg (fun h => hTR h.1.symm)]
    exact a1
  · rw [hmem3]
    show (if _ then _ else _) = _
    rw [if_neg (fun h => hTM h.1.symm)]
    exact a2
  · rw [hmem3]
    show (if _ then _ else _) = _
    rw [if_pos ⟨rfl, rfl⟩]
  · intro f i g1 g2 g3
    rw [hmem3 f i]
    show (if _ then _ else _) = _
    rw [if_neg (fun h => g2 h.1)]
    exact a6 f i (fun h => g1 h.1) g3
  · rw [d3, r2, tdata, vdata]
  · intro f hf
    rw [d3, r3 f hf, tdata, vdata]
  · rw [pgd3, r7, tpgd, vpgd]

/-- The second touch, by the source, after the clone copied the page: the write bits of the
two table entries are restored in place and the leaf is installed in `T`; no page content
changes. -/
theorem second_touch_source (s : KvmState) (c : kvm_mmu_memory_cache)
    (root ipa M T P e mm old new b : Nat) (slot : kvm_memory_slot)
    (hroot : s.pgd = some root)
    (he : s.rd (pud_offset root ipa) = e) (he0 : e ≠ 0) (hent : ¬ pmd_table e)
    (hM : pud_to_pfn e = M) (hMs : M ∉ s.shared_pfn_list)
    (hmm : s.mem M (pmd_index ipa) = mm) (hmm0 : mm ≠ 0) (hmnt : ¬ pmd_table mm)
    (hT : pmd_to_pfn mm = T) (hTs : T ∉ s.shared_pfn_list)
    (hrole : s.cloning_role = KVM_ARM_CLONING_ROLE_SOURCE)
    (hMR : M ≠ (pud_offset root ipa).frame) (hTR : T ≠ (pud_offset root ipa).frame)
    (hTM : T ≠ M)
    (hold : s.mem T (pte_index ipa) = old) (hold0 : old ≠ 0) (hnp : ¬ pte_present old)
    (hP : pte_pfn old = P) (hnew : pte_pfn new = P) (hPs : P ∉ s.shared_pfn_list)
    (hslot : gfn_to_memslot s (ipa >>> PAGE_SHIFT) = some slot)
    (hbm : slot.unshare_bitmap = some b) :
    ∃ r, stage2_set_pte s (some c) ipa new false = some (r, some c, 0) ∧
      r.rd (pud_offset root ipa) = e ||| PMD_TYPE_TABLE ∧
      r.mem M (pmd_index ipa) = mm ||| PMD_TYPE_TABLE ∧
      r.mem T (pte_index ipa) = new ∧
      (∀ f i, f ≠ M → f ≠ T →
        ¬ (f = (pud_offset root ipa).frame ∧ i = (pud_offset root ipa).idx) →
        r.mem f i = s.mem f i) ∧
      r.page_data = s.page_data ∧ r.pgd = s.pgd := by
  have hrole0 : s.cloning_role ≠ 0 := by rw [hrole]; decide
  obtain ⟨s1, s2, e1, e2, hq, a1, a2, a6, vsh, env⟩ :=
    levels_fix s c root ipa M T e mm he he0 hent hM hMs hmm hmm0 hmnt hT hTs hrole0 hMR
  obtain ⟨⟨vpgd, vrole, vslots, vpool, valloc⟩, vdata, vhva⟩ := env
  generalize ht0 : (s2.wr ⟨T, pte_index ipa⟩ new).emit
    (Event.mark_page_dirty (ipa >>> PAGE_SHIFT)) = t0
  have t0f : t0.mem = (s2.wr ⟨T, pte_index ipa⟩ new).mem ∧
      t0.shared_pfn_list = s2.shared_pfn_list ∧ t0.page_pool_list = s2.page_pool_list ∧
      t0.page_data = s2.page_data ∧ t0.page_alloc = s2.page_alloc ∧ t0.pgd = s2.pgd ∧
      t0.memslots = s2.memslots ∧ t0.cloning_role = s2.cloning_role ∧
      t0.hva_to_pfn = s2.hva_to_pfn := by
    rw [← ht0]; exact ⟨rfl, rfl, rfl, rfl, rfl, rfl, rfl, rfl, rfl⟩
  obtain ⟨tm, tsh, tpool, tdata, talloc, tpgd, tslots, trole, thva⟩ := t0f
  have hrd : s2.rd ⟨T, pte_index ipa⟩ = old := by
    show s2.mem T (pte_index ipa) = old
    rw [a6 T (pte_index ipa) (fun h => hTM h.1) (fun h => hTR h.1)]
    exact hold
  have hr := handle_coa_pte_src_unshared t0 ipa old new P
    (by rw [trole, vrole]; exact hrole) hP hnew (by rw [tsh, vsh]; exact hPs)
  obtain ⟨s3, e3, m3, d3, sh3, pool3, alloc3, pgd3⟩ := stage2_pte_level_coa s2
    (kvm_tlb_flush_vmid_ipa true t0 ipa) ipa
    ⟨T, pte_index ipa⟩ new slot b (by rw [hrd]; exact hold0)
    (by rw [hrd]; exact hnp) (by rw [vrole]; exact hrole0)
    (by rw [gfn_to_memslot_congr s s2 _ vslots]; exact hslot) hbm
    (by rw [ht0, hrd]; exact hr) (Eq.trans rfl tslots) (Eq.trans rfl trole)
  have hmem3 : ∀ f i, s3.mem f i = (s2.wr ⟨T, pte_index ipa⟩ new).mem f i := by
    intro f i
    rw [m3]
    show t0.mem f i = _
    rw [tm]
  refine ⟨s3, stage2_set_pte_of_levels s s1 s2 s3 _ _ _ root ipa new _ hroot e1 e2 hq e3, ?_, ?_,
    ?_, ?_, ?_, ?_⟩
  · show s3.mem _ _ = _
    rw [hmem3]
    show (if _ then _ else _) = _
    rw [if_neg (fun h => hTR h.1.symm)]
    exact a1
  · rw [hmem3]
    show (if _ then _ else _) = _
    rw [if_neg (fun h => hTM h.1.symm)]
    exact a2
  · rw [hmem3]
    show (if _ then _ else _) = _
    rw [if_pos ⟨rfl, rfl⟩]
  · intro f i g1 g2 g3
    rw [hmem3 f i]
    show (if _ then _ else _) = _
    rw [if_neg (fun h => g2 h.1)]
    exact a6 f i (fun h => g1 h.1) g3
  · rw [d3]
    show t0.page_data = _
    rw [tdata, vdata]
  · rw [pgd3]
    show t0.pgd = _
    rw [tpgd, vpgd]

end S2Mmu
namespace S2Mmu

/-- The two orders of the first touch when the snapshot page is there: a source VM and its
clone are armed over the same pmd table `M` (in the registry once) whose entry for `ipa` is the pte table `T` with the leaf of PFN `P`; both roots hold
the sentinel of `M`, the guest page of the source is frame `P`, the one of the clone is
frame `Pn`, and the table frames, the reserve frames and the page handed out next are apart.
Then the first touch of the source followed by the one of the clone, and the first touch of
the clone followed by the one of the source, both run to the end, and in both final states
the source's walk gives the leaf `pteS` of PFN `P`, the clone's walk gives the leaf `pteT`
of PFN `Pn`, frame `Pn` holds the bytes frame `P` held at arming, and frame `P` holds them
still. -/
theorem first_touch_order_with_page (g : KvmState) (S C : VmCtx)
    (rs rt ipa M T P Pn e m v pteS pteT fS1 fS2 fT1 fT2 G bS bT : Nat)
    (restS restT : List Nat) (slotS slotT : kvm_memory_slot) (resta : List (Option Nat))
    (hrs : S.pgd = some rs) (hrt : C.pgd = some rt)
    (hSrole : S.cloning_role = KVM_ARM_CLONING_ROLE_SOURCE)
    (hCrole0 : C.cloning_role ≠ 0) (hCrole : C.cloning_role ≠ KVM_ARM_CLONING_ROLE_SOURCE)
    (heS : g.rd (pud_offset rs ipa) = e) (heT : g.rd (pud_offset rt ipa) = e)
    (he0 : e ≠ 0) (hent : ¬ pmd_table e) (hM : pud_to_pfn e = M)
    (hm : g.mem M (pmd_index ipa) = m) (hm0 : clear_bits m 3 ≠ 0) (hT : pmd_to_pfn m = T)
    (hv : g.mem T (pte_index ipa) = v) (hv0 : clear_bits v 3 ≠ 0) (hP : pte_pfn v = P)
    (hsep : [(pud_offset rs ipa).frame, (pud_offset rt ipa).frame, M, T,
      fS1, fS2, fT1, fT2, G].Nodup)
    (hzero : ∀ f, f ∈ [fS1, fS2, fT1, fT2] → (∀ i, g.mem f i = 0) ∧ f < 268435456)
    (hcM : g.shared_pfn_list.count M = 1) (hcT : g.shared_pfn_list.count T = 0)
    (hcP : g.shared_pfn_list.count P = 0) (hMP : M ≠ P) (hTP : T ≠ P)
    (hMM : ∀ i, i < 512 → g.mem M i ≠ 0 → pmd_to_pfn (g.mem M i) ≠ M ∧
      pmd_to_pfn (g.mem M i) ≠ P ∧ (i ≠ pmd_index ipa → pmd_to_pfn (g.mem M i) ≠ T))
    (hTT : ∀ i, i < 512 → g.mem T i ≠ 0 → pmd_to_pfn (g.mem T i) ≠ M ∧
      pmd_to_pfn (g.mem T i) ≠ T ∧ (i ≠ pte_index ipa → pmd_to_pfn (g.mem T i) ≠ P))
    (hpS : pte_pfn pteS = P) (hpT : pte_pfn pteT = Pn) (hPn : Pn ≠ P)
    (hslotS : gfn_to_memslot (g.enter S) (ipa >>> PAGE_SHIFT) = some slotS)
    (hbS : slotS.unshare_bitmap = some bS)
    (hslotT : gfn_to_memslot (g.enter C) (ipa >>> PAGE_SHIFT) = some slotT)
    (hbT : slotT.unshare_bitmap = some bT)
    (hbackS : S.hva_to_pfn (gfn_to_hva_memslot slotS (ipa >>> PAGE_SHIFT)) = some P)
    (hbackT : C.hva_to_pfn (gfn_to_hva_memslot slotT (ipa >>> PAGE_SHIFT)) = some Pn)
    (halloc : g.page_alloc = some G :: resta) (hGP : G ≠ P) :
    ∃ gA gB,
      touch_in_order g S C { objects := fS1 :: fS2 :: restS } { objects := fT1 :: fT2 :: restT }
        ipa pteS pteT = some gA ∧
      touch_in_order g C S { objects := fT1 :: fT2 :: restT } { objects := fS1 :: fS2 :: restS }
        ipa pteT pteS = some gB ∧
      walk_leaf (gA.enter S) ipa = some pteS ∧ walk_leaf (gB.enter S) ipa = some pteS ∧
      walk_leaf (gA.enter C) ipa = some pteT ∧ walk_leaf (gB.enter C) ipa = some pteT ∧
      gA.page_data Pn = g.page_data P ∧ gB.page_data Pn = g.page_data P ∧
      gA.page_data P = g.page_data P ∧ gB.page_data P = g.page_data P := by
  have hsep9 := hsep
  simp only [List.nodup_cons, List.mem_cons, List.mem_singleton, not_or, List.not_mem_nil,
    not_false_eq_true, and_true, List.nodup_nil] at hsep9
  obtain ⟨⟨nSR, nSM, nST, nS1, nS2, nS3, nS4, nSG⟩, ⟨nRM, nRT, nR1, nR2, nR3, nR4, nRG⟩,
    ⟨nMT, nM1, nM2, nM3, nM4, nMG⟩, ⟨nT1, nT2, nT3, nT4, nTG⟩, ⟨n12, n13, n14, n1G⟩,
    ⟨n23, n24, n2G⟩, ⟨n34, n3G⟩, n4G⟩ := hsep9
  obtain ⟨z1, l1⟩ := hzero fS1 (by simp)
  obtain ⟨z2, l2⟩ := hzero fS2 (by simp)
  obtain ⟨z3, l3⟩ := hzero fT1 (by simp)
  obtain ⟨z4, l4⟩ := hzero fT2 (by simp)
  have hPv : pmd_to_pfn (g.mem T (pte_index ipa)) = P := by rw [hv]; exact hP
  have hv0' : clear_bits (g.mem T (pte_index ipa)) 3 ≠ 0 := by rw [hv]; exact hv0
  have hTm : pmd_to_pfn (clear_bits m 3) = T := by rw [pmd_pfn_clear3]; exact hT
  have hPc : pte_pfn (clear_bits v 3) = P := by rw [pte_pfn_clear3]; exact hP
  -- order A: the source, then the clone
  obtain ⟨a, ha, a1, a2, a3, a4, a5, a6, aM, aT, aP, apool, adG, ad, apgd⟩ :=
    first_touch_source (g.enter S) rs ipa fS1 fS2 M T P e m pteS G P bS restS slotS resta
      hrs heS he0 hent hM hm hm0 hT hPv hv0' hSrole
      (by
        simp only [List.nodup_cons, List.mem_cons, List.mem_singleton, not_or,
          List.not_mem_nil, not_false_eq_true, and_true, List.nodup_nil]
        exact ⟨⟨nSM, nST, nS1, nS2, nSG⟩, ⟨nMT, nM1, nM2, nMG⟩, ⟨nT1, nT2, nTG⟩,
          ⟨n12, n1G⟩, n2G⟩)
      z1 z2 l1 l2 hcM hcT hcP hMP hTP hMM hTT hpS hslotS hbS hbackS halloc hGP
  have aeT : (a.enter C).rd (pud_offset rt ipa) = e := by
    show a.mem _ _ = e
    rw [a6 _ _ nR1 nR2 nRM nRT nRG (fun h => nSR h.1.symm)]
    exact heT
  have asr : page_pool_search (a.enter C) P = some (some G, P) := by
    unfold page_pool_search
    show a.page_pool_list.find? _ = _
    rw [apool]
    simp [List.find?]
  obtain ⟨b, hb, b1, b2, b3, b6, bd, bdo, bpgd⟩ :=
    second_touch_target (a.enter C) { objects := fT1 :: fT2 :: restT } rt ipa M T P e
      (clear_bits m 3) (clear_bits v 3) pteT Pn G bT slotT hrt aeT he0 hent hM aM a4 hm0
      (clear3_not_table m) hTm aT hCrole0 hCrole (Ne.symm nRM) (Ne.symm nRT) (Ne.symm nMT)
      (by
        show a.mem T (pte_index ipa) = _
        rw [a5]
        show clear_bits (g.mem T (pte_index ipa)) 3 = _
        rw [hv])
      hv0 (clear3_not_present v) hPc (by rw [hpT]; exact hPn) aP asr
      (by rw [gfn_to_memslot_congr (g.enter C) (a.enter C) _ rfl]; exact hslotT) hbT hbackT
  have hA : touch_in_order g S C { objects := fS1 :: fS2 :: restS }
      { objects := fT1 :: fT2 :: restT } ipa pteS pteT = some b := by
    unfold touch_in_order
    rw [ha]
    dsimp only
    rw [hb]
  have wAS : walk_leaf (b.enter S) ipa = some pteS := by
    have h1 : (b.enter S).rd (pud_offset rs ipa) = (fS1 <<< PAGE_SHIFT) ||| PMD_TYPE_TABLE := by
      show b.mem _ _ = _
      rw [b6 _ _ nSM nST (fun h => nSR h.1)]
      exact a1
    have h2 : (b.enter S).mem fS1 (pmd_index ipa) = (fS2 <<< PAGE_SHIFT) ||| PMD_TYPE_TABLE := by
      show b.mem _ _ = _
      rw [b6 _ _ (Ne.symm nM1) (Ne.symm nT1) (fun h => nR1 h.1.symm)]
      exact a2
    have h3 : (b.enter S).mem fS2 (pte_index ipa) = pteS := by
      show b.mem _ _ = _
      rw [b6 _ _ (Ne.symm nM2) (Ne.symm nT2) (fun h => nR2 h.1.symm)]
      exact a3
    rw [walk_leaf_eq (b.enter S) rs ipa fS1 fS2 hrs (by rw [h1]; exact populate_ne_zero fS1)
      (by rw [h1]; exact pud_to_pfn_populate fS1 l1) (by rw [h2]; exact populate_ne_zero fS2)
      (by rw [h2]; exact pmd_to_pfn_populate fS2 l2), h3]
  have wAC : walk_leaf (b.enter C) ipa = some pteT := by
    have h1 : (b.enter C).rd (pud_offset rt ipa) = e ||| PMD_TYPE_TABLE := b1
    have h2 : (b.enter C).mem M (pmd_index ipa) = clear_bits m 3 ||| PMD_TYPE_TABLE := b2
    have h3 : (b.enter C).mem T (pte_index ipa) = pteT := b3
    rw [walk_leaf_eq (b.enter C) rt ipa M T hrt (by rw [h1]; exact or3_ne_zero e)
      (by rw [h1, pud_pfn_or3]; exact hM) (by rw [h2]; exact or3_ne_zero _)
      (by rw [h2, pmd_pfn_or3]; exact hTm), h3]
  have dA1 : b.page_data Pn = g.page_data P := by
    rw [bd]
    show a.page_data G = _
    rw [adG]
    rfl
  have dA2 : b.page_data P = g.page_data P := by
    rw [bdo P (Ne.symm hPn)]
    show a.page_data P = _
    rw [ad P (Ne.symm hGP)]
    rfl
  -- order B: the clone, then the source
  obtain ⟨c, hc, c1, c2, c3, c4, c5, c6, cM, cT, cP, cpool, cdP, cd, calloc, cpgd⟩ :=
    first_touch_target (g.enter C) rt ipa fT1 fT2 M T P e m pteT Pn bT restT slotT
      hrt heT he0 hent hM hm hm0 hT hPv hv0' hCrole0 hCrole
      (by
        simp only [List.nodup_cons, List.mem_cons, List.mem_singleton, not_or,
          List.not_mem_nil, not_false_eq_true, and_true, List.nodup_nil]
        exact ⟨⟨nRM, nRT, nR3, nR4⟩, ⟨nMT, nM3, nM4⟩, ⟨nT3, nT4⟩, n34⟩)
      z3 z4 l3 l4 hcM hcT hcP hMP hTP hMM hTT (by rw [hpT]; exact hPn) hslotT hbT hbackT
  have ceS : (c.enter S).rd (pud_offset rs ipa) = e := by
    show c.mem _ _ = e
    rw [c6 _ _ nS3 nS4 nSM nST (fun h => nSR h.1)]
    exact heS
  obtain ⟨d, hd, d1, d2, d3, d6, dd, dpgd⟩ :=
    second_touch_source (c.enter S) { objects := fS1 :: fS2 :: restS } rs ipa M T P e
      (clear_bits m 3) (clear_bits v 3) pteS bS slotS hrs ceS he0 hent hM cM c4 hm0
      (clear3_not_table m) hTm cT hSrole (Ne.symm nSM) (Ne.symm nST) (Ne.symm nMT)
      (by
        show c.mem T (pte_index ipa) = _
        rw [c5]
        show clear_bits (g.mem T (pte_index ipa)) 3 = _
        rw [hv])
      hv0 (clear3_not_present v) hPc hpS cP
      (by rw [gfn_to_memslot_congr (g.enter S) (c.enter S) _ rfl]; exact hslotS) hbS
  have hB : touch_in_order g C S { objects := fT1 :: fT2 :: restT }
      { objects := fS1 :: fS2 :: restS } ipa pteT pteS = some d := by
    unfold touch_in_order
    rw [hc]
    dsimp only
    rw [hd]
  have wBC : walk_leaf (d.enter C) ipa = some pteT := by
    have h1 : (d.enter C).rd (pud_offset rt ipa) = (fT1 <<< PAGE_SHIFT) ||| PMD_TYPE_TABLE := by
      show d.mem _ _ = _
      rw [d6 _ _ nRM nRT (fun h => nSR h.1.symm)]
      exact c1
    have h2 : (d.enter C).mem fT1 (pmd_index ipa) = (fT2 <<< PAGE_SHIFT) ||| PMD_TYPE_TABLE := by
      show d.mem _ _ = _
      rw [d6 _ _ (Ne.symm nM3) (Ne.symm nT3) (fun h => nS3 h.1.symm)]
      exact c2
    have h3 : (d.enter C).mem fT2 (pte_index ipa) = pteT := by
      show d.mem _ _ = _
      rw [d6 _ _ (Ne.symm nM4) (Ne.symm nT4) (fun h => nS4 h.1.symm)]
      exact c3
    rw [walk_leaf_eq (d.enter C) rt ipa fT1 fT2 hrt (by rw [h1]; exact populate_ne_zero fT1)
      (by rw [h1]; exact pud_to_pfn_populate fT1 l3) (by rw [h2]; exact populate_ne_zero fT2)
      (by rw [h2]; exact pmd_to_pfn_populate fT2 l4), h3]
  have wBS : walk_leaf (d.enter S) ipa = some pteS := by
    have h1 : (d.enter S).rd (pud_offset rs ipa) = e ||| PMD_TYPE_TABLE := d1
    have h2 : (d.enter S).mem M (pmd_index ipa) = clear_bits m 3 ||| PMD_TYPE_TABLE := d2
    have h3 : (d.enter S).mem T (pte_index ipa) = pteS := d3
    rw [walk_leaf_eq (d.enter S) rs ipa M T hrs (by rw [h1]; exact or3_ne_zero e)
      (by rw [h1, pud_pfn_or3]; exact hM) (by rw [h2]; exact or3_ne_zero _)
      (by rw [h2, pmd_pfn_or3]; exact hTm), h3]
  have dB1 : d.page_data Pn = g.page_data P := by
    rw [dd]
    show c.page_data Pn = _
    rw [cdP]
    rfl
  have dB2 : d.page_data P = g.page_data P := by
    rw [dd]
    show c.page_data P = _
    rw [cd P (Ne.symm hPn)]
    rfl
  exact ⟨b, d, hA, hB, wAS, wBS, wAC, wBC, dA1, dB1, dA2, dB2⟩

end S2Mmu
namespace S2Mmu

/-- The two orders on the pair `ex_pair` (roots 16 and 18 over the registered pmd table 32 and
the pte table 48), at IPA 0x40001000 whose leaf has PFN 0x99; the source's reserve is
frames 70 and 71, the clone's is frames 72 and 73, the next free page is frame 80 and the
clone's own page is frame 0x55. -/
theorem first_touch_order_with_page_example :
    ∃ gA gB,
      touch_in_order ex_pair ex_pair_source ex_pair_target { objects := [70, 71] }
        { objects := [72, 73] } 0x40001000 (0x99 * 4096 + 1151) (0x55 * 4096 + 1151)
        = some gA ∧
      touch_in_order ex_pair ex_pair_target ex_pair_source { objects := [72, 73] }
        { objects := [70, 71] } 0x40001000 (0x55 * 4096 + 1151) (0x99 * 4096 + 1151)
        = some gB ∧
      walk_leaf (gA.enter ex_pair_source) 0x40001000 = some (0x99 * 4096 + 1151) ∧
      walk_leaf (gB.enter ex_pair_source) 0x40001000 = some (0x99 * 4096 + 1151) ∧
      walk_leaf (gA.enter ex_pair_target) 0x40001000 = some (0x55 * 4096 + 1151) ∧
      walk_leaf (gB.enter ex_pair_target) 0x40001000 = some (0x55 * 4096 + 1151) ∧
      gA.page_data 0x55 = ex_pair.page_data 0x99 ∧
      gB.page_data 0x55 = ex_pair.page_data 0x99 ∧
      gA.page_data 0x99 = ex_pair.page_data 0x99 ∧
      gB.page_data 0x99 = ex_pair.page_data 0x99 :=
  first_touch_order_with_page ex_pair ex_pair_source ex_pair_target 16 18 0x40001000 32 48 0x99 0x55
    (32 * 4096) (48 * 4096 + 3) (0x99 * 4096 + 1151) (0x99 * 4096 + 1151) (0x55 * 4096 + 1151)
    70 71 72 73 80 0 0 [] [] ex_slot { ex_slot with userspace_addr := 0x60000000 } []
    rfl rfl rfl (by decide) (by decide) (by decide) (by decide) (by decide) (by decide)
    (by decide) (by decide) (by decide) (by decide) (by decide) (by decide) (by decide)
    (by decide)
    (by
      intro f hf
      simp only [List.mem_cons, List.mem_singleton, List.not_mem_nil, or_false] at hf
      rcases hf with h | h | h | h <;> subst h <;>
        exact ⟨fun i => by simp [ex_pair], by decide⟩)
    (by decide) (by decide) (by decide) (by decide) (by decide)
    (by
      intro i _ h
      have hi : i = 0 := by
        by_contra hne
        apply h
        simp [ex_pair, hne]
      subst hi
      decide)
    (by
      intro i _ h
      have hi : i = 0 ∨ i = 1 := by
        by_contra hne
        apply h
        simp only [not_or] at hne
        simp [ex_pair, hne.1, hne.2]
      rcases hi with hi | hi <;> subst hi <;> decide)
    (by decide) (by decide) (by decide) (by decide) rfl (by decide) rfl (by decide) (by decide)
    rfl (by decide)

end S2Mmu
namespace S2Mmu

/-- C23: on the armed source VM `ex_armed_nomem` (sentinel leaf of PFN 0x99 at IPA
0x40001000, PFN 0x99 in the shared registry, the next `__get_free_page` fails) the source
branch of `handle_coa_pte` does not surface the failed allocation: `stage2_set_pte` returns 0
and `kvm_handle_guest_abort` returns 1, the pool gains the entry `(NULL, 0x99)` and PFN 0x99
is gone from the registry. -/
theorem C23_snapshot_alloc_failure_not_surfaced :
    ex_armed_nomem.cloning_role = KVM_ARM_CLONING_ROLE_SOURCE ∧
    ex_armed_nomem.page_alloc = [none] ∧
    ex_armed_nomem.shared_pfn_list = [0x99] ∧ ex_armed_nomem.page_pool_list = [] ∧
    (stage2_set_pte ex_armed_nomem (some { objects := [70, 71] }) 0x40001000
        (0x99 * 4096 + 1151) false).map
      (fun r => (r.2.2, r.1.page_pool_list, r.1.shared_pfn_list))
      = some (0, [(none, 0x99)], []) ∧
    (kvm_handle_guest_abort ex_armed_nomem vcpu_read_fault).map
      (fun r => (r.2.2, r.1.page_pool_list, r.1.shared_pfn_list))
      = some (1, [(none, 0x99)], []) := by
  refine ⟨by decide, by decide, by decide, by decide, ?_, ?_⟩
  · decide!
  · decide!

/-- C30: a read fault of the armed source VM `ex_armed_ro` on the sentinel leaf of IPA
0x40001000.  The calls into collaborators, oldest first: the translator, `mmu_lock`,
`mark_page_dirty`, then inside the lock `__get_free_page`, `copy_from_user` and the
`kmalloc` of `page_pool_add`, the TLB invalidation, `mmu_unlock`, and the release of the
PFN. -/
theorem C30_sleeping_calls_under_mmu_lock :
    (kvm_handle_guest_abort ex_armed_ro vcpu_read_fault).map
      (fun r => (r.2.2, r.1.trace.reverse))
      = some (1, [Event.gfn_to_pfn_prot 0x40001 false, Event.mmu_lock,
          Event.mark_page_dirty 0x40001, Event.get_free_page,
          Event.copy_from_user 0x70001000, Event.kmalloc,
          Event.tlb_flush_vmid_ipa 0x40001000, Event.mmu_unlock,
          Event.release_pfn_clean 0x99]) := by
  decide!

/-- C28: a fresh root with one leaf at IPA 0x8000000000 (`ex_high_ipa`).  The second root
page (frame 17) holds one populated entry and has reference count 1, not 2; after
`unmap_range` of that page the pte table (frame 32) is released, but the pmd table (frame
48), whose count has returned to one, is neither released nor unlinked from the root. -/
theorem C28_second_root_page_count :
    ex_high_ipa.map (fun s => (s.pgd, s.mem 17 0, s.page_count 17))
      = some (some 16, 48 * 4096 + 3, 1) ∧
    ex_high_ipa.map (fun s => (s.mem 48 0, s.page_count 48, s.page_count 32, s.freed))
      = some (32 * 4096 + 3, 2, 2, []) ∧
    (ex_high_ipa.bind (fun s => unmap_stage2_range s 0x8000000000 4096)).map
        (fun s => (s.mem 17 0, s.page_count 17))
      = some (48 * 4096 + 3, 1) ∧
    (ex_high_ipa.bind (fun s => unmap_stage2_range s 0x8000000000 4096)).map
        (fun s => (s.mem 48 0, s.page_count 48, s.freed))
      = some (0, 1, [32]) := by
  refine ⟨?_, ?_, ?_, ?_⟩
  · decide!
  · decide!
  · decide!
  · decide!

end S2Mmu
namespace S2Mmu

end S2Mmu
namespace S2Mmu

/-- `handle_coa_pud` at an entry whose pmd table `M` is in the shared registry, with a zeroed
frame `f1` on top of the reserve. -/
theorem handle_coa_pud_split (s : KvmState) (gpa : Nat) (pud : EntryPtr) (f1 M : Nat)
    (rest : List Nat)
    (hM : pud_to_pfn (s.rd pud) = M) (hsh : M ∈ s.shared_pfn_list)
    (h1 : f1 ≠ M) (h2 : f1 ≠ pud.frame) (h3 : M ≠ pud.frame) (hz : ∀ i, s.mem f1 i = 0) :
    ∃ s1, handle_coa_pud s (some { objects := f1 :: rest }) gpa pud
        = some (s1, some { objects := rest }) ∧
      s1.rd pud = (f1 <<< PAGE_SHIFT) ||| PMD_TYPE_TABLE ∧
      (∀ i, i < 512 → s1.mem f1 i = clear_bits (s.mem M i) 3) ∧
      (∀ i, i < 512 → s1.mem M i = clear_bits (s.mem M i) 3) ∧
      (∀ f i, f ≠ f1 → f ≠ M → ¬ (f = pud.frame ∧ i = pud.idx) → s1.mem f i = s.mem f i) ∧
      (∀ x j, j < 512 → s.mem M j ≠ 0 → pmd_to_pfn (s.mem M j) = x →
        (∀ i, i < 512 → i ≠ j → s.mem M i ≠ 0 → pmd_to_pfn (s.mem M i) ≠ x) →
        s1.shared_pfn_list.count x = (s.shared_pfn_list.erase M).count x + 1) ∧
      (∀ x, (∀ i, i < 512 → s.mem M i ≠ 0 → pmd_to_pfn (s.mem M i) ≠ x) →
        s1.shared_pfn_list.count x = (s.shared_pfn_list.erase M).count x) ∧
      (∀ i, i < 512 → s.mem M i ≠ 0 → pmd_to_pfn (s.mem M i) ∈ s1.shared_pfn_list) := by
  generalize hD : (List.range 512).foldl (duplicate_pmd_step f1 M) (del_shared_pfn s M) = D
  obtain ⟨a1, a2, a3, a4, a5, _⟩ := duplicate_after_del s D f1 M hD hsh h1 hz
  have hc : handle_coa_pud s (some { objects := f1 :: rest }) gpa pud
      = some (pud_populate D pud f1, some { objects := rest }) := by
    unfold handle_coa_pud
    dsimp only
    rw [hM, if_pos (show is_pfn_shared s M from hsh)]
    simp only [mmu_memory_cache_alloc]
    unfold duplicate_pmd_and_set_non_present
    simp only [PTRS_PER_PMD]
    rw [hD]
  have hmem : ∀ i, i < 512 → s.mem M i ≠ 0 → pmd_to_pfn (s.mem M i) ∈ D.shared_pfn_list := by
    intro i hi hne
    have hdel : (del_shared_pfn s M).mem = s.mem := del_shared_pfn_mem s M
    have k := (duplicate_pmd_fold_spec f1 M h1 (del_shared_pfn s M) 512).2.2.2.1 i hi
      (by rw [hdel]; exact hne)
    rw [hD, hdel, pmd_pfn_clear3] at k
    exact k
  refine ⟨pud_populate D pud f1, hc, ?_, fun i hi => ?_, fun i hi => ?_,
    fun f i g1 g2 g3 => ?_, a4, a5, hmem⟩
  · simp [pud_populate, KvmState.rd, KvmState.wr]
  · rw [← a2 i hi]
    simp [pud_populate, KvmState.wr, h2]
  · rw [← a3 i hi]
    simp [pud_populate, KvmState.wr, h3]
  · rw [← a1 f i g1 g2]
    show (if f = pud.frame ∧ i = pud.idx then _ else _) = _
    rw [if_neg g3]

/-- The pud-level split on a registry that lists the table once: `handle_coa_pud` at a
top-level entry whose pmd table `M` is listed once in the shared registry and does not point to itself, with a zeroed frame `f1` (other than `M` and
the root page) on top of the reserve.  It returns with the reserve less `f1`; `M` is out of
the registry; every entry of `M` and the same entry of `f1` are the original entry with the
table-type bits cleared, so they carry the original PFN and an empty entry is empty in both;
the PFN of every non-empty entry is in the registry; the top-level entry is the valid table
descriptor of `f1`. -/
theorem handle_coa_pud_listed_once (s : KvmState) (gpa : Nat) (pud : EntryPtr) (f1 M : Nat)
    (rest : List Nat)
    (hM : pud_to_pfn (s.rd pud) = M) (hcount : s.shared_pfn_list.count M = 1)
    (hself : ∀ i, i < 512 → s.mem M i ≠ 0 → pmd_to_pfn (s.mem M i) ≠ M)
    (h1 : f1 ≠ M) (h2 : f1 ≠ pud.frame) (h3 : M ≠ pud.frame)
    (hz : ∀ i, s.mem f1 i = 0) (hlt : f1 < 268435456) :
    ∃ s1, handle_coa_pud s (some { objects := f1 :: rest }) gpa pud
        = some (s1, some { objects := rest }) ∧
      M ∉ s1.shared_pfn_list ∧
      (∀ i, i < 512 →
        s1.mem M i = clear_bits (s.mem M i) PMD_TYPE_TABLE ∧
        s1.mem f1 i = clear_bits (s.mem M i) PMD_TYPE_TABLE ∧
        pmd_to_pfn (s1.mem M i) = pmd_to_pfn (s.mem M i) ∧
        pmd_to_pfn (s1.mem f1 i) = pmd_to_pfn (s.mem M i) ∧
        ¬ pmd_table (s1.mem M i) ∧ ¬ pmd_table (s1.mem f1 i) ∧
        (s.mem M i ≠ 0 → pmd_to_pfn (s.mem M i) ∈ s1.shared_pfn_list) ∧
        (s.mem M i = 0 → s1.mem f1 i = 0)) ∧
      s1.rd pud = (f1 <<< PAGE_SHIFT) ||| PMD_TYPE_TABLE ∧
      pmd_table (s1.rd pud) ∧ pud_to_pfn (s1.rd pud) = f1 := by
  have hsh : M ∈ s.shared_pfn_list := List.count_pos_iff.1 (by omega)
  obtain ⟨s1, hc, b1, b2, b3, _, _, b6, b7⟩ :=
    handle_coa_pud_split s gpa pud f1 M rest hM hsh h1 h2 h3 hz
  refine ⟨s1, hc, ?_, fun i hi => ⟨?_, ?_, ?_, ?_, ?_, ?_, b7 i hi, ?_⟩, b1, ?_, ?_⟩
  · have k := b6 M hself
    rw [count_erase_self_of_one _ _ hcount] at k
    exact List.count_eq_zero.1 k
  · exact b3 i hi
  · exact b2 i hi
  · rw [b3 i hi, pmd_pfn_clear3]
  · rw [b2 i hi, pmd_pfn_clear3]
  · rw [b3 i hi]; exact clear3_not_table _
  · rw [b2 i hi]; exact clear3_not_table _
  · intro h0
    rw [b2 i hi, h0]
    exact clear3_zero
  · rw [b1, pmd_table_iff]
    simp only [PAGE_SHIFT, PMD_TYPE_TABLE]
    rw [shl12_or3]; omega
  · rw [b1]; exact pud_to_pfn_populate f1 hlt

/-- The pud-level split on the armed pair `ex_pair`: the top-level entry of IPA 0x40001000 under the
root of frame 16 (the sentinel of the pmd table of frame 32), reserve frames 70 and 71. -/
theorem handle_coa_pud_listed_once_example :
    ∃ s1, handle_coa_pud ex_pair (some { objects := [70, 71] }) 0x40001000 ⟨16, 1⟩
        = some (s1, some { objects := [71] }) ∧
      32 ∉ s1.shared_pfn_list ∧
      (∀ i, i < 512 →
        s1.mem 32 i = clear_bits (ex_pair.mem 32 i) PMD_TYPE_TABLE ∧
        s1.mem 70 i = clear_bits (ex_pair.mem 32 i) PMD_TYPE_TABLE ∧
        pmd_to_pfn (s1.mem 32 i) = pmd_to_pfn (ex_pair.mem 32 i) ∧
        pmd_to_pfn (s1.mem 70 i) = pmd_to_pfn (ex_pair.mem 32 i) ∧
        ¬ pmd_table (s1.mem 32 i) ∧ ¬ pmd_table (s1.mem 70 i) ∧
        (ex_pair.mem 32 i ≠ 0 → pmd_to_pfn (ex_pair.mem 32 i) ∈ s1.shared_pfn_list) ∧
        (ex_pair.mem 32 i = 0 → s1.mem 70 i = 0)) ∧
      s1.rd ⟨16, 1⟩ = (70 <<< PAGE_SHIFT) ||| PMD_TYPE_TABLE ∧
      pmd_table (s1.rd ⟨16, 1⟩) ∧ pud_to_pfn (s1.rd ⟨16, 1⟩) = 70 :=
  handle_coa_pud_listed_once ex_pair 0x40001000 ⟨16, 1⟩ 70 32 [71] (by decide) (by decide)
    (by
      intro i _ h
      have hi : i = 0 := by
        by_contra hne
        apply h
        simp [ex_pair, hne]
      subst hi
      decide)
    (by decide) (by decide) (by decide) (fun i => by simp [ex_pair]) (by decide)

/-- C25 (the code at a failing input): the source VM `ex_two_slots` has two memslots under
the top-level entry of frame 16, index 1, which points to the pmd table of frame 32.
`mark_s2_non_present` leaves that entry as the sentinel of frame 32 and the registry as
[32, 32].  `handle_coa_pud` at this entry, with the reserve frames 70 and 71, takes frame 70
as the new pmd table and points the entry to it, but `del_shared_pfn` has unlinked one of the
two entries only: the registry is [48, 32] and PFN 32 is still in it. -/
theorem C25_pmd_table_stays_listed :
    (mark_s2_non_present ex_two_slots).map
        (fun t => (t.shared_pfn_list, t.mem 16 1, pud_to_pfn (t.mem 16 1),
          decide (pmd_table (t.mem 16 1))))
      = some ([32, 32], 32 * 4096, 32, false) ∧
    ((mark_s2_non_present ex_two_slots).bind
        (fun t => handle_coa_pud t (some { objects := [70, 71] }) 0x40001000 ⟨16, 1⟩)).map
        (fun r => (r.1.shared_pfn_list, decide (32 ∈ r.1.shared_pfn_list), r.1.mem 16 1,
          r.2.map (fun c => c.objects)))
      = some ([48, 32], true, 70 * 4096 + 3, some [71]) := by
  refine ⟨?_, ?_⟩
  · decide!
  · decide!

end S2Mmu
namespace S2Mmu

/-- `handle_coa_pmd` at an entry whose pte table `Q` is in the shared registry, with a zeroed
frame `g` on top of the reserve. -/
theorem handle_coa_pmd_split (s : KvmState) (gpa : Nat) (pmd : EntryPtr) (g Q : Nat)
    (rest : List Nat)
    (hQ : pmd_to_pfn (s.rd pmd) = Q) (hsh : Q ∈ s.shared_pfn_list)
    (h1 : g ≠ Q) (h2 : g ≠ pmd.frame) (h3 : Q ≠ pmd.frame) (hz : ∀ i, s.mem g i = 0) :
    ∃ s1, handle_coa_pmd s (some { objects := g :: rest }) gpa pmd
        = some (s1, some { objects := rest }) ∧
      s1.rd pmd = (g <<< PAGE_SHIFT) ||| PMD_TYPE_TABLE ∧
      (∀ i, i < 512 → s1.mem g i = clear_bits (s.mem Q i) 3) ∧
      (∀ i, i < 512 → s1.mem Q i = clear_bits (s.mem Q i) 3) ∧
      (∀ f i, f ≠ g → f ≠ Q → ¬ (f = pmd.frame ∧ i = pmd.idx) → s1.mem f i = s.mem f i) ∧
      (∀ x, (∀ i, i < 512 → s.mem Q i ≠ 0 → pmd_to_pfn (s.mem Q i) ≠ x) →
        s1.shared_pfn_list.count x = (s.shared_pfn_list.erase Q).count x) ∧
      (∀ i, i < 512 → s.mem Q i ≠ 0 → pmd_to_pfn (s.mem Q i) ∈ s1.shared_pfn_list) := by
  generalize hD : (List.range 512).foldl (duplicate_pmd_step g Q) (del_shared_pfn s Q) = D
  obtain ⟨a1, a2, a3, _, a5, _⟩ := duplicate_after_del s D g Q hD hsh h1 hz
  have hc : handle_coa_pmd s (some { objects := g :: rest }) gpa pmd
      = some (kvm_tlb_flush_vmid_ipa true (pmd_populate_kernel D pmd g) gpa,
          some { objects := rest }) := by
    unfold handle_coa_pmd
    dsimp only
    rw [hQ, if_pos (show is_pfn_shared s Q from hsh)]
    simp only [mmu_memory_cache_alloc]
    unfold duplicate_pte_and_set_non_present
    rw [duplicate_pte_step_eq]
    simp only [PTRS_PER_PTE]
    rw [hD]
  have hmem : ∀ i, i < 512 → s.mem Q i ≠ 0 → pmd_to_pfn (s.mem Q i) ∈ D.shared_pfn_list := by
    intro i hi hne
    have hdel : (del_shared_pfn s Q).mem = s.mem := del_shared_pfn_mem s Q
    have k := (duplicate_pmd_fold_spec g Q h1 (del_shared_pfn s Q) 512).2.2.2.1 i hi
      (by rw [hdel]; exact hne)
    rw [hD, hdel, pmd_pfn_clear3] at k
    exact k
  refine ⟨kvm_tlb_flush_vmid_ipa true (pmd_populate_kernel D pmd g) gpa, hc, ?_,
    fun i hi => ?_, fun i hi => ?_, fun f i g1 g2 g3 => ?_, a5, hmem⟩
  · simp [pmd_populate_kernel, KvmState.rd, KvmState.wr, kvm_tlb_flush_vmid_ipa,
      KvmState.emit]
  · rw [← a2 i hi]
    simp [pmd_populate_kernel, KvmState.wr, kvm_tlb_flush_vmid_ipa, KvmState.emit, h2]
  · rw [← a3 i hi]
    simp [pmd_populate_kernel, KvmState.wr, kvm_tlb_flush_vmid_ipa, KvmState.emit, h3]
  · rw [← a1 f i g1 g2]
    show (if f = pmd.frame ∧ i = pmd.idx then _ else _) = _
    rw [if_neg g3]

/-- The two branches of the pmd-level handler on a registry without duplicates:
`handle_coa_pmd` at a pmd entry with pte table `Q`, with a zeroed frame `g` (other
than `Q` and the pmd page) on top of the reserve.  When `Q` is listed once in the shared
registry and no leaf of `Q` carries PFN `Q`: the call returns with the reserve less `g`, `Q`
is out of the registry, the pmd entry is the valid table descriptor of `g`, and every leaf
of `Q` and the same leaf of `g` are the original leaf with the present bits cleared (same PFN,
same other bits), the PFN of every non-empty leaf being in the registry.  When `Q` is not in
the registry: the pmd entry gets its table-type bits back and nothing else in the tables
changes; its PFN, the registry and the reserve are the same. -/
theorem handle_coa_pmd_listed_once (s : KvmState) (gpa : Nat) (pmd : EntryPtr) (g Q : Nat)
    (rest : List Nat)
    (hQ : pmd_to_pfn (s.rd pmd) = Q)
    (h1 : g ≠ Q) (h2 : g ≠ pmd.frame) (h3 : Q ≠ pmd.frame)
    (hz : ∀ i, s.mem g i = 0) (hlt : g < 268435456) :
    (s.shared_pfn_list.count Q = 1 →
      (∀ i, i < 512 → s.mem Q i ≠ 0 → pte_to_pfn (s.mem Q i) ≠ Q) →
      ∃ s1, handle_coa_pmd s (some { objects := g :: rest }) gpa pmd
          = some (s1, some { objects := rest }) ∧
        Q ∉ s1.shared_pfn_list ∧
        s1.rd pmd = (g <<< PAGE_SHIFT) ||| PMD_TYPE_TABLE ∧
        pmd_table (s1.rd pmd) ∧ pmd_to_pfn (s1.rd pmd) = g ∧
        (∀ i, i < 512 →
          s1.mem Q i = clear_bits (s.mem Q i) L_PTE_PRESENT ∧
          s1.mem g i = clear_bits (s.mem Q i) L_PTE_PRESENT ∧
          pte_pfn (s1.mem Q i) = pte_pfn (s.mem Q i) ∧
          pte_pfn (s1.mem g i) = pte_pfn (s.mem Q i) ∧
          ¬ pte_present (s1.mem Q i) ∧ ¬ pte_present (s1.mem g i) ∧
          (s.mem Q i ≠ 0 → pte_pfn (s.mem Q i) ∈ s1.shared_pfn_list))) ∧
    (Q ∉ s.shared_pfn_list →
      ∃ s1, handle_coa_pmd s (some { objects := g :: rest }) gpa pmd
          = some (s1, some { objects := g :: rest }) ∧
        s1.rd pmd = s.rd pmd ||| PMD_TYPE_TABLE ∧ pmd_to_pfn (s1.rd pmd) = Q ∧
        (∀ f i, ¬ (f = pmd.frame ∧ i = pmd.idx) → s1.mem f i = s.mem f i) ∧
        s1.shared_pfn_list = s.shared_pfn_list) := by
  constructor
  · intro hcount hself
    have hsh : Q ∈ s.shared_pfn_list := List.count_pos_iff.1 (by omega)
    obtain ⟨s1, hc, b1, b2, b3, _, b6, b7⟩ :=
      handle_coa_pmd_split s gpa pmd g Q rest hQ hsh h1 h2 h3 hz
    refine ⟨s1, hc, ?_, b1, ?_, ?_, fun i hi => ⟨b3 i hi, b2 i hi, ?_, ?_, ?_, ?_, b7 i hi⟩⟩
    · have k := b6 Q hself
      rw [count_erase_self_of_one _ _ hcount] at k
      exact List.count_eq_zero.1 k
    · rw [b1, pmd_table_iff]
      simp only [PAGE_SHIFT, PMD_TYPE_TABLE]
      rw [shl12_or3]; omega
    · rw [b1]; exact pmd_to_pfn_populate g hlt
    · rw [b3 i hi, pte_pfn_clear3]
    · rw [b2 i hi, pte_pfn_clear3]
    · rw [b3 i hi]; exact clear3_not_present _
    · rw [b2 i hi]; exact clear3_not_present _
  · intro hns
    refine ⟨kvm_tlb_flush_vmid_ipa true (s.wr pmd (s.rd pmd ||| PMD_TYPE_TABLE)) gpa, ?_, ?_,
      ?_, ?_, rfl⟩
    · unfold handle_coa_pmd
      dsimp only
      rw [hQ, if_neg (show ¬ is_pfn_shared s Q from hns)]
    · simp [KvmState.rd, KvmState.wr, kvm_tlb_flush_vmid_ipa, KvmState.emit]
    · have : (kvm_tlb_flush_vmid_ipa true (s.wr pmd (s.rd pmd ||| PMD_TYPE_TABLE)) gpa).rd pmd
          = s.rd pmd ||| PMD_TYPE_TABLE := by
        simp [KvmState.rd, KvmState.wr, kvm_tlb_flush_vmid_ipa, KvmState.emit]
      rw [this, pmd_pfn_or3]
      exact hQ
    · intro f i hne
      show (if f = pmd.frame ∧ i = pmd.idx then _ else _) = _
      rw [if_neg hne]

/-- The pmd-level handler on the armed source VM `ex_pmd_armed` at the pmd entry of IPA 0x40001000
(the sentinel of the pte table of frame 48), reserve frames 70 and 71, with frame 48 in the
registry and without. -/
theorem handle_coa_pmd_listed_once_example :
    (∃ s1, handle_coa_pmd (ex_pmd_armed [48]) (some { objects := [70, 71] }) 0x40001000 ⟨32, 0⟩
          = some (s1, some { objects := [71] }) ∧
        48 ∉ s1.shared_pfn_list ∧
        s1.rd ⟨32, 0⟩ = (70 <<< PAGE_SHIFT) ||| PMD_TYPE_TABLE ∧
        pmd_table (s1.rd ⟨32, 0⟩) ∧ pmd_to_pfn (s1.rd ⟨32, 0⟩) = 70 ∧
        (∀ i, i < 512 →
          s1.mem 48 i = clear_bits ((ex_pmd_armed [48]).mem 48 i) L_PTE_PRESENT ∧
          s1.mem 70 i = clear_bits ((ex_pmd_armed [48]).mem 48 i) L_PTE_PRESENT ∧
          pte_pfn (s1.mem 48 i) = pte_pfn ((ex_pmd_armed [48]).mem 48 i) ∧
          pte_pfn (s1.mem 70 i) = pte_pfn ((ex_pmd_armed [48]).mem 48 i) ∧
          ¬ pte_present (s1.mem 48 i) ∧ ¬ pte_present (s1.mem 70 i) ∧
          ((ex_pmd_armed [48]).mem 48 i ≠ 0 →
            pte_pfn ((ex_pmd_armed [48]).mem 48 i) ∈ s1.shared_pfn_list))) ∧
    (∃ s1, handle_coa_pmd (ex_pmd_armed []) (some { objects := [70, 71] }) 0x40001000 ⟨32, 0⟩
          = some (s1, some { objects := [70, 71] }) ∧
        s1.rd ⟨32, 0⟩ = (ex_pmd_armed []).rd ⟨32, 0⟩ ||| PMD_TYPE_TABLE ∧
        pmd_to_pfn (s1.rd ⟨32, 0⟩) = 48 ∧
        (∀ f i, ¬ (f = 32 ∧ i = 0) → s1.mem f i = (ex_pmd_armed []).mem f i) ∧
        s1.shared_pfn_list = (ex_pmd_armed []).shared_pfn_list) :=
  ⟨(handle_coa_pmd_listed_once (ex_pmd_armed [48]) 0x40001000 ⟨32, 0⟩ 70 48 [71] (by decide)
      (by decide) (by decide) (by decide) (fun i => by simp [ex_pmd_armed]) (by decide)).1
      (by decide)
      (by
        intro i _ h
        have hi : i = 0 ∨ i = 1 := by
          by_contra hne
          apply h
          simp only [not_or] at hne
          simp [ex_pmd_armed, hne.1, hne.2]
        rcases hi with hi | hi <;> subst hi <;> decide),
    (handle_coa_pmd_listed_once (ex_pmd_armed []) 0x40001000 ⟨32, 0⟩ 70 48 [71] (by decide)
      (by decide) (by decide) (by decide) (fun i => by simp [ex_pmd_armed]) (by decide)).2
      (by decide)⟩

/-- C26 (the code at a failing input): on the pair `ex_pair_twice` the registry lists the
pmd table of frame 32 twice, as arming leaves it on `ex_two_slots`.  The source VM splits its top-level entry (`handle_coa_pud` at
frame 16, index 1, new pmd table 70), then the clone splits its own (`handle_coa_pud` at
frame 18, index 1, new pmd table 72): each call finds PFN 32 listed and registers the pte
table of frame 48, so the registry is [48, 48].  `handle_coa_pmd` of the source at the pmd
sentinel of frame 70, index 0, whose child PFN 48 is in the registry, takes frame 71 as the
new pte table and points the pmd to it, but PFN 48 is still in the registry afterwards. -/
theorem C26_pte_table_stays_listed :
    (mark_s2_non_present ex_two_slots).map (fun t => t.shared_pfn_list)
      = some ex_pair_twice.shared_pfn_list ∧
    ((handle_coa_pud ex_pair_twice (some { objects := [70, 71] }) 0x40001000 ⟨16, 1⟩).bind
      (fun r1 => (handle_coa_pud r1.1 (some { objects := [72, 73] }) 0x40001000 ⟨18, 1⟩).map
        (fun r2 => (r1.1.shared_pfn_list, r2.1.shared_pfn_list, r2.1.mem 70 0,
          decide (pmd_table (r2.1.mem 70 0))))))
      = some ([48, 32], [48, 48], 48 * 4096, false) ∧
    pmd_to_pfn (48 * 4096) = 48 ∧
    ((handle_coa_pud ex_pair_twice (some { objects := [70, 71] }) 0x40001000 ⟨16, 1⟩).bind
      (fun r1 => (handle_coa_pud r1.1 (some { objects := [72, 73] }) 0x40001000 ⟨18, 1⟩).bind
        (fun r2 => (handle_coa_pmd r2.1 r1.2 0x40001000 ⟨70, 0⟩).map
          (fun r3 => (r3.1.shared_pfn_list, decide (48 ∈ r3.1.shared_pfn_list),
            r3.1.mem 70 0, r3.2.map (fun c => c.objects))))))
      = some ([0x99, 0x98, 48], true, 71 * 4096 + 3, some []) := by
  refine ⟨?_, ?_, by decide, ?_⟩
  · decide!
  · decide!
  · decide!

end S2Mmu
namespace S2Mmu

theorem flushed_emit (s : KvmState) (a : Nat) :
    flushed s (kvm_tlb_flush_vmid_ipa true s a) a :=
  ⟨[Event.tlb_flush_vmid_ipa a], rfl, List.mem_singleton.2 rfl⟩

theorem flushed_of_cons {s t : KvmState} (a : Nat)
    (h : t.trace = Event.tlb_flush_vmid_ipa a :: s.trace) : flushed s t a :=
  ⟨[Event.tlb_flush_vmid_ipa a], by rw [h]; rfl, List.mem_singleton.2 rfl⟩

theorem flushed_suffix_right {s t u : KvmState} {a : Nat} (h : flushed s t a)
    (hs : t.trace <:+ u.trace) : flushed s u a := by
  obtain ⟨evs, e1, e2⟩ := h
  obtain ⟨pre, e3⟩ := hs
  exact ⟨pre ++ evs, by rw [← e3, e1, List.append_assoc], List.mem_append_right _ e2⟩

theorem flushed_suffix_left {s t u : KvmState} {a : Nat} (hs : s.trace <:+ t.trace)
    (h : flushed t u a) : flushed s u a := by
  obtain ⟨evs, e1, e2⟩ := h
  obtain ⟨pre, e3⟩ := hs
  exact ⟨evs ++ pre, by rw [e1, ← e3, List.append_assoc], List.mem_append_left _ e2⟩

theorem clear_pte_entry_trace (kvm : Bool) (s : KvmState) (p : EntryPtr) (a : Nat) :
    s.trace <:+ (clear_pte_entry kvm s p a).trace := by
  unfold clear_pte_entry
  by_cases h : pte_present (s.rd p)
  · rw [if_pos h]
    exact tlb_flush_trace kvm (put_page (s.wr p 0) p.frame) a
  · rw [if_neg h]

theorem clear_pte_entry_flushed (s : KvmState) (p : EntryPtr) (a : Nat)
    (h : pte_present (s.rd p)) : flushed s (clear_pte_entry true s p a) a := by
  unfold clear_pte_entry
  rw [if_pos h]
  exact flushed_of_cons a rfl

theorem clear_pmd_entry_trace (kvm : Bool) (s : KvmState) (p : EntryPtr) (a : Nat) :
    s.trace <:+ (clear_pmd_entry kvm s p a).trace :=
  tlb_flush_trace kvm (s.wr p 0) a

theorem clear_pud_entry_trace (kvm : Bool) (s : KvmState) (p : EntryPtr) (a : Nat) :
    s.trace <:+ (clear_pud_entry kvm s p a).trace :=
  tlb_flush_trace kvm (s.wr p 0) a

theorem unmap_range_step_trace (kvm : Bool) (s : KvmState) (pgdp addr end_ : Nat) :
    s.trace <:+ (unmap_range_step kvm s pgdp addr end_).1.trace := by
  unfold unmap_range_step
  dsimp only
  split
  · exact List.suffix_refl _
  · split
    · exact List.suffix_refl _
    · split
      · split
        · exact ((clear_pte_entry_trace kvm s _ addr).trans
            (clear_pmd_entry_trace kvm _ _ addr)).trans (clear_pud_entry_trace kvm _ _ addr)
        · exact (clear_pte_entry_trace kvm s _ addr).trans (clear_pmd_entry_trace kvm _ _ addr)
      · exact clear_pte_entry_trace kvm s _ addr

theorem unmap_range_loop_trace (kvm : Bool) (pgdp end_ : Nat) :
    ∀ (fuel : Nat) (s : KvmState) (addr : Nat),
      s.trace <:+ (unmap_range_loop fuel kvm s pgdp addr end_).trace := by
  intro fuel
  induction fuel with
  | zero => intro s addr; exact List.suffix_refl _
  | succ n ih =>
    intro s addr
    unfold unmap_range_loop
    split
    · exact (unmap_range_step_trace kvm s pgdp addr end_).trans (ih _ _)
    · exact List.suffix_refl _

/-- An iteration of `unmap_range` at an address whose leaf is present issues the TLB
invalidation for that address. -/
theorem unmap_range_step_flushed (s : KvmState) (pgdp addr end_ : Nat) (p : EntryPtr)
    (hw : walk_from s pgdp addr = some p) (hp : pte_present (s.rd p)) :
    flushed s (unmap_range_step true s pgdp addr end_).1 addr := by
  unfold walk_from at hw
  dsimp only at hw
  split at hw
  · exact absurd hw (by simp)
  · rename_i h1
    split at hw
    · exact absurd hw (by simp)
    · rename_i h2
      injection hw with hw
      subst hw
      unfold unmap_range_step
      dsimp only
      rw [if_neg h1, if_neg h2]
      have hf := clear_pte_entry_flushed s
        (pte_offset_kernel s (pmd_offset s (pud_offset pgdp addr) addr) addr) addr hp
      split
      · split
        · exact flushed_suffix_right hf
            ((clear_pmd_entry_trace true _ _ addr).trans (clear_pud_entry_trace true _ _ addr))
        · exact flushed_suffix_right hf (clear_pmd_entry_trace true _ _ addr)
      · exact hf

theorem set_readonly_step_trace (s : KvmState) (pgdp addr end_ : Nat) :
    s.trace <:+ (set_readonly_step s pgdp addr end_).1.trace := by
  unfold set_readonly_step
  dsimp only
  split
  · exact List.suffix_refl _
  · split
    · exact List.suffix_refl _
    · split
      · exact tlb_flush_trace true _ addr
      · exact List.suffix_refl _

theorem set_readonly_loop_trace (pgdp end_ : Nat) :
    ∀ (fuel : Nat) (s : KvmState) (addr : Nat),
      s.trace <:+ (set_readonly_loop fuel s pgdp addr end_).trace := by
  intro fuel
  induction fuel with
  | zero => intro s addr; exact List.suffix_refl _
  | succ n ih =>
    intro s addr
    unfold set_readonly_loop
    split
    · exact (set_readonly_step_trace s pgdp addr end_).trans (ih _ _)
    · exact List.suffix_refl _

/-- An iteration of `kvm_set_memslot_readonly` at an address with a visible GFN and a
non-empty leaf issues the TLB invalidation for that address. -/
theorem set_readonly_step_flushed (s : KvmState) (pgdp addr end_ : Nat) (p : EntryPtr)
    (hw : walk_from s pgdp addr = some p) (hv : s.visible_gfn (addr >>> PAGE_SHIFT) = true)
    (hp : s.rd p ≠ 0) :
    flushed s (set_readonly_step s pgdp addr end_).1 addr := by
  unfold walk_from at hw
  dsimp only at hw
  split at hw
  · exact absurd hw (by simp)
  · rename_i h1
    split at hw
    · exact absurd hw (by simp)
    · rename_i h2
      injection hw with hw
      subst hw
      unfold set_readonly_step
      dsimp only
      rw [if_neg h1, if_neg h2, if_pos ⟨hv, hp⟩]
      exact flushed_of_cons addr rfl

end S2Mmu
namespace S2Mmu

theorem handle_coa_pte_flushed (s : KvmState) (addr old new : Nat) (iomap : Bool)
    (t : KvmState) (h : handle_coa_pte s addr old new iomap = some t) :
    flushed s t addr := by
  have hs := handle_coa_pte_trace s addr old new iomap
  unfold handle_coa_pte at h hs
  dsimp only at h hs
  split at h
  · exact absurd h (by simp)
  · rename_i s1 hs1
    simp only [Option.some.injEq] at h
    rw [← h]
    have k := hs (kvm_tlb_flush_vmid_ipa true s1 addr) (by rw [hs1])
    obtain ⟨pre, e⟩ := k
    have e' : pre ++ s.trace = Event.tlb_flush_vmid_ipa addr :: s1.trace := e
    cases pre with
    | nil =>
      -- the trace has grown by the invalidation
      have hl := congrArg List.length e'
      have hsuf : s.trace <:+ s1.trace := by
        by_cases hio : iomap = true
        · rw [if_pos hio] at hs1
          simp only [Option.some.injEq] at hs1
          rw [← hs1]
          unfold handle_coa_pte_ioaddr
          refine List.IsSuffix.trans ?_ (tlb_flush_trace true _ addr)
          dsimp only
          split
          · exact del_shared_pfn_trace _ _
          · exact List.suffix_refl _
        · rw [if_neg hio] at hs1
          by_cases hr : s.cloning_role = KVM_ARM_CLONING_ROLE_SOURCE
          · rw [if_pos hr] at hs1
            exact handle_coa_pte_src_trace s addr old new s1 hs1
          · rw [if_neg hr] at hs1
            exact handle_coa_pte_target_trace s addr old new s1 hs1
      have := hsuf.length_le
      simp only [List.nil_append, List.length_cons] at hl
      omega
    | cons x pre1 =>
      injection e' with e1 e2
      exact ⟨x :: pre1, by
        show Event.tlb_flush_vmid_ipa addr :: s1.trace = x :: pre1 ++ s.trace
        rw [e1, ← e2]; rfl, by rw [e1]; exact List.mem_cons_self _ _⟩

/-- The leaf store of `stage2_set_pte` over a present leaf issues the TLB invalidation for
the address. -/
theorem stage2_pte_level_flushed (s : KvmState) (addr : Nat) (pte : EntryPtr) (new : Nat)
    (iomap : Bool) (t : KvmState) (hp : pte_present (s.rd pte))
    (h : stage2_pte_level s addr pte new iomap = some t) : flushed s t addr := by
  unfold stage2_pte_level at h
  dsimp only at h
  rw [if_pos hp] at h
  dsimp only at h
  have base : flushed s (kvm_tlb_flush_vmid_ipa true
      ((s.wr pte new).emit (Event.mark_page_dirty (addr >>> PAGE_SHIFT))) addr) addr :=
    flushed_suffix_left (trace_suffix_cons _ rfl) (flushed_emit _ addr)
  split at h
  · exact flushed_suffix_right base (trace_suffix_of_eq (mark_gfn_unshared_trace _ _ t h))
  · simp only [Option.some.injEq] at h
    rw [← h]; exact base

theorem duplicate_fold_kmalloc (new old : Nat) :
    ∀ (n : Nat) (s : KvmState), ∃ ks,
      ((List.range n).foldl (duplicate_pmd_step new old) s).trace = ks ++ s.trace ∧
      ∀ e, e ∈ ks → e = Event.kmalloc := by
  intro n
  induction n with
  | zero => intro s; exact ⟨[], rfl, fun e h => absurd h (List.not_mem_nil e)⟩
  | succ n ih =>
    intro s
    obtain ⟨ks, e1, e2⟩ := ih s
    rw [List.range_succ, List.foldl_append]
    simp only [List.foldl_cons, List.foldl_nil]
    generalize (List.range n).foldl (duplicate_pmd_step new old) s = D at e1 ⊢
    unfold duplicate_pmd_step
    by_cases h : D.mem old n ≠ 0
    · rw [if_pos h]
      refine ⟨Event.kmalloc :: ks, ?_, ?_⟩
      · show Event.kmalloc :: D.trace = _
        rw [e1]; rfl
      · intro e he
        rcases List.mem_cons.1 he with he | he
        · exact he
        · exact e2 e he
    · rw [if_neg h]
      exact ⟨ks, e1, e2⟩

/-- `handle_coa_pmd` ends with the TLB invalidation of the faulting address, and that is the
only invalidation it issues. -/
theorem handle_coa_pmd_flushed (s : KvmState) (c : Option kvm_mmu_memory_cache) (gpa : Nat)
    (pmd : EntryPtr) (t : KvmState) (cr : Option kvm_mmu_memory_cache)
    (h : handle_coa_pmd s c gpa pmd = some (t, cr)) :
    flushed s t gpa ∧ ∀ a, flushed s t a → a = gpa := by
  have key : ∃ ks, t.trace = Event.tlb_flush_vmid_ipa gpa :: (ks ++ s.trace) ∧
      ∀ e, e ∈ ks → e = Event.kmalloc := by
    unfold handle_coa_pmd at h
    dsimp only at h
    split at h
    · rename_i hsh
      split at h
      · exact absurd h (by simp)
      · rename_i new_pte c1 _
        simp only [Option.some.injEq, Prod.mk.injEq] at h
        rw [← h.1]
        unfold duplicate_pte_and_set_non_present
        rw [duplicate_pte_step_eq]
        obtain ⟨ks, e1, e2⟩ := duplicate_fold_kmalloc new_pte (pmd_to_pfn (s.rd pmd))
          PTRS_PER_PTE (del_shared_pfn s (pmd_to_pfn (s.rd pmd)))
        refine ⟨ks, ?_, e2⟩
        have hd : (del_shared_pfn s (pmd_to_pfn (s.rd pmd))).trace = s.trace := by
          unfold del_shared_pfn
          rw [if_pos hsh]
        rw [hd] at e1
        generalize (List.range PTRS_PER_PTE).foldl
          (duplicate_pmd_step new_pte (pmd_to_pfn (s.rd pmd)))
          (del_shared_pfn s (pmd_to_pfn (s.rd pmd))) = D at e1 ⊢
        show Event.tlb_flush_vmid_ipa gpa :: D.trace = _
        rw [e1]
    · simp only [Option.some.injEq, Prod.mk.injEq] at h
      rw [← h.1]
      exact ⟨[], rfl, fun e he => absurd he (List.not_mem_nil e)⟩
  obtain ⟨ks, e1, e2⟩ := key
  refine ⟨⟨Event.tlb_flush_vmid_ipa gpa :: ks, by rw [e1]; rfl, List.mem_cons_self _ _⟩, ?_⟩
  intro a ⟨evs, e3, e4⟩
  have heq : evs = Event.tlb_flush_vmid_ipa gpa :: ks := by
    have : evs ++ s.trace = (Event.tlb_flush_vmid_ipa gpa :: ks) ++ s.trace := by
      rw [← e3, e1]; rfl
    exact List.append_cancel_right this
  rw [heq] at e4
  rcases List.mem_cons.1 e4 with e4 | e4
  · injection e4
  · exact absurd (e2 _ e4) (by simp)

end S2Mmu
namespace S2Mmu

theorem duplicate_fold_frame (new old : Nat) :
    ∀ (n : Nat) (s : KvmState) (f i : Nat), f ≠ new → f ≠ old →
      ((List.range n).foldl (duplicate_pmd_step new old) s).mem f i = s.mem f i := by
  intro n
  induction n with
  | zero => intro s f i _ _; rfl
  | succ n ih =>
    intro s f i h1 h2
    rw [List.range_succ, List.foldl_append]
    simp only [List.foldl_cons, List.foldl_nil]
    rw [← ih s f i h1 h2]
    generalize (List.range n).foldl (duplicate_pmd_step new old) s = D
    unfold duplicate_pmd_step
    split
    · simp [get_page, add_shared_pfn, KvmState.wr, h1, h2]
    · rfl

/-- `handle_coa_pud` issues no TLB invalidation and stores only into the faulting top-level
entry, the old pmd table and the pmd table it takes from the reserve. -/
theorem handle_coa_pud_stores (s : KvmState) (c : Option kvm_mmu_memory_cache) (gpa : Nat)
    (pud : EntryPtr) (t : KvmState) (cr : Option kvm_mmu_memory_cache)
    (h : handle_coa_pud s c gpa pud = some (t, cr)) :
    (∀ a, ¬ flushed s t a) ∧
    ∀ p : EntryPtr, p ≠ pud → p.frame ≠ pud_to_pfn (s.rd pud) →
      (∀ f1 c0, mmu_memory_cache_alloc c = some (f1, c0) → p.frame ≠ f1) →
      t.rd p = s.rd p := by
  have key : (∃ ks, t.trace = ks ++ s.trace ∧ ∀ e, e ∈ ks → e = Event.kmalloc) ∧
      ∀ p : EntryPtr, p ≠ pud → p.frame ≠ pud_to_pfn (s.rd pud) →
        (∀ f1 c0, mmu_memory_cache_alloc c = some (f1, c0) → p.frame ≠ f1) →
        t.rd p = s.rd p := by
    unfold handle_coa_pud at h
    dsimp only at h
    split at h
    · rename_i hsh
      split at h
      · exact absurd h (by simp)
      · rename_i new_pmd c1 hc
        simp only [Option.some.injEq, Prod.mk.injEq] at h
        rw [← h.1]
        unfold duplicate_pmd_and_set_non_present
        obtain ⟨ks, e1, e2⟩ := duplicate_fold_kmalloc new_pmd (pud_to_pfn (s.rd pud))
          PTRS_PER_PMD (del_shared_pfn s (pud_to_pfn (s.rd pud)))
        have hd : (del_shared_pfn s (pud_to_pfn (s.rd pud))).trace = s.trace := by
          unfold del_shared_pfn
          rw [if_pos hsh]
        have hm : (del_shared_pfn s (pud_to_pfn (s.rd pud))).mem = s.mem :=
          del_shared_pfn_mem s _
        rw [hd] at e1
        have fr := duplicate_fold_frame new_pmd (pud_to_pfn (s.rd pud)) PTRS_PER_PMD
          (del_shared_pfn s (pud_to_pfn (s.rd pud)))
        generalize (List.range PTRS_PER_PMD).foldl
          (duplicate_pmd_step new_pmd (pud_to_pfn (s.rd pud)))
          (del_shared_pfn s (pud_to_pfn (s.rd pud))) = D at e1 fr ⊢
        refine ⟨⟨ks, e1, e2⟩, fun p hp hold hnew => ?_⟩
        have hne : ¬ (p.frame = pud.frame ∧ p.idx = pud.idx) := by
          rintro ⟨a, b⟩
          apply hp
          cases p; cases pud
          simp only at a b
          subst a b
          rfl
        show (pud_populate D pud new_pmd).mem p.frame p.idx = s.mem p.frame p.idx
        unfold pud_populate KvmState.wr
        simp only [hne, if_false]
        rw [fr p.frame p.idx (hnew new_pmd c1 hc) hold, hm]
    · simp only [Option.some.injEq, Prod.mk.injEq] at h
      rw [← h.1]
      refine ⟨⟨[], rfl, fun e he => absurd he (List.not_mem_nil e)⟩, fun p hp _ _ => ?_⟩
      have hne : ¬ (p.frame = pud.frame ∧ p.idx = pud.idx) := by
        rintro ⟨a, b⟩
        apply hp
        cases p; cases pud
        simp only at a b
        subst a b
        rfl
      show (s.wr pud _).mem p.frame p.idx = s.mem p.frame p.idx
      unfold KvmState.wr
      simp only [hne, if_false]
  refine ⟨fun a hf => ?_, key.2⟩
  obtain ⟨ks, e1, e2⟩ := key.1
  obtain ⟨evs, e3, e4⟩ := hf
  have heq : evs = ks := by
    have : evs ++ s.trace = ks ++ s.trace := by rw [← e3, e1]
    exact List.append_cancel_right this
  rw [heq] at e4
  exact absurd (e2 _ e4) (by simp)

/-- The invalidations that the code does issue: a store into a present leaf at the address
being processed is followed by the TLB invalidation for that address before the operation returns: the leaf store of
`stage2_set_pte` (unless the call ends in the `-EFAULT` exit without storing), an iteration
of `unmap_range`, and an iteration of `kvm_set_memslot_readonly` at a visible GFN;
`handle_coa_pte` and `handle_coa_pmd` end with the invalidation of the faulting address, and
for `handle_coa_pmd` that is the only invalidation; `handle_coa_pud` issues none and stores
only into the faulting top-level entry, the old pmd table and the pmd table taken from the
reserve, so it leaves every descriptor of another page as it was. -/
theorem tlb_invalidation_at_address :
    (∀ (s : KvmState) (c : Option kvm_mmu_memory_cache) (addr new : Nat) (iomap : Bool)
        (root : Nat) (s1 s2 t : KvmState) (c1 c2 cr : Option kvm_mmu_memory_cache) (r : Int),
      s.pgd = some root →
      stage2_pud_level s c addr (pud_offset root addr) = S2Step.cont s1 c1 →
      stage2_pmd_level s1 c1 addr (pmd_offset s1 (pud_offset root addr) addr)
        = S2Step.cont s2 c2 →
      pte_present (s2.rd (pte_offset_kernel s2 (pmd_offset s1 (pud_offset root addr) addr)
        addr)) →
      stage2_set_pte s c addr new iomap = some (t, cr, r) →
      (r = -EFAULT ∧ t = s2) ∨ (r = 0 ∧ flushed s t addr)) ∧
    (∀ (n : Nat) (s : KvmState) (pgdp addr end_ : Nat) (p : EntryPtr),
      addr < end_ → walk_from s pgdp addr = some p → pte_present (s.rd p) →
      flushed s (unmap_range_loop (n + 1) true s pgdp addr end_) addr) ∧
    (∀ (n : Nat) (s : KvmState) (pgdp addr end_ : Nat) (p : EntryPtr),
      addr < end_ → walk_from s pgdp addr = some p →
      s.visible_gfn (addr >>> PAGE_SHIFT) = true → pte_present (s.rd p) →
      flushed s (set_readonly_loop (n + 1) s pgdp addr end_) addr) ∧
    (∀ (s : KvmState) (addr old new : Nat) (iomap : Bool) (t : KvmState),
      handle_coa_pte s addr old new iomap = some t → flushed s t addr) ∧
    (∀ (s : KvmState) (c : Option kvm_mmu_memory_cache) (gpa : Nat) (pmd : EntryPtr)
        (t : KvmState) (cr : Option kvm_mmu_memory_cache),
      handle_coa_pmd s c gpa pmd = some (t, cr) →
      flushed s t gpa ∧ ∀ a, flushed s t a → a = gpa) ∧
    (∀ (s : KvmState) (c : Option kvm_mmu_memory_cache) (gpa : Nat) (pud : EntryPtr)
        (t : KvmState) (cr : Option kvm_mmu_memory_cache),
      handle_coa_pud s c gpa pud = some (t, cr) →
      (∀ a, ¬ flushed s t a) ∧
      ∀ p : EntryPtr, p ≠ pud → p.frame ≠ pud_to_pfn (s.rd pud) →
        (∀ f1 c0, mmu_memory_cache_alloc c = some (f1, c0) → p.frame ≠ f1) →
        t.rd p = s.rd p) := by
  refine ⟨?_, ?_, ?_, handle_coa_pte_flushed, handle_coa_pmd_flushed, handle_coa_pud_stores⟩
  · intro s c addr new iomap root s1 s2 t c1 c2 cr r hroot e1 e2 hp h
    have t1 := (stage2_pud_level_trace s c addr (pud_offset root addr)).1 s1 c1 e1
    have t2 := (stage2_pmd_level_trace s1 c1 addr
      (pmd_offset s1 (pud_offset root addr) addr)).1 s2 c2 e2
    unfold stage2_set_pte at h
    rw [hroot] at h
    dsimp only at h
    rw [e1] at h
    dsimp only at h
    rw [e2] at h
    dsimp only at h
    split at h
    · simp only [Option.some.injEq, Prod.mk.injEq] at h
      exact Or.inl ⟨h.2.2.symm, h.1.symm⟩
    · split at h
      · exact absurd h (by simp)
      · rename_i s3 hs3
        simp only [Option.some.injEq, Prod.mk.injEq] at h
        refine Or.inr ⟨h.2.2.symm, ?_⟩
        rw [← h.1]
        exact flushed_suffix_left (t1.trans t2)
          (stage2_pte_level_flushed s2 addr _ new iomap s3 hp hs3)
  · intro n s pgdp addr end_ p hlt hw hp
    unfold unmap_range_loop
    rw [if_pos hlt]
    exact flushed_suffix_right (unmap_range_step_flushed s pgdp addr end_ p hw hp)
      (unmap_range_loop_trace true pgdp end_ n _ _)
  · intro n s pgdp addr end_ p hlt hw hv hp
    unfold set_readonly_loop
    rw [if_pos hlt]
    have h0 : s.rd p ≠ 0 := by
      intro h0
      rw [h0] at hp
      exact hp (by decide)
    exact flushed_suffix_right (set_readonly_step_flushed s pgdp addr end_ p hw hv h0)
      (set_readonly_loop_trace pgdp end_ n _ _)

/-- The invalidation of `unmap_range` for the page of IPA 0x40001000 on the VM `ex_mapped`,
whose leaf there is present. -/
theorem tlb_invalidation_at_address_example :
    0x40001000 < 0x40001000 + 4096 ∧
    walk_from ex_mapped 16 0x40001000 = some ⟨48, 1⟩ ∧
    pte_present (ex_mapped.rd ⟨48, 1⟩) ∧
    flushed ex_mapped (unmap_range_loop (4095 + 1) true ex_mapped 16 0x40001000
      (0x40001000 + 4096)) 0x40001000 :=
  ⟨by decide, by decide, by decide,
    tlb_invalidation_at_address.2.1 4095 ex_mapped 16 0x40001000 (0x40001000 + 4096) ⟨48, 1⟩
      (by decide) (by decide) (by decide)⟩

/-- C29 (the code at a failing input): on the armed source VM `ex_pmd_armed` the leaf of IPA
0x40000000 is present (PFN 0x98).  `handle_coa_pmd` for the fault at IPA 0x40001000
duplicates the shared pte table and leaves the leaf of IPA 0x40000000 non-present; the only
TLB invalidation is the one for IPA 0x40001000.  The same holds for the whole
`stage2_set_pte` call.  And from the source VM `ex_source_two_leaves`, not armed yet and
with an empty trace, arming by `mark_s2_non_present` and the first touch of IPA 0x40001000
by `stage2_set_pte` make the present leaf of IPA 0x40000000 non-present without one
invalidation of IPA 0x40000000 in the whole run. -/
theorem C29_sibling_leaf_not_invalidated :
    walk_leaf (ex_pmd_armed [48]) 0x40000000 = some (0x98 * 4096 + 1151) ∧
    pte_present (0x98 * 4096 + 1151) ∧ ¬ pte_present (0x98 * 4096 + 1148) ∧
    (handle_coa_pmd (ex_pmd_armed [48]) (some { objects := [70, 71] }) 0x40001000 ⟨32, 0⟩).map
        (fun r => (walk_leaf r.1 0x40000000, r.1.trace))
      = some (some (0x98 * 4096 + 1148),
          [Event.tlb_flush_vmid_ipa 0x40001000, Event.kmalloc, Event.kmalloc]) ∧
    (stage2_set_pte (ex_pmd_armed [48]) (some { objects := [70, 71] }) 0x40001000
        (0x99 * 4096 + 1151) false).map
        (fun r => (r.2.2, walk_leaf r.1 0x40000000,
          decide (Event.tlb_flush_vmid_ipa 0x40000000 ∈ r.1.trace)))
      = some (0, some (0x98 * 4096 + 1148), false) ∧
    walk_leaf ex_source_two_leaves 0x40000000 = some (0x98 * 4096 + 1151) ∧
    ex_source_two_leaves.trace = [] ∧
    (mark_s2_non_present ex_source_two_leaves).map (fun t => t.trace)
      = some [Event.mmu_unlock, Event.kmalloc, Event.mmu_lock] ∧
    ((mark_s2_non_present ex_source_two_leaves).bind
        (fun t => stage2_set_pte t (some { objects := [70, 71] }) 0x40001000
          (0x99 * 4096 + 1151) false)).map
        (fun r => (r.2.2, walk_leaf r.1 0x40000000, walk_leaf r.1 0x40001000,
          decide (Event.tlb_flush_vmid_ipa 0x40000000 ∈ r.1.trace)))
      = some (0, some (0x98 * 4096 + 1148), some (0x99 * 4096 + 1151), false) := by
  refine ⟨by decide, by decide, by decide, ?_, ?_, by decide, rfl, ?_, ?_⟩
  · decide!
  · decide!
  · decide!
  · decide!

end S2Mmu
namespace S2Mmu

theorem hva_gfn_loop_eq {σ : Type} (handler : σ → Nat → σ) (gfn_end : Nat) :
    ∀ (fuel : Nat) (s : σ) (gfn : Nat), gfn_end - gfn ≤ fuel →
      hva_gfn_loop handler fuel s gfn gfn_end
        = ((List.range' gfn (gfn_end - gfn)).map
            (fun g => (g <<< PAGE_SHIFT) % 2 ^ 64)).foldl handler s := by
  intro fuel
  induction fuel with
  | zero =>
    intro s gfn h
    have h0 : gfn_end - gfn = 0 := by omega
    rw [h0]
    rfl
  | succ n ih =>
    intro s gfn h
    unfold hva_gfn_loop
    by_cases hlt : gfn < gfn_end
    · rw [if_pos hlt, ih _ _ (by omega)]
      have hs : gfn_end - gfn = (gfn_end - (gfn + 1)) + 1 := by omega
      rw [hs, List.range'_succ]
      rfl
    · rw [if_neg hlt]
      have h0 : gfn_end - gfn = 0 := by omega
      rw [h0]
      rfl

theorem filter_range_interval (P : Nat → Prop) [DecidablePred P] (k0 k1 : Nat) :
    ∀ n : Nat, (∀ k, k < n → (P k ↔ k0 ≤ k ∧ k < k1)) →
      (List.range n).filter (fun k => decide (P k)) = List.range' k0 (min n k1 - k0) := by
  intro n
  induction n with
  | zero =>
    intro _
    simp
  | succ n ih =>
    intro h
    rw [List.range_succ, List.filter_append, ih (fun k hk => h k (by omega))]
    by_cases hp : P n
    · have hb := (h n (by omega)).1 hp
      have e1 : min (n + 1) k1 - k0 = (min n k1 - k0) + 1 := by omega
      have e2 : k0 + (min n k1 - k0) = n := by omega
      rw [e1, List.range'_concat, Nat.one_mul, e2]
      simp [hp]
    · have hb : ¬ (k0 ≤ n ∧ n < k1) := fun hb => hp ((h n (by omega)).2 hb)
      have e1 : min (n + 1) k1 - k0 = min n k1 - k0 := by omega
      rw [e1]
      simp [hp]

/-- One memslot of `handle_hva_to_gpa`: the handler runs over the addresses of
`hva_range_gpas`, in order. -/
theorem handle_hva_to_gpa_slot_eq {σ : Type} (handler : σ → Nat → σ) (start end_ : Nat)
    (s : σ) (m : kvm_memory_slot)
    (hse : start < end_) (hend : end_ < 4294967296)
    (hal : m.userspace_addr % 4096 = 0)
    (htop : m.userspace_addr + m.npages * 4096 + 4096 ≤ 4294967296)
    (hgfn : m.base_gfn + m.npages ≤ 4503599627370496) :
    handle_hva_to_gpa_slot handler start end_ s m
      = (hva_range_gpas m start end_).foldl handler s := by
  have hshift : m.npages <<< PAGE_SHIFT = m.npages * 4096 := by
    simp [Nat.shiftLeft_eq]
  have hA : (m.userspace_addr + (m.npages <<< PAGE_SHIFT) % 2 ^ 32) % 2 ^ 32
      = m.userspace_addr + m.npages * 4096 := by
    rw [hshift]
    norm_num
    omega
  unfold handle_hva_to_gpa_slot
  dsimp only
  rw [hA]
  by_cases hge : max start m.userspace_addr ≥ min end_ (m.userspace_addr + m.npages * 4096)
  · rw [if_pos hge]
    have hnil : hva_range_gpas m start end_ = [] := by
      unfold hva_range_gpas
      rw [List.map_eq_nil_iff, List.filter_eq_nil_iff]
      intro k hk
      have hk' := List.mem_range.1 hk
      simp only [decide_eq_true_eq, hva_page_intersects, PAGE_SIZE]
      intro hi
      omega
    rw [hnil]
    rfl
  · rw [if_neg hge]
    have hS : m.userspace_addr ≤ max start m.userspace_addr := le_max_right _ _
    have hSlt : max start m.userspace_addr < 4294967296 := by omega
    have hE : min end_ (m.userspace_addr + m.npages * 4096)
        ≤ m.userspace_addr + m.npages * 4096 := min_le_right _ _
    generalize hSd : max start m.userspace_addr = S at hge hS hSlt
    generalize hEd : min end_ (m.userspace_addr + m.npages * 4096) = E at hge hE
    have g0 : hva_to_gfn_memslot S m = m.base_gfn + (S - m.userspace_addr) / 4096 := by
      unfold hva_to_gfn_memslot
      simp only [PAGE_SHIFT, Nat.shiftRight_eq_div_pow]
      have e1 : (S + 2 ^ 32 - m.userspace_addr) % 2 ^ 32 = S - m.userspace_addr := by
        norm_num
        omega
      rw [e1]
      norm_num
      omega
    have g1 : hva_to_gfn_memslot ((E + PAGE_SIZE - 1) % 2 ^ 32) m
        = m.base_gfn + (E + 4095 - m.userspace_addr) / 4096 := by
      unfold hva_to_gfn_memslot
      simp only [PAGE_SHIFT, PAGE_SIZE, Nat.shiftRight_eq_div_pow]
      have e0 : (E + 4096 - 1) % 2 ^ 32 = E + 4095 := by
        norm_num
        omega
      rw [e0]
      have e1 : (E + 4095 + 2 ^ 32 - m.userspace_addr) % 2 ^ 32
          = E + 4095 - m.userspace_addr := by
        norm_num
        omega
      rw [e1]
      norm_num
      omega
    rw [g0, g1, hva_gfn_loop_eq handler _ _ _ _ (le_refl _)]
    congr 1
    unfold hva_range_gpas
    have hfil := filter_range_interval (fun k => hva_page_intersects m start end_ k)
      ((S - m.userspace_addr) / 4096) ((E + 4095 - m.userspace_addr) / 4096) m.npages
      (by
        intro k hk
        simp only [hva_page_intersects, PAGE_SIZE]
        omega)
    rw [hfil]
    have hmin : min m.npages ((E + 4095 - m.userspace_addr) / 4096)
        = (E + 4095 - m.userspace_addr) / 4096 := by omega
    rw [hmin]
    have hlen : m.base_gfn + (E + 4095 - m.userspace_addr) / 4096
          - (m.base_gfn + (S - m.userspace_addr) / 4096)
        = (E + 4095 - m.userspace_addr) / 4096 - (S - m.userspace_addr) / 4096 := by omega
    rw [hlen]
    generalize (S - m.userspace_addr) / 4096 = k0
    have hk1 : (E + 4095 - m.userspace_addr) / 4096 ≤ m.npages := by omega
    generalize (E + 4095 - m.userspace_addr) / 4096 = k1 at hk1 ⊢
    apply List.ext_getElem
    · simp
    · intro i h1 h2
      simp only [List.length_map, List.length_range'] at h1 h2
      simp only [List.getElem_map, List.getElem_range', PAGE_SHIFT, Nat.shiftLeft_eq]
      norm_num
      have : (m.base_gfn + i + k0) * 4096 < 18446744073709551616 ∨ True := Or.inr trivial
      omega

end S2Mmu
namespace S2Mmu

theorem hva_range_gpas_mem (m : kvm_memory_slot) (start end_ gpa : Nat) :
    gpa ∈ hva_range_gpas m start end_ ↔
      ∃ gfn, m.base_gfn ≤ gfn ∧ gfn < m.base_gfn + m.npages ∧
        hva_page_intersects m start end_ (gfn - m.base_gfn) ∧ gpa = gfn <<< PAGE_SHIFT := by
  unfold hva_range_gpas
  simp only [List.mem_map, List.mem_filter, List.mem_range, decide_eq_true_eq]
  constructor
  · rintro ⟨k, ⟨hk, hi⟩, rfl⟩
    refine ⟨m.base_gfn + k, by omega, by omega, ?_, rfl⟩
    rw [Nat.add_sub_cancel_left]
    exact hi
  · rintro ⟨gfn, h1, h2, hi, rfl⟩
    refine ⟨gfn - m.base_gfn, ⟨by omega, hi⟩, ?_⟩
    congr 1
    omega

theorem hva_range_gpas_nodup (m : kvm_memory_slot) (start end_ : Nat) :
    (hva_range_gpas m start end_).Nodup := by
  unfold hva_range_gpas
  refine List.Nodup.map ?_ ((List.nodup_range _).filter _)
  intro a b h
  simp only [PAGE_SHIFT, Nat.shiftLeft_eq] at h
  omega

/-- C22: for a host range `[start, end_)` with `start < end_` and memslots with a
page-aligned user address that lie below the top page of the 32-bit address space (GFNs
below 2^52): `handle_hva_to_gpa` runs the handler over the memslots in order and, for each
memslot, over the addresses `gfn << PAGE_SHIFT` of exactly the GFNs of the memslot whose host
page intersects the range, each once, in ascending order; a memslot that does not overlap
the range contributes no call. -/
theorem C22_handle_hva_to_gpa {σ : Type} (handler : σ → Nat → σ)
    (slots : List kvm_memory_slot) (start end_ : Nat) (s : σ)
    (hse : start < end_) (hend : end_ < 2 ^ 32)
    (hslots : ∀ m, m ∈ slots → m.userspace_addr % PAGE_SIZE = 0 ∧
      m.userspace_addr + m.npages * PAGE_SIZE + PAGE_SIZE ≤ 2 ^ 32 ∧
      m.base_gfn + m.npages ≤ 2 ^ 52) :
    handle_hva_to_gpa slots start end_ handler s
      = ((slots.map (fun m => hva_range_gpas m start end_)).flatten).foldl handler s ∧
    (∀ m, m ∈ slots → (hva_range_gpas m start end_).Nodup ∧
      ∀ gpa, gpa ∈ hva_range_gpas m start end_ ↔
        ∃ gfn, m.base_gfn ≤ gfn ∧ gfn < m.base_gfn + m.npages ∧
          hva_page_intersects m start end_ (gfn - m.base_gfn) ∧
          gpa = gfn <<< PAGE_SHIFT) ∧
    (∀ m, m ∈ slots →
      (end_ ≤ m.userspace_addr ∨ m.userspace_addr + m.npages * PAGE_SIZE ≤ start) →
      hva_range_gpas m start end_ = []) := by
  refine ⟨?_, fun m _ => ⟨hva_range_gpas_nodup m start end_, hva_range_gpas_mem m start end_⟩,
    ?_⟩
  · unfold handle_hva_to_gpa
    induction slots generalizing s with
    | nil => rfl
    | cons m rest ih =>
      obtain ⟨a1, a2, a3⟩ := hslots m (List.mem_cons_self _ _)
      simp only [PAGE_SIZE] at a1 a2
      rw [List.foldl_cons, List.map_cons, List.flatten_cons, List.foldl_append,
        handle_hva_to_gpa_slot_eq handler start end_ s m hse (by norm_num at hend; exact hend)
          a1 a2 (by norm_num at a3; exact a3)]
      exact ih _ (fun m' hm' => hslots m' (List.mem_cons_of_mem _ hm'))
  · intro m _ hno
    unfold hva_range_gpas
    rw [List.map_eq_nil_iff, List.filter_eq_nil_iff]
    intro k hk
    have hk' := List.mem_range.1 hk
    simp only [decide_eq_true_eq, hva_page_intersects, PAGE_SIZE] at hno ⊢
    intro hi
    omega

/-- C22 (witness): the memslot `ex_slot` (GFNs 0x40000 to 0x4000f at host address
0x70000000) and the host range from 0x70001800 to 0x70003001, with a handler that records
its calls: the pages of GFN 0x40001, 0x40002 and 0x40003. -/
theorem C22_handle_hva_to_gpa_witness :
    handle_hva_to_gpa [ex_slot] 0x70001800 0x70003001 (fun (l : List Nat) g => l ++ [g]) []
      = (([ex_slot].map (fun m => hva_range_gpas m 0x70001800 0x70003001)).flatten).foldl
          (fun (l : List Nat) g => l ++ [g]) [] ∧
    (∀ m, m ∈ [ex_slot] → (hva_range_gpas m 0x70001800 0x70003001).Nodup ∧
      ∀ gpa, gpa ∈ hva_range_gpas m 0x70001800 0x70003001 ↔
        ∃ gfn, m.base_gfn ≤ gfn ∧ gfn < m.base_gfn + m.npages ∧
          hva_page_intersects m 0x70001800 0x70003001 (gfn - m.base_gfn) ∧
          gpa = gfn <<< PAGE_SHIFT) ∧
    (∀ m, m ∈ [ex_slot] →
      (0x70003001 ≤ m.userspace_addr ∨ m.userspace_addr + m.npages * PAGE_SIZE ≤ 0x70001800) →
      hva_range_gpas m 0x70001800 0x70003001 = []) :=
  C22_handle_hva_to_gpa (fun (l : List Nat) g => l ++ [g]) [ex_slot] 0x70001800 0x70003001 []
    (by decide) (by decide)
    (by
      intro m hm
      rw [List.mem_singleton.1 hm]
      decide)

end S2Mmu
namespace S2Mmu

theorem untraced_exists {s t : KvmState} (h : s.untraced = t.untraced) :
    ∃ tr, t = { s with trace := tr } := by
  cases s; cases t
  simp only [KvmState.untraced, KvmState.mk.injEq] at h
  obtain ⟨rfl, rfl, rfl, rfl, rfl, rfl, rfl, rfl, rfl, rfl, rfl, rfl, rfl, rfl, rfl, rfl, _⟩ := h
  exact ⟨_, rfl⟩

theorem untraced_set (s : KvmState) (tr : List Event) :
    s.untraced = ({ s with trace := tr } : KvmState).untraced := rfl

theorem add_shared_pfn_untr {s t : KvmState} (h : s.untraced = t.untraced) (p : Nat) :
    (add_shared_pfn s p).untraced = (add_shared_pfn t p).untraced := by
  obtain ⟨tr, rfl⟩ := untraced_exists h
  rfl

end S2Mmu
namespace S2Mmu

end S2Mmu
namespace S2Mmu

end S2Mmu
namespace S2Mmu

end S2Mmu
namespace S2Mmu

end S2Mmu
namespace S2Mmu

theorem pmd_addr_end_ul_page (va : Nat) (hva : va % 4096 = 0) (hlt : va < 2 ^ 32) :
    pmd_addr_end_ul va ((va + 4096) % 2 ^ 32) = (va + 4096) % 2 ^ 32 := by
  unfold pmd_addr_end_ul
  simp only [PMD_SIZE]
  split
  · rename_i h
    norm_num at h hlt ⊢
    omega
  · rfl

theorem pgd_addr_end_page (va : Nat) (hva : va % 4096 = 0) (hlt : va < 2 ^ 32) :
    pgd_addr_end va ((va + 4096) % 2 ^ 32) = (va + 4096) % 2 ^ 32 := by
  unfold pgd_addr_end
  simp only [PGDIR_SIZE]
  split
  · rename_i h
    norm_num at h hlt ⊢
    omega
  · rfl

theorem create_hyp_pte_mappings_loop_succ (n : Nat) (s : KvmState) (pmd : EntryPtr)
    (addr end_ pfn prot : Nat) :
    create_hyp_pte_mappings_loop (n + 1) s pmd addr end_ pfn prot
      = if (addr + PAGE_SIZE) % 2 ^ 32 ≠ end_ then
          create_hyp_pte_mappings_loop n
            (get_page (s.wr (pte_offset_kernel s pmd addr) (pfn_pte pfn prot))
              (pte_offset_kernel s pmd addr).frame) pmd ((addr + PAGE_SIZE) % 2 ^ 32) end_
            ((pfn + 1) % 2 ^ 32) prot
        else some (get_page (s.wr (pte_offset_kernel s pmd addr) (pfn_pte pfn prot))
          (pte_offset_kernel s pmd addr).frame) := rfl

theorem create_hyp_pmd_mappings_loop_succ (n : Nat) (s : KvmState) (pud : EntryPtr)
    (addr end_ pfn prot : Nat) :
    create_hyp_pmd_mappings_loop (n + 1) s pud addr end_ pfn prot
      = (create_hyp_pmd_mappings_iter s pud addr end_ pfn prot).bind fun r =>
          if r.2 ≠ 0 then some r
          else if pmd_addr_end_ul addr end_ ≠ end_ then
            create_hyp_pmd_mappings_loop n r.1 pud (pmd_addr_end_ul addr end_) end_
              ((pfn + ((pmd_addr_end_ul addr end_ + 2 ^ 32 - addr) % 2 ^ 32 >>> PAGE_SHIFT))
                % 2 ^ 32) prot
          else some (r.1, 0) := rfl

theorem create_hyp_mappings_loop_succ (n : Nat) (s : KvmState) (pgdp addr end_ pfn prot : Nat) :
    create_hyp_mappings_loop (n + 1) s pgdp addr end_ pfn prot
      = (create_hyp_mappings_iter s pgdp addr end_ pfn prot).bind fun r =>
          if r.2 ≠ 0 then some r
          else if pgd_addr_end addr end_ ≠ end_ then
            create_hyp_mappings_loop n r.1 pgdp (pgd_addr_end addr end_) end_
              ((pfn + ((pgd_addr_end addr end_ + 2 ^ 32 - addr) % 2 ^ 32 >>> PAGE_SHIFT))
                % 2 ^ 32) prot
          else some (r.1, 0) := rfl

theorem create_hyp_pte_one (s : KvmState) (pmd : EntryPtr) (va pfn prot : Nat) :
    create_hyp_pte_mappings s pmd va ((va + 4096) % 2 ^ 32) pfn prot
      = some (get_page (s.wr (pte_offset_kernel s pmd va) (pfn_pte pfn prot))
          (pte_offset_kernel s pmd va).frame) := by
  refine (create_hyp_pte_mappings_loop_succ 1048575 s pmd va _ pfn prot).trans ?_
  simp

theorem create_hyp_pmd_one (s : KvmState) (pud : EntryPtr) (va pfn prot : Nat)
    (hva : va % 4096 = 0) (hlt : va < 2 ^ 32) :
    create_hyp_pmd_mappings s pud va ((va + 4096) % 2 ^ 32) pfn prot
      = (create_hyp_pmd_mappings_iter s pud va ((va + 4096) % 2 ^ 32) pfn prot).bind fun r =>
          if r.2 ≠ 0 then some r else some (r.1, 0) := by
  refine (create_hyp_pmd_mappings_loop_succ 2048 s pud va _ pfn prot).trans ?_
  simp only [pmd_addr_end_ul_page va hva hlt, ne_eq, not_true_eq_false, if_false]

theorem create_hyp_mappings_one (s : KvmState) (root start end_ va pfn prot : Nat)
    (hstart : start / 4096 * 4096 = va) (hlt : va < 2 ^ 32)
    (hend : (end_ + 4096 - 1) % 2 ^ 32 / 4096 * 4096 = (va + 4096) % 2 ^ 32) :
    __create_hyp_mappings s root start end_ pfn prot
      = (create_hyp_mappings_iter s root va ((va + 4096) % 2 ^ 32) pfn prot).bind fun r =>
          if r.2 ≠ 0 then some r else some (r.1, 0) := by
  have hva : va % 4096 = 0 := by omega
  unfold __create_hyp_mappings
  simp only [PAGE_SIZE]
  rw [hstart, hend]
  refine (create_hyp_mappings_loop_succ 4 s root va _ pfn prot).trans ?_
  simp only [pgd_addr_end_page va hva hlt, ne_eq, not_true_eq_false, if_false]

end S2Mmu
namespace S2Mmu

theorem pud_offset_hyp (root va : Nat) (hlt : va < 2 ^ 32) :
    pud_offset root va = { frame := root, idx := va / 1073741824 } := by
  unfold pud_offset pgd_index
  simp only [PGDIR_SIZE]
  have h1 : va / 1073741824 / 512 = 0 := by norm_num at hlt; omega
  have h2 : va / 1073741824 % 512 = va / 1073741824 := by norm_num at hlt; omega
  rw [h1, h2]; rfl

theorem populate_not_sect (f : Nat) : ¬ pmd_sect ((f <<< 12) ||| 3) := by
  unfold pmd_sect
  simp only [PMD_TYPE_MASK, PMD_TYPE_SECT]
  rw [and3_eq_mod, shl12_or3]; omega

theorem populate_not_bad (f : Nat) : ¬ pud_bad ((f <<< 12) ||| 3) := by
  unfold pud_bad
  have h : (f * 4096 + 3).testBit 1 = true := by
    rw [Nat.testBit_to_div_mod]
    have : (f * 4096 + 3) / 2 % 2 = 1 := by omega
    simp [this]
  rw [shl12_or3, show (2 : Nat) = 2 ^ 1 from rfl, Nat.and_two_pow, h]
  decide

theorem zero_not_sect : ¬ pmd_sect 0 := by decide

theorem pud_to_pfn_tbl (f : Nat) (h : f < 268435456) : pud_to_pfn ((f <<< 12) ||| 3) = f :=
  pud_to_pfn_populate f h

theorem pmd_to_pfn_tbl (f : Nat) (h : f < 268435456) : pmd_to_pfn ((f <<< 12) ||| 3) = f :=
  pmd_to_pfn_populate f h

theorem get_free_page_cons (s : KvmState) (p : Nat) (rest : List (Option Nat))
    (h : s.page_alloc = some p :: rest) :
    get_free_page s = (some p, { s with
      page_alloc := rest
      mem := fun f i => if f = p then 0 else s.mem f i
      page_count := fun f => if f = p then 1 else s.page_count f
      page_data := fun f => if f = p then List.replicate PAGE_SIZE 0 else s.page_data f
      trace := Event.get_free_page :: s.trace }) := by
  unfold get_free_page
  rw [h]

theorem get_free_page_fail (s : KvmState) (h : ∀ p rest, s.page_alloc ≠ some p :: rest) :
    ∃ s1, get_free_page s = (none, s1) := by
  refine ⟨(get_free_page s).2, Prod.ext ?_ rfl⟩
  unfold get_free_page
  rcases hpa : s.page_alloc with _ | ⟨a, rest⟩
  · rfl
  · cases a with
    | none => rfl
    | some p => exact absurd hpa (h p rest)

theorem rd_pmd_populate (s : KvmState) (pmd : EntryPtr) (Q f : Nat) :
    (get_page (pmd_populate_kernel s pmd Q) f).rd pmd = (Q <<< 12) ||| 3 := by
  simp [get_page, pmd_populate_kernel, KvmState.wr, KvmState.rd]

theorem rd_pud_populate (s : KvmState) (pud : EntryPtr) (P f : Nat) :
    (get_page (pud_populate s pud P) f).rd pud = (P <<< 12) ||| 3 := by
  simp [get_page, pud_populate, KvmState.wr, KvmState.rd]

/-- The leaf store of `create_hyp_pte_mappings` for one page under a populated pmd entry. -/
theorem create_hyp_pmd_iter_present (s : KvmState) (P Q va pfn prot : Nat) (pud : EntryPtr)
    (hva : va % 4096 = 0) (hlt : va < 2 ^ 32) (hP : P < 268435456) (hQ : Q < 268435456)
    (h1 : s.rd pud = (P <<< 12) ||| 3)
    (h2 : s.mem P (va / 2097152 % 512) = (Q <<< 12) ||| 3) :
    create_hyp_pmd_mappings s pud va ((va + 4096) % 2 ^ 32) pfn prot
      = some (get_page (s.wr { frame := Q, idx := va / 4096 % 512 } (pfn_pte pfn prot)) Q, 0) := by
  have hpmd : s.rd { frame := P, idx := va / 2097152 % 512 } = (Q <<< 12) ||| 3 := h2
  rw [create_hyp_pmd_one s pud va pfn prot hva hlt]
  unfold create_hyp_pmd_mappings_iter
  simp only [pmd_offset, h1, pud_to_pfn_tbl P hP, pmd_index, PMD_SIZE, PTRS_PER_PMD,
    hpmd, populate_not_sect, populate_ne_zero, if_false, pmd_addr_end_ul_page va hva hlt,
    create_hyp_pte_one, pte_offset_kernel, pmd_to_pfn_tbl Q hQ, pte_index, PAGE_SIZE,
    PTRS_PER_PTE, Option.map_some', Option.some_bind, ne_eq, not_true_eq_false]

/-- One page under a pmd entry that is absent: a pte table is allocated first. -/
theorem create_hyp_pmd_iter_none (s : KvmState) (P va pfn prot : Nat) (pud : EntryPtr)
    (hva : va % 4096 = 0) (hlt : va < 2 ^ 32) (hP : P < 268435456)
    (h1 : s.rd pud = (P <<< 12) ||| 3)
    (h2 : s.mem P (va / 2097152 % 512) = 0)
    (hfr : ∀ p, some p ∈ s.page_alloc → p < 268435456)
    (t : KvmState) (hcall : create_hyp_pmd_mappings s pud va ((va + 4096) % 2 ^ 32) pfn prot
      = some (t, 0)) :
    ∃ Q rest, s.page_alloc = some Q :: rest ∧ t.page_alloc = rest ∧
      ∀ f i, t.mem f i =
        if f = Q ∧ i = va / 4096 % 512 then pfn_pte pfn prot
        else if f = P ∧ i = va / 2097152 % 512 then (Q <<< 12) ||| 3
        else if f = Q then 0 else s.mem f i := by
  have hpmd : s.rd { frame := P, idx := va / 2097152 % 512 } = 0 := h2
  rw [create_hyp_pmd_one s pud va pfn prot hva hlt] at hcall
  unfold create_hyp_pmd_mappings_iter at hcall
  simp only [pmd_offset, h1, pud_to_pfn_tbl P hP, pmd_index, PMD_SIZE, PTRS_PER_PMD,
    hpmd, zero_not_sect, if_false, if_true, pte_alloc_one_kernel] at hcall
  rcases hpa : s.page_alloc with _ | ⟨a, rest⟩
  · obtain ⟨s1, hf⟩ := get_free_page_fail s (by intro p r; rw [hpa]; exact List.noConfusion)
    rw [hf] at hcall
    simp at hcall
  · cases a with
    | none =>
      obtain ⟨s1, hf⟩ := get_free_page_fail s (by intro p r; rw [hpa]; simp)
      rw [hf] at hcall
      simp at hcall
    | some Q =>
      have hQ : Q < 268435456 := hfr Q (by rw [hpa]; simp)
      refine ⟨Q, rest, rfl, ?_⟩
      rw [get_free_page_cons s Q rest hpa] at hcall
      simp only [pmd_addr_end_ul_page va hva hlt, create_hyp_pte_one, pte_offset_kernel,
        Option.map_some', Option.some_bind, ne_eq, not_true_eq_false, if_false] at hcall
      simp only [rd_pmd_populate, pmd_to_pfn_tbl Q hQ, Option.some.injEq, Prod.mk.injEq,
        and_true] at hcall
      subst hcall
      refine ⟨rfl, fun f i => ?_⟩
      simp only [get_page, KvmState.wr, pmd_populate_kernel, pte_index, PAGE_SIZE, PTRS_PER_PTE,
        PAGE_SHIFT, PMD_TYPE_TABLE]

/-- `__create_hyp_mappings` for one page whose pmd and pte tables are there: only the leaf is
stored. -/
theorem hyp_map_present (s : KvmState) (root va pfn prot P Q start end_ : Nat)
    (hstart : start / 4096 * 4096 = va) (hlt : va < 2 ^ 32)
    (hend : (end_ + 4096 - 1) % 2 ^ 32 / 4096 * 4096 = (va + 4096) % 2 ^ 32)
    (hP : P < 268435456) (hQ : Q < 268435456)
    (h1 : s.mem root (va / 1073741824) = (P <<< 12) ||| 3)
    (h2 : s.mem P (va / 2097152 % 512) = (Q <<< 12) ||| 3)
    (t : KvmState) (hcall : __create_hyp_mappings s root start end_ pfn prot = some (t, 0)) :
    t.page_alloc = s.page_alloc ∧
      ∀ f i, t.mem f i = if f = Q ∧ i = va / 4096 % 512 then pfn_pte pfn prot else s.mem f i := by
  have hva : va % 4096 = 0 := by omega
  have hpud : s.rd { frame := root, idx := va / 1073741824 } = (P <<< 12) ||| 3 := h1
  rw [create_hyp_mappings_one s root start end_ va pfn prot hstart hlt hend] at hcall
  unfold create_hyp_mappings_iter at hcall
  simp only [pud_offset_hyp root va hlt, pud_none_or_clear_bad, hpud, populate_ne_zero,
    populate_not_bad, if_false, Bool.false_eq_true, pgd_addr_end_page va hva hlt,
    create_hyp_pmd_iter_present s P Q va pfn prot _ hva hlt hP hQ hpud h2,
    Option.some_bind, ne_eq, not_true_eq_false, Option.some.injEq, Prod.mk.injEq,
    and_true] at hcall
  subst hcall
  refine ⟨rfl, fun f i => ?_⟩
  simp only [get_page, KvmState.wr]

/-- `__create_hyp_mappings` for one page under a top-level entry whose pmd entry is absent:
one table is allocated. -/
theorem hyp_map_pmd_none (s : KvmState) (root va pfn prot P start end_ : Nat)
    (hstart : start / 4096 * 4096 = va) (hlt : va < 2 ^ 32)
    (hend : (end_ + 4096 - 1) % 2 ^ 32 / 4096 * 4096 = (va + 4096) % 2 ^ 32)
    (hP : P < 268435456)
    (h1 : s.mem root (va / 1073741824) = (P <<< 12) ||| 3)
    (h2 : s.mem P (va / 2097152 % 512) = 0)
    (hfr : ∀ p, some p ∈ s.page_alloc → p < 268435456)
    (t : KvmState) (hcall : __create_hyp_mappings s root start end_ pfn prot = some (t, 0)) :
    ∃ Q rest, s.page_alloc = some Q :: rest ∧ t.page_alloc = rest ∧
      ∀ f i, t.mem f i =
        if f = Q ∧ i = va / 4096 % 512 then pfn_pte pfn prot
        else if f = P ∧ i = va / 2097152 % 512 then (Q <<< 12) ||| 3
        else if f = Q then 0 else s.mem f i := by
  have hva : va % 4096 = 0 := by omega
  have hpud : s.rd { frame := root, idx := va / 1073741824 } = (P <<< 12) ||| 3 := h1
  rw [create_hyp_mappings_one s root start end_ va pfn prot hstart hlt hend] at hcall
  unfold create_hyp_mappings_iter at hcall
  simp only [pud_offset_hyp root va hlt, pud_none_or_clear_bad, hpud, populate_ne_zero,
    populate_not_bad, if_false, Bool.false_eq_true, pgd_addr_end_page va hva hlt] at hcall
  rcases hc : create_hyp_pmd_mappings s { frame := root, idx := va / 1073741824 } va
      ((va + 4096) % 2 ^ 32) pfn prot with _ | ⟨t1, r1⟩
  · rw [hc] at hcall; simp at hcall
  · rw [hc] at hcall
    simp only [Option.some_bind, ne_eq] at hcall
    have hr1 : r1 = 0 := by
      by_contra hne
      simp [hne] at hcall
    subst hr1
    simp only [not_true_eq_false, if_false, Option.some.injEq, Prod.mk.injEq, and_true] at hcall
    subst hcall
    exact create_hyp_pmd_iter_none s P va pfn prot _ hva hlt hP hpud h2 hfr t1 hc

/-- `__create_hyp_mappings` for one page under an absent top-level entry: a pmd table and a
pte table are allocated. -/
theorem hyp_map_pud_none (s : KvmState) (root va pfn prot start end_ : Nat)
    (hstart : start / 4096 * 4096 = va) (hlt : va < 2 ^ 32)
    (hend : (end_ + 4096 - 1) % 2 ^ 32 / 4096 * 4096 = (va + 4096) % 2 ^ 32)
    (h1 : s.mem root (va / 1073741824) = 0)
    (hfr : ∀ p, some p ∈ s.page_alloc → p < 268435456 ∧ p ≠ root)
    (t : KvmState) (hcall : __create_hyp_mappings s root start end_ pfn prot = some (t, 0)) :
    ∃ P Q rest, s.page_alloc = some P :: some Q :: rest ∧ t.page_alloc = rest ∧
      ∀ f i, t.mem f i =
        if f = Q ∧ i = va / 4096 % 512 then pfn_pte pfn prot
        else if f = P ∧ i = va / 2097152 % 512 then (Q <<< 12) ||| 3
        else if f = Q then 0
        else if f = root ∧ i = va / 1073741824 then (P <<< 12) ||| 3
        else if f = P then 0 else s.mem f i := by
  have hva : va % 4096 = 0 := by omega
  have hpud : s.rd { frame := root, idx := va / 1073741824 } = 0 := h1
  rw [create_hyp_mappings_one s root start end_ va pfn prot hstart hlt hend] at hcall
  unfold create_hyp_mappings_iter at hcall
  simp only [pud_offset_hyp root va hlt, pud_none_or_clear_bad, hpud, if_true,
    pgd_addr_end_page va hva hlt, pmd_alloc_one] at hcall
  rcases hpa : s.page_alloc with _ | ⟨a, rest0⟩
  · obtain ⟨s1, hf⟩ := get_free_page_fail s (by intro p r; rw [hpa]; exact List.noConfusion)
    rw [hf] at hcall
    simp at hcall
  · cases a with
    | none =>
      obtain ⟨s1, hf⟩ := get_free_page_fail s (by intro p r; rw [hpa]; simp)
      rw [hf] at hcall
      simp at hcall
    | some P =>
      obtain ⟨hP, hPr⟩ := hfr P (by rw [hpa]; simp)
      rw [get_free_page_cons s P rest0 hpa] at hcall
      simp only at hcall
      rcases hc : create_hyp_pmd_mappings
          (get_page (pud_populate { s with
            page_alloc := rest0
            mem := fun f i => if f = P then 0 else s.mem f i
            page_count := fun f => if f = P then 1 else s.page_count f
            page_data := fun f => if f = P then List.replicate PAGE_SIZE 0 else s.page_data f
            trace := Event.get_free_page :: s.trace } { frame := root, idx := va / 1073741824 } P)
            root)
          { frame := root, idx := va / 1073741824 } va
          ((va + 4096) % 2 ^ 32) pfn prot with _ | ⟨t1, r1⟩
      · rw [hc] at hcall; simp at hcall
      · rw [hc] at hcall
        simp only [Option.some_bind, ne_eq] at hcall
        have hr1 : r1 = 0 := by
          by_contra hne
          simp [hne] at hcall
        subst hr1
        simp only [not_true_eq_false, if_false, Option.some.injEq, Prod.mk.injEq,
          and_true] at hcall
        subst hcall
        obtain ⟨Q, rest, e1, e2, e3⟩ := create_hyp_pmd_iter_none _ P va pfn prot _ hva hlt hP
          (rd_pud_populate _ _ P root)
          (by simp only [get_page, pud_populate, KvmState.wr, hPr, false_and, if_false, if_true])
          (by
            intro p hp
            exact (hfr p (by rw [hpa]; exact List.mem_cons_of_mem _ hp)).1)
          t1 hc
        refine ⟨P, Q, rest, ?_, e2, fun f i => ?_⟩
        · have e1' : rest0 = some Q :: rest := e1
          rw [e1']
        · rw [e3 f i]
          simp only [get_page, pud_populate, KvmState.wr, PAGE_SHIFT, PMD_TYPE_TABLE]

end S2Mmu
namespace S2Mmu

theorem hyp_rep_frame {s t : KvmState} {root : Nat} {pm : Nat → Option Nat}
    {pt : Nat → Nat → Option Nat} {lf : Nat → Nat → Nat → Nat}
    (h : hyp_rep s root pm pt lf)
    (hroot : t.mem root = s.mem root)
    (hpm : ∀ i p, pm i = some p → t.mem p = s.mem p)
    (hpt : ∀ i j p q, pm i = some p → pt i j = some q → t.mem q = s.mem q) :
    hyp_rep t root pm pt lf := by
  obtain ⟨h1, h2, h3⟩ := h
  refine ⟨fun i hi => ?_, fun i p hp => ?_, fun i j p q hp hq => ?_⟩
  · rw [hroot]; exact h1 i hi
  · rw [hpm i p hp]; exact h2 i p hp
  · rw [hpt i j p q hp hq]; exact h3 i j p q hp hq

/-- The walk from the root of a tree given as data. -/
theorem hyp_rep_walk {s : KvmState} {root : Nat} {pm : Nat → Option Nat}
    {pt : Nat → Nat → Option Nat} {lf : Nat → Nat → Nat → Nat}
    (h : hyp_rep s root pm pt lf) (va : Nat) (hlt : va < 2 ^ 32) :
    (∀ p q, pm (va / 1073741824) = some p → pt (va / 1073741824) (va / 2097152 % 512) = some q →
      walk_from s root va = some { frame := q, idx := va / 4096 % 512 } ∧
        s.mem q (va / 4096 % 512)
          = lf (va / 1073741824) (va / 2097152 % 512) (va / 4096 % 512)) ∧
    (pm (va / 1073741824) = none → walk_from s root va = none) ∧
    (pt (va / 1073741824) (va / 2097152 % 512) = none → walk_from s root va = none) := by
  obtain ⟨h1, h2, h3⟩ := h
  have hi : va / 1073741824 < 4 := by norm_num at hlt; omega
  have e1 := h1 _ hi
  refine ⟨fun p q hp hq => ?_, fun hp => ?_, fun hq => ?_⟩
  · rw [hp] at e1
    simp only at e1
    have e2 := (h2 _ p hp).2 (va / 2097152 % 512)
    rw [hq] at e2
    simp only at e2
    obtain ⟨hql, e3⟩ := h3 _ _ p q hp hq
    refine ⟨?_, e3 _⟩
    unfold walk_from
    simp only [pud_offset_hyp root va hlt, KvmState.rd, e1, populate_ne_zero, pmd_offset,
      pud_to_pfn_tbl p (h2 _ p hp).1, pmd_index, PMD_SIZE, PTRS_PER_PMD, e2, if_false,
      pte_offset_kernel, pmd_to_pfn_tbl q hql, pte_index, PAGE_SIZE, PTRS_PER_PTE]
  · rw [hp] at e1
    simp only at e1
    unfold walk_from
    simp only [pud_offset_hyp root va hlt, KvmState.rd, e1, if_true]
  · unfold walk_from
    simp only [pud_offset_hyp root va hlt, KvmState.rd]
    rcases hp : pm (va / 1073741824) with _ | p
    · rw [hp] at e1
      simp only at e1
      simp only [e1, if_true]
    · rw [hp] at e1
      simp only at e1
      have e2 := (h2 _ p hp).2 (va / 2097152 % 512)
      rw [hq] at e2
      simp only at e2
      simp only [e1, populate_ne_zero, if_false, pmd_offset, pud_to_pfn_tbl p (h2 _ p hp).1,
        pmd_index, PMD_SIZE, PTRS_PER_PMD, KvmState.rd, e2, if_true]

end S2Mmu
namespace S2Mmu

/-- The first page mapped into a zeroed top-level table. -/
theorem hyp_map_first (s : KvmState) (root va pfn prot start end_ : Nat)
    (hstart : start / 4096 * 4096 = va) (hlt : va < 2 ^ 32)
    (hend : (end_ + 4096 - 1) % 2 ^ 32 / 4096 * 4096 = (va + 4096) % 2 ^ 32)
    (hz : ∀ i, i < 4 → s.mem root i = 0)
    (hfr : ∀ p, some p ∈ s.page_alloc → p < 268435456 ∧ p ≠ root)
    (hnd : s.page_alloc.reduceOption.Nodup)
    (t : KvmState) (hcall : __create_hyp_mappings s root start end_ pfn prot = some (t, 0)) :
    ∃ P Q rest, s.page_alloc = some P :: some Q :: rest ∧ t.page_alloc = rest ∧
      P ≠ root ∧ Q ≠ root ∧ P ≠ Q ∧
      hyp_rep t root (fun i => if i = va / 1073741824 then some P else none)
        (fun i j => if i = va / 1073741824 ∧ j = va / 2097152 % 512 then some Q else none)
        (fun i j k => if i = va / 1073741824 ∧ j = va / 2097152 % 512 ∧ k = va / 4096 % 512
          then pfn_pte pfn prot else 0) ∧
      ∀ f, f ≠ root → f ≠ P → f ≠ Q → t.mem f = s.mem f := by
  have hi : va / 1073741824 < 4 := by norm_num at hlt; omega
  obtain ⟨P, Q, rest, hpa, hrest, hm⟩ :=
    hyp_map_pud_none s root va pfn prot start end_ hstart hlt hend (hz _ hi) hfr t hcall
  obtain ⟨hP, hPr⟩ := hfr P (by rw [hpa]; simp)
  obtain ⟨hQ, hQr⟩ := hfr Q (by rw [hpa]; simp)
  have hPQ : P ≠ Q := by
    rw [hpa] at hnd
    simp only [List.reduceOption_cons_of_some, List.nodup_cons, List.mem_cons, not_or] at hnd
    exact hnd.1.1
  have hQP : Q ≠ P := fun e => hPQ e.symm
  have hrP : root ≠ P := fun e => hPr e.symm
  have hrQ : root ≠ Q := fun e => hQr e.symm
  refine ⟨P, Q, rest, hpa, hrest, hPr, hQr, hPQ, ⟨fun i hi => ?_, fun i p hp => ?_,
    fun i j p q hp hq => ?_⟩, fun f h1 h2 h3 => ?_⟩
  · rw [hm]
    by_cases h : i = va / 1073741824
    · simp [h, hrP, hrQ]
    · simp [h, hrP, hrQ, hz i hi]
  · by_cases h : i = va / 1073741824
    · simp only [h, if_true, Option.some.injEq] at hp
      subst hp
      refine ⟨hP, fun j => ?_⟩
      rw [hm]
      by_cases h' : j = va / 2097152 % 512
      · simp [h, h', hPQ]
      · simp [h, h', hPQ, hPr]
    · simp [h] at hp
  · by_cases h : i = va / 1073741824 ∧ j = va / 2097152 % 512
    · simp only [h, if_true, Option.some.injEq, and_self] at hq
      subst hq
      refine ⟨hQ, fun k => ?_⟩
      rw [hm]
      by_cases h' : k = va / 4096 % 512
      · simp [h, h']
      · simp [h, h', hQP]
    · simp [h] at hq
  · funext i
    rw [hm]
    simp [h1, h2, h3]

end S2Mmu
namespace S2Mmu

theorem hyp_rep_one {s : KvmState} {root iA jA kA P1 Q1 leaf : Nat}
    (h : hyp_rep s root (fun i => if i = iA then some P1 else none)
      (fun i j => if i = iA ∧ j = jA then some Q1 else none)
      (fun i j k => if i = iA ∧ j = jA ∧ k = kA then leaf else 0)) :
    (∀ i, i < 4 → s.mem root i = if i = iA then (P1 <<< 12) ||| 3 else 0) ∧
    P1 < 268435456 ∧ (∀ j, s.mem P1 j = if j = jA then (Q1 <<< 12) ||| 3 else 0) ∧
    Q1 < 268435456 ∧ (∀ k, s.mem Q1 k = if k = kA then leaf else 0) := by
  obtain ⟨h1, h2, h3⟩ := h
  have a2 := h2 iA P1 (by simp)
  have a3 := h3 iA jA P1 Q1 (by simp) (by simp)
  refine ⟨fun i hi => ?_, a2.1, fun j => ?_, a3.1, fun k => ?_⟩
  · rw [h1 i hi]
    by_cases h : i = iA <;> simp [h]
  · rw [a2.2 j]
    by_cases h : j = jA <;> simp [h]
  · rw [a3.2 k]
    by_cases h : k = kA <;> simp [h]

/-- A second page with the same leaf mapped into a tree that holds one page. -/
theorem hyp_map_second (s : KvmState) (root A T pfn prot start end_ P1 Q1 : Nat)
    (hstart : start / 4096 * 4096 = T) (hlt : T < 2 ^ 32)
    (hend : (end_ + 4096 - 1) % 2 ^ 32 / 4096 * 4096 = (T + 4096) % 2 ^ 32)
    (hrep : hyp_rep s root (fun i => if i = A / 1073741824 then some P1 else none)
      (fun i j => if i = A / 1073741824 ∧ j = A / 2097152 % 512 then some Q1 else none)
      (fun i j k => if i = A / 1073741824 ∧ j = A / 2097152 % 512 ∧ k = A / 4096 % 512
        then pfn_pte pfn prot else 0))
    (hPr : P1 ≠ root) (hQr : Q1 ≠ root) (hPQ : P1 ≠ Q1)
    (hfr : ∀ p, some p ∈ s.page_alloc → p < 268435456 ∧ p ≠ root ∧ p ≠ P1 ∧ p ≠ Q1)
    (hnd : s.page_alloc.reduceOption.Nodup)
    (t : KvmState) (hcall : __create_hyp_mappings s root start end_ pfn prot = some (t, 0)) :
    ∃ (P2 Q2 : Nat) (used : List Nat), s.page_alloc = used.map some ++ t.page_alloc ∧
      (P2 = P1 ∨ P2 ∈ used) ∧ (Q2 = Q1 ∨ Q2 ∈ used) ∧
      hyp_rep t root
        (fun i => if i = T / 1073741824 then some P2
          else if i = A / 1073741824 then some P1 else none)
        (fun i j => if i = T / 1073741824 ∧ j = T / 2097152 % 512 then some Q2
          else if i = A / 1073741824 ∧ j = A / 2097152 % 512 then some Q1 else none)
        (fun i j k =>
          if (i = T / 1073741824 ∧ j = T / 2097152 % 512 ∧ k = T / 4096 % 512) ∨
            (i = A / 1073741824 ∧ j = A / 2097152 % 512 ∧ k = A / 4096 % 512)
          then pfn_pte pfn prot else 0) ∧
      ∀ f, f ≠ root → f ≠ P1 → f ≠ Q1 → f ∉ used → t.mem f = s.mem f := by
  have hi : T / 1073741824 < 4 := by norm_num at hlt; omega
  obtain ⟨r1, hP1, r2, hQ1, r3⟩ := hyp_rep_one hrep
  have hrP : root ≠ P1 := fun e => hPr e.symm
  have hrQ : root ≠ Q1 := fun e => hQr e.symm
  have hQP : Q1 ≠ P1 := fun e => hPQ e.symm
  by_cases hiT : T / 1073741824 = A / 1073741824
  · have e1 : s.mem root (T / 1073741824) = (P1 <<< 12) ||| 3 := by
      rw [r1 _ hi]; simp [hiT]
    by_cases hjT : T / 2097152 % 512 = A / 2097152 % 512
    · -- the pte table is shared
      have e2 : s.mem P1 (T / 2097152 % 512) = (Q1 <<< 12) ||| 3 := by
        rw [r2]; simp [hjT]
      obtain ⟨hrest, hm⟩ := hyp_map_present s root T pfn prot P1 Q1 start end_ hstart hlt hend
        hP1 hQ1 e1 e2 t hcall
      refine ⟨P1, Q1, [], by simp [hrest], Or.inl rfl, Or.inl rfl,
        ⟨fun i hi => ?_, fun i p hp => ?_, fun i j p q hp hq => ?_⟩, fun f h1 h2 h3 _ => ?_⟩
      · rw [hm, r1 i hi]
        by_cases h : i = A / 1073741824 <;> simp [h, hiT, hrQ]
      · by_cases h : i = A / 1073741824
        · simp only [h, hiT, if_true, Option.some.injEq] at hp
          subst hp
          refine ⟨hP1, fun j => ?_⟩
          rw [hm, r2]
          by_cases h' : j = A / 2097152 % 512 <;> simp [h, h', hiT, hjT, hPQ]
        · simp [h, hiT] at hp
      · by_cases h : i = A / 1073741824 ∧ j = A / 2097152 % 512
        · simp only [h, hiT, hjT, if_true, Option.some.injEq, and_self] at hq
          subst hq
          refine ⟨hQ1, fun k => ?_⟩
          rw [hm, r3]
          by_cases h' : k = T / 4096 % 512
          · simp [h, h', hiT, hjT]
          · by_cases h'' : k = A / 4096 % 512 <;> simp [h, h', h'', hiT, hjT]
        · simp [h, hiT, hjT] at hq
      · funext i
        rw [hm]
        simp [h3]
    · -- the pmd table is shared
      have e2 : s.mem P1 (T / 2097152 % 512) = 0 := by
        rw [r2]; simp [hjT]
      obtain ⟨Q2, rest, hpa, hrest, hm⟩ := hyp_map_pmd_none s root T pfn prot P1 start end_
        hstart hlt hend hP1 e1 e2 (fun p hp => (hfr p hp).1) t hcall
      obtain ⟨hQ2, hQ2r, hQ2P, hQ2Q⟩ := hfr Q2 (by rw [hpa]; simp)
      have hrQ2 : root ≠ Q2 := fun e => hQ2r e.symm
      have hPQ2 : P1 ≠ Q2 := fun e => hQ2P e.symm
      have hQQ2 : Q1 ≠ Q2 := fun e => hQ2Q e.symm
      have hjne : ¬ (A / 2097152 % 512 = T / 2097152 % 512) := fun e => hjT e.symm
      refine ⟨P1, Q2, [Q2], by simp [hrest, hpa], Or.inl rfl, Or.inr (by simp),
        ⟨fun i hi => ?_, fun i p hp => ?_, fun i j p q hp hq => ?_⟩, fun f h1 h2 h3 h4 => ?_⟩
      · rw [hm, r1 i hi]
        by_cases h : i = A / 1073741824 <;> simp [h, hiT, hrQ2, hrP]
      · by_cases h : i = A / 1073741824
        · simp only [h, hiT, if_true, Option.some.injEq] at hp
          subst hp
          refine ⟨hP1, fun j => ?_⟩
          rw [hm, r2]
          by_cases h' : j = T / 2097152 % 512
          · simp [h, h', hiT, hPQ2]
          · by_cases h'' : j = A / 2097152 % 512 <;> simp [h, h', h'', hiT, hPQ2, hjne]
        · simp [h, hiT] at hp
      · by_cases h : i = A / 1073741824 ∧ j = T / 2097152 % 512
        · simp only [h, hiT, if_true, Option.some.injEq, and_self] at hq
          subst hq
          refine ⟨hQ2, fun k => ?_⟩
          rw [hm]
          by_cases h' : k = T / 4096 % 512
          · simp [h, h', hiT]
          · simp [h, h', hiT, hjT, hQ2P]
        · by_cases h2 : i = A / 1073741824 ∧ j = A / 2097152 % 512
          · obtain ⟨hi2, hj2⟩ := h2
            subst hi2 hj2
            simp only [hiT, hjne, and_false, if_false, if_true, Option.some.injEq,
              and_self] at hq
            subst hq
            refine ⟨hQ1, fun k => ?_⟩
            rw [hm, r3]
            by_cases h' : k = A / 4096 % 512 <;> simp [h', hiT, hjne, hQQ2, hQP]
          · simp [h, h2, hiT] at hq
      · funext i
        rw [hm]
        simp only [List.mem_singleton] at h4
        simp [h2, h4]
  · -- nothing is shared
    have e1 : s.mem root (T / 1073741824) = 0 := by
      rw [r1 _ hi]; simp [hiT]
    obtain ⟨P2, Q2, rest, hpa, hrest, hm⟩ := hyp_map_pud_none s root T pfn prot start end_
      hstart hlt hend e1 (fun p hp => ⟨(hfr p hp).1, (hfr p hp).2.1⟩) t hcall
    obtain ⟨hP2, hP2r, hP2P, hP2Q⟩ := hfr P2 (by rw [hpa]; simp)
    obtain ⟨hQ2, hQ2r, hQ2P, hQ2Q⟩ := hfr Q2 (by rw [hpa]; simp)
    have hP2Q2 : P2 ≠ Q2 := by
      rw [hpa] at hnd
      simp only [List.reduceOption_cons_of_some, List.nodup_cons, List.mem_cons, not_or] at hnd
      exact hnd.1.1
    have hQ2P2 : Q2 ≠ P2 := fun e => hP2Q2 e.symm
    have hrQ2 : root ≠ Q2 := fun e => hQ2r e.symm
    have hrP2 : root ≠ P2 := fun e => hP2r e.symm
    have hPQ2 : P1 ≠ Q2 := fun e => hQ2P e.symm
    have hQQ2 : Q1 ≠ Q2 := fun e => hQ2Q e.symm
    have hPP2 : P1 ≠ P2 := fun e => hP2P e.symm
    have hQP2 : Q1 ≠ P2 := fun e => hP2Q e.symm
    have hiA : ¬ (A / 1073741824 = T / 1073741824) := fun e => hiT e.symm
    refine ⟨P2, Q2, [P2, Q2], by simp [hrest, hpa], Or.inr (by simp), Or.inr (by simp),
      ⟨fun i hi => ?_, fun i p hp => ?_, fun i j p q hp hq => ?_⟩, fun f h1 h2 h3 h4 => ?_⟩
    · rw [hm, r1 i hi]
      by_cases h : i = T / 1073741824
      · simp [h, hiT, hrQ2, hrP2]
      · by_cases h' : i = A / 1073741824 <;> simp [h, h', hrQ2, hrP2, hiA]
    · by_cases h : i = T / 1073741824
      · simp only [h, if_true, Option.some.injEq] at hp
        subst hp
        refine ⟨hP2, fun j => ?_⟩
        rw [hm]
        by_cases h' : j = T / 2097152 % 512
        · simp [h, h', hP2Q2]
        · simp [h, h', hiT, hP2Q2, hP2r]
      · by_cases h' : i = A / 1073741824
        · simp only [h, h', hiA, if_false, if_true, Option.some.injEq] at hp
          subst hp
          refine ⟨hP1, fun j => ?_⟩
          rw [hm, r2]
          by_cases h'' : j = A / 2097152 % 512 <;> simp [h', h'', hiA, hPQ2, hPP2, hPr]
        · simp [h, h'] at hp
    · by_cases h : i = T / 1073741824 ∧ j = T / 2097152 % 512
      · simp only [h, if_true, Option.some.injEq, and_self] at hq
        subst hq
        refine ⟨hQ2, fun k => ?_⟩
        rw [hm]
        by_cases h' : k = T / 4096 % 512
        · simp [h, h']
        · simp [h, h', hiT, hQ2P2]
      · by_cases h2 : i = A / 1073741824 ∧ j = A / 2097152 % 512
        · obtain ⟨hi2, hj2⟩ := h2
          subst hi2 hj2
          simp only [hiA, false_and, if_false, if_true, Option.some.injEq, and_self] at hq
          subst hq
          refine ⟨hQ1, fun k => ?_⟩
          rw [hm, r3]
          by_cases h' : k = A / 4096 % 512 <;> simp [h', hiA, hQQ2, hQP, hQP2, hQr]
        · simp [h, h2] at hq
    · funext i
      rw [hm]
      simp only [List.mem_cons, List.mem_singleton, not_or, List.not_mem_nil, or_false] at h4
      simp [h1, h4.1, h4.2]

end S2Mmu
namespace S2Mmu

theorem alloc_split_cons {L rest : List (Option Nat)} {x : Nat} (h : L = some x :: rest)
    (hnd : L.reduceOption.Nodup) :
    rest.reduceOption.Nodup ∧ (∀ p, some p ∈ rest → p ≠ x) ∧ (∀ p, some p ∈ rest → some p ∈ L) := by
  subst h
  rw [List.reduceOption_cons_of_some, List.nodup_cons] at hnd
  refine ⟨hnd.2, fun p hp e => ?_, fun p hp => List.mem_cons_of_mem _ hp⟩
  subst e
  exact hnd.1 (List.reduceOption_mem_iff.mpr hp)

theorem reduceOption_map_some (l : List Nat) : (l.map some).reduceOption = l := by
  induction l with
  | nil => rfl
  | cons a l ih => rw [List.map_cons, List.reduceOption_cons_of_some, ih]

theorem alloc_split_append {L rest : List (Option Nat)} {used : List Nat}
    (h : L = used.map some ++ rest) (hnd : L.reduceOption.Nodup) :
    rest.reduceOption.Nodup ∧ (∀ p, some p ∈ rest → p ∉ used) ∧
      (∀ p, some p ∈ rest → some p ∈ L) ∧ (∀ p, p ∈ used → some p ∈ L) := by
  subst h
  rw [List.reduceOption_append, reduceOption_map_some, List.nodup_append] at hnd
  refine ⟨hnd.2.1, fun p hp hu => ?_, fun p hp => List.mem_append_right _ hp,
    fun p hp => List.mem_append_left _ (List.mem_map_of_mem _ hp)⟩
  exact hnd.2.2 hu (List.reduceOption_mem_iff.mpr hp)

theorem kzalloc_pgd_some (s sa : KvmState) (R : Nat) (h : kzalloc_pgd s = (some R, sa)) :
    ∃ rest, s.page_alloc = some R :: rest ∧ sa.page_alloc = rest ∧
      ∀ f i, sa.mem f i = if f = R ∧ i < 4 then 0 else s.mem f i := by
  unfold kzalloc_pgd at h
  rcases hpa : s.page_alloc with _ | ⟨a, rest⟩
  · rw [hpa] at h; simp at h
  · cases a with
    | none => rw [hpa] at h; simp at h
    | some p =>
      rw [hpa] at h
      simp only [Prod.mk.injEq, Option.some.injEq] at h
      obtain ⟨e1, e2⟩ := h
      subst e1 e2
      exact ⟨rest, rfl, rfl, fun f i => rfl⟩

theorem kvm_mmu_init_out_ne (env : HypEnv) (s t : KvmState) (h h1 : HypState) (err : Int)
    (herr : err ≠ 0) : kvm_mmu_init_out env s h err ≠ some (t, h1, 0) := by
  unfold kvm_mmu_init_out
  intro e
  rcases hf : free_hyp_pgds env s h with _ | r
  · rw [hf] at e; simp at e
  · rw [hf] at e
    simp only [Option.map_some', Option.some.injEq, Prod.mk.injEq] at e
    exact herr e.2.2

end S2Mmu
namespace S2Mmu

theorem kvm_mmu_init_pgds_spec (env : HypEnv) (s t : KvmState) (h h1 : HypState) (A T : Nat)
    (hA : h.hyp_idmap_start / 4096 * 4096 = A) (hAlt : A < 2 ^ 32)
    (hend : (h.hyp_idmap_end + 4096 - 1) % 2 ^ 32 / 4096 * 4096 = (A + 4096) % 2 ^ 32)
    (hT : env.TRAMPOLINE_VA = T) (hTa : T % 4096 = 0) (hTlt : T < 2 ^ 32)
    (hfr : ∀ p, some p ∈ s.page_alloc → p < 268435456)
    (hnd : s.page_alloc.reduceOption.Nodup)
    (hret : kvm_mmu_init_pgds env s h = some (t, h1, 0)) :
    ∃ run boot P1 Q1 P2 Q2 P3 Q3,
      h1 = { h with hyp_pgd := some run, boot_hyp_pgd := some boot } ∧
      hyp_rep t boot
        (fun i => if i = T / 1073741824 then some P2
          else if i = A / 1073741824 then some P1 else none)
        (fun i j => if i = T / 1073741824 ∧ j = T / 2097152 % 512 then some Q2
          else if i = A / 1073741824 ∧ j = A / 2097152 % 512 then some Q1 else none)
        (fun i j k =>
          if (i = T / 1073741824 ∧ j = T / 2097152 % 512 ∧ k = T / 4096 % 512) ∨
            (i = A / 1073741824 ∧ j = A / 2097152 % 512 ∧ k = A / 4096 % 512)
          then pfn_pte (h.hyp_idmap_start >>> 12) env.PAGE_HYP else 0) ∧
      hyp_rep t run (fun i => if i = T / 1073741824 then some P3 else none)
        (fun i j => if i = T / 1073741824 ∧ j = T / 2097152 % 512 then some Q3 else none)
        (fun i j k => if i = T / 1073741824 ∧ j = T / 2097152 % 512 ∧ k = T / 4096 % 512
          then pfn_pte (h.hyp_idmap_start >>> 12) env.PAGE_HYP else 0) := by
  have hTs : T / 4096 * 4096 = T := by omega
  have hTe : ((T + 4096) % 2 ^ 32 + 4096 - 1) % 2 ^ 32 / 4096 * 4096 = (T + 4096) % 2 ^ 32 := by
    norm_num at hTlt ⊢
    omega
  unfold kvm_mmu_init_pgds at hret
  simp only [PAGE_SIZE, PAGE_SHIFT, hT] at hret
  rcases ha : kzalloc_pgd s with ⟨_ | R, sa⟩
  · rw [ha] at hret
    simp only at hret
    exact absurd hret (kvm_mmu_init_out_ne _ _ _ _ _ _ (by decide))
  rw [ha] at hret
  simp only at hret
  rcases hb : kzalloc_pgd sa with ⟨_ | B, sb⟩
  · rw [hb] at hret
    simp only at hret
    exact absurd hret (kvm_mmu_init_out_ne _ _ _ _ _ _ (by decide))
  rw [hb] at hret
  simp only at hret
  -- the two top-level tables
  obtain ⟨La, hL0, hLa, hma⟩ := kzalloc_pgd_some s sa R ha
  obtain ⟨Lb, hLa', hLb, hmb⟩ := kzalloc_pgd_some sa sb B hb
  rw [hLa] at hLa'
  obtain ⟨hndA, hRa, hsubA⟩ := alloc_split_cons hL0 hnd
  obtain ⟨hndB, hBb, hsubB⟩ := alloc_split_cons hLa' hndA
  have hBR : B ≠ R := hRa B (by rw [hLa']; simp)
  -- the identity page in the boot tree
  rcases hc1 : __create_hyp_mappings sb B h.hyp_idmap_start h.hyp_idmap_end
      (h.hyp_idmap_start >>> 12) env.PAGE_HYP with _ | ⟨s1, e1⟩
  · rw [hc1] at hret; simp at hret
  rw [hc1] at hret
  simp only at hret
  by_cases he1 : e1 = 0
  swap
  · rw [if_pos he1] at hret
    exact absurd hret (kvm_mmu_init_out_ne _ _ _ _ _ _ he1)
  subst he1
  simp only [ne_eq, not_true_eq_false, if_false] at hret
  obtain ⟨P1, Q1, L1, hLb1, hL1, hP1B, hQ1B, hP1Q1, hrep1, hfr1⟩ :=
    hyp_map_first sb B A (h.hyp_idmap_start >>> 12) env.PAGE_HYP h.hyp_idmap_start
      h.hyp_idmap_end hA hAlt hend
      (fun i hi => by rw [hmb]; simp [hi])
      (fun p hp => by
        rw [hLb] at hp
        exact ⟨hfr p (hsubA p (hsubB p hp)), hBb p hp⟩)
      (by rw [hLb]; exact hndB) s1 hc1
  rw [hLb] at hLb1
  obtain ⟨hndP, hP1b, hsubP⟩ := alloc_split_cons hLb1 hndB
  obtain ⟨hnd1, hQ1b, hsubQ⟩ := alloc_split_cons rfl hndP
  have hsub1 : ∀ p, some p ∈ L1 → some p ∈ Lb := fun p hp => hsubP p (hsubQ p hp)
  have hP1R : P1 ≠ R := hRa P1 (hsubB P1 (by rw [hLb1]; simp))
  have hQ1R : Q1 ≠ R := hRa Q1 (hsubB Q1 (by rw [hLb1]; simp))
  -- the trampoline page in the boot tree
  rcases hc2 : __create_hyp_mappings s1 B T ((T + 4096) % 2 ^ 32)
      (h.hyp_idmap_start >>> 12) env.PAGE_HYP with _ | ⟨s2, e2⟩
  · rw [hc2] at hret; simp at hret
  rw [hc2] at hret
  simp only at hret
  by_cases he2 : e2 = 0
  swap
  · rw [if_pos he2] at hret
    exact absurd hret (kvm_mmu_init_out_ne _ _ _ _ _ _ he2)
  subst he2
  simp only [ne_eq, not_true_eq_false, if_false] at hret
  obtain ⟨P2, Q2, used, hL1u, hP2, hQ2, hrep2, hfr2⟩ :=
    hyp_map_second s1 B A T (h.hyp_idmap_start >>> 12) env.PAGE_HYP T ((T + 4096) % 2 ^ 32)
      P1 Q1 hTs hTlt hTe hrep1 hP1B hQ1B hP1Q1
      (fun p hp => by
        rw [hL1] at hp
        exact ⟨hfr p (hsubA p (hsubB p (hsub1 p hp))), hBb p (hsub1 p hp),
          hP1b p (hsubQ p hp), hQ1b p hp⟩)
      (by rw [hL1]; exact hnd1) s2 hc2
  rw [hL1] at hL1u
  obtain ⟨hnd2, hus, hsub2, hsubU⟩ := alloc_split_append hL1u hnd1
  -- the trampoline page in the runtime tree
  rcases hc3 : __create_hyp_mappings s2 R T ((T + 4096) % 2 ^ 32)
      (h.hyp_idmap_start >>> 12) env.PAGE_HYP with _ | ⟨s3, e3⟩
  · rw [hc3] at hret; simp at hret
  rw [hc3] at hret
  simp only at hret
  by_cases he3 : e3 = 0
  swap
  · rw [if_pos he3] at hret
    exact absurd hret (kvm_mmu_init_out_ne _ _ _ _ _ _ he3)
  subst he3
  simp only [ne_eq, not_true_eq_false, if_false, Option.some.injEq, Prod.mk.injEq,
    and_true] at hret
  obtain ⟨hst, hh1⟩ := hret
  subst hst
  have hRu : R ∉ used := fun hu => hRa R (hsubB R (hsub1 R (hsubU R hu))) rfl
  have hRB : R ≠ B := fun e => hBR e.symm
  have hRP1 : R ≠ P1 := fun e => hP1R e.symm
  have hRQ1 : R ≠ Q1 := fun e => hQ1R e.symm
  obtain ⟨P3, Q3, L3, hL2, hL3, hP3R, hQ3R, hP3Q3, hrep3, hfr3⟩ :=
    hyp_map_first s2 R T (h.hyp_idmap_start >>> 12) env.PAGE_HYP T ((T + 4096) % 2 ^ 32)
      hTs hTlt hTe
      (fun i hi => by
        rw [hfr2 R hRB hRP1 hRQ1 hRu, hfr1 R hRB hRP1 hRQ1, hmb, hma]
        simp [hi])
      (fun p hp => ⟨hfr p (hsubA p (hsubB p (hsub1 p (hsub2 p hp)))),
        hRa p (hsubB p (hsub1 p (hsub2 p hp)))⟩)
      hnd2 s3 hc3
  have hP3m : some P3 ∈ s2.page_alloc := by rw [hL2]; simp
  have hQ3m : some Q3 ∈ s2.page_alloc := by rw [hL2]; simp
  have key : ∀ f, (f = B ∨ f = P1 ∨ f = Q1 ∨ f ∈ used) → s3.mem f = s2.mem f := by
    intro f hf
    apply hfr3 f
    · rcases hf with e | e | e | e
      · rw [e]; exact hBR
      · rw [e]; exact hP1R
      · rw [e]; exact hQ1R
      · intro e'; rw [e'] at e; exact hRu e
    · rcases hf with e | e | e | e
      · rw [e]; exact fun e' => hBb P3 (hsub1 P3 (hsub2 P3 hP3m)) e'.symm
      · rw [e]; exact fun e' => hP1b P3 (hsubQ P3 (hsub2 P3 hP3m)) e'.symm
      · rw [e]; exact fun e' => hQ1b P3 (hsub2 P3 hP3m) e'.symm
      · intro e'; rw [e'] at e; exact hus P3 hP3m e
    · rcases hf with e | e | e | e
      · rw [e]; exact fun e' => hBb Q3 (hsub1 Q3 (hsub2 Q3 hQ3m)) e'.symm
      · rw [e]; exact fun e' => hP1b Q3 (hsubQ Q3 (hsub2 Q3 hQ3m)) e'.symm
      · rw [e]; exact fun e' => hQ1b Q3 (hsub2 Q3 hQ3m) e'.symm
      · intro e'; rw [e'] at e; exact hus Q3 hQ3m e
  refine ⟨R, B, P1, Q1, P2, Q2, P3, Q3, hh1.symm, ?_, hrep3⟩
  refine hyp_rep_frame hrep2 (key B (Or.inl rfl)) (fun i p hp => ?_) (fun i j p q _ hq => ?_)
  · apply key
    by_cases hi : i = T / 1073741824
    · simp only [hi, if_true, Option.some.injEq] at hp
      subst hp
      rcases hP2 with e | e
      · exact Or.inr (Or.inl e)
      · exact Or.inr (Or.inr (Or.inr e))
    · by_cases hi' : i = A / 1073741824
      · subst hi'
        simp only [hi, if_false, if_true, Option.some.injEq] at hp
        exact Or.inr (Or.inl hp.symm)
      · simp [hi, hi'] at hp
  · apply key
    by_cases hi : i = T / 1073741824 ∧ j = T / 2097152 % 512
    · simp only [hi, if_true, Option.some.injEq, and_self] at hq
      subst hq
      rcases hQ2 with e | e
      · exact Or.inr (Or.inr (Or.inl e))
      · exact Or.inr (Or.inr (Or.inr e))
    · by_cases hi' : i = A / 1073741824 ∧ j = A / 2097152 % 512
      · obtain ⟨a, b⟩ := hi'
        subst a b
        simp only [hi, if_false, if_true, Option.some.injEq, and_self] at hq
        exact Or.inr (Or.inr (Or.inl hq.symm))
      · simp [hi, hi'] at hq

end S2Mmu
namespace S2Mmu

theorem xor_same_page (a b : Nat) (h : (a ^^^ b) / 4096 * 4096 = 0) : a / 4096 = b / 4096 := by
  have h0 : (a ^^^ b) / 4096 = 0 := by omega
  have h1 : (a ^^^ b) >>> 12 = (a >>> 12) ^^^ (b >>> 12) := by
    apply Nat.eq_of_testBit_eq
    intro i
    simp only [Nat.testBit_shiftRight, Nat.testBit_xor]
  rw [Nat.shiftRight_eq_div_pow, Nat.shiftRight_eq_div_pow, Nat.shiftRight_eq_div_pow] at h1
  norm_num at h1
  rw [h0] at h1
  exact Nat.xor_eq_zero.mp h1.symm

theorem hyp_idx_iff (va x : Nat) :
    (va / 1073741824 = x / 1073741824 ∧ va / 2097152 % 512 = x / 2097152 % 512 ∧
      va / 4096 % 512 = x / 4096 % 512) ↔ va / 4096 = x / 4096 := by
  constructor
  · rintro ⟨a, b, c⟩; omega
  · intro a; omega

theorem pfn_pte_present (f prot : Nat) (h : pte_present prot) : pte_present (pfn_pte f prot) := by
  rw [pte_present_iff] at h ⊢
  unfold pfn_pte
  simp only [PAGE_SHIFT]
  have e : (f <<< 12 ||| prot) &&& 3 = prot &&& 3 := by
    rw [Nat.and_distrib_right]
    have z : f <<< 12 &&& 3 = 0 := by
      rw [and3_eq_mod, Nat.shiftLeft_eq]; omega
    rw [z, Nat.zero_or]
  rw [and3_eq_mod, and3_eq_mod] at e
  omega

/-- The leaves that a tree with the pages of `T` and `A` holds. -/
theorem hyp_rep_two_lookup {t : KvmState} {boot A T P1 Q1 P2 Q2 leaf : Nat}
    (hrep : hyp_rep t boot
      (fun i => if i = T / 1073741824 then some P2
        else if i = A / 1073741824 then some P1 else none)
      (fun i j => if i = T / 1073741824 ∧ j = T / 2097152 % 512 then some Q2
        else if i = A / 1073741824 ∧ j = A / 2097152 % 512 then some Q1 else none)
      (fun i j k =>
        if (i = T / 1073741824 ∧ j = T / 2097152 % 512 ∧ k = T / 4096 % 512) ∨
          (i = A / 1073741824 ∧ j = A / 2097152 % 512 ∧ k = A / 4096 % 512)
        then leaf else 0))
    (va : Nat) (hva : va < 2 ^ 32) :
    ((va / 4096 = T / 4096 ∨ va / 4096 = A / 4096) →
      ∃ p, walk_from t boot va = some p ∧ t.rd p = leaf) ∧
    (¬ (va / 4096 = T / 4096 ∨ va / 4096 = A / 4096) →
      ∀ p, walk_from t boot va = some p → t.rd p = 0) := by
  obtain ⟨w1, w2, w3⟩ := hyp_rep_walk hrep va hva
  have hidx : (va / 4096 = T / 4096 ∨ va / 4096 = A / 4096) ↔
      ((va / 1073741824 = T / 1073741824 ∧ va / 2097152 % 512 = T / 2097152 % 512 ∧
        va / 4096 % 512 = T / 4096 % 512) ∨
      (va / 1073741824 = A / 1073741824 ∧ va / 2097152 % 512 = A / 2097152 % 512 ∧
        va / 4096 % 512 = A / 4096 % 512)) := by
    rw [hyp_idx_iff, hyp_idx_iff]
  rw [hidx]
  by_cases hp : (if va / 1073741824 = T / 1073741824 then some P2
      else if va / 1073741824 = A / 1073741824 then some P1 else none) = none
  · have wn := w2 hp
    refine ⟨fun hm => ?_, fun _ p hw => ?_⟩
    · exfalso
      rcases hm with ⟨a, _, _⟩ | ⟨a, _, _⟩
      · rw [if_pos a] at hp; exact absurd hp (by simp)
      · by_cases a' : va / 1073741824 = T / 1073741824
        · rw [if_pos a'] at hp; exact absurd hp (by simp)
        · rw [if_neg a', if_pos a] at hp; exact absurd hp (by simp)
    · rw [wn] at hw; exact absurd hw (by simp)
  · by_cases hq : (if va / 1073741824 = T / 1073741824 ∧ va / 2097152 % 512 = T / 2097152 % 512
        then some Q2
        else if va / 1073741824 = A / 1073741824 ∧ va / 2097152 % 512 = A / 2097152 % 512
        then some Q1 else none) = none
    · have wn := w3 hq
      refine ⟨fun hm => ?_, fun _ p hw => ?_⟩
      · exfalso
        rcases hm with ⟨a, b, _⟩ | ⟨a, b, _⟩
        · rw [if_pos ⟨a, b⟩] at hq; exact absurd hq (by simp)
        · by_cases a' : va / 1073741824 = T / 1073741824 ∧
              va / 2097152 % 512 = T / 2097152 % 512
          · rw [if_pos a'] at hq; exact absurd hq (by simp)
          · rw [if_neg a', if_pos ⟨a, b⟩] at hq; exact absurd hq (by simp)
      · rw [wn] at hw; exact absurd hw (by simp)
    · obtain ⟨p, hp'⟩ := Option.ne_none_iff_exists'.mp hp
      obtain ⟨q, hq'⟩ := Option.ne_none_iff_exists'.mp hq
      obtain ⟨ww, wl⟩ := w1 p q hp' hq'
      refine ⟨fun hm => ⟨_, ww, ?_⟩, fun hm p' hw => ?_⟩
      · show t.mem q (va / 4096 % 512) = leaf
        rw [wl, if_pos hm]
      · rw [ww] at hw
        simp only [Option.some.injEq] at hw
        subst hw
        show t.mem q (va / 4096 % 512) = 0
        rw [wl, if_neg hm]

/-- The leaves that a tree with the page of `T` holds. -/
theorem hyp_rep_one_lookup {t : KvmState} {run T P3 Q3 leaf : Nat}
    (hrep : hyp_rep t run (fun i => if i = T / 1073741824 then some P3 else none)
      (fun i j => if i = T / 1073741824 ∧ j = T / 2097152 % 512 then some Q3 else none)
      (fun i j k => if i = T / 1073741824 ∧ j = T / 2097152 % 512 ∧ k = T / 4096 % 512
        then leaf else 0))
    (hT : T < 2 ^ 32) :
    ∃ p, walk_from t run T = some p ∧ t.rd p = leaf := by
  obtain ⟨w1, _, _⟩ := hyp_rep_walk hrep T hT
  obtain ⟨ww, wl⟩ := w1 P3 Q3 (by simp) (by simp)
  refine ⟨_, ww, ?_⟩
  show t.mem Q3 (T / 4096 % 512) = leaf
  rw [wl]; simp

end S2Mmu
namespace S2Mmu

/-- The mappings after the second half of `kvm_mmu_init`, for an identity region that lies in
one page. -/
theorem kvm_mmu_init_pgds_maps (env : HypEnv) (s t : KvmState) (h h1 : HypState)
    (hS : h.hyp_idmap_start < h.hyp_idmap_end) (hE : h.hyp_idmap_end < 2 ^ 32)
    (hpage : (h.hyp_idmap_end - 1) / 4096 = h.hyp_idmap_start / 4096)
    (hTa : env.TRAMPOLINE_VA % 4096 = 0) (hTlt : env.TRAMPOLINE_VA < 2 ^ 32)
    (hprot : pte_present env.PAGE_HYP)
    (hfr : ∀ p, some p ∈ s.page_alloc → p < 268435456)
    (hnd : s.page_alloc.reduceOption.Nodup)
    (hret : kvm_mmu_init_pgds env s h = some (t, h1, 0)) :
    h1.hyp_idmap_start = h.hyp_idmap_start ∧ h1.hyp_idmap_end = h.hyp_idmap_end ∧
    ∃ boot run, h1.boot_hyp_pgd = some boot ∧ h1.hyp_pgd = some run ∧
      (∀ va, h.hyp_idmap_start ≤ va → va < h.hyp_idmap_end →
        ∃ p, walk_from t boot va = some p ∧ pte_present (t.rd p) ∧
          t.rd p = pfn_pte (va / PAGE_SIZE) env.PAGE_HYP) ∧
      (∃ p, walk_from t boot env.TRAMPOLINE_VA = some p ∧ pte_present (t.rd p) ∧
          t.rd p = pfn_pte (h.hyp_idmap_start / PAGE_SIZE) env.PAGE_HYP) ∧
      (∀ va, va < 2 ^ 32 → mapped_from t boot va →
        (∃ a, h.hyp_idmap_start ≤ a ∧ a < h.hyp_idmap_end ∧ va / PAGE_SIZE = a / PAGE_SIZE) ∨
          va / PAGE_SIZE = env.TRAMPOLINE_VA / PAGE_SIZE) ∧
      (∃ p, walk_from t run env.TRAMPOLINE_VA = some p ∧ pte_present (t.rd p) ∧
          t.rd p = pfn_pte (h.hyp_idmap_start / PAGE_SIZE) env.PAGE_HYP) := by
  have hAlt : h.hyp_idmap_start / 4096 * 4096 < 2 ^ 32 := by
    norm_num at hE ⊢; omega
  have hend : (h.hyp_idmap_end + 4096 - 1) % 2 ^ 32 / 4096 * 4096
      = (h.hyp_idmap_start / 4096 * 4096 + 4096) % 2 ^ 32 := by
    norm_num at hE ⊢; omega
  obtain ⟨run, boot, P1, Q1, P2, Q2, P3, Q3, hh1, hrepB, hrepR⟩ :=
    kvm_mmu_init_pgds_spec env s t h h1 _ _ rfl hAlt hend rfl hTa hTlt hfr hnd hret
  have hpfn : h.hyp_idmap_start >>> 12 = h.hyp_idmap_start / 4096 := by
    rw [Nat.shiftRight_eq_div_pow]
  rw [hpfn] at hrepB hrepR
  have hAdiv : h.hyp_idmap_start / 4096 * 4096 / 4096 = h.hyp_idmap_start / 4096 := by omega
  subst hh1
  refine ⟨rfl, rfl, boot, run, rfl, rfl, fun va h1 h2 => ?_, ?_, fun va hva hm => ?_, ?_⟩
  · have hvlt : va < 2 ^ 32 := lt_trans h2 hE
    have hvp : va / 4096 = h.hyp_idmap_start / 4096 := by omega
    obtain ⟨p, hw, hl⟩ := (hyp_rep_two_lookup hrepB va hvlt).1 (Or.inr (by rw [hAdiv]; exact hvp))
    refine ⟨p, hw, ?_, ?_⟩
    · rw [hl]; exact pfn_pte_present _ _ hprot
    · rw [hl]; simp only [PAGE_SIZE]; rw [hvp]
  · obtain ⟨p, hw, hl⟩ := (hyp_rep_two_lookup hrepB env.TRAMPOLINE_VA hTlt).1 (Or.inl rfl)
    refine ⟨p, hw, ?_, ?_⟩
    · rw [hl]; exact pfn_pte_present _ _ hprot
    · rw [hl]; rfl
  · obtain ⟨p, hw, hp⟩ := hm
    by_cases hc : va / 4096 = env.TRAMPOLINE_VA / 4096 ∨
        va / 4096 = h.hyp_idmap_start / 4096 * 4096 / 4096
    · rcases hc with e | e
      · exact Or.inr e
      · exact Or.inl ⟨h.hyp_idmap_start, le_refl _, hS, by rw [hAdiv] at e; exact e⟩
    · have hz := (hyp_rep_two_lookup hrepB va hva).2 hc p hw
      rw [hz] at hp
      exact absurd hp (by decide)
  · obtain ⟨p, hw, hl⟩ := hyp_rep_one_lookup hrepR hTlt
    refine ⟨p, hw, ?_, ?_⟩
    · rw [hl]; exact pfn_pte_present _ _ hprot
    · rw [hl]; rfl

end S2Mmu
namespace S2Mmu

theorem kmalloc_page_some (s s1 : KvmState) (b : Nat) (h : kmalloc_page s = (some b, s1)) :
    s.page_alloc = some b :: s1.page_alloc := by
  unfold kmalloc_page at h
  rcases hpa : s.page_alloc with _ | ⟨a, rest⟩
  · rw [hpa] at h; simp at h
  · cases a with
    | none => rw [hpa] at h; simp at h
    | some p =>
      rw [hpa] at h
      simp only [Prod.mk.injEq, Option.some.injEq] at h
      obtain ⟨e1, e2⟩ := h
      subst e1 e2
      rfl

/-- C24 (`kvm_mmu_init`, mmu.c:909-997, with `__create_hyp_mappings`, mmu.c:249-338): whenever
`kvm_mmu_init` returns 0, the boot HYP tree maps every page of
`[hyp_idmap_start, hyp_idmap_end)` to the frame with the same address with the attributes
`PAGE_HYP`, maps the page at `TRAMPOLINE_VA` to the frame of `hyp_idmap_start`, and maps no
other page of the 32-bit address space; the runtime HYP tree maps the page at
`TRAMPOLINE_VA` to that same frame.  The environment: the init code is not empty and not
longer than a page (the bounce page is one page), its physical addresses are 32-bit,
`TRAMPOLINE_VA` is a page address, `PAGE_HYP` has a present bit, and the allocator hands out
pairwise different frames below the last page of the 32-bit space. -/
theorem C24_kvm_mmu_init (env : HypEnv) (s t : KvmState) (h h1 : HypState)
    (hts : env.hyp_idmap_text_start < env.hyp_idmap_text_end)
    (hte : env.hyp_idmap_text_end < 2 ^ 32)
    (hlen : env.hyp_idmap_text_end - env.hyp_idmap_text_start ≤ PAGE_SIZE)
    (hps : env.virt_to_phys env.hyp_idmap_text_start < env.virt_to_phys env.hyp_idmap_text_end)
    (hpe : env.virt_to_phys env.hyp_idmap_text_end < 2 ^ 32)
    (hTa : env.TRAMPOLINE_VA % PAGE_SIZE = 0) (hTlt : env.TRAMPOLINE_VA < 2 ^ 32)
    (hprot : pte_present env.PAGE_HYP)
    (hfr : ∀ p, some p ∈ s.page_alloc → p < 1048575)
    (hnd : s.page_alloc.reduceOption.Nodup)
    (hret : kvm_mmu_init env s h = some (t, h1, 0)) :
    ∃ boot run, h1.boot_hyp_pgd = some boot ∧ h1.hyp_pgd = some run ∧
      h1.hyp_idmap_start < h1.hyp_idmap_end ∧
      (∀ va, h1.hyp_idmap_start ≤ va → va < h1.hyp_idmap_end →
        ∃ p, walk_from t boot va = some p ∧ pte_present (t.rd p) ∧
          t.rd p = pfn_pte (va / PAGE_SIZE) env.PAGE_HYP) ∧
      (∃ p, walk_from t boot env.TRAMPOLINE_VA = some p ∧ pte_present (t.rd p) ∧
          t.rd p = pfn_pte (h1.hyp_idmap_start / PAGE_SIZE) env.PAGE_HYP) ∧
      (∀ va, va < 2 ^ 32 → mapped_from t boot va →
        (∃ a, h1.hyp_idmap_start ≤ a ∧ a < h1.hyp_idmap_end ∧
            va / PAGE_SIZE = a / PAGE_SIZE) ∨
          va / PAGE_SIZE = env.TRAMPOLINE_VA / PAGE_SIZE) ∧
      (∃ p, walk_from t run env.TRAMPOLINE_VA = some p ∧ pte_present (t.rd p) ∧
          t.rd p = pfn_pte (h1.hyp_idmap_start / PAGE_SIZE) env.PAGE_HYP) := by
  simp only [PAGE_SIZE] at hlen hTa
  have hfr' : ∀ p, some p ∈ s.page_alloc → p < 268435456 := fun p hp =>
    lt_trans (hfr p hp) (by norm_num)
  have hs0 : env.virt_to_phys env.hyp_idmap_text_start % 2 ^ 32
      = env.virt_to_phys env.hyp_idmap_text_start := Nat.mod_eq_of_lt (lt_trans hps hpe)
  have he0 : env.virt_to_phys env.hyp_idmap_text_end % 2 ^ 32
      = env.virt_to_phys env.hyp_idmap_text_end := Nat.mod_eq_of_lt hpe
  unfold kvm_mmu_init at hret
  simp only [hs0, he0, PAGE_SIZE, PAGE_SHIFT] at hret
  by_cases hx : (env.virt_to_phys env.hyp_idmap_text_start ^^^
      env.virt_to_phys env.hyp_idmap_text_end) / 4096 * 4096 = 0
  · -- the init code lies in one page
    simp only [hx, ne_eq, not_true_eq_false, if_false] at hret
    have hp := xor_same_page _ _ hx
    obtain ⟨e1, e2, boot, run, r⟩ := kvm_mmu_init_pgds_maps env s t _ h1 hps hpe
      (by show (env.virt_to_phys env.hyp_idmap_text_end - 1) / 4096
            = env.virt_to_phys env.hyp_idmap_text_start / 4096
          omega)
      hTa hTlt hprot hfr' hnd hret
    rw [e1, e2]
    exact ⟨boot, run, r.1, r.2.1, hps, r.2.2⟩
  · -- the init code crosses a page boundary: the bounce page
    simp only [hx, ne_eq, not_false_eq_true, if_true] at hret
    rcases hk : kmalloc_page s with ⟨_ | b, s1⟩
    · rw [hk] at hret
      simp only at hret
      exact absurd hret (kvm_mmu_init_out_ne _ _ _ _ _ _ (by decide))
    rw [hk] at hret
    simp only at hret
    have hpa := kmalloc_page_some s s1 b hk
    obtain ⟨hnd1, _, hsub⟩ := alloc_split_cons hpa hnd
    have hb : b < 1048575 := hfr b (by rw [hpa]; simp)
    have hsh : b <<< 12 = b * 4096 := by rw [Nat.shiftLeft_eq]
    have hl : (env.hyp_idmap_text_end + 2 ^ 32 - env.hyp_idmap_text_start) % 2 ^ 32
        = env.hyp_idmap_text_end - env.hyp_idmap_text_start := by
      norm_num at hte ⊢; omega
    rw [hsh, hl] at hret
    have hS0 : b * 4096 % 2 ^ 32 = b * 4096 := by norm_num; omega
    have hE0 : (b * 4096 + (env.hyp_idmap_text_end - env.hyp_idmap_text_start)) % 2 ^ 32
        = b * 4096 + (env.hyp_idmap_text_end - env.hyp_idmap_text_start) := by
      norm_num; omega
    rw [hS0, hE0] at hret
    obtain ⟨e1, e2, boot, run, r⟩ := kvm_mmu_init_pgds_maps env s1 t _ h1
      (by show b * 4096 < b * 4096 + (env.hyp_idmap_text_end - env.hyp_idmap_text_start)
          omega)
      (by show b * 4096 + (env.hyp_idmap_text_end - env.hyp_idmap_text_start) < 2 ^ 32
          norm_num; omega)
      (by show (b * 4096 + (env.hyp_idmap_text_end - env.hyp_idmap_text_start) - 1) / 4096
            = b * 4096 / 4096
          omega)
      hTa hTlt hprot (fun p hp => hfr' p (hsub p hp)) hnd1 hret
    rw [e1, e2]
    exact ⟨boot, run, r.1, r.2.1, by
      show b * 4096 < b * 4096 + (env.hyp_idmap_text_end - env.hyp_idmap_text_start)
      omega, r.2.2⟩

end S2Mmu
namespace S2Mmu

theorem C24_kvm_mmu_init_witness :
    ∃ t h1, kvm_mmu_init ex_hyp_env ex_hyp_boot ex_hyp_globals = some (t, h1, 0) ∧
      ∃ boot run, h1.boot_hyp_pgd = some boot ∧ h1.hyp_pgd = some run ∧
        h1.hyp_idmap_start < h1.hyp_idmap_end ∧
        (∀ va, h1.hyp_idmap_start ≤ va → va < h1.hyp_idmap_end →
          ∃ p, walk_from t boot va = some p ∧ pte_present (t.rd p) ∧
            t.rd p = pfn_pte (va / PAGE_SIZE) ex_hyp_env.PAGE_HYP) ∧
        (∃ p, walk_from t boot ex_hyp_env.TRAMPOLINE_VA = some p ∧ pte_present (t.rd p) ∧
            t.rd p = pfn_pte (h1.hyp_idmap_start / PAGE_SIZE) ex_hyp_env.PAGE_HYP) ∧
        (∀ va, va < 2 ^ 32 → mapped_from t boot va →
          (∃ a, h1.hyp_idmap_start ≤ a ∧ a < h1.hyp_idmap_end ∧
              va / PAGE_SIZE = a / PAGE_SIZE) ∨
            va / PAGE_SIZE = ex_hyp_env.TRAMPOLINE_VA / PAGE_SIZE) ∧
        (∃ p, walk_from t run ex_hyp_env.TRAMPOLINE_VA = some p ∧ pte_present (t.rd p) ∧
            t.rd p = pfn_pte (h1.hyp_idmap_start / PAGE_SIZE) ex_hyp_env.PAGE_HYP) := by
  have hr : (kvm_mmu_init ex_hyp_env ex_hyp_boot ex_hyp_globals).map (fun r => r.2.2)
      = some 0 := by decide!
  rcases hk : kvm_mmu_init ex_hyp_env ex_hyp_boot ex_hyp_globals with _ | ⟨t, h1, r⟩
  · rw [hk] at hr; exact absurd hr (by simp)
  · rw [hk] at hr
    simp only [Option.map_some', Option.some.injEq] at hr
    subst hr
    exact ⟨t, h1, rfl, C24_kvm_mmu_init ex_hyp_env ex_hyp_boot t ex_hyp_globals h1
      (by decide) (by decide) (by decide) (by decide) (by decide) (by decide) (by decide)
      (by decide)
      (by
        intro p hp
        simp only [ex_hyp_boot, KvmState.boot, List.mem_cons, Option.some.injEq,
          List.mem_singleton, List.not_mem_nil, or_false] at hp
        omega)
      (by decide) hk⟩

/-- The trees that `kvm_mmu_init` builds in the environment `ex_hyp_env`: it returns 0 with
the runtime table at frame 16 and the boot table at frame 17; the boot tree holds the leaf of
frame 0x80008 with `PAGE_HYP` for the page of the init code and for the trampoline page, and
nothing for the next page; the runtime tree holds that leaf for the trampoline page. -/
theorem ex_hyp_init_values :
    (kvm_mmu_init ex_hyp_env ex_hyp_boot ex_hyp_globals).map
        (fun r => (r.2.1, r.2.2, r.1.page_alloc))
      = some ({ boot_hyp_pgd := some 17, hyp_pgd := some 16, init_bounce_page := none,
                hyp_idmap_start := 0x80008100, hyp_idmap_end := 0x80008300,
                hyp_idmap_vector := 0x80008120 }, 0, [some 35]) ∧
    (kvm_mmu_init ex_hyp_env ex_hyp_boot ex_hyp_globals).map
        (fun r => ((walk_from r.1 17 0x80008100).map r.1.rd,
          (walk_from r.1 17 0xFFFF0000).map r.1.rd, (walk_from r.1 17 0x80009000).map r.1.rd,
          (walk_from r.1 16 0xFFFF0000).map r.1.rd))
      = some (some (0x80008 * 4096 + 1119), some (0x80008 * 4096 + 1119), some 0,
          some (0x80008 * 4096 + 1119)) := by
  constructor <;> decide!

/-- The trees that `kvm_mmu_init` builds when the init code crosses a page boundary
(`ex_hyp_env_cross`): the bounce page is frame 16, the identity region becomes
0x10000..0x10200 and the vector moves with it; both trees hold the leaf of frame 16. -/
theorem ex_hyp_init_cross_values :
    (kvm_mmu_init ex_hyp_env_cross ex_hyp_boot ex_hyp_globals).map
        (fun r => (r.2.1, r.2.2, r.1.page_alloc))
      = some ({ boot_hyp_pgd := some 32, hyp_pgd := some 17, init_bounce_page := some 16,
                hyp_idmap_start := 0x10000, hyp_idmap_end := 0x10200,
                hyp_idmap_vector := 0x10020 }, 0, []) ∧
    (kvm_mmu_init ex_hyp_env_cross ex_hyp_boot ex_hyp_globals).map
        (fun r => ((walk_from r.1 32 0x10000).map r.1.rd,
          (walk_from r.1 32 0xFFFF0000).map r.1.rd, (walk_from r.1 17 0xFFFF0000).map r.1.rd))
      = some (some (16 * 4096 + 1119), some (16 * 4096 + 1119), some (16 * 4096 + 1119)) := by
  constructor <;> decide!

/-! ## The first touch when the snapshot page cannot be allocated -/

/-- C18 (the code at a failing input): the pair `ex_pair_nomem` is the armed source and its
clone over the leaf of PFN 0x99 at IPA 0x40001000, frame 0x99 holds the bytes 1, 2, 3, the
clone's own page is frame 0x55, and `__get_free_page` fails.  Both orders of the first touch
run to the end and leave the same leaves (source: present, PFN 0x99; clone: present, PFN
0x55).  Clone then source: the clone's page holds 1, 2, 3.  Source then clone: the source
keeps a pool entry without a page and takes 0x99 out of the registry, the clone finds that
entry, and the clone's page does not hold the bytes of frame 0x99. -/
theorem C18_first_touch_order_differs :
    ex_pair_nomem.page_data 0x99 = [1, 2, 3] ∧ ex_pair_nomem.page_alloc = [none] ∧
    (touch_in_order ex_pair_nomem ex_pair_source ex_pair_target { objects := [70, 71] }
        { objects := [72, 73] } 0x40001000 (0x99 * 4096 + 1151) (0x55 * 4096 + 1151)).map
        (fun g => (walk_leaf (g.enter ex_pair_source) 0x40001000,
          walk_leaf (g.enter ex_pair_target) 0x40001000, g.page_data 0x55))
      = some (some (0x99 * 4096 + 1151), some (0x55 * 4096 + 1151), []) ∧
    (touch_in_order ex_pair_nomem ex_pair_target ex_pair_source { objects := [72, 73] }
        { objects := [70, 71] } 0x40001000 (0x55 * 4096 + 1151) (0x99 * 4096 + 1151)).map
        (fun g => (walk_leaf (g.enter ex_pair_source) 0x40001000,
          walk_leaf (g.enter ex_pair_target) 0x40001000, g.page_data 0x55))
      = some (some (0x99 * 4096 + 1151), some (0x55 * 4096 + 1151), [1, 2, 3]) ∧
    (stage2_set_pte (ex_pair_nomem.enter ex_pair_source) (some { objects := [70, 71] })
        0x40001000 (0x99 * 4096 + 1151) false).map
        (fun r => (r.2.2, r.1.page_pool_list, decide (0x99 ∈ r.1.shared_pfn_list)))
      = some (0, [(none, 0x99)], false) := by
  refine ⟨by decide, by decide, ?_, ?_, ?_⟩
  · decide!
  · decide!
  · decide!

end S2Mmu
